import Mathlib

/-!
# amxprof: call stack, call graph and profiler orchestrator

A shallow embedding of `amxprof/call_stack.cpp`, `amxprof/function_call.cpp`,
`amxprof/call_graph.cpp`, `amxprof/amx_utils.cpp`, `amxprof/profiler.cpp` and of
`WantsProfiler` of `plugin/plugin.cpp`.

Conventions of the embedding

* Pointers are handles.  A `FunctionCall*` is the position of the activation in
  the call stack counted from the bottom (the first activation pushed has
  handle `0`); a `CallGraphNode*` is the index of the node in the arena of
  allocated nodes; a `FunctionStatistics*` is the address of the function the
  record belongs to (the key of the statistics table).  A null pointer is
  `none`.
* The call stack is a list whose head is `calls_.back()`.
* `assert` is checked.  An operation that hits a failed assertion, a counter
  contract violation or undefined behaviour stops there; its `Result` carries
  the fault together with the profiler state at the start of the statement
  that faulted and the activations popped so far.
* A host function called by a bracket hook is given by what the profiler can
  observe of one invocation: the profiler operations it re-enters and the value
  it returns.
* The clock is an explicit argument: `now` is the reading taken by the single
  `Start`/`Stop` of an operation, `clock i` the reading taken by the `i`-th
  iteration of the loop of `EndFunction`.
-/

namespace amxprof

/-- Modelled from the spec: `Address` (amx_types.h is not part of the sources); a VM cell. -/
abbrev Address := Int

/-- Modelled from the spec: `Nanoseconds`, a signed duration. -/
abbrev Nanoseconds := Int

/-- Modelled from the spec: a reading of the clock. -/
abbrev TimePoint := Int

/-- The ways an operation can stop without returning. -/
inductive Fault where
  /-- an `assert(...)` failed -/
  | assertion_failed
  /-- a counter was started twice or stopped without being started -/
  | contract_violation
  /-- `AddFunction` was given an address that is already registered -/
  | duplicate_key
  /-- `back()`/`pop_back()` of an empty container, or a null pointer was dereferenced -/
  | undefined_behaviour
  /-- the bound on the iterations of a loop of the embedding was reached (never happens, see
  `Profiler.EndFunction_fuel`) -/
  | out_of_fuel
deriving DecidableEq, Repr

/-- Modelled from the spec: the kind of a `Function` (function.h is not part of the sources;
`Function::NORMAL` is used by `Profiler::DebugHook`). -/
inductive FunctionType where
  | NORMAL
  | NATIVE
  | PUBLIC
deriving DecidableEq, Repr

/-- Modelled from the spec: `Function` (function.h is not part of the sources): identity is the
address, plus the kind.  The display name is left out: no operation of the core reads it. -/
structure Function where
  address : Address
  type : FunctionType
deriving DecidableEq, Repr

/-- Modelled from the spec: `Function::Normal(address, debug_info)`. -/
def Function.Normal (address : Address) : Function := ⟨address, FunctionType.NORMAL⟩

/-! ## Performance counter -/

/-- Modelled from the spec: `PerformanceCounter` (amxprof/performance_counter.h is not part of
the sources), section 4.1.  `parent` and `shadow` are handles of the activations that own the
parent and the shadowed counter.  `num_starts` and `num_stops` are ghost fields counting the
calls of `Start` and `Stop` on this counter. -/
structure PerformanceCounter where
  started : Bool := false
  paused : Bool := false
  parent : Option Nat := none
  shadow : Option Nat := none
  /-- reading of the clock at `Start` -/
  start_point : TimePoint := 0
  /-- reading of the clock at `Start` or at the latest resume -/
  self_start : TimePoint := 0
  /-- self-time folded in by the pauses of the running measurement -/
  self_acc : Nanoseconds := 0
  self_time : Nanoseconds := 0
  total_time : Nanoseconds := 0
  latest_self_time : Nanoseconds := 0
  latest_total_time : Nanoseconds := 0
  num_starts : Nat := 0
  num_stops : Nat := 0
deriving DecidableEq, Repr

/-- Modelled from the spec: pausing a counter ("parent's elapsed-so-far is folded into its
self-time; parent is marked not currently attributing self-time"), done only to an active
counter. -/
def PerformanceCounter.Pause (now : TimePoint) (c : PerformanceCounter) : PerformanceCounter :=
  if c.started && !c.paused then
    { c with paused := true, self_acc := c.self_acc + (now - c.self_start) }
  else c

/-- Modelled from the spec: resuming a paused counter. -/
def PerformanceCounter.Resume (now : TimePoint) (c : PerformanceCounter) : PerformanceCounter :=
  if c.started && c.paused then { c with paused := false, self_start := now } else c

/-- Modelled from the spec: the part of `Start()` that acts on the counter itself: "records a
start timestamp"; "starting a counter that is already started is a programming-contract
violation".  The pause of the parent is `CallStack.PauseCounter`. -/
def PerformanceCounter.Start (now : TimePoint) (c : PerformanceCounter) :
    Except Fault PerformanceCounter :=
  if c.started then .error Fault.contract_violation
  else .ok { c with started := true, paused := false, start_point := now, self_start := now,
                    self_acc := 0, num_starts := c.num_starts + 1 }

/-- Modelled from the spec: the part of `Stop()` that acts on the counter itself: "records
elapsed total-time since start ... and adds the pre-stop interval to self-time"; a shadow
counter "contributes no separate cumulative time of its own"; "stopping one never started is a
programming-contract violation".  The resume of the parent is `CallStack.ResumeCounter`. -/
def PerformanceCounter.Stop (now : TimePoint) (c : PerformanceCounter) :
    Except Fault PerformanceCounter :=
  if !c.started then .error Fault.contract_violation
  else
    let total := now - c.start_point
    let self := c.self_acc + (if c.paused then 0 else now - c.self_start)
    .ok { c with started := false, paused := false,
                 latest_total_time := total, latest_self_time := self,
                 total_time := if c.shadow.isSome then c.total_time else c.total_time + total,
                 self_time := if c.shadow.isSome then c.self_time else c.self_time + self,
                 num_stops := c.num_stops + 1 }

/-! ## Function call (activation) and call stack -/

/-- A `FunctionCall` of function_call.h: `fn_`, `parent_`, `frame_`, `timer_`. -/
structure FunctionCall where
  fn : Function
  parent : Option Nat
  frame : Address
  timer : PerformanceCounter
deriving DecidableEq, Repr

/-- The call stack `calls_`; the head of the list is `calls_.back()`. -/
abbrev CallStack := List FunctionCall

/-- Dereference of a `FunctionCall*`: the activation with handle `h`. -/
def CallStack.get? : CallStack → Nat → Option FunctionCall
  | [], _ => none
  | c :: cs, h => if h = cs.length then some c else CallStack.get? cs h

/-- Write through a `FunctionCall*`: `f` applied to the activation with handle `h`. -/
def CallStack.update : CallStack → Nat → (FunctionCall → FunctionCall) → CallStack
  | [], _, _ => []
  | c :: cs, h, f => if h = cs.length then f c :: cs else c :: CallStack.update cs h f

/-- The pointer `calls_.empty() ? 0 : &calls_.back()`: the handle of the top activation. -/
def CallStack.backPtr (calls : CallStack) : Option Nat :=
  if calls.isEmpty then none else some (calls.length - 1)

/-- The loop of `FunctionCall::FunctionCall` (function_call.cpp 34-42): starting at `current`,
follow `parent_` until an activation of the same function is found; the result is the handle
of that activation.  `fuel` bounds the iterations. -/
def FunctionCall.findShadow (calls : CallStack) (fn : Function) :
    Nat → Option Nat → Option Nat
  | 0, _ => none
  | _ + 1, none => none
  | fuel + 1, some h =>
    match CallStack.get? calls h with
    | none => none
    | some current =>
      if current.fn = fn then some h
      else FunctionCall.findShadow calls fn fuel current.parent

/-- The constructor `FunctionCall::FunctionCall(function, frame, parent)` (function_call.cpp
29-47), run against the stack `calls` the pointers point into.  `Function*` equality is
equality of the functions: the registry holds one `Function` per address. -/
def FunctionCall.new (calls : CallStack) (function : Function) (frame : Address)
    (parent : Option Nat) : FunctionCall :=
  { fn := function
    parent := parent
    frame := frame
    timer :=
      { shadow := FunctionCall.findShadow calls function (calls.length + 1) parent
        parent := parent } }

/-- The effect of `Start()` on the parent counter, reached through its handle. -/
def CallStack.PauseCounter (now : TimePoint) (calls : CallStack) : Option Nat → CallStack
  | none => calls
  | some h => CallStack.update calls h (fun c => { c with timer := c.timer.Pause now })

/-- The effect of `Stop()` on the parent counter, reached through its handle. -/
def CallStack.ResumeCounter (now : TimePoint) (calls : CallStack) : Option Nat → CallStack
  | none => calls
  | some h => CallStack.update calls h (fun c => { c with timer := c.timer.Resume now })

/-- The overload `CallStack::Push(const FunctionCall &call)` (call_stack.cpp 36-39):
`push_back` and `Start()` of the new top's counter. -/
def CallStack.PushCall (now : TimePoint) (calls : CallStack) (call : FunctionCall) :
    Except Fault CallStack :=
  match call.timer.Start now with
  | .error f => .error f
  | .ok t => .ok ({ call with timer := t } :: CallStack.PauseCounter now calls t.parent)

/-- The overload `CallStack::Push(Function *function, Address frame)` (call_stack.cpp 31-34). -/
def CallStack.Push (now : TimePoint) (calls : CallStack) (function : Function)
    (frame : Address) : Except Fault CallStack :=
  let parent : Option Nat := CallStack.backPtr calls
  CallStack.PushCall now calls (FunctionCall.new calls function frame parent)

/-- `CallStack::Pop()` (call_stack.cpp 41-46).  There is no emptiness check in the source:
`calls_.back()` of an empty container is undefined behaviour. -/
def CallStack.Pop (now : TimePoint) : CallStack → Except Fault (FunctionCall × CallStack)
  | [] => .error Fault.undefined_behaviour
  | top :: calls =>
    match top.timer.Stop now with
    | .error f => .error f
    | .ok t => .ok ({ top with timer := t }, CallStack.ResumeCounter now calls t.parent)

/-! ## Statistics -/

/-- Modelled from the spec: `FunctionStatistics` (function_statistics.h is not part of the
sources), section 3: the function, the call count, the cumulative and the worst times. -/
structure FunctionStatistics where
  function : Function
  num_calls : Int := 0
  self_time : Nanoseconds := 0
  total_time : Nanoseconds := 0
  worst_self_time : Nanoseconds := 0
  worst_total_time : Nanoseconds := 0
deriving DecidableEq, Repr

/-- Modelled from the spec: `AdjustNumCalls(delta)`. -/
def FunctionStatistics.AdjustNumCalls (delta : Int) (s : FunctionStatistics) :
    FunctionStatistics :=
  { s with num_calls := s.num_calls + delta }

/-- Modelled from the spec: `AdjustSelfTime(delta)`. -/
def FunctionStatistics.AdjustSelfTime (delta : Nanoseconds) (s : FunctionStatistics) :
    FunctionStatistics :=
  { s with self_time := s.self_time + delta }

/-- Modelled from the spec: `AdjustTotalTime(delta)`. -/
def FunctionStatistics.AdjustTotalTime (delta : Nanoseconds) (s : FunctionStatistics) :
    FunctionStatistics :=
  { s with total_time := s.total_time + delta }

/-- Modelled from the spec: `set_worst_total_time(time)`. -/
def FunctionStatistics.set_worst_total_time (time : Nanoseconds) (s : FunctionStatistics) :
    FunctionStatistics :=
  { s with worst_total_time := time }

/-- Modelled from the spec: `set_worst_self_time(time)`. -/
def FunctionStatistics.set_worst_self_time (time : Nanoseconds) (s : FunctionStatistics) :
    FunctionStatistics :=
  { s with worst_self_time := time }

/-- Modelled from the spec: the table `Statistics` (statistics.h is not part of the sources),
spec section 4.4: the records, looked up by function address. -/
abbrev Statistics := List FunctionStatistics

/-- Modelled from the spec: `GetFunctionStatistis(address)`: the record of the address, or
"not found". -/
def Statistics.GetFunctionStatistis (stats : Statistics) (address : Address) :
    Option FunctionStatistics :=
  stats.find? (fun s => s.function.address = address)

/-- Modelled from the spec: `GetFunction(address)`: the function of the address, or
"not found". -/
def Statistics.GetFunction (stats : Statistics) (address : Address) : Option Function :=
  (Statistics.GetFunctionStatistis stats address).map (fun s => s.function)

/-- Modelled from the spec: `AddFunction(fn)`: "registers a new statistics record, fails with a
duplicate-key error if the address is already registered". -/
def Statistics.AddFunction (stats : Statistics) (fn : Function) : Except Fault Statistics :=
  match Statistics.GetFunctionStatistis stats fn.address with
  | some _ => .error Fault.duplicate_key
  | none => .ok (stats ++ [{ function := fn }])

/-- Write through a `FunctionStatistics*`: `f` applied to the record of `address`. -/
def Statistics.update : Statistics → Address → (FunctionStatistics → FunctionStatistics) →
    Statistics
  | [], _, _ => []
  | s :: rest, address, f =>
    if s.function.address = address then f s :: rest
    else s :: Statistics.update rest address f

/-! ## Call graph -/

/-- A `CallGraphNode` of call_graph.h: `stats_`, `caller_`, `callees_` (`graph_` is the one
graph of the profiler).  `callees` is a list without repetitions standing for the
`std::set<CallGraphNode*>`. -/
structure CallGraphNode where
  stats : Option Address
  caller : Option Nat
  callees : List Nat := []
deriving DecidableEq, Repr

/-- The `CallGraph` of call_graph.h: `root_`, `sentinel_`, `nodes_`, and the arena of the
nodes allocated with `new`.  `nodes` is the `std::map` keyed by the statistics record and
ordered by `CompareStats`, kept as a list in key order. -/
structure CallGraph where
  root : Option Nat
  sentinel : Nat
  nodes : List (Address × Nat)
  arena : List CallGraphNode
deriving DecidableEq, Repr

/-- `CallGraph::CompareStats::operator()` (call_graph.cpp 42-45) on the keys. -/
def CallGraph.CompareStats (lhs rhs : Address) : Bool := decide (lhs < rhs)

/-- `CallGraph::CallGraph(root = 0)` (call_graph.cpp 47-54) with the default argument: the
sentinel is allocated and is the root. -/
def CallGraph.new : CallGraph :=
  { root := some 0, sentinel := 0, nodes := [], arena := [{ stats := none, caller := none }] }

/-- `nodes_.find(stats)`: equivalence under `CompareStats`. -/
def CallGraph.find (nodes : List (Address × Nat)) (stats : Address) : Option Nat :=
  (nodes.find? (fun kv =>
    !CallGraph.CompareStats kv.1 stats && !CallGraph.CompareStats stats kv.1)).map (fun kv => kv.2)

/-- `nodes_.insert(std::make_pair(stats, node))`: insertion in key order; an equivalent key
already present keeps its node. -/
def CallGraph.insert : List (Address × Nat) → Address → Nat → List (Address × Nat)
  | [], stats, node => [(stats, node)]
  | kv :: rest, stats, node =>
    if CallGraph.CompareStats stats kv.1 then (stats, node) :: kv :: rest
    else if CallGraph.CompareStats kv.1 stats then kv :: CallGraph.insert rest stats node
    else kv :: rest

/-- Write through a `CallGraphNode*`: `f` applied to the node with index `n` of the arena. -/
def CallGraph.updateNode : List CallGraphNode → Nat → (CallGraphNode → CallGraphNode) →
    List CallGraphNode
  | [], _, _ => []
  | x :: rest, 0, f => f x :: rest
  | x :: rest, n + 1, f => x :: CallGraph.updateNode rest n f

/-- `CallGraphNode::AddCallee(node)` (call_graph.cpp 86-89): `callees_.insert(node)`. -/
def CallGraphNode.AddCallee (node : Nat) (self : CallGraphNode) : CallGraphNode :=
  if node ∈ self.callees then self else { self with callees := self.callees ++ [node] }

/-- `CallGraph::AddCallee(stats)` (call_graph.cpp 61-69); the result is the graph and the node
returned.  A null `root_` is dereferenced. -/
def CallGraph.AddCallee (g : CallGraph) (stats : Address) : Except Fault (CallGraph × Nat) :=
  match CallGraph.find g.nodes stats with
  | none =>
    let node := g.arena.length
    let arena := g.arena ++ [{ stats := some stats, caller := g.root }]
    let nodes := CallGraph.insert g.nodes stats node
    match g.root with
    | none => .error Fault.undefined_behaviour
    | some r =>
      .ok ({ g with nodes := nodes,
                    arena := CallGraph.updateNode arena r (CallGraphNode.AddCallee node) }, node)
  | some node =>
    match g.root with
    | none => .error Fault.undefined_behaviour
    | some r =>
      .ok ({ g with arena := CallGraph.updateNode g.arena r (CallGraphNode.AddCallee node) }, node)

/-- `CallGraph::set_root(root)` (call_graph.h 58). -/
def CallGraph.set_root (g : CallGraph) (root : Option Nat) : CallGraph := { g with root := root }

/-- `CallGraphNode::caller()` through a node pointer; `none` when the pointer does not point to
a node. -/
def CallGraph.caller (g : CallGraph) (n : Nat) : Option (Option Nat) :=
  (g.arena[n]?).map (fun x => x.caller)

/-- The functions met when following `caller()` from node `n` up to the sentinel (the sentinel
excluded), as the addresses of their statistics records.  `fuel` bounds the steps. -/
def CallGraph.callerChain (g : CallGraph) : Nat → Option Nat → List Address
  | 0, _ => []
  | _ + 1, none => []
  | fuel + 1, some n =>
    if n = g.sentinel then []
    else
      match g.arena[n]? with
      | none => []
      | some x =>
        match x.stats with
        | none => []
        | some a => a :: CallGraph.callerChain g fuel x.caller

/-! ## The VM -/

/-- Modelled from the spec: the part of the `AMX` instance read by the step hook (amx.h is not
part of the sources): the registers `frm`, `stk`, `stp`, the address of the code segment
(`GetAmxCodePtr`, as the cell it is cast to), the cells of the data segment by byte offset
(`GetAmxDataPtr`) and the cells of memory by address, the address given as the cell the pointer
is cast from. -/
structure AMX where
  frm : Address
  stk : Address
  stp : Address
  code_start : Address
  data_cell : Int → Int
  mem_cell : Int → Int
  /-- `amxhdr->cip`, the entry point of `main` -/
  cip : Address := 0
  /-- the `address` field read at `natives[index]`, as an `Address`; for an `index` that is
  not less than the number of natives this is what the memory after the table holds -/
  native_address : Int → Address := fun _ => 0
  /-- the `address` field read at `publics[index]`, as an `Address`; for an `index` that is
  not less than the number of publics this is what the memory after the table holds -/
  public_address : Int → Address := fun _ => 0
  /-- the number of entries of the native table (`amx_NumNatives`) -/
  num_natives : Int := 0
  /-- the number of entries of the public table (`amx_NumPublics`) -/
  num_publics : Int := 0
  /-- the string at `nameofs` of entry `index` of the native table -/
  native_name : Int → String := fun _ => ""
  /-- the string at `nameofs` of entry `index` of the public table -/
  public_name : Int → String := fun _ => ""
  /-- the field `sysreq_d` -/
  sysreq_d : Int := 0

/-- Modelled from the spec: `sizeof(cell)`, the size of a VM cell in bytes. -/
def sizeof_cell : Int := 4

/-- Modelled from the spec: `AMX_ERR_NONE` of amx.h. -/
def AMX_ERR_NONE : Int := 0

/-- `GetRetrunAddress(amx, frame)` (amx_utils.cpp 100-106). -/
def GetRetrunAddress (amx : AMX) (frame : Address) : Address :=
  if frame ≥ 0 ∧ frame ≥ amx.stk ∧ frame < amx.stp then
    amx.data_cell (frame + sizeof_cell)
  else 0

/-- The value of the integer `x` as a 32-bit cell: the integer between `-2^31` and `2^31 - 1`
that differs from `x` by a multiple of `2^32`.  Arithmetic on `cell` and `Address` values and
the conversions between them and pointers wrap around in this way. -/
def wrap32 (x : Int) : Int := (x + 2147483648) % 4294967296 - 2147483648

/-- `GetCalleeAddress(amx, frame)` (amx_utils.cpp 108-116).  `code_start`, the sum
`code_start + return_address - sizeof(cell)` and the difference returned are cells: both are
computed in 32-bit arithmetic, which wraps around on the two's-complement machines the plugin
is built for. -/
def GetCalleeAddress (amx : AMX) (frame : Address) : Address :=
  let return_address := GetRetrunAddress amx frame
  if return_address ≠ 0 then
    let code_start := amx.code_start
    let target_address_offset := wrap32 (code_start + return_address - sizeof_cell)
    wrap32 (amx.mem_cell target_address_offset - code_start)
  else 0

/-! ## Profiler -/

/-- The `Profiler` of profiler.h: `call_graph_enabled_`, `functions_`, `stats_`, `call_stack_`,
`call_graph_`.  The VM (`amx_`) is an argument of the hooks. -/
structure Profiler where
  call_graph_enabled : Bool
  functions : List Function
  stats : Statistics
  call_stack : CallStack
  call_graph : CallGraph

/-- `Profiler::Profiler` (profiler.cpp 34-43): the state of a new profiler. -/
def Profiler.new : Profiler :=
  { call_graph_enabled := false, functions := [], stats := [], call_stack := [],
    call_graph := CallGraph.new }

/-- Modelled from the spec: `set_call_graph_enabled(bool)` of profiler.h (`enable_call_graph`). -/
def Profiler.set_call_graph_enabled (p : Profiler) (enabled : Bool) : Profiler :=
  { p with call_graph_enabled := enabled }

/-- One invocation of a host function (`callback`, `exec`) by a hook: the VM and the
remaining arguments it was called with, in the order of the call (`exec` has two, the third
is then `0`). -/
structure HostCall where
  amx : AMX
  arg1 : Int
  arg2 : Int
  arg3 : Int

/-- What an operation of the profiler leaves behind: the state when it returned or, when
`fault` is set, the state at the start of the statement that faulted; `popped` lists the
activations returned by `CallStack::Pop`, in pop order; `ret` is the value returned to the
host; `dispatched` lists the invocations of the host function made by a bracket hook. -/
structure Result where
  state : Profiler
  popped : List FunctionCall := []
  fault : Option Fault := none
  ret : Option Int := none
  dispatched : List HostCall := []

/-- The lookup-or-create step of the three hooks (profiler.cpp 63-68, 93-98, 119-124):
`fn = stats_.GetFunction(address); if (fn == 0) { fn = ...; functions_.insert(fn);
stats_.AddFunction(fn); }`, with `fn` the function the hook would create. -/
def Profiler.Register (p : Profiler) (fn : Function) : Result :=
  match Statistics.GetFunction p.stats fn.address with
  | some _ => { state := p }
  | none =>
    let p1 := { p with functions := p.functions ++ [fn] }
    match Statistics.AddFunction p1.stats fn with
    | .error f => { state := p1, fault := some f }
    | .ok stats => { state := { p1 with stats := stats } }

/-- `Profiler::BeginFunction(address, frm)` (profiler.cpp 137-148). -/
def Profiler.BeginFunction (p : Profiler) (address : Address) (frm : Address)
    (now : TimePoint) : Result :=
  if address = 0 then { state := p, fault := some Fault.assertion_failed }
  else
    match Statistics.GetFunctionStatistis p.stats address with
    | none => { state := p, fault := some Fault.assertion_failed }
    | some fn_stats =>
      let p1 := { p with stats := Statistics.update p.stats fn_stats.function.address
                                    (FunctionStatistics.AdjustNumCalls 1) }
      match CallStack.Push now p1.call_stack fn_stats.function frm with
      | .error f => { state := p1, fault := some f }
      | .ok calls =>
        let p2 := { p1 with call_stack := calls }
        if p2.call_graph_enabled then
          match CallGraph.AddCallee p2.call_graph fn_stats.function.address with
          | .error f => { state := p2, fault := some f }
          | .ok (g, node) => { state := { p2 with call_graph := CallGraph.set_root g (some node) } }
        else { state := p2 }

/-- The statistics update of one iteration of `EndFunction` (profiler.cpp 160-171), applied to
the record `fn_stats` with the counter `timer` of the popped activation. -/
def Profiler.EndFunction.record (timer : PerformanceCounter) (fn_stats : FunctionStatistics) :
    FunctionStatistics :=
  let s1 := FunctionStatistics.AdjustSelfTime timer.self_time fn_stats
  let s2 := FunctionStatistics.AdjustTotalTime timer.total_time s1
  let total_time := timer.latest_total_time
  let s3 := if total_time > s2.worst_total_time then
              FunctionStatistics.set_worst_total_time total_time s2 else s2
  let self_time := timer.latest_self_time
  if self_time > s3.worst_self_time then
    FunctionStatistics.set_worst_self_time self_time s3 else s3

/-- The call-graph step of one iteration of `EndFunction` (profiler.cpp 173-176):
`assert(root != sentinel); set_root(root->caller())`. -/
def Profiler.EndFunction.graph (g : CallGraph) : Except Fault CallGraph :=
  if g.root = some g.sentinel then .error Fault.assertion_failed
  else
    match g.root with
    | none => .error Fault.undefined_behaviour
    | some r =>
      match CallGraph.caller g r with
      | none => .error Fault.undefined_behaviour
      | some c => .ok (CallGraph.set_root g c)

/-- How one pass through the body of the loop of `EndFunction` ends: at the test of line 178
with the state reached and the activation popped, or aborted with the state at the start of the
faulting statement, the activations popped by this pass and the fault. -/
inductive Iteration where
  | done (p : Profiler) (fn_call : FunctionCall)
  | aborted (p : Profiler) (popped : List FunctionCall) (f : Fault)

/-- The body of the loop of `EndFunction` up to the test of line 178 (profiler.cpp 155-176):
pop, look up the record, update it, move the root of the call graph. -/
def Profiler.EndFunction.body (now : TimePoint) (p : Profiler) : Iteration :=
  match CallStack.Pop now p.call_stack with
  | .error f => Iteration.aborted p [] f
  | .ok (fn_call, calls) =>
    let p1 := { p with call_stack := calls }
    match Statistics.GetFunctionStatistis p1.stats fn_call.fn.address with
    | none => Iteration.aborted p1 [fn_call] Fault.assertion_failed
    | some fn_stats =>
      let p2 := { p1 with stats := Statistics.update p1.stats fn_stats.function.address
                                    (Profiler.EndFunction.record fn_call.timer) }
      if p2.call_graph_enabled then
        match Profiler.EndFunction.graph p2.call_graph with
        | .error f => Iteration.aborted p2 [fn_call] f
        | .ok g => Iteration.done { p2 with call_graph := g } fn_call
      else Iteration.done p2 fn_call

/-- The `while (true)` loop of `EndFunction` (profiler.cpp 154-181).  The first argument bounds
the iterations, the second is the number of the iteration, the last the activations popped by
the earlier iterations. -/
def Profiler.EndFunction.loop (address : Address) (clock : Nat → TimePoint) :
    Nat → Nat → Profiler → List FunctionCall → Result
  | 0, _, p, popped => { state := p, popped := popped, fault := some Fault.out_of_fuel }
  | fuel + 1, i, p, popped =>
    match Profiler.EndFunction.body (clock i) p with
    | Iteration.aborted p1 popped1 f => { state := p1, popped := popped ++ popped1, fault := some f }
    | Iteration.done p1 fn_call =>
      if address = 0 ∨ fn_call.fn.address = address then
        { state := p1, popped := popped ++ [fn_call] }
      else Profiler.EndFunction.loop address clock fuel (i + 1) p1 (popped ++ [fn_call])

/-- `Profiler::EndFunction(address)` (profiler.cpp 150-182); `EndFunction()` is
`EndFunction(0)`.  Every iteration that continues has popped an activation, so the bound
`call_stack.length + 1` is never reached. -/
def Profiler.EndFunction (p : Profiler) (address : Address) (clock : Nat → TimePoint) :
    Result :=
  if p.call_stack.isEmpty then { state := p, fault := some Fault.assertion_failed }
  else if address ≠ 0 ∧ (Statistics.GetFunction p.stats address).isNone then
    { state := p, fault := some Fault.assertion_failed }
  else Profiler.EndFunction.loop address clock (p.call_stack.length + 1) 0 p []

/-- The `return` of a hook: the value of the host function when there is one, else
`AMX_ERR_NONE`; a faulted result returns nothing. -/
def Result.finish (amx : AMX) (debug : Option (AMX → Int)) (r : Result) : Result :=
  if r.fault.isSome then r
  else { r with ret := some (match debug with
                             | some d => d amx
                             | none => AMX_ERR_NONE) }

/-- `Profiler::DebugHook(debug)` (profiler.cpp 52-83).  `call_stack_.top()` of an empty stack
is undefined behaviour. -/
def Profiler.DebugHook (p : Profiler) (amx : AMX) (clock : Nat → TimePoint)
    (debug : Option (AMX → Int)) : Result :=
  let prev_frame : Address :=
    match p.call_stack with
    | [] => amx.stp
    | top :: _ => top.frame
  if amx.frm < prev_frame then
    match p.call_stack with
    | [] => { state := p, fault := some Fault.undefined_behaviour }
    | top :: _ =>
      if top.frame ≠ amx.frm then
        let address := GetCalleeAddress amx amx.frm
        if address ≠ 0 then
          let r := Profiler.Register p (Function.Normal address)
          if r.fault.isSome then r
          else Result.finish amx debug (Profiler.BeginFunction r.state address amx.frm (clock 0))
        else Result.finish amx debug { state := p }
      else Result.finish amx debug { state := p }
  else if amx.frm > prev_frame then
    match p.call_stack with
    | [] => { state := p, fault := some Fault.undefined_behaviour }
    | top :: _ =>
      if top.fn.type = FunctionType.NORMAL then
        Result.finish amx debug (Profiler.EndFunction p 0 clock)
      else Result.finish amx debug { state := p }
  else Result.finish amx debug { state := p }

/-! ## Sequences of operations -/

/-- One call into the profiler: the lookup-or-create step of a hook, `BeginFunction` or
`EndFunction`, with the clock readings it takes. -/
inductive Event where
  | register (fn : Function)
  | begin (address : Address) (frm : Address) (now : TimePoint)
  | end_ (address : Address) (clock : Nat → TimePoint)

/-- The result of one event. -/
def Profiler.step (p : Profiler) : Event → Result
  | Event.register fn => Profiler.Register p fn
  | Event.begin address frm now => Profiler.BeginFunction p address frm now
  | Event.end_ address clock => Profiler.EndFunction p address clock

/-- The events run in order from `p`, stopping at the first fault; `popped` collects the
activations popped by all of them. -/
def Profiler.run (p : Profiler) : List Event → Result
  | [] => { state := p }
  | e :: es =>
    let r := Profiler.step p e
    if r.fault.isSome then r
    else
      let r2 := Profiler.run r.state es
      { r2 with popped := r.popped ++ r2.popped }

/-! ## Predicates and reference functions used by the statements -/

/-- The handle of the activation of `fn` nearest to the top of the stack, if there is one. -/
def CallStack.nearest : CallStack → Function → Option Nat
  | [], _ => none
  | c :: cs, fn => if c.fn = fn then some cs.length else CallStack.nearest cs fn

/-- Well-formed call stack: every activation points to the activation below it, its counter
has that activation's counter as parent, shadows the nearest activation of the same function
below it, and has been started once and not stopped. -/
def CallStack.WF : CallStack → Prop
  | [] => True
  | c :: cs =>
    c.parent = CallStack.backPtr cs ∧ c.timer.parent = c.parent ∧
    c.timer.shadow = CallStack.nearest cs c.fn ∧
    c.timer.started = true ∧ c.timer.num_starts = 1 ∧ c.timer.num_stops = 0 ∧
    CallStack.WF cs

/-- A write that touches only the running state of the counter. -/
def TimerOnly (f : FunctionCall → FunctionCall) : Prop :=
  ∀ c, (f c).fn = c.fn ∧ (f c).parent = c.parent ∧ (f c).frame = c.frame ∧
    (f c).timer.parent = c.timer.parent ∧ (f c).timer.shadow = c.timer.shadow ∧
    (f c).timer.started = c.timer.started ∧ (f c).timer.num_starts = c.timer.num_starts ∧
    (f c).timer.num_stops = c.timer.num_stops

/-- The activation built and started by `Push`. -/
def CallStack.pushed (now : TimePoint) (calls : CallStack) (function : Function)
    (frame : Address) : FunctionCall :=
  { fn := function, parent := CallStack.backPtr calls, frame := frame,
    timer := { started := true, paused := false, parent := CallStack.backPtr calls,
               shadow := FunctionCall.findShadow calls function (calls.length + 1)
                 (CallStack.backPtr calls),
               start_point := now, self_start := now, self_acc := 0, num_starts := 1 } }

/-- The counter of an activation after `Stop`. -/
def PerformanceCounter.stopped (now : TimePoint) (c : PerformanceCounter) : PerformanceCounter :=
  { c with started := false, paused := false,
           latest_total_time := now - c.start_point,
           latest_self_time := c.self_acc + (if c.paused then 0 else now - c.self_start),
           total_time := if c.shadow.isSome then c.total_time
                         else c.total_time + (now - c.start_point),
           self_time := if c.shadow.isSome then c.self_time
                        else c.self_time + (c.self_acc + (if c.paused then 0 else now - c.self_start)),
           num_stops := c.num_stops + 1 }

/-- Well-formed call graph: the sentinel is node `0`, the root and every node of the table are
allocated nodes, and every node but the sentinel has an allocated caller. -/
def CallGraph.WF (g : CallGraph) : Prop :=
  g.sentinel = 0 ∧ 0 < g.arena.length ∧ (∃ r, g.root = some r ∧ r < g.arena.length) ∧
  (∀ n x, g.arena[n]? = some x → n ≠ 0 → ∃ c, x.caller = some c ∧ c < g.arena.length) ∧
  (∀ k n, (k, n) ∈ g.nodes → n < g.arena.length)

/-- The invariant of the profiler states: the call stack and the call graph are well formed
and every function with a live activation has a statistics record. -/
def Profiler.Inv (p : Profiler) : Prop :=
  CallStack.WF p.call_stack ∧
  (∀ c ∈ p.call_stack, (Statistics.GetFunctionStatistis p.stats c.fn.address).isSome = true) ∧
  CallGraph.WF p.call_graph

/-- The state after the activation `c` on top of `cs` has been popped at time `now` and
recorded (profiler.cpp 155-171). -/
def Profiler.popRecord (now : TimePoint) (p : Profiler) (c : FunctionCall) (cs : CallStack) :
    Profiler :=
  { p with call_stack := CallStack.ResumeCounter now cs c.timer.parent,
           stats := Statistics.update p.stats c.fn.address
                      (Profiler.EndFunction.record (c.timer.stopped now)) }

/-- The state after `BeginFunction` has counted the call and pushed the activation
(profiler.cpp 139-144), before the call-graph step. -/
def Profiler.pushed (now : TimePoint) (p : Profiler) (fn : Function) (frm : Address) :
    Profiler :=
  { p with stats := Statistics.update p.stats fn.address (FunctionStatistics.AdjustNumCalls 1),
           call_stack := CallStack.pushed now p.call_stack fn frm ::
             CallStack.PauseCounter now p.call_stack (CallStack.backPtr p.call_stack) }

/-- One operation on the call stack: `Push(function, frame)` or `Pop()`. -/
inductive StackOp where
  | push (function : Function) (frame : Address)
  | pop
deriving DecidableEq, Repr

/-- The operations run in order on `calls`; operation number `i` reads the clock at `clock i`.
The result is the final stack and the activations returned by the pops, in order. -/
def CallStack.run (clock : Nat → TimePoint) :
    Nat → List StackOp → CallStack → Except Fault (CallStack × List FunctionCall)
  | _, [], calls => .ok (calls, [])
  | i, StackOp.push function frame :: ops, calls =>
    match CallStack.Push (clock i) calls function frame with
    | .error f => .error f
    | .ok calls1 => CallStack.run clock (i + 1) ops calls1
  | i, StackOp.pop :: ops, calls =>
    match CallStack.Pop (clock i) calls with
    | .error f => .error f
    | .ok (top, calls1) =>
      match CallStack.run clock (i + 1) ops calls1 with
      | .error f => .error f
      | .ok (final, popped) => .ok (final, top :: popped)

/-- Balanced continuation: started at depth `d`, no prefix of the operations pops more than
has been pushed and the depth at the end is `0`. -/
def StackOp.balancedFrom : Nat → List StackOp → Bool
  | d, [] => d == 0
  | d, StackOp.push _ _ :: ops => StackOp.balancedFrom (d + 1) ops
  | 0, StackOp.pop :: _ => false
  | d + 1, StackOp.pop :: ops => StackOp.balancedFrom d ops

/-- The number of pushes among the operations. -/
def StackOp.pushes : List StackOp → Nat
  | [] => 0
  | StackOp.push _ _ :: ops => StackOp.pushes ops + 1
  | StackOp.pop :: ops => StackOp.pushes ops

/-- Reference last-in-first-out discipline, from the words "each Pop returns the most recently
pushed activation not yet popped": `pending` holds the function and frame of the activations
pushed and not yet popped, most recent first; the result lists what the pops return. -/
def StackOp.lifo : List StackOp → List (Function × Address) → List (Function × Address)
  | [], _ => []
  | StackOp.push function frame :: ops, pending => StackOp.lifo ops ((function, frame) :: pending)
  | StackOp.pop :: ops, [] => StackOp.lifo ops []
  | StackOp.pop :: ops, x :: pending => x :: StackOp.lifo ops pending

/-- The `latest_total_time` readings of the popped activations of the function at `a`, in pop
order. -/
def observedTotal (popped : List FunctionCall) (a : Address) : List Nanoseconds :=
  (popped.filter (fun c => c.fn.address = a)).map (fun c => c.timer.latest_total_time)

/-- The `latest_self_time` readings of the popped activations of the function at `a`, in pop
order. -/
def observedSelf (popped : List FunctionCall) (a : Address) : List Nanoseconds :=
  (popped.filter (fun c => c.fn.address = a)).map (fun c => c.timer.latest_self_time)

/-- The worst times of every record are the maxima, starting from zero, of the readings
observed at the pops of its function, and no activation of an unregistered function has been
popped. -/
def Statistics.WorstInv (stats : Statistics) (popped : List FunctionCall) : Prop :=
  ∀ a, match Statistics.GetFunctionStatistis stats a with
    | some s => s.worst_total_time = (observedTotal popped a).foldl max 0 ∧
                s.worst_self_time = (observedSelf popped a).foldl max 0
    | none => ∀ c ∈ popped, c.fn.address ≠ a

/-- The worst times of the record of `a` are at least those of `s`. -/
def Statistics.WorstGe (stats : Statistics) (a : Address) (s : FunctionStatistics) : Prop :=
  ∃ s1, Statistics.GetFunctionStatistis stats a = some s1 ∧
    s.worst_total_time ≤ s1.worst_total_time ∧ s.worst_self_time ≤ s1.worst_self_time

/-- A normal function at address 10. -/
def Scenario.A : Function := ⟨10, FunctionType.NORMAL⟩

/-- A normal function at address 20. -/
def Scenario.B : Function := ⟨20, FunctionType.NORMAL⟩

/-- A normal function at address 40. -/
def Scenario.C : Function := ⟨40, FunctionType.NORMAL⟩

/-- A native function at address 30. -/
def Scenario.N : Function := ⟨30, FunctionType.NATIVE⟩

/-- A clock that advances by one at every reading of a loop, starting at 50. -/
def Scenario.clock : Nat → TimePoint := fun i => 50 + i

/-- A new profiler with the call graph enabled. -/
def Scenario.graphProfiler : Profiler := Profiler.set_call_graph_enabled Profiler.new true

/-- `A` is entered and calls itself. -/
def Scenario.recursion : List Event :=
  [Event.register Scenario.A, Event.begin 10 100 1, Event.begin 10 90 2]

/-- `A` calls `B`, both return, then `C` calls `B`. -/
def Scenario.secondCaller : List Event :=
  [Event.register Scenario.A, Event.register Scenario.B, Event.register Scenario.C,
   Event.begin 10 100 1, Event.begin 20 90 2, Event.end_ 0 Scenario.clock,
   Event.end_ 0 Scenario.clock, Event.begin 40 100 60, Event.begin 20 90 61]

/-- The native `N` is entered and `B` recurses to depth three under it. -/
def Scenario.nativeOverRecursion : List Event :=
  [Event.register Scenario.N, Event.register Scenario.B, Event.begin 30 100 1,
   Event.begin 20 90 2, Event.begin 20 80 3, Event.begin 20 70 4]

/-- `P` = `A` and `Q` = `B` are on the stack when the native `N` is entered. -/
def Scenario.nativeOnTop : List Event :=
  [Event.register Scenario.A, Event.register Scenario.B, Event.register Scenario.N,
   Event.begin 10 100 1, Event.begin 20 90 2, Event.begin 30 90 3]

/-- The functions on the call stack, top first, by address. -/
def Profiler.stackAddresses (p : Profiler) : List Address :=
  p.call_stack.map (fun c => c.fn.address)

/-- The functions met when following `caller()` from the root of the call graph up to the
sentinel, by address. -/
def Profiler.rootChain (p : Profiler) : List Address :=
  CallGraph.callerChain p.call_graph p.call_graph.arena.length p.call_graph.root

/-- `A` has been entered at frame 90. -/
def Scenario.entered : List Event := [Event.register Scenario.A, Event.begin 10 90 1]

/-- A VM whose current frame 100 lies above frame 90. -/
def Scenario.amxAbove : AMX :=
  { frm := 100, stk := 0, stp := 1000, code_start := 0, data_cell := fun _ => 0,
    mem_cell := fun _ => 0 }

/-- A VM whose current frame 80 lies below frame 90 and whose frame 80 holds a return address
behind a call of the function at address 20. -/
def Scenario.amxBelow : AMX :=
  { frm := 80, stk := 0, stp := 1000, code_start := 0, data_cell := fun _ => 8,
    mem_cell := fun _ => 20 }

/-- What identifies an activation on the stack: its function, its frame and its parent. -/
def FunctionCall.ident (c : FunctionCall) : Function × Address × Option Nat :=
  (c.fn, c.frame, c.parent)

/-- The statistics after the activations `popped` have been recorded in pop order, each in
the record of its own function (profiler.cpp 157-171). -/
def Statistics.recordAll (stats : Statistics) (popped : List FunctionCall) : Statistics :=
  popped.foldl (fun st c => Statistics.update st c.fn.address
    (Profiler.EndFunction.record c.timer)) stats

/-- Modelled from the spec: `AMX_EXEC_MAIN` of amx.h, the index of the entry point `main`. -/
def AMX_EXEC_MAIN : Int := -1

/-- `GetNativeAddress(amx, index)` (amx_utils.cpp 42-51). -/
def GetNativeAddress (amx : AMX) (index : Int) : Address :=
  if index ≥ 0 then amx.native_address index else 0

/-- `GetPublicAddress(amx, index)` (amx_utils.cpp 53-66). -/
def GetPublicAddress (amx : AMX) (index : Int) : Address :=
  if index = AMX_EXEC_MAIN then amx.cip
  else if index ≥ 0 then amx.public_address index
  else 0

/-- Modelled from the spec: `Function::Native(amx, index)` (function.h is not part of the
sources): the native function of the table entry, identified by its resolved address. -/
def Function.Native (amx : AMX) (index : Int) : Function :=
  ⟨GetNativeAddress amx index, FunctionType.NATIVE⟩

/-- Modelled from the spec: `Function::Public(amx, index)` (function.h is not part of the
sources): the public function of the table entry, identified by its resolved address. -/
def Function.Public (amx : AMX) (index : Int) : Function :=
  ⟨GetPublicAddress amx index, FunctionType.PUBLIC⟩

/-- What one invocation of a host function (`callback`, `exec`) does as far as the profiler
can observe: the profiler operations re-entered while it runs, in order, and the value it
returns. -/
structure Dispatch where
  events : List Event
  ret : Int

/-- The bracket shared by `CallbackHook` and `ExecHook` once the address is resolved
(profiler.cpp 91-105, 117-131): lookup-or-create and `BeginFunction` when the address is
nonzero, the host function, `EndFunction(address)` when the address is nonzero, and the return
of the value of the host function.  `fn` is the function the hook would create, `frame` the
frame it passes to `BeginFunction`, `call` the invocation of the host function and `d` what it
does. -/
def Profiler.bracket (p : Profiler) (address : Address) (fn : Function) (frame : Address)
    (call : HostCall) (d : Dispatch) (now : TimePoint) (clock : Nat → TimePoint) : Result :=
  let r1 : Result :=
    if address ≠ 0 then
      let r := Profiler.Register p fn
      if r.fault.isSome then r else Profiler.BeginFunction r.state address frame now
    else { state := p }
  if r1.fault.isSome then r1
  else
    let r2 := Profiler.run r1.state d.events
    if r2.fault.isSome then
      { r2 with popped := r1.popped ++ r2.popped, dispatched := [call] }
    else
      let r3 : Result :=
        if address ≠ 0 then Profiler.EndFunction r2.state address clock
        else { state := r2.state }
      { state := r3.state, popped := r1.popped ++ r2.popped ++ r3.popped, fault := r3.fault,
        ret := if r3.fault.isSome then none else some d.ret, dispatched := [call] }

/-- The branch of a bracket hook that does not profile (profiler.cpp 108, 134):
`return callback(amx_, index, result, params)`. -/
def Profiler.passThrough (p : Profiler) (call : HostCall) (d : Dispatch) : Result :=
  let r2 := Profiler.run p d.events
  if r2.fault.isSome then { r2 with dispatched := [call] }
  else { r2 with ret := some d.ret, dispatched := [call] }

/-- `Profiler::CallbackHook(index, result, params, callback)` (profiler.cpp 85-109).
`callback` is the host function that is called (`::amx_Callback` when the argument is null),
given by what an invocation with given arguments does. -/
def Profiler.CallbackHook (p : Profiler) (amx : AMX) (index result params : Int)
    (callback : AMX → Int → Int → Int → Dispatch) (now : TimePoint)
    (clock : Nat → TimePoint) : Result :=
  if index ≥ 0 then
    let address := GetNativeAddress amx index
    Profiler.bracket p address (Function.Native amx index) amx.frm
      ⟨amx, index, result, params⟩ (callback amx index result params) now clock
  else
    Profiler.passThrough p ⟨amx, index, result, params⟩ (callback amx index result params)

/-- `Profiler::ExecHook(retval, index, exec)` (profiler.cpp 111-135).  `exec` is the host
function that is called (`::amx_Exec` when the argument is null), given by what an invocation
with given arguments does. -/
def Profiler.ExecHook (p : Profiler) (amx : AMX) (retval index : Int)
    (exec : AMX → Int → Int → Dispatch) (now : TimePoint) (clock : Nat → TimePoint) : Result :=
  if index ≥ 0 ∨ index = AMX_EXEC_MAIN then
    let address := GetPublicAddress amx index
    Profiler.bracket p address (Function.Public amx index) (amx.stk - 3 * sizeof_cell)
      ⟨amx, retval, index, 0⟩ (exec amx retval index) now clock
  else
    Profiler.passThrough p ⟨amx, retval, index, 0⟩ (exec amx retval index)

/-- `CallGraph::Traverse(visitor)` (call_graph.cpp 71-77): the nodes in the order in which
`Visit` is called on them. -/
def CallGraph.Traverse (g : CallGraph) : List Nat :=
  g.sentinel :: g.nodes.map (fun kv => kv.2)

/-- One call on the call graph: `AddCallee(stats)`, or `set_root(node)` with a pointer to an
allocated node. -/
inductive GraphOp where
  | AddCallee (stats : Address)
  | set_root (node : Nat)
deriving DecidableEq, Repr

/-- The result of one call on the graph; the second component is the node returned by
`AddCallee`.  A root pointer that points to no allocated node is undefined behaviour. -/
def CallGraph.step (g : CallGraph) : GraphOp → Except Fault (CallGraph × Option Nat)
  | GraphOp.AddCallee stats =>
    match CallGraph.AddCallee g stats with
    | .error f => .error f
    | .ok (g1, node) => .ok (g1, some node)
  | GraphOp.set_root node =>
    if node < g.arena.length then .ok (CallGraph.set_root g (some node), none)
    else .error Fault.undefined_behaviour

/-- The calls run in order from `g`. -/
def CallGraph.run : CallGraph → List GraphOp → Except Fault CallGraph
  | g, [] => .ok g
  | g, op :: ops =>
    match CallGraph.step g op with
    | .error f => .error f
    | .ok (g1, _) => CallGraph.run g1 ops

/-- The addresses passed to `AddCallee` by the calls, in order. -/
def GraphOp.added : List GraphOp → List Address
  | [] => []
  | GraphOp.AddCallee stats :: ops => stats :: GraphOp.added ops
  | GraphOp.set_root _ :: ops => GraphOp.added ops

/-- A VM whose current frame is 90. -/
def Scenario.amxSame : AMX :=
  { frm := 90, stk := 0, stp := 1000, code_start := 0, data_cell := fun _ => 0,
    mem_cell := fun _ => 0 }

/-- `A` calls `B`, `B` returns, `A` calls `C`, `C` calls `B`, `B` and `C` return: every pop
is matched by an earlier push and `A` is still live. -/
def Scenario.sharedCallee : List Event :=
  [Event.register Scenario.A, Event.register Scenario.B, Event.register Scenario.C,
   Event.begin 10 100 1, Event.begin 20 90 2, Event.end_ 0 Scenario.clock,
   Event.begin 40 90 60, Event.begin 20 80 61, Event.end_ 0 Scenario.clock,
   Event.end_ 0 Scenario.clock]

/-- The call count of the record of `b`, if there is one. -/
def Statistics.numCalls (stats : Statistics) (b : Address) : Option Int :=
  (Statistics.GetFunctionStatistis stats b).map (fun s => s.num_calls)

/-- The invariant of the node table: keys strictly increasing, each key mapped to its own
node, a node other than the sentinel; every node but the sentinel is in the table exactly
once; callee sets have no repetition; the sentinel has no statistics. -/
def CallGraph.Table (g : CallGraph) : Prop :=
  (g.nodes.map Prod.fst).Pairwise (· < ·) ∧
  (g.nodes.map Prod.snd).Nodup ∧
  (∀ (k : Address) (n : Nat), (k, n) ∈ g.nodes →
    0 < n ∧ (g.arena[n]?).map (fun (x : CallGraphNode) => x.stats) = some (some k)) ∧
  (∀ n : Nat, 0 < n → n < g.arena.length → n ∈ g.nodes.map Prod.snd) ∧
  (∀ (n : Nat) (x : CallGraphNode), g.arena[n]? = some x → x.callees.Nodup) ∧
  (g.arena[0]?).map (fun (x : CallGraphNode) => x.stats) = some none

/-- The invariant of the graphs built by `AddCallee` and root changes: well formed, with the
invariant of the node table, and one allocated node per entry of the table besides the
sentinel. -/
def CallGraph.Inv (g : CallGraph) : Prop :=
  CallGraph.WF g ∧ CallGraph.Table g ∧ g.arena.length = g.nodes.length + 1

/-- The invariant of the profiler states together with the invariant of its call graph. -/
def Profiler.Inv2 (p : Profiler) : Prop := Profiler.Inv p ∧ CallGraph.Inv p.call_graph

/-- The graph calls made when the function at address 20 is entered from the top level and
calls the function at address 10. -/
def Scenario.graphOps : List GraphOp :=
  [GraphOp.AddCallee 20, GraphOp.set_root 1, GraphOp.AddCallee 10, GraphOp.set_root 2]

/-- The graph built by `Scenario.graphOps`: the sentinel, node 1 of address 20 called from the
sentinel, node 2 of address 10 called from node 1, the root at node 2. -/
def Scenario.graph : CallGraph :=
  { root := some 2, sentinel := 0, nodes := [(10, 2), (20, 1)],
    arena := [{ stats := none, caller := none, callees := [1] },
              { stats := some 20, caller := some 0, callees := [2] },
              { stats := some 10, caller := some 1, callees := [] }] }

/-- A VM at frame 100 whose native table resolves every index to address 30 and whose public
table resolves every index to address 20. -/
def Scenario.amxTables : AMX :=
  { frm := 100, stk := 200, stp := 1000, code_start := 0, data_cell := fun _ => 0,
    mem_cell := fun _ => 0, native_address := fun _ => 30, public_address := fun _ => 20 }

/-- A native whose dispatch leaves three activations of `B` (recursion) on the stack and
returns 7. -/
def Scenario.leavesRecursion : AMX → Int → Int → Int → Dispatch :=
  fun _ _ _ _ =>
    { events := [Event.register Scenario.B, Event.begin 20 90 2, Event.begin 20 80 3,
                 Event.begin 20 70 4],
      ret := 7 }

/-- A native whose dispatch executes `B`, which executes itself once more; both executions
have returned when the native returns 7. -/
def Scenario.runsRecursion : AMX → Int → Int → Int → Dispatch :=
  fun _ _ _ _ =>
    { events := [Event.register Scenario.B, Event.begin 20 90 2, Event.begin 20 80 3,
                 Event.end_ 20 Scenario.clock, Event.end_ 20 Scenario.clock],
      ret := 7 }

/-- An execution of the public at address 20 that executes the same public once more; the
inner execution has returned when the outer returns 7. -/
def Scenario.execsItself : AMX → Int → Int → Dispatch :=
  fun _ _ _ =>
    { events := [Event.begin 20 80 3, Event.end_ 20 Scenario.clock], ret := 7 }

/-- A host function that re-enters nothing and returns 7. -/
def Scenario.plain : AMX → Int → Int → Int → Dispatch :=
  fun _ _ _ _ => { events := [], ret := 7 }

/-- `GetNativeName(amx, index)` (amx_utils.cpp 68-80). -/
def GetNativeName (amx : AMX) (index : Int) : String :=
  let num_natives := amx.num_natives
  if index ≥ 0 ∧ index < num_natives then amx.native_name index else ""

/-- `GetPublicName(amx, index)` (amx_utils.cpp 82-98). -/
def GetPublicName (amx : AMX) (index : Int) : String :=
  if index = AMX_EXEC_MAIN then "main"
  else
    let num_publics := amx.num_publics
    if index ≥ 0 ∧ index < num_publics then amx.public_name index else ""

/-- A VM with one native (address 30, name `print`) and one public (address 20, name `OnInit`);
the table entries read past the end of either table hold the address 77. -/
def Scenario.amxOneEntry : AMX :=
  { frm := 100, stk := 200, stp := 1000, code_start := 0, data_cell := fun _ => 0,
    mem_cell := fun _ => 0,
    native_address := fun i => if i = 0 then 30 else 77,
    public_address := fun i => if i = 0 then 20 else 77,
    num_natives := 1, num_publics := 1,
    native_name := fun i => if i = 0 then "print" else "?",
    public_name := fun i => if i = 0 then "OnInit" else "?" }

/-- The number of activations in `cs` whose function has address `a`. -/
def CallStack.activations (cs : List FunctionCall) (a : Address) : Int :=
  ((cs.map (fun c => c.fn.address)).count a : Nat)

/-- The call count of the record of address `a`, `0` when there is no record. -/
def Statistics.callCount (stats : Statistics) (a : Address) : Int :=
  (Statistics.numCalls stats a).getD 0

/-- `A` and `B` are registered; `A` is entered and recurses to depth three; `B` is never
entered. -/
def Scenario.deepRecursion : List Event :=
  [Event.register Scenario.A, Event.register Scenario.B, Event.begin 10 100 1,
   Event.begin 10 90 2, Event.begin 10 80 3]

/-- One event delivered by the host to the profiler: a step of the VM (`DebugHook`), a native
call (`CallbackHook`) or an execution of a public (`ExecHook`), with the VM as the hook finds
it, the host function the hook calls and the readings of the clock. -/
inductive HookEvent where
  | debug (amx : AMX) (clock : Nat → TimePoint) (debug : Option (AMX → Int))
  | callback (amx : AMX) (index result params : Int)
      (callback : AMX → Int → Int → Int → Dispatch) (now : TimePoint)
      (clock : Nat → TimePoint)
  | exec (amx : AMX) (retval index : Int) (exec : AMX → Int → Int → Dispatch)
      (now : TimePoint) (clock : Nat → TimePoint)

/-- The result of one hook event. -/
def Profiler.hook (p : Profiler) : HookEvent → Result
  | HookEvent.debug amx clock debug => Profiler.DebugHook p amx clock debug
  | HookEvent.callback amx index result params callback now clock =>
    Profiler.CallbackHook p amx index result params callback now clock
  | HookEvent.exec amx retval index exec now clock =>
    Profiler.ExecHook p amx retval index exec now clock

/-- The hook events run in order from `p`, stopping at the first fault. -/
def Profiler.hooks (p : Profiler) : List HookEvent → Result
  | [] => { state := p }
  | h :: hs =>
    let r := Profiler.hook p h
    if r.fault.isSome then r
    else
      let r2 := Profiler.hooks r.state hs
      { r2 with popped := r.popped ++ r2.popped }

/-- The registry and the statistics table agree and hold one function per address:
`functions_` lists the functions of the records of `stats_`, and no two of them have the same
address. -/
def Profiler.Registry (p : Profiler) : Prop :=
  p.stats.map (fun s => s.function) = p.functions ∧
  (p.functions.map (fun f => f.address)).Nodup

/-- A VM at frame 100 whose native table and public table both resolve index 0 to the
address 20. -/
def Scenario.amxShared : AMX :=
  { frm := 100, stk := 200, stp := 1000, code_start := 0, data_cell := fun _ => 0,
    mem_cell := fun _ => 0, native_address := fun _ => 20, public_address := fun _ => 20 }

/-- The public of index 0 (address 20) is executed and, while it runs, the function `A` is
entered and left; then the native of index 0, which resolves to the same address 20, is
called. -/
def Scenario.hookEvents : List HookEvent :=
  [HookEvent.exec Scenario.amxShared 11 0
     (fun _ _ _ => { events := [Event.register Scenario.A, Event.begin 10 90 2,
                                Event.end_ 0 Scenario.clock], ret := 7 })
     1 Scenario.clock,
   HookEvent.callback Scenario.amxShared 0 11 12 Scenario.plain 60 Scenario.clock]

/-- The registry of `q` continues the registry of `p`: every function registered in `p` is
registered in `q`, in the same place, and `q` holds one function per address if `p` does. -/
def Profiler.RegistryGrows (p q : Profiler) : Prop :=
  p.functions <+: q.functions ∧ (Profiler.Registry p → Profiler.Registry q)

/-- `Profiler::Profiler(amx, debug_info)` (profiler.cpp 34-43) with its effect on the VM: the
new profiler, and the VM after the assignment `amx->sysreq_d = 0` of line 42. -/
def Profiler.create (amx : AMX) : Profiler × AMX :=
  (Profiler.new, { amx with sysreq_d := 0 })

/-- A VM in which the VM has set `sysreq_d` to 1. -/
def Scenario.amxSysreq : AMX :=
  { frm := 100, stk := 200, stp := 1000, code_start := 0, data_cell := fun _ => 0,
    mem_cell := fun _ => 0, sysreq_d := 1 }

/-! ## The plugin: which scripts are profiled (plugin.cpp 147-182)

A `std::string` is the list of its characters. -/

/-- The settings of `namespace cfg` (plugin.cpp 64-70) read by `WantsProfiler`, with their
defaults. -/
structure Cfg where
  profile_gamemode : Bool := false
  profile_filterscripts : List Char := []

/-- The backslash character. -/
def backslash : Char := Char.ofNat 92

/-- `ToUnixPath(path)` (plugin.cpp 147-151): `std::replace` of every backslash by a slash. -/
def ToUnixPath (path : List Char) : List Char :=
  path.map (fun c => if c = backslash then '/' else c)

/-- `s.find(sub) != std::string::npos`: `sub` occurs in `s` at some position. -/
def occursIn (sub : List Char) : List Char → Bool
  | [] => sub.isPrefixOf []
  | c :: rest => sub.isPrefixOf (c :: rest) || occursIn sub rest

/-- `IsGameMode(amx_name)` (plugin.cpp 153-155). -/
def IsGameMode (amx_name : List Char) : Bool :=
  occursIn "gamemodes/".toList (ToUnixPath amx_name)

/-- `IsFilterScript(amx_name)` (plugin.cpp 157-159). -/
def IsFilterScript (amx_name : List Char) : Bool :=
  occursIn "filterscripts/".toList (ToUnixPath amx_name)

/-- `std::isspace` in the classic locale: space, `\t`, `\n`, `\v`, `\f`, `\r`. -/
def isspace (c : Char) : Bool :=
  c.toNat = 32 || (9 ≤ c.toNat && c.toNat ≤ 13)

/-- `fs_stream >> fs_name` on a stream that is good, with `fs_name` empty before: leading
whitespace is skipped and characters are taken up to the next whitespace or the end of the
stream.  The result is the name read, the rest of the stream and whether `eofbit` is set: it is
set when the end of the stream was reached, while skipping (nothing is read then and `fs_name`
stays empty) or while reading. -/
def extract (stream : List Char) : List Char × List Char × Bool :=
  match stream.dropWhile isspace with
  | [] => ([], [], true)
  | c :: rest =>
    ((c :: rest).takeWhile (fun x => !isspace x), (c :: rest).dropWhile (fun x => !isspace x),
      ((c :: rest).dropWhile (fun x => !isspace x)).isEmpty)

/-- The `do ... while (!fs_stream.eof())` loop of `WantsProfiler` (plugin.cpp 171-178); `none`
when the bound on the iterations is reached. -/
def WantsProfiler.loop (good_amx_name : List Char) : Nat → List Char → Option Bool
  | 0, _ => none
  | fuel + 1, fs_stream =>
    match extract fs_stream with
    | (fs_name, rest, eof) =>
      if good_amx_name = "filterscripts/".toList ++ fs_name ++ ".amx".toList
          ∨ good_amx_name = "filterscripts/".toList ++ fs_name then some true
      else if eof then some false
      else WantsProfiler.loop good_amx_name fuel rest

/-- `WantsProfiler(amx_name)` (plugin.cpp 161-182).  Every iteration of the loop that continues
has read a character, so the bound is never reached. -/
def WantsProfiler (cfg : Cfg) (amx_name : List Char) : Option Bool :=
  let good_amx_name := ToUnixPath amx_name
  if IsGameMode good_amx_name then
    if cfg.profile_gamemode then some true else some false
  else if IsFilterScript good_amx_name then
    let fs_list := cfg.profile_filterscripts
    WantsProfiler.loop good_amx_name (fs_list.length + 1) fs_list
  else some false

/-- The path of a script named `.amx` in the directory `filterscripts`. -/
def Scenario.dotAmx : List Char := "filterscripts/.amx".toList

/-- The comparison of line 174-175 of plugin.cpp: the path is `filterscripts/` followed by
`name`, with or without the extension `.amx`. -/
def nameMatches (good_amx_name name : List Char) : Bool :=
  decide (good_amx_name = "filterscripts/".toList ++ name ++ ".amx".toList
    ∨ good_amx_name = "filterscripts/".toList ++ name)

/-- `name` is one of the whitespace-separated names of `fs_list`: a non-empty run of
characters that are not whitespace, with the start of the list or whitespace before it and the
end of the list or whitespace after it. -/
def IsListedName (name fs_list : List Char) : Prop :=
  name ≠ [] ∧ (∀ c ∈ name, isspace c = false) ∧
  ∃ pre post, fs_list = pre ++ name ++ post ∧
    (∀ c, pre.getLast? = some c → isspace c = true) ∧
    (∀ c, post.head? = some c → isspace c = true)

/-- The list is empty or ends with whitespace: after the last name the stream is not at its
end, and one more extraction is tried and fails. -/
def EndsOpen (fs_list : List Char) : Prop :=
  ∀ c, fs_list.getLast? = some c → isspace c = true

/-- `A` is entered at frame 100 and calls `B`, entered at frame 90. -/
def Scenario.nested : List Event :=
  [Event.register Scenario.A, Event.register Scenario.B, Event.begin 10 100 1,
   Event.begin 20 90 2]

/-- A VM whose code segment starts 16 bytes below `2^31`, so that the addresses of its code
straddle the largest cell: frame 80 holds the return address 36, and the cell before it, at
the address that is `2^31 + 16` as an unsigned number, holds the address `2^31 + 16` of the
function at offset 32 of the code. -/
def Scenario.amxStraddle : AMX :=
  { frm := 80, stk := 0, stp := 1000, code_start := 2147483632, data_cell := fun _ => 36,
    mem_cell := fun a => if a = -2147483632 then -2147483632 else 0 }

/-! ## The profiler together with the VM

The member functions of profiler.cpp and the functions of amx_utils.cpp once more, statement
by statement, on the state they can reach: the `Profiler` object and the `AMX` instance its
member `amx_` points to.  Every function returns the VM as it leaves it. -/

/-- The `Profiler` object together with the `AMX` instance that `amx_` points to. -/
structure World where
  profiler : Profiler
  amx : AMX

/-- What an operation leaves behind, as `Result`, with the VM: `world` is the profiler and the
VM when the operation returned or, when `fault` is set, at the start of the statement that
faulted. -/
structure Outcome where
  world : World
  popped : List FunctionCall := []
  fault : Option Fault := none
  ret : Option Int := none
  dispatched : List HostCall := []

/-- The profiler's part of an outcome. -/
def Outcome.result (o : Outcome) : Result :=
  { state := o.world.profiler, popped := o.popped, fault := o.fault, ret := o.ret,
    dispatched := o.dispatched }

/-- What one invocation of a host function (`callback`, `exec`) does: the profiler operations
re-entered while it runs, in order, the value it returns, and the VM as it leaves it. -/
structure HostRun where
  events : List Event
  ret : Int
  amx : AMX

/-- What the profiler can observe of the invocation of a host function. -/
def HostRun.dispatch (h : HostRun) : Dispatch :=
  { events := h.events, ret := h.ret }

/-- `GetNativeAddress(amx, index)` (amx_utils.cpp 42-51) with the VM it leaves. -/
def World.GetNativeAddress (amx : AMX) (index : Int) : Address × AMX :=
  if index ≥ 0 then (amx.native_address index, amx)
  else (0, amx)

/-- `GetPublicAddress(amx, index)` (amx_utils.cpp 53-66) with the VM it leaves. -/
def World.GetPublicAddress (amx : AMX) (index : Int) : Address × AMX :=
  if index = AMX_EXEC_MAIN then (amx.cip, amx)
  else if index ≥ 0 then (amx.public_address index, amx)
  else (0, amx)

/-- Modelled from the spec: `amx_NumNatives(amx, &num_natives)` of the AMX library, which
reads the number of entries of the native table. -/
def World.amx_NumNatives (amx : AMX) : Int × AMX :=
  (amx.num_natives, amx)

/-- Modelled from the spec: `amx_NumPublics(amx, &num_publics)` of the AMX library, which
reads the number of entries of the public table. -/
def World.amx_NumPublics (amx : AMX) : Int × AMX :=
  (amx.num_publics, amx)

/-- `GetNativeName(amx, index)` (amx_utils.cpp 68-80) with the VM it leaves. -/
def World.GetNativeName (amx : AMX) (index : Int) : String × AMX :=
  let n := World.amx_NumNatives amx
  let num_natives := n.1
  let amx1 := n.2
  if index ≥ 0 ∧ index < num_natives then (amx1.native_name index, amx1)
  else ("", amx1)

/-- `GetPublicName(amx, index)` (amx_utils.cpp 82-98) with the VM it leaves. -/
def World.GetPublicName (amx : AMX) (index : Int) : String × AMX :=
  if index = AMX_EXEC_MAIN then ("main", amx)
  else
    let n := World.amx_NumPublics amx
    let num_publics := n.1
    let amx1 := n.2
    if index ≥ 0 ∧ index < num_publics then (amx1.public_name index, amx1)
    else ("", amx1)

/-- `GetRetrunAddress(amx, frame)` (amx_utils.cpp 100-106) with the VM it leaves. -/
def World.GetRetrunAddress (amx : AMX) (frame : Address) : Address × AMX :=
  if frame ≥ 0 ∧ frame ≥ amx.stk ∧ frame < amx.stp then
    (amx.data_cell (frame + sizeof_cell), amx)
  else (0, amx)

/-- `GetCalleeAddress(amx, frame)` (amx_utils.cpp 108-116) with the VM it leaves. -/
def World.GetCalleeAddress (amx : AMX) (frame : Address) : Address × AMX :=
  let r := World.GetRetrunAddress amx frame
  let return_address := r.1
  let amx1 := r.2
  if return_address ≠ 0 then
    let code_start := amx1.code_start
    let target_address_offset := wrap32 (code_start + return_address - sizeof_cell)
    (wrap32 (amx1.mem_cell target_address_offset - code_start), amx1)
  else (0, amx1)

/-- The lookup-or-create step of the three hooks (profiler.cpp 63-68, 93-98, 119-124), on the
profiler and the VM. -/
def World.Register (w : World) (fn : Function) : Outcome :=
  match Statistics.GetFunction w.profiler.stats fn.address with
  | some _ => { world := w }
  | none =>
    let w1 : World := { w with profiler := { w.profiler with
                          functions := w.profiler.functions ++ [fn] } }
    match Statistics.AddFunction w1.profiler.stats fn with
    | .error f => { world := w1, fault := some f }
    | .ok stats => { world := { w1 with profiler := { w1.profiler with stats := stats } } }

/-- `Profiler::BeginFunction(address, frm)` (profiler.cpp 137-148), on the profiler and the
VM. -/
def World.BeginFunction (w : World) (address : Address) (frm : Address) (now : TimePoint) :
    Outcome :=
  if address = 0 then { world := w, fault := some Fault.assertion_failed }
  else
    match Statistics.GetFunctionStatistis w.profiler.stats address with
    | none => { world := w, fault := some Fault.assertion_failed }
    | some fn_stats =>
      let w1 : World := { w with profiler := { w.profiler with
                            stats := Statistics.update w.profiler.stats fn_stats.function.address
                                       (FunctionStatistics.AdjustNumCalls 1) } }
      match CallStack.Push now w1.profiler.call_stack fn_stats.function frm with
      | .error f => { world := w1, fault := some f }
      | .ok calls =>
        let w2 : World := { w1 with profiler := { w1.profiler with call_stack := calls } }
        if w2.profiler.call_graph_enabled then
          match CallGraph.AddCallee w2.profiler.call_graph fn_stats.function.address with
          | .error f => { world := w2, fault := some f }
          | .ok (g, node) =>
            { world := { w2 with profiler := { w2.profiler with
                           call_graph := CallGraph.set_root g (some node) } } }
        else { world := w2 }

/-- How one pass through the body of the loop of `EndFunction` ends, as `Iteration`, with the
VM. -/
inductive World.Iteration where
  | done (w : World) (fn_call : FunctionCall)
  | aborted (w : World) (popped : List FunctionCall) (f : Fault)

/-- The body of the loop of `EndFunction` up to the test of line 178 (profiler.cpp 155-176),
on the profiler and the VM. -/
def World.EndFunction.body (now : TimePoint) (w : World) : World.Iteration :=
  match CallStack.Pop now w.profiler.call_stack with
  | .error f => World.Iteration.aborted w [] f
  | .ok (fn_call, calls) =>
    let w1 : World := { w with profiler := { w.profiler with call_stack := calls } }
    match Statistics.GetFunctionStatistis w1.profiler.stats fn_call.fn.address with
    | none => World.Iteration.aborted w1 [fn_call] Fault.assertion_failed
    | some fn_stats =>
      let w2 : World := { w1 with profiler := { w1.profiler with
                            stats := Statistics.update w1.profiler.stats fn_stats.function.address
                                       (Profiler.EndFunction.record fn_call.timer) } }
      if w2.profiler.call_graph_enabled then
        match Profiler.EndFunction.graph w2.profiler.call_graph with
        | .error f => World.Iteration.aborted w2 [fn_call] f
        | .ok g =>
          World.Iteration.done { w2 with profiler := { w2.profiler with call_graph := g } } fn_call
      else World.Iteration.done w2 fn_call

/-- The `while (true)` loop of `EndFunction` (profiler.cpp 154-181), on the profiler and the
VM; the arguments are those of `Profiler.EndFunction.loop`. -/
def World.EndFunction.loop (address : Address) (clock : Nat → TimePoint) :
    Nat → Nat → World → List FunctionCall → Outcome
  | 0, _, w, popped => { world := w, popped := popped, fault := some Fault.out_of_fuel }
  | fuel + 1, i, w, popped =>
    match World.EndFunction.body (clock i) w with
    | World.Iteration.aborted w1 popped1 f =>
      { world := w1, popped := popped ++ popped1, fault := some f }
    | World.Iteration.done w1 fn_call =>
      if address = 0 ∨ fn_call.fn.address = address then
        { world := w1, popped := popped ++ [fn_call] }
      else World.EndFunction.loop address clock fuel (i + 1) w1 (popped ++ [fn_call])

/-- `Profiler::EndFunction(address)` (profiler.cpp 150-182), on the profiler and the VM. -/
def World.EndFunction (w : World) (address : Address) (clock : Nat → TimePoint) : Outcome :=
  if w.profiler.call_stack.isEmpty then { world := w, fault := some Fault.assertion_failed }
  else if address ≠ 0 ∧ (Statistics.GetFunction w.profiler.stats address).isNone then
    { world := w, fault := some Fault.assertion_failed }
  else World.EndFunction.loop address clock (w.profiler.call_stack.length + 1) 0 w []

/-- The result of one event, on the profiler and the VM. -/
def World.step (w : World) : Event → Outcome
  | Event.register fn => World.Register w fn
  | Event.begin address frm now => World.BeginFunction w address frm now
  | Event.end_ address clock => World.EndFunction w address clock

/-- The events run in order from `w`, stopping at the first fault. -/
def World.run (w : World) : List Event → Outcome
  | [] => { world := w }
  | e :: es =>
    let r := World.step w e
    if r.fault.isSome then r
    else
      let r2 := World.run r.world es
      { r2 with popped := r.popped ++ r2.popped }

/-- The `return` of the step hook (profiler.cpp 78-82): `debug(amx_)` when there is a host
function, which gets the VM and returns a value and the VM as it leaves it, else
`AMX_ERR_NONE`; a faulted outcome returns nothing. -/
def World.finish (debug : Option (AMX → Int × AMX)) (o : Outcome) : Outcome :=
  if o.fault.isSome then o
  else
    match debug with
    | some d =>
      let v := d o.world.amx
      { o with world := { o.world with amx := v.2 }, ret := some v.1 }
    | none => { o with ret := some AMX_ERR_NONE }

/-- `Profiler::DebugHook(debug)` (profiler.cpp 52-83), on the profiler and the VM. -/
def World.DebugHook (w : World) (clock : Nat → TimePoint) (debug : Option (AMX → Int × AMX)) :
    Outcome :=
  let prev_frame : Address :=
    match w.profiler.call_stack with
    | [] => w.amx.stp
    | top :: _ => top.frame
  if w.amx.frm < prev_frame then
    match w.profiler.call_stack with
    | [] => { world := w, fault := some Fault.undefined_behaviour }
    | top :: _ =>
      if top.frame ≠ w.amx.frm then
        let c := World.GetCalleeAddress w.amx w.amx.frm
        let address := c.1
        let w1 : World := { w with amx := c.2 }
        if address ≠ 0 then
          let r := World.Register w1 (Function.Normal address)
          if r.fault.isSome then r
          else World.finish debug (World.BeginFunction r.world address r.world.amx.frm (clock 0))
        else World.finish debug { world := w1 }
      else World.finish debug { world := w }
  else if w.amx.frm > prev_frame then
    match w.profiler.call_stack with
    | [] => { world := w, fault := some Fault.undefined_behaviour }
    | top :: _ =>
      if top.fn.type = FunctionType.NORMAL then
        World.finish debug (World.EndFunction w 0 clock)
      else World.finish debug { world := w }
  else World.finish debug { world := w }

/-- The bracket shared by `CallbackHook` and `ExecHook` once the address is resolved
(profiler.cpp 91-105, 117-131), on the profiler and the VM.  `host` is the host function with
its remaining arguments `a1`, `a2`, `a3` fixed: it gets the VM as the hook has left it, and the
profiler operations it re-enters act on the VM as it leaves it. -/
def World.bracket (w : World) (address : Address) (fn : Function) (frame : Address)
    (a1 a2 a3 : Int) (host : AMX → HostRun) (now : TimePoint) (clock : Nat → TimePoint) :
    Outcome :=
  let r1 : Outcome :=
    if address ≠ 0 then
      let r := World.Register w fn
      if r.fault.isSome then r else World.BeginFunction r.world address frame now
    else { world := w }
  if r1.fault.isSome then r1
  else
    let call : HostCall := ⟨r1.world.amx, a1, a2, a3⟩
    let h := host r1.world.amx
    let r2 := World.run { r1.world with amx := h.amx } h.events
    if r2.fault.isSome then
      { r2 with popped := r1.popped ++ r2.popped, dispatched := [call] }
    else
      let r3 : Outcome :=
        if address ≠ 0 then World.EndFunction r2.world address clock
        else { world := r2.world }
      { world := r3.world, popped := r1.popped ++ r2.popped ++ r3.popped, fault := r3.fault,
        ret := if r3.fault.isSome then none else some h.ret, dispatched := [call] }

/-- The branch of a bracket hook that does not profile (profiler.cpp 108, 134), on the
profiler and the VM. -/
def World.passThrough (w : World) (a1 a2 a3 : Int) (host : AMX → HostRun) : Outcome :=
  let call : HostCall := ⟨w.amx, a1, a2, a3⟩
  let h := host w.amx
  let r2 := World.run { w with amx := h.amx } h.events
  if r2.fault.isSome then { r2 with dispatched := [call] }
  else { r2 with ret := some h.ret, dispatched := [call] }

/-- `Profiler::CallbackHook(index, result, params, callback)` (profiler.cpp 85-109), on the
profiler and the VM.  `callback` is the host function that is called (`::amx_Callback` when the
argument is null). -/
def World.CallbackHook (w : World) (index result params : Int)
    (callback : AMX → Int → Int → Int → HostRun) (now : TimePoint)
    (clock : Nat → TimePoint) : Outcome :=
  if index ≥ 0 then
    let a := World.GetNativeAddress w.amx index
    let address := a.1
    let w1 : World := { w with amx := a.2 }
    World.bracket w1 address (Function.Native w1.amx index) w1.amx.frm index result params
      (fun vm => callback vm index result params) now clock
  else
    World.passThrough w index result params (fun vm => callback vm index result params)

/-- `Profiler::ExecHook(retval, index, exec)` (profiler.cpp 111-135), on the profiler and the
VM.  `exec` is the host function that is called (`::amx_Exec` when the argument is null); the
frame passed to `BeginFunction`, `amx_->stk - 3 * sizeof(cell)`, is a cell. -/
def World.ExecHook (w : World) (retval index : Int) (exec : AMX → Int → Int → HostRun)
    (now : TimePoint) (clock : Nat → TimePoint) : Outcome :=
  if index ≥ 0 ∨ index = AMX_EXEC_MAIN then
    let a := World.GetPublicAddress w.amx index
    let address := a.1
    let w1 : World := { w with amx := a.2 }
    World.bracket w1 address (Function.Public w1.amx index)
      (wrap32 (w1.amx.stk - 3 * sizeof_cell)) retval index 0
      (fun vm => exec vm retval index) now clock
  else
    World.passThrough w retval index 0 (fun vm => exec vm retval index)

/-- The profiler and the VM at the end of a pass through the body of the loop. -/
def World.Iteration.world : World.Iteration → World
  | World.Iteration.done w _ => w
  | World.Iteration.aborted w _ _ => w

/-- The profiler's part of a pass through the body of the loop. -/
def World.Iteration.iteration : World.Iteration → amxprof.Iteration
  | World.Iteration.done w fn_call => amxprof.Iteration.done w.profiler fn_call
  | World.Iteration.aborted w popped f => amxprof.Iteration.aborted w.profiler popped f

/-- A new profiler on the VM with one native (address 30) and one public (address 20). -/
def Scenario.world : World :=
  { profiler := Profiler.new, amx := Scenario.amxOneEntry }

/-- A host `exec` that re-enters nothing, returns 7 and leaves the VM with `frm` 5. -/
def Scenario.execMovesFrame : AMX → Int → Int → HostRun :=
  fun vm _ _ => { events := [], ret := 7, amx := { vm with frm := 5 } }

/-! # Lemmas -/

theorem CallStack.get?_top (c : FunctionCall) (cs : CallStack) :
    CallStack.get? (c :: cs) cs.length = some c := by
  simp [CallStack.get?]

theorem CallStack.get?_cons_lt (c : FunctionCall) (cs : CallStack) (h : Nat)
    (hlt : h < cs.length) : CallStack.get? (c :: cs) h = CallStack.get? cs h := by
  have : h ≠ cs.length := Nat.ne_of_lt hlt
  simp [CallStack.get?, this]

theorem CallStack.get?_append (pre cs : CallStack) (h : Nat) (hlt : h < cs.length) :
    CallStack.get? (pre ++ cs) h = CallStack.get? cs h := by
  induction pre with
  | nil => rfl
  | cons x pre ih =>
    have : h < (pre ++ cs).length := by simp; omega
    rw [List.cons_append, CallStack.get?_cons_lt _ _ _ this, ih]

theorem CallStack.backPtr_nil : CallStack.backPtr [] = none := rfl

theorem CallStack.backPtr_cons (c : FunctionCall) (cs : CallStack) :
    CallStack.backPtr (c :: cs) = some cs.length := by
  simp [CallStack.backPtr]

theorem FunctionCall.findShadow_none (calls : CallStack) (fn : Function) (fuel : Nat) :
    FunctionCall.findShadow calls fn fuel none = none := by
  cases fuel <;> rfl

theorem FunctionCall.findShadow_eq_nearest (fn : Function) :
    ∀ (cs : CallStack), CallStack.WF cs → ∀ (pre : CallStack) (fuel : Nat), cs.length ≤ fuel →
      FunctionCall.findShadow (pre ++ cs) fn fuel (CallStack.backPtr cs) = CallStack.nearest cs fn
  | [], _, pre, fuel, _ => by
    rw [CallStack.backPtr_nil, FunctionCall.findShadow_none]; rfl
  | c :: cs, hwf, pre, fuel, hfuel => by
    obtain ⟨hp, -, -, -, -, -, hcs⟩ := hwf
    obtain ⟨f, rfl⟩ : ∃ f, fuel = f + 1 := ⟨fuel - 1, by simp at hfuel; omega⟩
    have hget : CallStack.get? (pre ++ c :: cs) cs.length = some c := by
      rw [CallStack.get?_append _ _ _ (by simp), CallStack.get?_top]
    rw [CallStack.backPtr_cons]
    simp only [FunctionCall.findShadow, hget, CallStack.nearest]
    by_cases hfn : c.fn = fn
    · simp [hfn]
    · simp only [hfn, if_false]
      have ih := FunctionCall.findShadow_eq_nearest fn cs hcs (pre ++ [c]) f
        (by simp at hfuel; omega)
      rw [hp]
      simpa using ih

theorem CallStack.update_length (cs : CallStack) (h : Nat) (f : FunctionCall → FunctionCall) :
    (CallStack.update cs h f).length = cs.length := by
  induction cs with
  | nil => rfl
  | cons c cs ih =>
    simp only [CallStack.update]
    split <;> simp [ih]

theorem CallStack.backPtr_update (cs : CallStack) (h : Nat) (f : FunctionCall → FunctionCall) :
    CallStack.backPtr (CallStack.update cs h f) = CallStack.backPtr cs := by
  cases cs with
  | nil => rfl
  | cons c cs =>
    simp only [CallStack.update]
    split <;> simp [CallStack.backPtr_cons, CallStack.update_length]

theorem CallStack.nearest_update (cs : CallStack) (h : Nat) (f : FunctionCall → FunctionCall)
    (hf : ∀ c, (f c).fn = c.fn) (fn : Function) :
    CallStack.nearest (CallStack.update cs h f) fn = CallStack.nearest cs fn := by
  induction cs with
  | nil => rfl
  | cons c cs ih =>
    simp only [CallStack.update]
    split
    · simp [CallStack.nearest, hf]
    · simp [CallStack.nearest, ih, CallStack.update_length]

theorem CallStack.WF_update (cs : CallStack) (h : Nat) (f : FunctionCall → FunctionCall)
    (hf : TimerOnly f) (hwf : CallStack.WF cs) : CallStack.WF (CallStack.update cs h f) := by
  induction cs with
  | nil => trivial
  | cons c cs ih =>
    obtain ⟨h1, h2, h3, h4, h5, h6, h7⟩ := hwf
    obtain ⟨g1, g2, g3, g4, g5, g6, g7, g8⟩ := hf c
    simp only [CallStack.update]
    split
    · exact ⟨by rw [g2, h1], by rw [g4, g2, h2], by rw [g5, g1, h3], by rw [g6, h4],
        by rw [g7, h5], by rw [g8, h6], h7⟩
    · exact ⟨by rw [CallStack.backPtr_update]; exact h1, h2,
        by rw [CallStack.nearest_update _ _ _ (fun c => (hf c).1)]; exact h3, h4, h5, h6, ih h7⟩

theorem TimerOnly_Pause (now : TimePoint) :
    TimerOnly (fun c => { c with timer := c.timer.Pause now }) := by
  intro c
  simp only [PerformanceCounter.Pause]
  split <;> simp

theorem TimerOnly_Resume (now : TimePoint) :
    TimerOnly (fun c => { c with timer := c.timer.Resume now }) := by
  intro c
  simp only [PerformanceCounter.Resume]
  split <;> simp

theorem CallStack.WF_PauseCounter (now : TimePoint) (cs : CallStack) (h : Option Nat)
    (hwf : CallStack.WF cs) : CallStack.WF (CallStack.PauseCounter now cs h) := by
  cases h with
  | none => exact hwf
  | some h => exact CallStack.WF_update _ _ _ (TimerOnly_Pause now) hwf

theorem CallStack.WF_ResumeCounter (now : TimePoint) (cs : CallStack) (h : Option Nat)
    (hwf : CallStack.WF cs) : CallStack.WF (CallStack.ResumeCounter now cs h) := by
  cases h with
  | none => exact hwf
  | some h => exact CallStack.WF_update _ _ _ (TimerOnly_Resume now) hwf

theorem CallStack.Push_eq (now : TimePoint) (calls : CallStack) (function : Function)
    (frame : Address) :
    CallStack.Push now calls function frame =
      .ok (CallStack.pushed now calls function frame ::
            CallStack.PauseCounter now calls (CallStack.backPtr calls)) := by
  simp [CallStack.Push, CallStack.PushCall, FunctionCall.new, PerformanceCounter.Start,
    CallStack.pushed]

theorem PerformanceCounter.Stop_eq (now : TimePoint) (c : PerformanceCounter)
    (h : c.started = true) : c.Stop now = .ok (c.stopped now) := by
  simp [PerformanceCounter.Stop, h, PerformanceCounter.stopped]

theorem CallStack.Pop_eq (now : TimePoint) (c : FunctionCall) (cs : CallStack)
    (h : c.timer.started = true) :
    CallStack.Pop now (c :: cs) =
      .ok ({ c with timer := c.timer.stopped now }, CallStack.ResumeCounter now cs c.timer.parent) := by
  simp [CallStack.Pop, PerformanceCounter.Stop_eq now c.timer h, PerformanceCounter.stopped]

theorem CallStack.WF_Push (now : TimePoint) (calls : CallStack) (function : Function)
    (frame : Address) (hwf : CallStack.WF calls) :
    CallStack.WF (CallStack.pushed now calls function frame ::
            CallStack.PauseCounter now calls (CallStack.backPtr calls)) := by
  refine ⟨?_, rfl, ?_, rfl, rfl, rfl, CallStack.WF_PauseCounter _ _ _ hwf⟩
  · cases hb : CallStack.backPtr calls with
    | none => simp [CallStack.pushed, hb, CallStack.PauseCounter]
    | some h => simp [CallStack.pushed, hb, CallStack.PauseCounter, CallStack.backPtr_update]
  · have h1 := FunctionCall.findShadow_eq_nearest function calls hwf [] (calls.length + 1)
      (Nat.le_succ _)
    simp only [List.nil_append] at h1
    simp only [CallStack.pushed, h1]
    cases CallStack.backPtr calls with
    | none => rfl
    | some h =>
      exact (CallStack.nearest_update _ _ _ (fun c => ((TimerOnly_Pause now) c).1) _).symm

theorem CallGraph.updateNode_length (l : List CallGraphNode) (r : Nat)
    (f : CallGraphNode → CallGraphNode) : (CallGraph.updateNode l r f).length = l.length := by
  induction l generalizing r with
  | nil => rfl
  | cons x l ih =>
    cases r with
    | zero => rfl
    | succ r => simp [CallGraph.updateNode, ih]

theorem CallGraph.updateNode_getElem? (l : List CallGraphNode) (r : Nat)
    (f : CallGraphNode → CallGraphNode) (n : Nat) :
    (CallGraph.updateNode l r f)[n]? = if n = r then (l[n]?).map f else l[n]? := by
  induction l generalizing r n with
  | nil => simp [CallGraph.updateNode]
  | cons x l ih =>
    cases r with
    | zero =>
      cases n with
      | zero => simp [CallGraph.updateNode]
      | succ n => simp [CallGraph.updateNode]
    | succ r =>
      cases n with
      | zero => simp [CallGraph.updateNode]
      | succ n => simp [CallGraph.updateNode, ih]

theorem CallGraphNode.AddCallee_caller (node : Nat) (x : CallGraphNode) :
    (CallGraphNode.AddCallee node x).caller = x.caller := by
  simp only [CallGraphNode.AddCallee]; split <;> rfl

theorem CallGraphNode.AddCallee_stats (node : Nat) (x : CallGraphNode) :
    (CallGraphNode.AddCallee node x).stats = x.stats := by
  simp only [CallGraphNode.AddCallee]; split <;> rfl

theorem CallGraph.mem_insert (nodes : List (Address × Nat)) (s : Address) (v : Nat)
    (kn : Address × Nat) (h : kn ∈ CallGraph.insert nodes s v) : kn = (s, v) ∨ kn ∈ nodes := by
  induction nodes with
  | nil => simpa [CallGraph.insert] using h
  | cons kv rest ih =>
    simp only [CallGraph.insert] at h
    split at h
    · simpa using h
    · split at h
      · rcases List.mem_cons.1 h with h | h
        · exact Or.inr (by simp [h])
        · rcases ih h with h | h
          · exact Or.inl h
          · exact Or.inr (List.mem_cons_of_mem _ h)
      · exact Or.inr h

theorem CallGraph.find_mem (nodes : List (Address × Nat)) (s : Address) (n : Nat)
    (h : CallGraph.find nodes s = some n) : ∃ k, (k, n) ∈ nodes := by
  simp only [CallGraph.find, Option.map_eq_some'] at h
  obtain ⟨kv, hkv, rfl⟩ := h
  exact ⟨kv.1, List.mem_of_find?_eq_some hkv⟩

theorem CallGraph.WF_new : CallGraph.WF CallGraph.new := by
  refine ⟨rfl, by simp [CallGraph.new], ⟨0, rfl, by simp [CallGraph.new]⟩, ?_, ?_⟩
  · intro n x hx hn
    cases n with
    | zero => exact absurd rfl hn
    | succ n => simp [CallGraph.new] at hx
  · intro k n h
    simp [CallGraph.new] at h

theorem CallGraph.AddCallee_WF (g : CallGraph) (stats : Address) (hwf : CallGraph.WF g) :
    ∃ g' node, CallGraph.AddCallee g stats = .ok (g', node) ∧
      CallGraph.WF (CallGraph.set_root g' (some node)) := by
  obtain ⟨hs, hlen, ⟨r, hr, hrlt⟩, hcaller, hnodes⟩ := hwf
  cases hfind : CallGraph.find g.nodes stats with
  | none =>
    refine ⟨_, _, by simp only [CallGraph.AddCallee, hfind, hr]; rfl, ?_⟩
    refine ⟨hs, ?_, ⟨g.arena.length, rfl, ?_⟩, ?_, ?_⟩
    · simp [CallGraph.set_root, CallGraph.updateNode_length]
    · simp [CallGraph.set_root, CallGraph.updateNode_length]
    · intro n x hx hn
      simp only [CallGraph.set_root, CallGraph.updateNode_getElem?] at hx
      simp only [CallGraph.set_root, CallGraph.updateNode_length, List.length_append,
        List.length_singleton]
      have key : ∀ y, (g.arena ++ [({ stats := some stats, caller := some r } : CallGraphNode)])[n]?
          = some y → ∃ c, y.caller = some c ∧ c < g.arena.length + 1 := by
        intro y hy
        rcases Nat.lt_or_ge n g.arena.length with hlt | hge
        · rw [List.getElem?_append_left hlt] at hy
          obtain ⟨c, hc, hclt⟩ := hcaller n y hy hn
          exact ⟨c, hc, Nat.lt_succ_of_lt hclt⟩
        · rw [List.getElem?_append_right hge] at hy
          have h0 : n - g.arena.length = 0 := by
            by_contra hne
            have : 1 ≤ n - g.arena.length := Nat.one_le_iff_ne_zero.2 hne
            simp [List.getElem?_eq_none, this] at hy
          simp only [h0, List.getElem?_cons_zero, Option.some.injEq] at hy
          subst hy
          exact ⟨r, rfl, Nat.lt_succ_of_lt hrlt⟩
      split at hx
      · simp only [Option.map_eq_some'] at hx
        obtain ⟨y, hy, rfl⟩ := hx
        rw [CallGraphNode.AddCallee_caller]
        exact key y hy
      · exact key x hx
    · intro k n h
      simp only [CallGraph.set_root, CallGraph.updateNode_length, List.length_append,
        List.length_singleton]
      simp only [CallGraph.set_root] at h
      rcases CallGraph.mem_insert _ _ _ _ h with h | h
      · simp only [Prod.mk.injEq] at h
        omega
      · exact Nat.lt_succ_of_lt (hnodes k n h)
  | some node =>
    obtain ⟨k, hk⟩ := CallGraph.find_mem _ _ _ hfind
    have hnode := hnodes k node hk
    refine ⟨_, _, by simp only [CallGraph.AddCallee, hfind, hr]; rfl, ?_⟩
    refine ⟨hs, ?_, ⟨node, rfl, ?_⟩, ?_, ?_⟩
    · simpa [CallGraph.set_root, CallGraph.updateNode_length] using hlen
    · simpa [CallGraph.set_root, CallGraph.updateNode_length] using hnode
    · intro n x hx hn
      simp only [CallGraph.set_root, CallGraph.updateNode_getElem?] at hx
      simp only [CallGraph.set_root, CallGraph.updateNode_length]
      split at hx
      · simp only [Option.map_eq_some'] at hx
        obtain ⟨y, hy, rfl⟩ := hx
        rw [CallGraphNode.AddCallee_caller]
        exact hcaller n y hy hn
      · exact hcaller n x hx hn
    · intro k n h
      simp only [CallGraph.set_root, CallGraph.updateNode_length]
      exact hnodes k n h

theorem Profiler.EndFunction.graph_WF (g : CallGraph) (hwf : CallGraph.WF g) :
    (g.root = some g.sentinel ∧ Profiler.EndFunction.graph g = .error Fault.assertion_failed) ∨
    (g.root ≠ some g.sentinel ∧
      ∃ g', Profiler.EndFunction.graph g = .ok g' ∧ CallGraph.WF g' ∧
        ∃ r c, g.root = some r ∧ CallGraph.caller g r = some (some c) ∧ g' = CallGraph.set_root g (some c)) := by
  obtain ⟨hs, hlen, ⟨r, hr, hrlt⟩, hcaller, hnodes⟩ := hwf
  by_cases h : g.root = some g.sentinel
  · exact Or.inl ⟨h, by simp [Profiler.EndFunction.graph, h]⟩
  · refine Or.inr ⟨h, ?_⟩
    have hr0 : r ≠ 0 := by
      intro h0
      apply h
      rw [hr, hs, h0]
    obtain ⟨x, hx⟩ : ∃ x, g.arena[r]? = some x := ⟨g.arena[r], List.getElem?_eq_getElem hrlt⟩
    obtain ⟨c, hc, hclt⟩ := hcaller r x hx hr0
    refine ⟨CallGraph.set_root g (some c), ?_, ?_, r, c, hr, ?_, rfl⟩
    · simp [Profiler.EndFunction.graph, hr, hs, hr0, CallGraph.caller, hx, hc]
    · exact ⟨hs, hlen, ⟨c, rfl, hclt⟩, hcaller, hnodes⟩
    · simp [CallGraph.caller, hx, hc]

theorem Statistics.find_address (stats : Statistics) (a : Address) (s : FunctionStatistics)
    (h : Statistics.GetFunctionStatistis stats a = some s) : s.function.address = a := by
  have := List.find?_some h
  simpa using this

theorem Statistics.find_update (stats : Statistics) (a b : Address)
    (f : FunctionStatistics → FunctionStatistics) (hf : ∀ s, (f s).function = s.function) :
    Statistics.GetFunctionStatistis (Statistics.update stats a f) b =
      if b = a then (Statistics.GetFunctionStatistis stats a).map f
      else Statistics.GetFunctionStatistis stats b := by
  induction stats with
  | nil => simp [Statistics.update, Statistics.GetFunctionStatistis]
  | cons s rest ih =>
    simp only [Statistics.GetFunctionStatistis] at ih
    by_cases hs : s.function.address = a
    · by_cases hb : b = a
      · subst hb
        simp [Statistics.update, Statistics.GetFunctionStatistis, hs, hf]
      · have : ¬ s.function.address = b := fun h => hb (h ▸ hs)
        simp [Statistics.update, Statistics.GetFunctionStatistis, hs, hf, hb, this, Ne.symm hb]
    · by_cases hb : b = a
      · subst hb
        simp [Statistics.update, Statistics.GetFunctionStatistis, hs, ih]
      · by_cases hsb : s.function.address = b
        · simp [Statistics.update, Statistics.GetFunctionStatistis, hs, hb, hsb]
        · simp [Statistics.update, Statistics.GetFunctionStatistis, hs, hb, hsb, ih]

theorem Statistics.isSome_update (stats : Statistics) (a b : Address)
    (f : FunctionStatistics → FunctionStatistics) (hf : ∀ s, (f s).function = s.function) :
    (Statistics.GetFunctionStatistis (Statistics.update stats a f) b).isSome =
      (Statistics.GetFunctionStatistis stats b).isSome := by
  rw [Statistics.find_update _ _ _ _ hf]
  split
  · next h => subst h; simp
  · rfl

theorem Profiler.EndFunction.record_function (timer : PerformanceCounter)
    (s : FunctionStatistics) : (Profiler.EndFunction.record timer s).function = s.function := by
  simp only [Profiler.EndFunction.record, FunctionStatistics.set_worst_self_time,
    FunctionStatistics.set_worst_total_time, FunctionStatistics.AdjustTotalTime,
    FunctionStatistics.AdjustSelfTime]
  split <;> split <;> rfl

theorem Profiler.EndFunction.record_num_calls (timer : PerformanceCounter)
    (s : FunctionStatistics) : (Profiler.EndFunction.record timer s).num_calls = s.num_calls := by
  simp only [Profiler.EndFunction.record, FunctionStatistics.set_worst_self_time,
    FunctionStatistics.set_worst_total_time, FunctionStatistics.AdjustTotalTime,
    FunctionStatistics.AdjustSelfTime]
  split <;> split <;> rfl

theorem CallStack.update_map_fn (cs : CallStack) (h : Nat) (f : FunctionCall → FunctionCall)
    (hf : TimerOnly f) : (CallStack.update cs h f).map (fun c => c.fn) = cs.map (fun c => c.fn) := by
  induction cs with
  | nil => rfl
  | cons c cs ih =>
    simp only [CallStack.update]
    split
    · simp [(hf c).1]
    · simp [ih]

theorem CallStack.PauseCounter_map_fn (now : TimePoint) (cs : CallStack) (h : Option Nat) :
    (CallStack.PauseCounter now cs h).map (fun c => c.fn) = cs.map (fun c => c.fn) := by
  cases h with
  | none => rfl
  | some h => exact CallStack.update_map_fn _ _ _ (TimerOnly_Pause now)

theorem CallStack.ResumeCounter_map_fn (now : TimePoint) (cs : CallStack) (h : Option Nat) :
    (CallStack.ResumeCounter now cs h).map (fun c => c.fn) = cs.map (fun c => c.fn) := by
  cases h with
  | none => rfl
  | some h => exact CallStack.update_map_fn _ _ _ (TimerOnly_Resume now)

theorem CallStack.PauseCounter_length (now : TimePoint) (cs : CallStack) (h : Option Nat) :
    (CallStack.PauseCounter now cs h).length = cs.length := by
  cases h with
  | none => rfl
  | some h => exact CallStack.update_length _ _ _

theorem CallStack.ResumeCounter_length (now : TimePoint) (cs : CallStack) (h : Option Nat) :
    (CallStack.ResumeCounter now cs h).length = cs.length := by
  cases h with
  | none => rfl
  | some h => exact CallStack.update_length _ _ _

theorem CallStack.registered_of_map_fn (stats : Statistics) (cs cs' : CallStack)
    (hmap : cs'.map (fun c => c.fn) = cs.map (fun c => c.fn))
    (h : ∀ c ∈ cs, (Statistics.GetFunctionStatistis stats c.fn.address).isSome = true) :
    ∀ c ∈ cs', (Statistics.GetFunctionStatistis stats c.fn.address).isSome = true := by
  intro c hc
  have : c.fn ∈ cs'.map (fun c => c.fn) := List.mem_map_of_mem _ hc
  rw [hmap] at this
  obtain ⟨d, hd, hfn⟩ := List.mem_map.1 this
  rw [← hfn]
  exact h d hd

/-- One pass through the loop body from a state satisfying the invariant, with `c` on top of
the stack: the activation is popped and recorded, and the pass reaches the test unless the
call graph is enabled with its root at the sentinel. -/
theorem Profiler.EndFunction.body_eq (now : TimePoint) (p : Profiler) (c : FunctionCall)
    (cs : CallStack) (hinv : Profiler.Inv p) (hstack : p.call_stack = c :: cs) :
    (p.call_graph_enabled = false ∧
      Profiler.EndFunction.body now p =
        Iteration.done (Profiler.popRecord now p c cs) { c with timer := c.timer.stopped now }) ∨
    (p.call_graph_enabled = true ∧ p.call_graph.root = some p.call_graph.sentinel ∧
      Profiler.EndFunction.body now p =
        Iteration.aborted (Profiler.popRecord now p c cs) [{ c with timer := c.timer.stopped now }]
          Fault.assertion_failed) ∨
    (p.call_graph_enabled = true ∧ p.call_graph.root ≠ some p.call_graph.sentinel ∧
      ∃ r n, p.call_graph.root = some r ∧ CallGraph.caller p.call_graph r = some (some n) ∧
      Profiler.EndFunction.body now p =
        Iteration.done { Profiler.popRecord now p c cs with
                           call_graph := CallGraph.set_root p.call_graph (some n) }
          { c with timer := c.timer.stopped now }) := by
  obtain ⟨hwf, hreg, hg⟩ := hinv
  rw [hstack] at hwf hreg
  have hstarted : c.timer.started = true := hwf.2.2.2.1
  have hc := hreg c (List.mem_cons_self _ _)
  obtain ⟨s, hs⟩ := Option.isSome_iff_exists.1 hc
  have hsa := Statistics.find_address _ _ _ hs
  have hpop := CallStack.Pop_eq now c cs hstarted
  have hparent : (c.timer.stopped now).parent = c.timer.parent := rfl
  cases hen : p.call_graph_enabled with
  | false =>
    left
    refine ⟨rfl, ?_⟩
    simp [Profiler.EndFunction.body, hstack, hpop, hs, hsa, hen, Profiler.popRecord,
      PerformanceCounter.stopped]
  | true =>
    right
    rcases Profiler.EndFunction.graph_WF _ hg with ⟨hroot, hgr⟩ | ⟨hroot, g', hgr, -, r, n, hr, hcal, rfl⟩
    · left
      refine ⟨rfl, hroot, ?_⟩
      simp [Profiler.EndFunction.body, hstack, hpop, hs, hsa, hen, Profiler.popRecord,
        PerformanceCounter.stopped, hgr]
    · right
      refine ⟨rfl, hroot, r, n, hr, hcal, ?_⟩
      simp [Profiler.EndFunction.body, hstack, hpop, hs, hsa, hen, Profiler.popRecord,
        PerformanceCounter.stopped, hgr]

theorem Profiler.Inv_popRecord (now : TimePoint) (p : Profiler) (c : FunctionCall)
    (cs : CallStack) (hinv : Profiler.Inv p) (hstack : p.call_stack = c :: cs) :
    Profiler.Inv (Profiler.popRecord now p c cs) := by
  obtain ⟨hwf, hreg, hg⟩ := hinv
  rw [hstack] at hwf hreg
  refine ⟨CallStack.WF_ResumeCounter _ _ _ hwf.2.2.2.2.2.2, ?_, hg⟩
  intro d hd
  simp only [Profiler.popRecord] at hd ⊢
  rw [Statistics.isSome_update _ _ _ _ (Profiler.EndFunction.record_function _)]
  exact CallStack.registered_of_map_fn p.stats cs _ (CallStack.ResumeCounter_map_fn _ _ _)
    (fun x hx => hreg x (List.mem_cons_of_mem _ hx)) d hd

theorem Statistics.find_append (stats : Statistics) (x : FunctionStatistics) (a : Address) :
    Statistics.GetFunctionStatistis (stats ++ [x]) a =
      match Statistics.GetFunctionStatistis stats a with
      | some s => some s
      | none => if x.function.address = a then some x else none := by
  simp only [Statistics.GetFunctionStatistis, List.find?_append]
  cases h : List.find? (fun s => decide (s.function.address = a)) stats with
  | some s => simp
  | none =>
    by_cases hx : x.function.address = a <;> simp [List.find?, hx]

theorem Profiler.Register_eq (p : Profiler) (fn : Function) :
    Profiler.Register p fn =
      match Statistics.GetFunctionStatistis p.stats fn.address with
      | some _ => { state := p }
      | none => { state := { p with functions := p.functions ++ [fn],
                                    stats := p.stats ++ [{ function := fn }] } } := by
  cases h : Statistics.GetFunctionStatistis p.stats fn.address with
  | some s => simp [Profiler.Register, Statistics.GetFunction, h]
  | none => simp [Profiler.Register, Statistics.GetFunction, Statistics.AddFunction, h]

theorem Profiler.Register_fault (p : Profiler) (fn : Function) :
    (Profiler.Register p fn).fault = none := by
  rw [Profiler.Register_eq]
  split <;> rfl

theorem Profiler.Register_popped (p : Profiler) (fn : Function) :
    (Profiler.Register p fn).popped = [] := by
  rw [Profiler.Register_eq]
  split <;> rfl

theorem Profiler.Inv_Register (p : Profiler) (fn : Function) (hinv : Profiler.Inv p) :
    Profiler.Inv (Profiler.Register p fn).state := by
  rw [Profiler.Register_eq]
  split
  · exact hinv
  · obtain ⟨hwf, hreg, hg⟩ := hinv
    refine ⟨hwf, ?_, hg⟩
    intro c hc
    have := hreg c hc
    obtain ⟨s, hs⟩ := Option.isSome_iff_exists.1 this
    simp only [Statistics.find_append, hs]
    rfl

theorem Profiler.Register_find (p : Profiler) (fn : Function) :
    (Statistics.GetFunctionStatistis (Profiler.Register p fn).state.stats fn.address).isSome
      = true := by
  rw [Profiler.Register_eq]
  cases h : Statistics.GetFunctionStatistis p.stats fn.address with
  | some s => simp [h]
  | none => simp [Statistics.find_append, h]

theorem Profiler.BeginFunction_eq (p : Profiler) (address frm : Address) (now : TimePoint)
    (s : FunctionStatistics) (ha : address ≠ 0)
    (hs : Statistics.GetFunctionStatistis p.stats address = some s)
    (hg : CallGraph.WF p.call_graph) :
    ∃ g, CallGraph.WF g ∧ (p.call_graph_enabled = false → g = p.call_graph) ∧
      Profiler.BeginFunction p address frm now =
        { state := { Profiler.pushed now p s.function frm with call_graph := g } } := by
  cases hen : p.call_graph_enabled with
  | false =>
    refine ⟨p.call_graph, hg, fun _ => rfl, ?_⟩
    simp [Profiler.BeginFunction, ha, hs, CallStack.Push_eq, hen, Profiler.pushed]
  | true =>
    obtain ⟨g', node, hadd, hwf⟩ := CallGraph.AddCallee_WF p.call_graph s.function.address hg
    refine ⟨_, hwf, fun h => by simp at h, ?_⟩
    simp [Profiler.BeginFunction, ha, hs, CallStack.Push_eq, hen, Profiler.pushed, hadd]

theorem Profiler.BeginFunction_assert (p : Profiler) (address frm : Address) (now : TimePoint)
    (h : address = 0 ∨ Statistics.GetFunctionStatistis p.stats address = none) :
    Profiler.BeginFunction p address frm now =
      { state := p, fault := some Fault.assertion_failed } := by
  by_cases ha : address = 0
  · simp [Profiler.BeginFunction, ha]
  · rcases h with h | h
    · exact absurd h ha
    · simp [Profiler.BeginFunction, ha, h]

theorem FunctionStatistics.AdjustNumCalls_function (d : Int) (s : FunctionStatistics) :
    (FunctionStatistics.AdjustNumCalls d s).function = s.function := rfl

theorem Profiler.Inv_pushed (now : TimePoint) (p : Profiler) (s : FunctionStatistics)
    (frm : Address) (g : CallGraph) (hinv : Profiler.Inv p) (hg : CallGraph.WF g)
    (hs : (Statistics.GetFunctionStatistis p.stats s.function.address).isSome = true) :
    Profiler.Inv { Profiler.pushed now p s.function frm with call_graph := g } := by
  obtain ⟨hwf, hreg, -⟩ := hinv
  refine ⟨CallStack.WF_Push now _ _ _ hwf, ?_, hg⟩
  intro c hc
  simp only [Profiler.pushed] at hc ⊢
  rw [Statistics.isSome_update _ _ _ _ (FunctionStatistics.AdjustNumCalls_function 1)]
  rcases List.mem_cons.1 hc with rfl | hc
  · exact hs
  · exact CallStack.registered_of_map_fn p.stats _ _ (CallStack.PauseCounter_map_fn _ _ _)
      hreg c hc

theorem Profiler.Inv_BeginFunction (p : Profiler) (address frm : Address) (now : TimePoint)
    (hinv : Profiler.Inv p) : Profiler.Inv (Profiler.BeginFunction p address frm now).state := by
  by_cases ha : address = 0
  · rw [Profiler.BeginFunction_assert _ _ _ _ (Or.inl ha)]; exact hinv
  · cases hs : Statistics.GetFunctionStatistis p.stats address with
    | none => rw [Profiler.BeginFunction_assert _ _ _ _ (Or.inr hs)]; exact hinv
    | some s =>
      obtain ⟨g, hg, -, heq⟩ := Profiler.BeginFunction_eq p address frm now s ha hs hinv.2.2
      rw [heq]
      refine Profiler.Inv_pushed now p s frm g hinv hg ?_
      rw [Statistics.find_address _ _ _ hs, hs]; rfl

theorem Profiler.EndFunction.body_nil (now : TimePoint) (p : Profiler)
    (h : p.call_stack = []) :
    Profiler.EndFunction.body now p = Iteration.aborted p [] Fault.undefined_behaviour := by
  simp [Profiler.EndFunction.body, h, CallStack.Pop]

/-- Induction over the loop of `EndFunction`: a relation between the state and the
activations popped so far that every pass through the body maintains holds of the result. -/
theorem Profiler.EndFunction.loop_induct (J : Profiler → List FunctionCall → Prop)
    (address : Address) (clock : Nat → TimePoint)
    (hdone : ∀ now p popped p1 c, J p popped →
      Profiler.EndFunction.body now p = Iteration.done p1 c → J p1 (popped ++ [c]))
    (habort : ∀ now p popped p1 l f, J p popped →
      Profiler.EndFunction.body now p = Iteration.aborted p1 l f → J p1 (popped ++ l)) :
    ∀ (fuel i : Nat) (p : Profiler) (popped : List FunctionCall), J p popped →
      J (Profiler.EndFunction.loop address clock fuel i p popped).state
        (Profiler.EndFunction.loop address clock fuel i p popped).popped := by
  intro fuel
  induction fuel with
  | zero => intro i p popped h; exact h
  | succ fuel ih =>
    intro i p popped h
    simp only [Profiler.EndFunction.loop]
    cases hb : Profiler.EndFunction.body (clock i) p with
    | aborted p1 l f => exact habort _ _ _ _ _ _ h hb
    | done p1 c =>
      simp only
      split
      · exact hdone _ _ _ _ _ h hb
      · exact ih _ _ _ (hdone _ _ _ _ _ h hb)

theorem Profiler.Inv_body (now : TimePoint) (p : Profiler) (hinv : Profiler.Inv p) :
    match Profiler.EndFunction.body now p with
    | Iteration.done p1 _ => Profiler.Inv p1
    | Iteration.aborted p1 _ _ => Profiler.Inv p1 := by
  cases hstack : p.call_stack with
  | nil => rw [Profiler.EndFunction.body_nil now p hstack]; exact hinv
  | cons c cs =>
    have hpr := Profiler.Inv_popRecord now p c cs hinv hstack
    rcases Profiler.EndFunction.body_eq now p c cs hinv hstack with
      ⟨-, h⟩ | ⟨-, -, h⟩ | ⟨-, hroot, r, n, hr, hcal, h⟩
    · rw [h]; exact hpr
    · rw [h]; exact hpr
    · rw [h]
      refine ⟨hpr.1, hpr.2.1, ?_⟩
      rcases Profiler.EndFunction.graph_WF _ hinv.2.2 with ⟨h1, -⟩ | ⟨-, g', -, hwf, r', c', hr', hc', rfl⟩
      · exact absurd h1 hroot
      · rw [hr] at hr'
        cases hr'
        rw [hcal] at hc'
        cases hc'
        exact hwf

theorem Profiler.Inv_EndFunction (p : Profiler) (address : Address) (clock : Nat → TimePoint)
    (hinv : Profiler.Inv p) : Profiler.Inv (Profiler.EndFunction p address clock).state := by
  simp only [Profiler.EndFunction]
  split
  · exact hinv
  · split
    · exact hinv
    · refine Profiler.EndFunction.loop_induct (fun p _ => Profiler.Inv p) address clock ?_ ?_
        _ _ _ _ hinv
      · intro now p popped p1 c h hb
        have := Profiler.Inv_body now p h
        rw [hb] at this
        exact this
      · intro now p popped p1 l f h hb
        have := Profiler.Inv_body now p h
        rw [hb] at this
        exact this

theorem Profiler.Inv_step (p : Profiler) (e : Event) (hinv : Profiler.Inv p) :
    Profiler.Inv (Profiler.step p e).state := by
  cases e with
  | register fn => exact Profiler.Inv_Register p fn hinv
  | begin address frm now => exact Profiler.Inv_BeginFunction p address frm now hinv
  | end_ address clock => exact Profiler.Inv_EndFunction p address clock hinv

theorem Profiler.Inv_run (es : List Event) : ∀ (p : Profiler), Profiler.Inv p →
    Profiler.Inv (Profiler.run p es).state := by
  induction es with
  | nil => intro p h; exact h
  | cons e es ih =>
    intro p h
    simp only [Profiler.run]
    split
    · exact Profiler.Inv_step p e h
    · exact ih _ (Profiler.Inv_step p e h)

theorem Profiler.Inv_new (enabled : Bool) :
    Profiler.Inv (Profiler.set_call_graph_enabled Profiler.new enabled) :=
  ⟨trivial, by intro c hc; simp [Profiler.set_call_graph_enabled, Profiler.new] at hc,
    CallGraph.WF_new⟩

theorem Profiler.EndFunction.body_length (now : TimePoint) (p p1 : Profiler) (c : FunctionCall)
    (h : Profiler.EndFunction.body now p = Iteration.done p1 c) :
    p1.call_stack.length + 1 = p.call_stack.length := by
  simp only [Profiler.EndFunction.body] at h
  cases hstack : p.call_stack with
  | nil => simp [hstack, CallStack.Pop] at h
  | cons top cs =>
    simp only [hstack, CallStack.Pop] at h
    cases hstop : top.timer.Stop now with
    | error f => simp [hstop] at h
    | ok t =>
      simp only [hstop] at h
      split at h
      · simp at h
      · split at h
        · split at h
          · simp at h
          · simp only [Iteration.done.injEq] at h
            rw [← h.1]
            simp [CallStack.ResumeCounter_length]
        · simp only [Iteration.done.injEq] at h
          rw [← h.1]
          simp [CallStack.ResumeCounter_length]

theorem CallStack.Pop_fault (now : TimePoint) (cs : CallStack) (f : Fault)
    (h : CallStack.Pop now cs = .error f) : f ≠ Fault.out_of_fuel := by
  cases cs with
  | nil =>
    simp only [CallStack.Pop, Except.error.injEq] at h
    rw [← h]; decide
  | cons top cs =>
    simp only [CallStack.Pop, PerformanceCounter.Stop] at h
    by_cases hst : top.timer.started = true
    · simp [hst] at h
    · simp only [hst, Bool.not_false, if_true, Except.error.injEq] at h
      rw [← h]; decide

theorem Profiler.EndFunction.graph_fault (g : CallGraph) (f : Fault)
    (h : Profiler.EndFunction.graph g = .error f) : f ≠ Fault.out_of_fuel := by
  simp only [Profiler.EndFunction.graph] at h
  split at h
  · simp only [Except.error.injEq] at h
    rw [← h]; decide
  · split at h
    · simp only [Except.error.injEq] at h
      rw [← h]; decide
    · split at h
      · simp only [Except.error.injEq] at h
        rw [← h]; decide
      · simp at h

theorem Profiler.EndFunction.body_fault (now : TimePoint) (p p1 : Profiler)
    (l : List FunctionCall) (f : Fault)
    (h : Profiler.EndFunction.body now p = Iteration.aborted p1 l f) : f ≠ Fault.out_of_fuel := by
  simp only [Profiler.EndFunction.body] at h
  cases hpop : CallStack.Pop now p.call_stack with
  | error f' =>
    simp only [hpop, Iteration.aborted.injEq] at h
    rw [← h.2.2]
    exact CallStack.Pop_fault _ _ _ hpop
  | ok r =>
    obtain ⟨c, calls⟩ := r
    simp only [hpop] at h
    cases hfind : Statistics.GetFunctionStatistis p.stats c.fn.address with
    | none =>
      simp only [hfind, Iteration.aborted.injEq] at h
      rw [← h.2.2]; decide
    | some s =>
      simp only [hfind] at h
      cases hen : p.call_graph_enabled with
      | false => simp [hen] at h
      | true =>
        simp only [hen, if_true] at h
        cases hg : Profiler.EndFunction.graph p.call_graph with
        | error f' =>
          simp only [hg, Iteration.aborted.injEq] at h
          rw [← h.2.2]
          exact Profiler.EndFunction.graph_fault _ _ hg
        | ok g => simp [hg] at h

/-- The bound on the iterations of the loop of `EndFunction` is never reached. -/
theorem Profiler.EndFunction.loop_fuel (address : Address) (clock : Nat → TimePoint) :
    ∀ (fuel i : Nat) (p : Profiler) (popped : List FunctionCall),
      p.call_stack.length < fuel →
      (Profiler.EndFunction.loop address clock fuel i p popped).fault ≠ some Fault.out_of_fuel := by
  intro fuel
  induction fuel with
  | zero => intro i p popped h; exact absurd h (Nat.not_lt_zero _)
  | succ fuel ih =>
    intro i p popped h
    simp only [Profiler.EndFunction.loop]
    cases hb : Profiler.EndFunction.body (clock i) p with
    | aborted p1 l f =>
      intro hf
      exact Profiler.EndFunction.body_fault _ _ _ _ _ hb (Option.some.inj hf)
    | done p1 c =>
      simp only
      split
      · simp
      · apply ih
        have := Profiler.EndFunction.body_length _ _ _ _ hb
        omega

theorem Profiler.EndFunction_fuel (p : Profiler) (address : Address) (clock : Nat → TimePoint) :
    (Profiler.EndFunction p address clock).fault ≠ some Fault.out_of_fuel := by
  simp only [Profiler.EndFunction]
  split
  · simp
  · split
    · simp
    · exact Profiler.EndFunction.loop_fuel address clock _ _ _ _ (Nat.lt_succ_self _)

theorem Result.finish_state (amx : AMX) (debug : Option (AMX → Int)) (r : Result) :
    (Result.finish amx debug r).state = r.state := by
  simp only [Result.finish]; split <;> rfl

theorem Result.finish_popped (amx : AMX) (debug : Option (AMX → Int)) (r : Result) :
    (Result.finish amx debug r).popped = r.popped := by
  simp only [Result.finish]; split <;> rfl

theorem Result.finish_fault (amx : AMX) (debug : Option (AMX → Int)) (r : Result) :
    (Result.finish amx debug r).fault = r.fault := by
  simp only [Result.finish]; split <;> rfl

/-- `EndFunction()` from a state satisfying the invariant, with `c` on top of the stack: one
activation is popped and recorded; the call returns unless the call graph is enabled with its
root at the sentinel, in which case the assertion of line 174 fails after the pop. -/
theorem Profiler.EndFunction_zero (p : Profiler) (clock : Nat → TimePoint) (c : FunctionCall)
    (cs : CallStack) (hinv : Profiler.Inv p) (hstack : p.call_stack = c :: cs) :
    (Profiler.EndFunction p 0 clock).popped = [{ c with timer := c.timer.stopped (clock 0) }] ∧
    (Profiler.EndFunction p 0 clock).state.call_stack =
      CallStack.ResumeCounter (clock 0) cs c.timer.parent ∧
    (Profiler.EndFunction p 0 clock).state.stats =
      Statistics.update p.stats c.fn.address
        (Profiler.EndFunction.record (c.timer.stopped (clock 0))) ∧
    (Profiler.EndFunction p 0 clock).state.functions = p.functions ∧
    ((Profiler.EndFunction p 0 clock).fault = none ∨
      ((Profiler.EndFunction p 0 clock).fault = some Fault.assertion_failed ∧
        p.call_graph_enabled = true ∧ p.call_graph.root = some p.call_graph.sentinel)) := by
  have hne : p.call_stack.isEmpty = false := by rw [hstack]; rfl
  have hE : Profiler.EndFunction p 0 clock =
      Profiler.EndFunction.loop 0 clock (p.call_stack.length + 1) 0 p [] := by
    simp [Profiler.EndFunction, hne]
  rw [hE]
  simp only [Profiler.EndFunction.loop]
  rcases Profiler.EndFunction.body_eq (clock 0) p c cs hinv hstack with
    ⟨-, h⟩ | ⟨hen, hroot, h⟩ | ⟨-, -, r, n, -, -, h⟩
  · rw [h]
    simp [Profiler.popRecord]
  · rw [h]
    simp [Profiler.popRecord, hen, hroot]
  · rw [h]
    simp [Profiler.popRecord]

theorem CallStack.update_map_ident (cs : CallStack) (h : Nat)
    (f : FunctionCall → FunctionCall) (hf : TimerOnly f) :
    (CallStack.update cs h f).map (fun c => (c.fn, c.frame, c.parent)) =
      cs.map (fun c => (c.fn, c.frame, c.parent)) := by
  induction cs with
  | nil => rfl
  | cons c cs ih =>
    simp only [CallStack.update]
    split
    · simp [(hf c).1, (hf c).2.1, (hf c).2.2.1]
    · simp [ih]

theorem CallStack.ResumeCounter_map_ident (now : TimePoint) (cs : CallStack) (h : Option Nat) :
    (CallStack.ResumeCounter now cs h).map (fun c => (c.fn, c.frame, c.parent)) =
      cs.map (fun c => (c.fn, c.frame, c.parent)) := by
  cases h with
  | none => rfl
  | some h => exact CallStack.update_map_ident _ _ _ (TimerOnly_Resume now)

theorem CallStack.PauseCounter_map_ident (now : TimePoint) (cs : CallStack) (h : Option Nat) :
    (CallStack.PauseCounter now cs h).map (fun c => (c.fn, c.frame, c.parent)) =
      cs.map (fun c => (c.fn, c.frame, c.parent)) := by
  cases h with
  | none => rfl
  | some h => exact CallStack.update_map_ident _ _ _ (TimerOnly_Pause now)

theorem Statistics.update_map_function (stats : Statistics) (a : Address)
    (f : FunctionStatistics → FunctionStatistics) (hf : ∀ s, (f s).function = s.function) :
    (Statistics.update stats a f).map (fun s => s.function) = stats.map (fun s => s.function) := by
  induction stats with
  | nil => rfl
  | cons s rest ih =>
    simp only [Statistics.update]
    split
    · simp [hf]
    · simp [ih]

theorem CallStack.update_map {β : Type} (g : FunctionCall → β) (cs : CallStack) (h : Nat)
    (f : FunctionCall → FunctionCall) (hg : ∀ c, g (f c) = g c) :
    (CallStack.update cs h f).map g = cs.map g := by
  induction cs with
  | nil => rfl
  | cons c cs ih =>
    simp only [CallStack.update]
    split
    · simp [hg]
    · simp [ih]

theorem CallStack.PauseCounter_map {β : Type} (g : FunctionCall → β)
    (hg : ∀ (c : FunctionCall) (t : PerformanceCounter), g { c with timer := t } = g c)
    (now : TimePoint) (cs : CallStack) (h : Option Nat) :
    (CallStack.PauseCounter now cs h).map g = cs.map g := by
  cases h with
  | none => rfl
  | some h => exact CallStack.update_map g _ _ _ (fun c => hg c _)

theorem CallStack.ResumeCounter_map {β : Type} (g : FunctionCall → β)
    (hg : ∀ (c : FunctionCall) (t : PerformanceCounter), g { c with timer := t } = g c)
    (now : TimePoint) (cs : CallStack) (h : Option Nat) :
    (CallStack.ResumeCounter now cs h).map g = cs.map g := by
  cases h with
  | none => rfl
  | some h => exact CallStack.update_map g _ _ _ (fun c => hg c _)

theorem CallStack.run_WF (clock : Nat → TimePoint) (ops : List StackOp) :
    ∀ (i : Nat) (calls final : CallStack) (popped : List FunctionCall), CallStack.WF calls →
      CallStack.run clock i ops calls = .ok (final, popped) → CallStack.WF final := by
  induction ops with
  | nil =>
    intro i calls final popped hwf h
    simp only [CallStack.run, Except.ok.injEq, Prod.mk.injEq] at h
    rw [← h.1]; exact hwf
  | cons op ops ih =>
    intro i calls final popped hwf h
    cases op with
    | push function frame =>
      simp only [CallStack.run, CallStack.Push_eq] at h
      exact ih _ _ _ _ (CallStack.WF_Push _ _ _ _ hwf) h
    | pop =>
      cases calls with
      | nil => simp [CallStack.run, CallStack.Pop] at h
      | cons c cs =>
        simp only [CallStack.run, CallStack.Pop_eq (clock i) c cs hwf.2.2.2.1] at h
        cases hrun : CallStack.run clock (i + 1) ops
            (CallStack.ResumeCounter (clock i) cs c.timer.parent) with
        | error f => simp [hrun] at h
        | ok res =>
          obtain ⟨final', popped'⟩ := res
          simp only [hrun, Except.ok.injEq, Prod.mk.injEq] at h
          rw [← h.1]
          exact ih _ _ _ _ (CallStack.WF_ResumeCounter _ _ _ hwf.2.2.2.2.2.2) hrun

/-- Balanced operations run from a well-formed stack of the starting depth: they empty the
stack, the pops return the activations in last-in-first-out order and every counter returned
was started once and stopped once. -/
theorem CallStack.run_balanced (clock : Nat → TimePoint) (ops : List StackOp) :
    ∀ (i : Nat) (calls : CallStack), CallStack.WF calls →
      StackOp.balancedFrom calls.length ops = true →
      ∃ popped, CallStack.run clock i ops calls = .ok ([], popped) ∧
        popped.map (fun c => (c.fn, c.frame)) =
          StackOp.lifo ops (calls.map (fun c => (c.fn, c.frame))) ∧
        (∀ c ∈ popped, c.timer.num_starts = 1 ∧ c.timer.num_stops = 1 ∧
          c.timer.started = false) ∧
        popped.length = StackOp.pushes ops + calls.length := by
  induction ops with
  | nil =>
    intro i calls hwf hbal
    have : calls = [] := by
      simp only [StackOp.balancedFrom, beq_iff_eq] at hbal
      exact List.length_eq_zero.1 hbal
    subst this
    exact ⟨[], rfl, rfl, by simp, rfl⟩
  | cons op ops ih =>
    intro i calls hwf hbal
    cases op with
    | push function frame =>
      simp only [StackOp.balancedFrom] at hbal
      have hwf' := CallStack.WF_Push (clock i) calls function frame hwf
      obtain ⟨popped, hrun, hlifo, hcnt, hlen⟩ := ih (i + 1) _ hwf'
        (by simpa [CallStack.PauseCounter_length] using hbal)
      refine ⟨popped, ?_, ?_, hcnt, ?_⟩
      · simp only [CallStack.run, CallStack.Push_eq]
        exact hrun
      · rw [hlifo]
        simp only [StackOp.lifo, List.map_cons]
        rw [CallStack.PauseCounter_map (fun c => (c.fn, c.frame)) (fun _ _ => rfl)]
        rfl
      · rw [hlen]
        simp only [List.length_cons, CallStack.PauseCounter_length, StackOp.pushes]
        omega
    | pop =>
      cases calls with
      | nil => simp [StackOp.balancedFrom] at hbal
      | cons c cs =>
        simp only [List.length_cons, StackOp.balancedFrom] at hbal
        have hwf' := CallStack.WF_ResumeCounter (clock i) cs c.timer.parent hwf.2.2.2.2.2.2
        obtain ⟨popped, hrun, hlifo, hcnt, hlen⟩ := ih (i + 1) _ hwf'
          (by simpa [CallStack.ResumeCounter_length] using hbal)
        refine ⟨{ c with timer := c.timer.stopped (clock i) } :: popped, ?_, ?_, ?_, ?_⟩
        · simp only [CallStack.run, CallStack.Pop_eq (clock i) c cs hwf.2.2.2.1, hrun]
        · simp only [List.map_cons, StackOp.lifo]
          rw [hlifo, CallStack.ResumeCounter_map (fun c => (c.fn, c.frame)) (fun _ _ => rfl)]
        · intro d hd
          rcases List.mem_cons.1 hd with rfl | hd
          · refine ⟨hwf.2.2.2.2.1, ?_, rfl⟩
            simp [PerformanceCounter.stopped, hwf.2.2.2.2.2.1]
          · exact hcnt d hd
        · simp only [List.length_cons, hlen, CallStack.ResumeCounter_length, StackOp.pushes]
          omega

theorem CallStack.nearest_append (above : CallStack) (a : FunctionCall) (below : CallStack)
    (fn : Function) (ha : a.fn = fn) (habove : ∀ x ∈ above, x.fn ≠ fn) :
    CallStack.nearest (above ++ a :: below) fn = some below.length := by
  induction above with
  | nil => simp [CallStack.nearest, ha]
  | cons x above ih =>
    have hx : x.fn ≠ fn := habove x (List.mem_cons_self _ _)
    simp only [List.cons_append, CallStack.nearest, hx, if_false]
    exact ih (fun y hy => habove y (List.mem_cons_of_mem _ hy))

theorem CallStack.nearest_none (cs : CallStack) (fn : Function) (h : ∀ x ∈ cs, x.fn ≠ fn) :
    CallStack.nearest cs fn = none := by
  induction cs with
  | nil => rfl
  | cons x cs ih =>
    have hx : x.fn ≠ fn := h x (List.mem_cons_self _ _)
    simp only [CallStack.nearest, hx, if_false]
    exact ih (fun y hy => h y (List.mem_cons_of_mem _ hy))

theorem CallStack.get?_backPtr (cs : CallStack) :
    (CallStack.backPtr cs).bind (CallStack.get? cs) = cs.head? := by
  cases cs with
  | nil => rfl
  | cons c cs => simp [CallStack.backPtr_cons, CallStack.get?_top]

theorem Profiler.EndFunction.record_worst (timer : PerformanceCounter)
    (s : FunctionStatistics) :
    (Profiler.EndFunction.record timer s).worst_total_time =
      max s.worst_total_time timer.latest_total_time ∧
    (Profiler.EndFunction.record timer s).worst_self_time =
      max s.worst_self_time timer.latest_self_time := by
  simp only [Profiler.EndFunction.record, FunctionStatistics.set_worst_self_time,
    FunctionStatistics.set_worst_total_time, FunctionStatistics.AdjustTotalTime,
    FunctionStatistics.AdjustSelfTime]
  by_cases h1 : timer.latest_total_time > s.worst_total_time <;>
    by_cases h2 : timer.latest_self_time > s.worst_self_time
  · simp only [h1, h2, if_true]
    exact ⟨(max_eq_right (le_of_lt h1)).symm, (max_eq_right (le_of_lt h2)).symm⟩
  · simp only [h1, h2, if_true, if_false]
    exact ⟨(max_eq_right (le_of_lt h1)).symm, (max_eq_left (not_lt.1 h2)).symm⟩
  · simp only [h1, h2, if_true, if_false]
    exact ⟨(max_eq_left (not_lt.1 h1)).symm, (max_eq_right (le_of_lt h2)).symm⟩
  · simp only [h1, h2, if_false]
    exact ⟨(max_eq_left (not_lt.1 h1)).symm, (max_eq_left (not_lt.1 h2)).symm⟩

theorem observedTotal_append (l : List FunctionCall) (c : FunctionCall) (a : Address) :
    observedTotal (l ++ [c]) a =
      if c.fn.address = a then observedTotal l a ++ [c.timer.latest_total_time]
      else observedTotal l a := by
  simp only [observedTotal, List.filter_append, List.map_append]
  by_cases h : c.fn.address = a <;> simp [List.filter, h]

theorem observedSelf_append (l : List FunctionCall) (c : FunctionCall) (a : Address) :
    observedSelf (l ++ [c]) a =
      if c.fn.address = a then observedSelf l a ++ [c.timer.latest_self_time]
      else observedSelf l a := by
  simp only [observedSelf, List.filter_append, List.map_append]
  by_cases h : c.fn.address = a <;> simp [List.filter, h]

theorem Statistics.WorstInv_popRecord (stats : Statistics) (l : List FunctionCall)
    (c : FunctionCall)
    (hreg : (Statistics.GetFunctionStatistis stats c.fn.address).isSome = true)
    (h : Statistics.WorstInv stats l) :
    Statistics.WorstInv
      (Statistics.update stats c.fn.address (Profiler.EndFunction.record c.timer)) (l ++ [c]) := by
  intro a
  rw [Statistics.find_update _ _ _ _ (Profiler.EndFunction.record_function _)]
  obtain ⟨s0, hs0⟩ := Option.isSome_iff_exists.1 hreg
  have ha := h a
  by_cases hac : a = c.fn.address
  · subst hac
    simp only [if_true, hs0, Option.map_some']
    rw [hs0] at ha
    obtain ⟨h1, h2⟩ := ha
    obtain ⟨r1, r2⟩ := Profiler.EndFunction.record_worst c.timer s0
    rw [r1, r2, observedTotal_append, observedSelf_append]
    simp only [if_true, List.foldl_append, List.foldl_cons, List.foldl_nil]
    rw [h1, h2]
    exact ⟨rfl, rfl⟩
  · simp only [hac, if_false]
    have hca : ¬ c.fn.address = a := fun h => hac h.symm
    cases hs : Statistics.GetFunctionStatistis stats a with
    | some s =>
      rw [hs] at ha
      simp only [observedTotal_append, observedSelf_append, hca, if_false]
      exact ha
    | none =>
      rw [hs] at ha
      intro d hd
      rcases List.mem_append.1 hd with hd | hd
      · exact ha d hd
      · simp only [List.mem_singleton] at hd
        rw [hd]; exact hca

theorem Statistics.WorstInv_update (stats : Statistics) (l : List FunctionCall) (a0 : Address)
    (f : FunctionStatistics → FunctionStatistics)
    (hf : ∀ s, (f s).function = s.function ∧ (f s).worst_total_time = s.worst_total_time ∧
      (f s).worst_self_time = s.worst_self_time)
    (h : Statistics.WorstInv stats l) : Statistics.WorstInv (Statistics.update stats a0 f) l := by
  intro a
  rw [Statistics.find_update _ _ _ _ (fun s => (hf s).1)]
  have ha := h a
  by_cases hac : a = a0
  · subst hac
    simp only [if_true]
    cases hs : Statistics.GetFunctionStatistis stats a with
    | some s =>
      rw [hs] at ha
      simp only [Option.map_some', (hf s).2.1, (hf s).2.2]
      exact ha
    | none =>
      rw [hs] at ha
      exact ha
  · simp only [hac, if_false]
    exact ha

theorem Statistics.WorstInv_append (stats : Statistics) (l : List FunctionCall) (fn : Function)
    (h : Statistics.WorstInv stats l) :
    Statistics.WorstInv (stats ++ [{ function := fn }]) l := by
  intro a
  rw [Statistics.find_append]
  have ha := h a
  cases hs : Statistics.GetFunctionStatistis stats a with
  | some s =>
    rw [hs] at ha
    exact ha
  | none =>
    rw [hs] at ha
    simp only
    by_cases hfa : fn.address = a
    · subst hfa
      simp only [if_true]
      have hT : observedTotal l fn.address = [] := by
        simp only [observedTotal, List.map_eq_nil_iff, List.filter_eq_nil_iff, decide_eq_true_eq]
        exact ha
      have hS : observedSelf l fn.address = [] := by
        simp only [observedSelf, List.map_eq_nil_iff, List.filter_eq_nil_iff, decide_eq_true_eq]
        exact ha
      rw [hT, hS]
      exact ⟨rfl, rfl⟩
    · simp only [hfa, if_false]
      exact ha

theorem Statistics.WorstInv_body (now : TimePoint) (p : Profiler) (l : List FunctionCall)
    (hinv : Profiler.Inv p) (h : Statistics.WorstInv p.stats l) :
    match Profiler.EndFunction.body now p with
    | Iteration.done p1 c => Statistics.WorstInv p1.stats (l ++ [c])
    | Iteration.aborted p1 l1 _ => Statistics.WorstInv p1.stats (l ++ l1) := by
  cases hstack : p.call_stack with
  | nil =>
    rw [Profiler.EndFunction.body_nil now p hstack]
    simpa using h
  | cons c cs =>
    have hreg : (Statistics.GetFunctionStatistis p.stats c.fn.address).isSome = true :=
      hinv.2.1 c (by rw [hstack]; exact List.mem_cons_self _ _)
    have key := Statistics.WorstInv_popRecord p.stats l
      { c with timer := c.timer.stopped now } hreg h
    rcases Profiler.EndFunction.body_eq now p c cs hinv hstack with
      ⟨-, hb⟩ | ⟨-, -, hb⟩ | ⟨-, -, r, n, -, -, hb⟩
    · rw [hb]; exact key
    · rw [hb]; exact key
    · rw [hb]; exact key

theorem Profiler.EndFunction_popped_assert (p : Profiler) (address : Address)
    (clock : Nat → TimePoint) :
    Profiler.EndFunction p address clock = { state := p, fault := some Fault.assertion_failed } ∨
    Profiler.EndFunction p address clock =
      Profiler.EndFunction.loop address clock (p.call_stack.length + 1) 0 p [] := by
  simp only [Profiler.EndFunction]
  split
  · exact Or.inl rfl
  · split
    · exact Or.inl rfl
    · exact Or.inr rfl

theorem Statistics.WorstInv_EndFunction (p : Profiler) (address : Address)
    (clock : Nat → TimePoint) (pre : List FunctionCall) (hinv : Profiler.Inv p)
    (h : Statistics.WorstInv p.stats pre) :
    Statistics.WorstInv (Profiler.EndFunction p address clock).state.stats
      (pre ++ (Profiler.EndFunction p address clock).popped) := by
  rcases Profiler.EndFunction_popped_assert p address clock with he | he
  · rw [he]; simpa using h
  · rw [he]
    have := Profiler.EndFunction.loop_induct
      (fun q l => Profiler.Inv q ∧ Statistics.WorstInv q.stats (pre ++ l)) address clock
      (fun now q l q1 c hJ hb => by
        have h1 := Profiler.Inv_body now q hJ.1
        have h2 := Statistics.WorstInv_body now q (pre ++ l) hJ.1 hJ.2
        rw [hb] at h1 h2
        exact ⟨h1, by simpa [List.append_assoc] using h2⟩)
      (fun now q l q1 l1 f hJ hb => by
        have h1 := Profiler.Inv_body now q hJ.1
        have h2 := Statistics.WorstInv_body now q (pre ++ l) hJ.1 hJ.2
        rw [hb] at h1 h2
        exact ⟨h1, by simpa [List.append_assoc] using h2⟩)
      (p.call_stack.length + 1) 0 p [] ⟨hinv, by simpa using h⟩
    exact this.2

theorem Profiler.BeginFunction_popped (p : Profiler) (address frm : Address) (now : TimePoint) :
    (Profiler.BeginFunction p address frm now).popped = [] := by
  simp only [Profiler.BeginFunction]
  split
  · rfl
  · split
    · rfl
    · split
      · rfl
      · split
        · split <;> rfl
        · rfl

theorem Statistics.WorstInv_BeginFunction (p : Profiler) (address frm : Address)
    (now : TimePoint) (pre : List FunctionCall) (hinv : Profiler.Inv p)
    (h : Statistics.WorstInv p.stats pre) :
    Statistics.WorstInv (Profiler.BeginFunction p address frm now).state.stats
      (pre ++ (Profiler.BeginFunction p address frm now).popped) := by
  rw [Profiler.BeginFunction_popped, List.append_nil]
  by_cases ha : address = 0
  · rw [Profiler.BeginFunction_assert _ _ _ _ (Or.inl ha)]; exact h
  · cases hs : Statistics.GetFunctionStatistis p.stats address with
    | none => rw [Profiler.BeginFunction_assert _ _ _ _ (Or.inr hs)]; exact h
    | some s =>
      obtain ⟨g, -, -, heq⟩ := Profiler.BeginFunction_eq p address frm now s ha hs hinv.2.2
      rw [heq]
      exact Statistics.WorstInv_update _ _ _ _ (fun _ => ⟨rfl, rfl, rfl⟩) h

theorem Statistics.WorstInv_Register (p : Profiler) (fn : Function) (pre : List FunctionCall)
    (h : Statistics.WorstInv p.stats pre) :
    Statistics.WorstInv (Profiler.Register p fn).state.stats
      (pre ++ (Profiler.Register p fn).popped) := by
  rw [Profiler.Register_popped, List.append_nil, Profiler.Register_eq]
  cases hs : Statistics.GetFunctionStatistis p.stats fn.address with
  | some s => exact h
  | none => exact Statistics.WorstInv_append _ _ _ h

theorem Statistics.WorstInv_step (p : Profiler) (e : Event) (pre : List FunctionCall)
    (hinv : Profiler.Inv p) (h : Statistics.WorstInv p.stats pre) :
    Statistics.WorstInv (Profiler.step p e).state.stats (pre ++ (Profiler.step p e).popped) := by
  cases e with
  | register fn => exact Statistics.WorstInv_Register p fn pre h
  | begin address frm now => exact Statistics.WorstInv_BeginFunction p address frm now pre hinv h
  | end_ address clock => exact Statistics.WorstInv_EndFunction p address clock pre hinv h

theorem Statistics.WorstInv_run (es : List Event) :
    ∀ (p : Profiler) (pre : List FunctionCall), Profiler.Inv p →
      Statistics.WorstInv p.stats pre →
      Statistics.WorstInv (Profiler.run p es).state.stats (pre ++ (Profiler.run p es).popped) := by
  induction es with
  | nil => intro p pre _ h; simpa [Profiler.run] using h
  | cons e es ih =>
    intro p pre hinv h
    have hstep := Statistics.WorstInv_step p e pre hinv h
    simp only [Profiler.run]
    split
    · exact hstep
    · have := ih _ _ (Profiler.Inv_step p e hinv) hstep
      simpa [List.append_assoc] using this

theorem Statistics.WorstGe_update (stats : Statistics) (a a0 : Address) (s : FunctionStatistics)
    (f : FunctionStatistics → FunctionStatistics)
    (hf : ∀ x, (f x).function = x.function ∧ x.worst_total_time ≤ (f x).worst_total_time ∧
      x.worst_self_time ≤ (f x).worst_self_time)
    (h : Statistics.WorstGe stats a s) : Statistics.WorstGe (Statistics.update stats a0 f) a s := by
  obtain ⟨s1, hs1, h1, h2⟩ := h
  unfold Statistics.WorstGe
  rw [Statistics.find_update _ _ _ _ (fun x => (hf x).1)]
  by_cases hac : a = a0
  · subst hac
    simp only [if_true, hs1, Option.map_some']
    exact ⟨f s1, rfl, le_trans h1 (hf s1).2.1, le_trans h2 (hf s1).2.2⟩
  · simp only [hac, if_false]
    exact ⟨s1, hs1, h1, h2⟩

theorem Profiler.EndFunction.record_mono (timer : PerformanceCounter) (x : FunctionStatistics) :
    (Profiler.EndFunction.record timer x).function = x.function ∧
    x.worst_total_time ≤ (Profiler.EndFunction.record timer x).worst_total_time ∧
    x.worst_self_time ≤ (Profiler.EndFunction.record timer x).worst_self_time := by
  obtain ⟨h1, h2⟩ := Profiler.EndFunction.record_worst timer x
  rw [h1, h2]
  exact ⟨Profiler.EndFunction.record_function _ _, le_max_left _ _, le_max_left _ _⟩

theorem Statistics.WorstGe_body (now : TimePoint) (p : Profiler) (a : Address)
    (s : FunctionStatistics) (hinv : Profiler.Inv p) (h : Statistics.WorstGe p.stats a s) :
    match Profiler.EndFunction.body now p with
    | Iteration.done p1 _ => Statistics.WorstGe p1.stats a s
    | Iteration.aborted p1 _ _ => Statistics.WorstGe p1.stats a s := by
  cases hstack : p.call_stack with
  | nil =>
    rw [Profiler.EndFunction.body_nil now p hstack]
    exact h
  | cons c cs =>
    have key := Statistics.WorstGe_update p.stats a c.fn.address s
      (Profiler.EndFunction.record (c.timer.stopped now))
      (Profiler.EndFunction.record_mono _) h
    rcases Profiler.EndFunction.body_eq now p c cs hinv hstack with
      ⟨-, hb⟩ | ⟨-, -, hb⟩ | ⟨-, -, r, n, -, -, hb⟩
    · rw [hb]; exact key
    · rw [hb]; exact key
    · rw [hb]; exact key

theorem Statistics.WorstGe_step (p : Profiler) (e : Event) (a : Address)
    (s : FunctionStatistics) (hinv : Profiler.Inv p) (h : Statistics.WorstGe p.stats a s) :
    Statistics.WorstGe (Profiler.step p e).state.stats a s := by
  cases e with
  | register fn =>
    simp only [Profiler.step]
    rw [Profiler.Register_eq]
    split
    · exact h
    · obtain ⟨s1, hs1, h1, h2⟩ := h
      exact ⟨s1, by simp only [Statistics.find_append, hs1], h1, h2⟩
  | begin address frm now =>
    simp only [Profiler.step]
    by_cases ha : address = 0
    · rw [Profiler.BeginFunction_assert _ _ _ _ (Or.inl ha)]; exact h
    · cases hs : Statistics.GetFunctionStatistis p.stats address with
      | none => rw [Profiler.BeginFunction_assert _ _ _ _ (Or.inr hs)]; exact h
      | some s0 =>
        obtain ⟨g, -, -, heq⟩ := Profiler.BeginFunction_eq p address frm now s0 ha hs hinv.2.2
        rw [heq]
        exact Statistics.WorstGe_update _ _ _ _ _
          (fun _ => ⟨rfl, le_refl _, le_refl _⟩) h
  | end_ address clock =>
    simp only [Profiler.step]
    rcases Profiler.EndFunction_popped_assert p address clock with he | he
    · rw [he]; exact h
    · rw [he]
      have := Profiler.EndFunction.loop_induct
        (fun q _ => Profiler.Inv q ∧ Statistics.WorstGe q.stats a s) address clock
        (fun now q l q1 c hJ hb => by
          have h1 := Profiler.Inv_body now q hJ.1
          have h2 := Statistics.WorstGe_body now q a s hJ.1 hJ.2
          rw [hb] at h1 h2
          exact ⟨h1, h2⟩)
        (fun now q l q1 l1 f hJ hb => by
          have h1 := Profiler.Inv_body now q hJ.1
          have h2 := Statistics.WorstGe_body now q a s hJ.1 hJ.2
          rw [hb] at h1 h2
          exact ⟨h1, h2⟩)
        (p.call_stack.length + 1) 0 p [] ⟨hinv, h⟩
      exact this.2

theorem CallStack.ResumeCounter_map_ident' (now : TimePoint) (cs : CallStack) (h : Option Nat) :
    (CallStack.ResumeCounter now cs h).map FunctionCall.ident = cs.map FunctionCall.ident :=
  CallStack.ResumeCounter_map FunctionCall.ident (fun _ _ => rfl) now cs h

/-- The unwind of `EndFunction(address)` with the call graph disabled, from a state satisfying
the invariant whose stack is, up to the running state of the counters, `above ++ t :: below`
with `t` the topmost activation of the function at `address`: the loop pops `above` and `t`
in stack order, records each in its own record and returns with `below` left on the stack. -/
theorem Profiler.EndFunction.loop_unwind (address : Address) (clock : Nat → TimePoint)
    (haddr : address ≠ 0) (t : FunctionCall) (below : CallStack)
    (ht : t.fn.address = address) :
    ∀ (above : CallStack) (fuel i : Nat) (p : Profiler) (acc : List FunctionCall),
      Profiler.Inv p → p.call_graph_enabled = false →
      p.call_stack.map FunctionCall.ident = (above ++ t :: below).map FunctionCall.ident →
      (∀ x ∈ above, x.fn.address ≠ address) → above.length < fuel →
      (Profiler.EndFunction.loop address clock fuel i p acc).fault = none ∧
      ∃ new, (Profiler.EndFunction.loop address clock fuel i p acc).popped = acc ++ new ∧
        new.map FunctionCall.ident = (above ++ [t]).map FunctionCall.ident ∧
        (∀ c ∈ new, c.timer.num_stops = 1 ∧ c.timer.started = false) ∧
        (Profiler.EndFunction.loop address clock fuel i p acc).state.call_stack.map
          FunctionCall.ident = below.map FunctionCall.ident ∧
        (Profiler.EndFunction.loop address clock fuel i p acc).state.stats =
          Statistics.recordAll p.stats new ∧
        (Profiler.EndFunction.loop address clock fuel i p acc).state.functions = p.functions ∧
        (Profiler.EndFunction.loop address clock fuel i p acc).state.call_graph = p.call_graph ∧
        Profiler.Inv (Profiler.EndFunction.loop address clock fuel i p acc).state := by
  intro above
  induction above with
  | nil =>
    intro fuel i p acc hinv hen hstack _ hfuel
    obtain ⟨f, rfl⟩ : ∃ f, fuel = f + 1 := ⟨fuel - 1, by omega⟩
    cases hcs : p.call_stack with
    | nil => rw [hcs] at hstack; simp at hstack
    | cons c cs =>
      rw [hcs] at hstack
      simp only [List.nil_append, List.map_cons, List.cons.injEq] at hstack
      obtain ⟨hc, hrest⟩ := hstack
      have hcfn : c.fn = t.fn := congrArg Prod.fst hc
      rcases Profiler.EndFunction.body_eq (clock i) p c cs hinv hcs with
        ⟨-, hb⟩ | ⟨h1, -, -⟩ | ⟨h1, -, -⟩
      · have hbreak : address = 0 ∨ c.fn.address = address := Or.inr (by rw [hcfn]; exact ht)
        simp only [Profiler.EndFunction.loop, hb, hbreak, if_true]
        refine ⟨trivial, [{ c with timer := c.timer.stopped (clock i) }], rfl, ?_, ?_, ?_, rfl,
          rfl, rfl, Profiler.Inv_popRecord _ _ _ _ hinv hcs⟩
        · simpa [FunctionCall.ident] using hc
        · intro d hd
          simp only [List.mem_singleton] at hd
          subst hd
          have := hinv.1
          rw [hcs] at this
          exact ⟨by simp [PerformanceCounter.stopped, this.2.2.2.2.2.1], rfl⟩
        · simp only [Profiler.popRecord]
          rw [CallStack.ResumeCounter_map_ident']
          exact hrest
      · rw [hen] at h1; cases h1
      · rw [hen] at h1; cases h1
  | cons x above ih =>
    intro fuel i p acc hinv hen hstack habove hfuel
    obtain ⟨f, rfl⟩ : ∃ f, fuel = f + 1 := ⟨fuel - 1, by omega⟩
    cases hcs : p.call_stack with
    | nil => rw [hcs] at hstack; simp at hstack
    | cons c cs =>
      rw [hcs] at hstack
      simp only [List.cons_append, List.map_cons, List.cons.injEq] at hstack
      obtain ⟨hc, hrest⟩ := hstack
      have hcfn : c.fn = x.fn := congrArg Prod.fst hc
      have hxne : x.fn.address ≠ address := habove x (List.mem_cons_self _ _)
      rcases Profiler.EndFunction.body_eq (clock i) p c cs hinv hcs with
        ⟨-, hb⟩ | ⟨h1, -, -⟩ | ⟨h1, -, -⟩
      · have hcont : ¬ (address = 0 ∨ c.fn.address = address) := by
          rw [hcfn]; exact not_or.2 ⟨haddr, hxne⟩
        have hinv1 := Profiler.Inv_popRecord (clock i) p c cs hinv hcs
        have hstack1 : (Profiler.popRecord (clock i) p c cs).call_stack.map FunctionCall.ident =
            (above ++ t :: below).map FunctionCall.ident := by
          simp only [Profiler.popRecord]
          rw [CallStack.ResumeCounter_map_ident']
          exact hrest
        obtain ⟨hf, new, hpop, hid, hstop, hst, hstats, hfun, hgr, hinv2⟩ :=
          ih f (i + 1) (Profiler.popRecord (clock i) p c cs)
            (acc ++ [{ c with timer := c.timer.stopped (clock i) }]) hinv1 hen hstack1
            (fun y hy => habove y (List.mem_cons_of_mem _ hy)) (by simp at hfuel; omega)
        simp only [Profiler.EndFunction.loop, hb, hcont, if_false]
        refine ⟨hf, { c with timer := c.timer.stopped (clock i) } :: new, ?_, ?_, ?_, hst, ?_,
          hfun, hgr, hinv2⟩
        · rw [hpop]; simp
        · simp only [List.map_cons, List.cons_append, hid]
          congr 1
        · intro d hd
          rcases List.mem_cons.1 hd with rfl | hd
          · have := hinv.1
            rw [hcs] at this
            exact ⟨by simp [PerformanceCounter.stopped, this.2.2.2.2.2.1], rfl⟩
          · exact hstop d hd
        · rw [hstats]
          rfl
      · rw [hen] at h1; cases h1
      · rw [hen] at h1; cases h1

/-- `EndFunction(address)` with the call graph disabled and `address` nonzero, from a state
satisfying the invariant whose stack is `above ++ t :: below` with `t` the topmost activation
of the function at `address`: the call returns having popped `above` and `t` in stack order
and recorded each in its own record; `below` is left on the stack. -/
theorem Profiler.EndFunction_unwind (p : Profiler) (address : Address)
    (clock : Nat → TimePoint) (above : CallStack) (t : FunctionCall) (below : CallStack)
    (hinv : Profiler.Inv p) (hen : p.call_graph_enabled = false) (haddr : address ≠ 0)
    (hstack : p.call_stack = above ++ t :: below) (ht : t.fn.address = address)
    (habove : ∀ x ∈ above, x.fn.address ≠ address) :
    (Profiler.EndFunction p address clock).fault = none ∧
    (Profiler.EndFunction p address clock).popped.map FunctionCall.ident =
      (above ++ [t]).map FunctionCall.ident ∧
    (∀ c ∈ (Profiler.EndFunction p address clock).popped,
      c.timer.num_stops = 1 ∧ c.timer.started = false) ∧
    (Profiler.EndFunction p address clock).state.call_stack.map FunctionCall.ident =
      below.map FunctionCall.ident ∧
    (Profiler.EndFunction p address clock).state.stats =
      Statistics.recordAll p.stats (Profiler.EndFunction p address clock).popped := by
  have hne : p.call_stack.isEmpty = false := by
    rw [hstack]; cases above <;> rfl
  have hreg : (Statistics.GetFunction p.stats address).isNone = false := by
    have := hinv.2.1 t (by rw [hstack]; simp)
    rw [ht] at this
    simp only [Statistics.GetFunction, Option.isNone_map']
    cases h : Statistics.GetFunctionStatistis p.stats address with
    | none => rw [h] at this; cases this
    | some s => rfl
  have hE : Profiler.EndFunction p address clock =
      Profiler.EndFunction.loop address clock (p.call_stack.length + 1) 0 p [] := by
    simp [Profiler.EndFunction, hne, hreg]
  obtain ⟨hf, new, hpop, hid, hstop, hst, hstats, -, -, -⟩ :=
    Profiler.EndFunction.loop_unwind address clock haddr t below ht above
      (p.call_stack.length + 1) 0 p [] hinv hen (by rw [hstack]) habove
      (by rw [hstack]; simp; omega)
  rw [hE]
  simp only [List.nil_append] at hpop
  rw [hpop]
  exact ⟨hf, hid, hstop, hst, hstats⟩

theorem Statistics.numCalls_update_record (stats : Statistics) (a b : Address)
    (timer : PerformanceCounter) :
    Statistics.numCalls (Statistics.update stats a (Profiler.EndFunction.record timer)) b =
      Statistics.numCalls stats b := by
  simp only [Statistics.numCalls]
  rw [Statistics.find_update _ _ _ _ (Profiler.EndFunction.record_function _)]
  split
  · next h =>
    subst h
    cases Statistics.GetFunctionStatistis stats b with
    | none => rfl
    | some s => simp [Profiler.EndFunction.record_num_calls]
  · rfl

theorem Statistics.numCalls_body (now : TimePoint) (p : Profiler) (b : Address)
    (hinv : Profiler.Inv p) :
    match Profiler.EndFunction.body now p with
    | Iteration.done p1 _ => Statistics.numCalls p1.stats b = Statistics.numCalls p.stats b
    | Iteration.aborted p1 _ _ =>
      Statistics.numCalls p1.stats b = Statistics.numCalls p.stats b := by
  cases hstack : p.call_stack with
  | nil => rw [Profiler.EndFunction.body_nil now p hstack]
  | cons c cs =>
    have key := Statistics.numCalls_update_record p.stats c.fn.address b (c.timer.stopped now)
    rcases Profiler.EndFunction.body_eq now p c cs hinv hstack with
      ⟨-, hb⟩ | ⟨-, -, hb⟩ | ⟨-, -, r, n, -, -, hb⟩
    · rw [hb]; exact key
    · rw [hb]; exact key
    · rw [hb]; exact key

/-- `EndFunction` changes no call count. -/
theorem Statistics.numCalls_EndFunction (p : Profiler) (address : Address)
    (clock : Nat → TimePoint) (b : Address) (hinv : Profiler.Inv p) :
    Statistics.numCalls (Profiler.EndFunction p address clock).state.stats b =
      Statistics.numCalls p.stats b := by
  rcases Profiler.EndFunction_popped_assert p address clock with he | he
  · rw [he]
  · rw [he]
    have := Profiler.EndFunction.loop_induct
      (fun q _ => Profiler.Inv q ∧ Statistics.numCalls q.stats b = Statistics.numCalls p.stats b)
      address clock
      (fun now q l q1 c hJ hb => by
        have h1 := Profiler.Inv_body now q hJ.1
        have h2 := Statistics.numCalls_body now q b hJ.1
        rw [hb] at h1 h2
        exact ⟨h1, h2.trans hJ.2⟩)
      (fun now q l q1 l1 f hJ hb => by
        have h1 := Profiler.Inv_body now q hJ.1
        have h2 := Statistics.numCalls_body now q b hJ.1
        rw [hb] at h1 h2
        exact ⟨h1, h2.trans hJ.2⟩)
      (p.call_stack.length + 1) 0 p [] ⟨hinv, rfl⟩
    exact this.2

/-- `BeginFunction` on a registered nonzero address adds one to the call count of that address
and changes no other call count. -/
theorem Statistics.numCalls_BeginFunction (p : Profiler) (address frm : Address)
    (now : TimePoint) (s : FunctionStatistics) (b : Address) (hinv : Profiler.Inv p)
    (ha : address ≠ 0) (hs : Statistics.GetFunctionStatistis p.stats address = some s) :
    (Profiler.BeginFunction p address frm now).fault = none ∧
    Statistics.numCalls (Profiler.BeginFunction p address frm now).state.stats b =
      if b = address then some (s.num_calls + 1) else Statistics.numCalls p.stats b := by
  obtain ⟨g, -, -, heq⟩ := Profiler.BeginFunction_eq p address frm now s ha hs hinv.2.2
  rw [heq]
  refine ⟨rfl, ?_⟩
  simp only [Profiler.pushed, Statistics.numCalls]
  rw [Statistics.find_update _ _ _ _ (FunctionStatistics.AdjustNumCalls_function 1),
    Statistics.find_address _ _ _ hs]
  split
  · simp [hs, FunctionStatistics.AdjustNumCalls]
  · rfl

/-- The lookup-or-create step changes no call count of an existing record and creates records
with call count `0`. -/
theorem Statistics.numCalls_Register (p : Profiler) (fn : Function) (b : Address) :
    Statistics.numCalls (Profiler.Register p fn).state.stats b =
      match Statistics.numCalls p.stats b with
      | some n => some n
      | none => if fn.address = b then some 0 else none := by
  rw [Profiler.Register_eq]
  simp only [Statistics.numCalls]
  cases hfn : Statistics.GetFunctionStatistis p.stats fn.address with
  | some s0 =>
    simp only
    cases hb : Statistics.GetFunctionStatistis p.stats b with
    | some s => rfl
    | none =>
      have : fn.address ≠ b := by
        intro h; rw [h] at hfn; rw [hfn] at hb; cases hb
      simp [this]
  | none =>
    simp only [Statistics.find_append]
    cases hb : Statistics.GetFunctionStatistis p.stats b with
    | some s => rfl
    | none =>
      by_cases h : fn.address = b <;> simp [h]

theorem CallGraph.find_eq_none (nodes : List (Address × Nat)) (s : Address) :
    CallGraph.find nodes s = none ↔ ∀ kv ∈ nodes, kv.1 ≠ s := by
  simp only [CallGraph.find, Option.map_eq_none', List.find?_eq_none, CallGraph.CompareStats]
  constructor
  · intro h kv hkv heq
    apply h kv hkv
    simp [heq]
  · intro h kv hkv
    have := h kv hkv
    simp only [Bool.and_eq_true, Bool.not_eq_true', decide_eq_false_iff_not, not_and, not_not,
      not_lt]
    intro h1
    exact not_le.2 (lt_of_le_of_ne h1 (Ne.symm this))

theorem CallGraph.find_eq_some (nodes : List (Address × Nat)) (s : Address) (n : Nat)
    (h : CallGraph.find nodes s = some n) : (s, n) ∈ nodes := by
  simp only [CallGraph.find, Option.map_eq_some'] at h
  obtain ⟨kv, hkv, rfl⟩ := h
  have hmem := List.mem_of_find?_eq_some hkv
  have hp := List.find?_some hkv
  simp only [CallGraph.CompareStats, Bool.and_eq_true, Bool.not_eq_true',
    decide_eq_false_iff_not, not_lt] at hp
  have : kv.1 = s := le_antisymm hp.2 hp.1
  rw [← this]
  exact hmem

theorem CallGraph.insert_perm (nodes : List (Address × Nat)) (s : Address) (v : Nat)
    (h : ∀ kv ∈ nodes, kv.1 ≠ s) : (CallGraph.insert nodes s v).Perm ((s, v) :: nodes) := by
  induction nodes with
  | nil => exact List.Perm.refl _
  | cons kv rest ih =>
    have hkv : kv.1 ≠ s := h kv (List.mem_cons_self _ _)
    have hrest : ∀ x ∈ rest, x.1 ≠ s := fun x hx => h x (List.mem_cons_of_mem _ hx)
    simp only [CallGraph.insert, CallGraph.CompareStats, decide_eq_true_eq]
    split
    · exact List.Perm.refl _
    · split
      · exact ((ih hrest).cons kv).trans (List.Perm.swap _ _ _)
      · next h1 h2 =>
        exact absurd (le_antisymm (not_lt.1 h1) (not_lt.1 h2)) hkv

theorem CallGraph.insert_sorted (nodes : List (Address × Nat)) (s : Address) (v : Nat)
    (h : (nodes.map Prod.fst).Pairwise (· < ·)) :
    ((CallGraph.insert nodes s v).map Prod.fst).Pairwise (· < ·) := by
  induction nodes with
  | nil => simp [CallGraph.insert]
  | cons kv rest ih =>
    simp only [List.map_cons, List.pairwise_cons] at h
    obtain ⟨hhead, htail⟩ := h
    simp only [CallGraph.insert, CallGraph.CompareStats, decide_eq_true_eq]
    split
    · next hlt =>
      simp only [List.map_cons, List.pairwise_cons]
      refine ⟨?_, hhead, htail⟩
      intro k hk
      rcases List.mem_cons.1 hk with rfl | hk
      · exact hlt
      · exact lt_trans hlt (hhead k hk)
    · split
      · next hlt =>
        simp only [List.map_cons, List.pairwise_cons]
        refine ⟨?_, ih htail⟩
        intro k hk
        obtain ⟨x, hx, rfl⟩ := List.mem_map.1 hk
        rcases CallGraph.mem_insert _ _ _ _ hx with rfl | hx
        · exact hlt
        · exact hhead x.1 (List.mem_map_of_mem _ hx)
      · simp only [List.map_cons, List.pairwise_cons]
        exact ⟨hhead, htail⟩

theorem CallGraphNode.AddCallee_callees (node : Nat) (x : CallGraphNode)
    (h : x.callees.Nodup) :
    (CallGraphNode.AddCallee node x).callees.Nodup ∧
    node ∈ (CallGraphNode.AddCallee node x).callees ∧
    (node ∈ x.callees → (CallGraphNode.AddCallee node x).callees = x.callees) := by
  simp only [CallGraphNode.AddCallee]
  split
  · next hm => exact ⟨h, hm, fun _ => rfl⟩
  · next hm =>
    refine ⟨?_, by simp, fun hm' => absurd hm' hm⟩
    simp only
    rw [List.nodup_append]
    exact ⟨h, List.nodup_singleton _, by
      intro a ha hb
      simp only [List.mem_singleton] at hb
      exact hm (hb ▸ ha)⟩

theorem CallGraph.find_insert (nodes : List (Address × Nat)) (s : Address) (v : Nat)
    (h : ∀ kv ∈ nodes, kv.1 ≠ s) : CallGraph.find (CallGraph.insert nodes s v) s = some v := by
  induction nodes with
  | nil => simp [CallGraph.insert, CallGraph.find, CallGraph.CompareStats]
  | cons kv rest ih =>
    have hkv : kv.1 ≠ s := h kv (List.mem_cons_self _ _)
    have hrest : ∀ x ∈ rest, x.1 ≠ s := fun x hx => h x (List.mem_cons_of_mem _ hx)
    simp only [CallGraph.insert, CallGraph.CompareStats, decide_eq_true_eq]
    split
    · simp [CallGraph.find, CallGraph.CompareStats]
    · split
      · next h1 h2 =>
        have := ih hrest
        simp only [CallGraph.find, CallGraph.CompareStats] at this ⊢
        rw [List.find?_cons_of_neg]
        · exact this
        · simp [h2]
      · next h1 h2 =>
        exact absurd (le_antisymm (not_lt.1 h1) (not_lt.1 h2)) hkv

theorem CallGraph.AddCallee_found (g : CallGraph) (stats : Address) (n r : Nat)
    (hfind : CallGraph.find g.nodes stats = some n) (hr : g.root = some r) :
    CallGraph.AddCallee g stats =
      .ok ({ g with arena := CallGraph.updateNode g.arena r (CallGraphNode.AddCallee n) }, n) := by
  simp only [CallGraph.AddCallee, hfind, hr]

theorem CallGraph.AddCallee_new (g : CallGraph) (stats : Address) (r : Nat)
    (hfind : CallGraph.find g.nodes stats = none) (hr : g.root = some r) :
    CallGraph.AddCallee g stats =
      .ok ({ g with nodes := CallGraph.insert g.nodes stats g.arena.length,
                    arena := CallGraph.updateNode
                      (g.arena ++ [{ stats := some stats, caller := g.root }]) r
                      (CallGraphNode.AddCallee g.arena.length) }, g.arena.length) := by
  simp only [CallGraph.AddCallee, hfind, hr]

theorem CallGraph.updateNode_stats (l : List CallGraphNode) (r node n : Nat) :
    ((CallGraph.updateNode l r (CallGraphNode.AddCallee node))[n]?).map
        (fun (x : CallGraphNode) => x.stats) =
      (l[n]?).map (fun (x : CallGraphNode) => x.stats) := by
  rw [CallGraph.updateNode_getElem?]
  split
  · cases l[n]? with
    | none => rfl
    | some x => simp [CallGraphNode.AddCallee_stats]
  · rfl

theorem CallGraph.updateNode_callees_nodup (l : List CallGraphNode) (r node : Nat)
    (h : ∀ (n : Nat) (x : CallGraphNode), l[n]? = some x → x.callees.Nodup) :
    ∀ (n : Nat) (x : CallGraphNode),
      (CallGraph.updateNode l r (CallGraphNode.AddCallee node))[n]? = some x →
      x.callees.Nodup := by
  intro n x hx
  rw [CallGraph.updateNode_getElem?] at hx
  split at hx
  · simp only [Option.map_eq_some'] at hx
    obtain ⟨y, hy, rfl⟩ := hx
    exact (CallGraphNode.AddCallee_callees node y (h n y hy)).1
  · exact h n x hx

/-- `AddCallee` on a well-formed graph: it returns a node, leaves the root where it was and
maintains the invariant of the node table.  When the table has a node for the address, that
node is returned and nothing is allocated; otherwise a node is allocated and entered in the
table. -/
theorem CallGraph.AddCallee_spec (g : CallGraph) (stats : Address) (hwf : CallGraph.WF g)
    (ht : CallGraph.Table g) :
    ∃ g1 node, CallGraph.AddCallee g stats = .ok (g1, node) ∧
      g1.root = g.root ∧ g1.sentinel = g.sentinel ∧ CallGraph.WF g1 ∧ CallGraph.Table g1 ∧
      CallGraph.find g1.nodes stats = some node ∧
      (g1.arena[node]?).map (fun (x : CallGraphNode) => x.stats) = some (some stats) ∧
      (∀ n, CallGraph.find g.nodes stats = some n →
        node = n ∧ g1.nodes = g.nodes ∧ g1.arena.length = g.arena.length) ∧
      (CallGraph.find g.nodes stats = none →
        node = g.arena.length ∧ g1.arena.length = g.arena.length + 1 ∧
        g1.nodes.Perm ((stats, node) :: g.nodes)) := by
  obtain ⟨hs, hlen, ⟨r, hr, hrlt⟩, hcaller, hnodes⟩ := hwf
  obtain ⟨t1, t2, t3, t4, t5, t6⟩ := ht
  obtain ⟨g2, node2, hadd, hwf2⟩ := CallGraph.AddCallee_WF g stats ⟨hs, hlen, ⟨r, hr, hrlt⟩,
    hcaller, hnodes⟩
  cases hfind : CallGraph.find g.nodes stats with
  | some n =>
    have heq := CallGraph.AddCallee_found g stats n r hfind hr
    rw [heq] at hadd
    simp only [Except.ok.injEq, Prod.mk.injEq] at hadd
    obtain ⟨hg2, hn2⟩ := hadd
    subst hg2 hn2
    have hmem := CallGraph.find_eq_some _ _ _ hfind
    refine ⟨_, n, heq, rfl, rfl, ?_, ?_, hfind, ?_, ?_, ?_⟩
    · obtain ⟨w1, w2, -, w4, w5⟩ := hwf2
      exact ⟨w1, w2, ⟨r, hr, by simpa [CallGraph.updateNode_length] using hrlt⟩, w4, w5⟩
    · refine ⟨t1, t2, ?_, ?_, CallGraph.updateNode_callees_nodup _ _ _ t5, ?_⟩
      · intro k m hkm
        refine ⟨(t3 k m hkm).1, ?_⟩
        simp only
        rw [CallGraph.updateNode_stats]
        exact (t3 k m hkm).2
      · intro m h0 hm
        simp only [CallGraph.updateNode_length] at hm
        exact t4 m h0 hm
      · simp only
        rw [CallGraph.updateNode_stats]
        exact t6
    · simp only
      rw [CallGraph.updateNode_stats]
      exact (t3 stats n hmem).2
    · intro m hm
      cases hm
      exact ⟨rfl, rfl, by simp [CallGraph.updateNode_length]⟩
    · intro h; cases h
  | none =>
    have heq := CallGraph.AddCallee_new g stats r hfind hr
    rw [heq] at hadd
    simp only [Except.ok.injEq, Prod.mk.injEq] at hadd
    obtain ⟨hg2, hn2⟩ := hadd
    subst hg2 hn2
    have hne := (CallGraph.find_eq_none _ _).1 hfind
    have hperm := CallGraph.insert_perm g.nodes stats g.arena.length hne
    have hnew : ∀ n : Nat, (g.arena ++ [({ stats := some stats, caller := g.root } :
        CallGraphNode)])[n]? =
        if n < g.arena.length then g.arena[n]?
        else if n = g.arena.length then some { stats := some stats, caller := g.root }
        else none := by
      intro n
      split
      · next h => exact List.getElem?_append_left h
      · next h =>
        rw [List.getElem?_append_right (not_lt.1 h)]
        split
        · next h2 => simp [h2]
        · next h2 =>
          have : 1 ≤ n - g.arena.length := by omega
          simp [List.getElem?_eq_none, this]
    refine ⟨_, g.arena.length, heq, rfl, rfl, ?_, ?_, ?_, ?_, ?_, ?_⟩
    · obtain ⟨w1, w2, -, w4, w5⟩ := hwf2
      exact ⟨w1, w2, ⟨r, hr, by
        simp only [CallGraph.updateNode_length, List.length_append, List.length_singleton]
        omega⟩, w4, w5⟩
    · refine ⟨CallGraph.insert_sorted _ _ _ t1, ?_, ?_, ?_, ?_, ?_⟩
      · have hp : ((CallGraph.insert g.nodes stats g.arena.length).map Prod.snd).Perm
            (g.arena.length :: g.nodes.map Prod.snd) := by
          simpa using hperm.map Prod.snd
        rw [hp.nodup_iff, List.nodup_cons]
        refine ⟨?_, t2⟩
        intro hm
        obtain ⟨kv, hkv, hkv2⟩ := List.mem_map.1 hm
        have := hnodes kv.1 kv.2 hkv
        omega
      · intro k m hkm
        simp only at hkm
        simp only
        rw [CallGraph.updateNode_stats, hnew]
        rcases CallGraph.mem_insert _ _ _ _ hkm with h | h
        · simp only [Prod.mk.injEq] at h
          obtain ⟨rfl, rfl⟩ := h
          simp [hlen]
        · have hm := hnodes k m h
          simp only [hm, if_true]
          exact t3 k m h
      · intro m h0 hm
        simp only [CallGraph.updateNode_length, List.length_append, List.length_singleton] at hm
        simp only
        have hp : ((CallGraph.insert g.nodes stats g.arena.length).map Prod.snd).Perm
            (g.arena.length :: g.nodes.map Prod.snd) := by
          simpa using hperm.map Prod.snd
        rw [hp.mem_iff, List.mem_cons]
        rcases Nat.lt_or_ge m g.arena.length with h | h
        · exact Or.inr (t4 m h0 h)
        · exact Or.inl (by omega)
      · apply CallGraph.updateNode_callees_nodup
        intro n x hx
        rw [hnew] at hx
        split at hx
        · exact t5 n x hx
        · split at hx
          · cases hx; exact List.nodup_nil
          · cases hx
      · simp only
        rw [CallGraph.updateNode_stats, hnew]
        simp only [hlen, if_true]
        exact t6
    · exact CallGraph.find_insert _ _ _ hne
    · simp only
      rw [CallGraph.updateNode_stats, hnew]
      simp
    · intro m hm; cases hm
    · intro _
      refine ⟨rfl, ?_, hperm⟩
      simp [CallGraph.updateNode_length]

theorem CallGraph.GraphInv_new : CallGraph.Inv CallGraph.new := by
  refine ⟨CallGraph.WF_new, ⟨?_, ?_, ?_, ?_, ?_, ?_⟩, rfl⟩
  · simp [CallGraph.new]
  · simp [CallGraph.new]
  · intro k n h; simp [CallGraph.new] at h
  · intro n h0 h1
    simp [CallGraph.new] at h1
    omega
  · intro n x hx
    cases n with
    | zero =>
      simp [CallGraph.new] at hx
      rw [← hx]; exact List.nodup_nil
    | succ n => simp [CallGraph.new] at hx
  · rfl

theorem CallGraph.Inv_set_root (g : CallGraph) (n : Nat) (h : CallGraph.Inv g)
    (hn : n < g.arena.length) : CallGraph.Inv (CallGraph.set_root g (some n)) := by
  obtain ⟨⟨w1, w2, -, w4, w5⟩, ht, hl⟩ := h
  exact ⟨⟨w1, w2, ⟨n, rfl, hn⟩, w4, w5⟩, ht, hl⟩

theorem CallGraph.Inv_AddCallee (g : CallGraph) (stats : Address) (h : CallGraph.Inv g) :
    ∃ g1 node, CallGraph.AddCallee g stats = .ok (g1, node) ∧ CallGraph.Inv g1 ∧
      g1.root = g.root ∧ node < g1.arena.length ∧ 0 < node ∧
      (∀ a, a ∈ g1.nodes.map Prod.fst ↔ a = stats ∨ a ∈ g.nodes.map Prod.fst) := by
  obtain ⟨hwf, ht, hl⟩ := h
  obtain ⟨g1, node, hadd, hroot, hsent, hwf1, ht1, hfind1, hstats1, hfound, hnew⟩ :=
    CallGraph.AddCallee_spec g stats hwf ht
  have hmem1 := CallGraph.find_eq_some _ _ _ hfind1
  refine ⟨g1, node, hadd, ⟨hwf1, ht1, ?_⟩, hroot, hwf1.2.2.2.2 stats node hmem1,
    (ht1.2.2.1 stats node hmem1).1, ?_⟩
  · cases hfind : CallGraph.find g.nodes stats with
    | some n =>
      obtain ⟨-, h2, h3⟩ := hfound n hfind
      rw [h3, h2, hl]
    | none =>
      obtain ⟨-, h2, h3⟩ := hnew hfind
      rw [h2, hl, h3.length_eq]
      rfl
  · intro a
    cases hfind : CallGraph.find g.nodes stats with
    | some n =>
      obtain ⟨-, h2, -⟩ := hfound n hfind
      rw [h2]
      constructor
      · exact Or.inr
      · rintro (rfl | h)
        · exact List.mem_map.2 ⟨(a, n), CallGraph.find_eq_some _ _ _ hfind, rfl⟩
        · exact h
    | none =>
      obtain ⟨-, -, h3⟩ := hnew hfind
      have := (h3.map Prod.fst).mem_iff (a := a)
      simpa using this

theorem CallGraph.GraphInv_run (ops : List GraphOp) :
    ∀ (g g1 : CallGraph), CallGraph.Inv g → CallGraph.run g ops = .ok g1 →
      CallGraph.Inv g1 ∧
      (∀ a, a ∈ g1.nodes.map Prod.fst ↔ a ∈ GraphOp.added ops ∨ a ∈ g.nodes.map Prod.fst) := by
  induction ops with
  | nil =>
    intro g g1 h hrun
    simp only [CallGraph.run, Except.ok.injEq] at hrun
    subst hrun
    exact ⟨h, fun a => by simp [GraphOp.added]⟩
  | cons op ops ih =>
    intro g g1 h hrun
    cases op with
    | AddCallee stats =>
      obtain ⟨g2, node, hadd, hinv2, -, -, -, hkeys⟩ := CallGraph.Inv_AddCallee g stats h
      simp only [CallGraph.run, CallGraph.step, hadd] at hrun
      obtain ⟨h1, h2⟩ := ih g2 g1 hinv2 hrun
      refine ⟨h1, fun a => ?_⟩
      rw [h2 a, hkeys a]
      simp only [GraphOp.added, List.mem_cons]
      tauto
    | set_root node =>
      by_cases hlt : node < g.arena.length
      · simp only [CallGraph.run, CallGraph.step, hlt, if_true] at hrun
        obtain ⟨h1, h2⟩ := ih _ g1 (CallGraph.Inv_set_root g node h hlt) hrun
        exact ⟨h1, fun a => by rw [h2 a]; simp [GraphOp.added, CallGraph.set_root]⟩
      · simp [CallGraph.run, CallGraph.step, hlt] at hrun

/-- After `AddCallee` the node returned is in the callee set of the root, and a second
`AddCallee` for the same address from the same root changes neither the table nor the arena. -/
theorem CallGraph.AddCallee_twice (g g1 : CallGraph) (stats : Address) (node : Nat)
    (h : CallGraph.Inv g) (hadd : CallGraph.AddCallee g stats = .ok (g1, node)) :
    (∃ r x, g.root = some r ∧ g1.root = some r ∧ g1.arena[r]? = some x ∧
      x.callees.count node = 1) ∧
    CallGraph.AddCallee g1 stats = .ok (g1, node) := by
  obtain ⟨hwf, ht, hl⟩ := h
  obtain ⟨g1', node', hadd', hroot, hsent, hwf1, ht1, hfind1, hstats1, hfound, hnew⟩ :=
    CallGraph.AddCallee_spec g stats hwf ht
  rw [hadd] at hadd'
  simp only [Except.ok.injEq, Prod.mk.injEq] at hadd'
  obtain ⟨rfl, rfl⟩ := hadd'
  obtain ⟨hs, hlen, ⟨r, hr, hrlt⟩, hcaller, hnodes⟩ := hwf
  have hr1 : g1.root = some r := by rw [hroot, hr]
  have hmem : ∃ x, g1.arena[r]? = some x ∧ node ∈ x.callees := by
    cases hfind : CallGraph.find g.nodes stats with
    | some n =>
      have heq := CallGraph.AddCallee_found g stats n r hfind hr
      rw [hadd] at heq
      simp only [Except.ok.injEq, Prod.mk.injEq] at heq
      obtain ⟨rfl, rfl⟩ := heq
      simp only [CallGraph.updateNode_getElem?, if_true]
      obtain ⟨y, hy⟩ : ∃ y, g.arena[r]? = some y := ⟨g.arena[r], List.getElem?_eq_getElem hrlt⟩
      refine ⟨_, by rw [hy]; rfl, ?_⟩
      exact (CallGraphNode.AddCallee_callees node y (ht.2.2.2.2.1 r y hy)).2.1
    | none =>
      have heq := CallGraph.AddCallee_new g stats r hfind hr
      rw [hadd] at heq
      simp only [Except.ok.injEq, Prod.mk.injEq] at heq
      obtain ⟨rfl, rfl⟩ := heq
      simp only [CallGraph.updateNode_getElem?, if_true]
      have hy : (g.arena ++ [({ stats := some stats, caller := g.root } : CallGraphNode)])[r]? =
          some g.arena[r] := by
        rw [List.getElem?_append_left hrlt]
        exact List.getElem?_eq_getElem hrlt
      refine ⟨_, by rw [hy]; rfl, ?_⟩
      exact (CallGraphNode.AddCallee_callees _ _
        (ht.2.2.2.2.1 r _ (List.getElem?_eq_getElem hrlt))).2.1
  obtain ⟨x, hx, hxm⟩ := hmem
  have hxn : x.callees.Nodup := ht1.2.2.2.2.1 r x hx
  refine ⟨⟨r, x, hr, hr1, hx, List.count_eq_one_of_mem hxn hxm⟩, ?_⟩
  rw [CallGraph.AddCallee_found g1 stats node r hfind1 hr1]
  have hsame : CallGraph.updateNode g1.arena r (CallGraphNode.AddCallee node) = g1.arena := by
    apply List.ext_getElem?
    intro n
    rw [CallGraph.updateNode_getElem?]
    split
    · next hn =>
      subst hn
      rw [hx]
      simp only [Option.map_some', Option.some.injEq]
      exact (by
        simp only [CallGraphNode.AddCallee, hxm, if_true])
    · rfl
  rw [hsame]

theorem CallGraph.Inv_of_same (g g1 : CallGraph) (h : CallGraph.Inv g)
    (hn : g1.nodes = g.nodes) (ha : g1.arena = g.arena) (hwf : CallGraph.WF g1) :
    CallGraph.Inv g1 := by
  obtain ⟨-, ⟨t1, t2, t3, t4, t5, t6⟩, hl⟩ := h
  refine ⟨hwf, ⟨?_, ?_, ?_, ?_, ?_, ?_⟩, ?_⟩
  · rw [hn]; exact t1
  · rw [hn]; exact t2
  · rw [hn, ha]; exact t3
  · rw [hn, ha]; exact t4
  · rw [ha]; exact t5
  · rw [ha]; exact t6
  · rw [hn, ha]; exact hl

/-- The call-graph step of `BeginFunction` on a registered nonzero address: with the call
graph disabled the graph is untouched; with it enabled the graph is the one left by
`AddCallee` with the node returned made the root. -/
theorem Profiler.BeginFunction_graph (p : Profiler) (address frm : Address) (now : TimePoint)
    (s : FunctionStatistics) (ha : address ≠ 0)
    (hs : Statistics.GetFunctionStatistis p.stats address = some s)
    (hg : CallGraph.Inv p.call_graph) :
    (Profiler.BeginFunction p address frm now).fault = none ∧
    ((p.call_graph_enabled = false ∧
        (Profiler.BeginFunction p address frm now).state.call_graph = p.call_graph) ∨
      (p.call_graph_enabled = true ∧
        ∃ g1 node, CallGraph.AddCallee p.call_graph address = .ok (g1, node) ∧
          (Profiler.BeginFunction p address frm now).state.call_graph =
            CallGraph.set_root g1 (some node))) := by
  have hsa := Statistics.find_address _ _ _ hs
  cases hen : p.call_graph_enabled with
  | false =>
    simp [Profiler.BeginFunction, ha, hs, CallStack.Push_eq, hen]
  | true =>
    obtain ⟨g1, node, hadd, -⟩ := CallGraph.Inv_AddCallee p.call_graph address hg
    simp only [Profiler.BeginFunction, ha, hs, hsa, CallStack.Push_eq, hen, hadd, if_true,
      if_false]
    exact ⟨trivial, Or.inr ⟨trivial, g1, node, rfl, rfl⟩⟩

theorem Profiler.GInv_BeginFunction (p : Profiler) (address frm : Address) (now : TimePoint)
    (hg : CallGraph.Inv p.call_graph) :
    CallGraph.Inv (Profiler.BeginFunction p address frm now).state.call_graph := by
  by_cases ha : address = 0
  · rw [Profiler.BeginFunction_assert _ _ _ _ (Or.inl ha)]; exact hg
  · cases hs : Statistics.GetFunctionStatistis p.stats address with
    | none => rw [Profiler.BeginFunction_assert _ _ _ _ (Or.inr hs)]; exact hg
    | some s =>
      rcases (Profiler.BeginFunction_graph p address frm now s ha hs hg).2 with
        ⟨-, h⟩ | ⟨-, g1, node, hadd, h⟩
      · rw [h]; exact hg
      · rw [h]
        obtain ⟨g1', node', hadd', hinv1, -, hlt, -, -⟩ :=
          CallGraph.Inv_AddCallee p.call_graph address hg
        rw [hadd] at hadd'
        simp only [Except.ok.injEq, Prod.mk.injEq] at hadd'
        obtain ⟨rfl, rfl⟩ := hadd'
        exact CallGraph.Inv_set_root g1 node hinv1 hlt

theorem Profiler.GInv_body (now : TimePoint) (p : Profiler) (hinv : Profiler.Inv p)
    (hg : CallGraph.Inv p.call_graph) :
    match Profiler.EndFunction.body now p with
    | Iteration.done p1 _ => CallGraph.Inv p1.call_graph
    | Iteration.aborted p1 _ _ => CallGraph.Inv p1.call_graph := by
  cases hstack : p.call_stack with
  | nil => rw [Profiler.EndFunction.body_nil now p hstack]; exact hg
  | cons c cs =>
    have hb := Profiler.Inv_body now p hinv
    rcases Profiler.EndFunction.body_eq now p c cs hinv hstack with
      ⟨-, h⟩ | ⟨-, -, h⟩ | ⟨-, -, r, n, -, -, h⟩
    · rw [h]; exact hg
    · rw [h]; exact hg
    · rw [h] at hb ⊢
      exact CallGraph.Inv_of_same p.call_graph _ hg rfl rfl hb.2.2

theorem Profiler.Inv2_EndFunction (p : Profiler) (address : Address) (clock : Nat → TimePoint)
    (h : Profiler.Inv2 p) : Profiler.Inv2 (Profiler.EndFunction p address clock).state := by
  rcases Profiler.EndFunction_popped_assert p address clock with he | he
  · rw [he]; exact h
  · rw [he]
    exact Profiler.EndFunction.loop_induct (fun q _ => Profiler.Inv2 q) address clock
      (fun now q l q1 c hJ hb => by
        have h1 := Profiler.Inv_body now q hJ.1
        have h2 := Profiler.GInv_body now q hJ.1 hJ.2
        rw [hb] at h1 h2
        exact ⟨h1, h2⟩)
      (fun now q l q1 l1 f hJ hb => by
        have h1 := Profiler.Inv_body now q hJ.1
        have h2 := Profiler.GInv_body now q hJ.1 hJ.2
        rw [hb] at h1 h2
        exact ⟨h1, h2⟩)
      (p.call_stack.length + 1) 0 p [] h

theorem Profiler.Inv2_step (p : Profiler) (e : Event) (h : Profiler.Inv2 p) :
    Profiler.Inv2 (Profiler.step p e).state := by
  refine ⟨Profiler.Inv_step p e h.1, ?_⟩
  cases e with
  | register fn =>
    simp only [Profiler.step]
    rw [Profiler.Register_eq]
    split
    · exact h.2
    · exact h.2
  | begin address frm now => exact Profiler.GInv_BeginFunction p address frm now h.2
  | end_ address clock => exact (Profiler.Inv2_EndFunction p address clock h).2

theorem Profiler.Inv2_run (es : List Event) : ∀ (p : Profiler), Profiler.Inv2 p →
    Profiler.Inv2 (Profiler.run p es).state := by
  induction es with
  | nil => intro p h; exact h
  | cons e es ih =>
    intro p h
    simp only [Profiler.run]
    split
    · exact Profiler.Inv2_step p e h
    · exact ih _ (Profiler.Inv2_step p e h)

theorem Profiler.Inv2_new (enabled : Bool) :
    Profiler.Inv2 (Profiler.set_call_graph_enabled Profiler.new enabled) :=
  ⟨Profiler.Inv_new enabled, CallGraph.GraphInv_new⟩

theorem Profiler.EndFunction.body_enabled (now : TimePoint) (p : Profiler) :
    match Profiler.EndFunction.body now p with
    | Iteration.done p1 _ => p1.call_graph_enabled = p.call_graph_enabled
    | Iteration.aborted p1 _ _ => p1.call_graph_enabled = p.call_graph_enabled := by
  simp only [Profiler.EndFunction.body]
  cases CallStack.Pop now p.call_stack with
  | error f => rfl
  | ok r =>
    obtain ⟨c, calls⟩ := r
    simp only
    cases Statistics.GetFunctionStatistis p.stats c.fn.address with
    | none => rfl
    | some s =>
      simp only
      cases hen : p.call_graph_enabled with
      | false => simp [hen]
      | true =>
        simp only [if_true]
        cases Profiler.EndFunction.graph p.call_graph with
        | error f => simp [hen]
        | ok g => simp [hen]

/-- No event changes whether the call graph is enabled. -/
theorem Profiler.step_enabled (p : Profiler) (e : Event) :
    (Profiler.step p e).state.call_graph_enabled = p.call_graph_enabled := by
  cases e with
  | register fn =>
    simp only [Profiler.step]
    rw [Profiler.Register_eq]
    split <;> rfl
  | begin address frm now =>
    simp only [Profiler.step, Profiler.BeginFunction]
    split
    · rfl
    · split
      · rfl
      · split
        · rfl
        · split
          · split <;> rfl
          · rfl
  | end_ address clock =>
    simp only [Profiler.step]
    rcases Profiler.EndFunction_popped_assert p address clock with he | he
    · rw [he]
    · rw [he]
      exact Profiler.EndFunction.loop_induct
        (fun q _ => q.call_graph_enabled = p.call_graph_enabled) address clock
        (fun now q l q1 c hJ hb => by
          have h1 := Profiler.EndFunction.body_enabled now q
          rw [hb] at h1
          exact h1.trans hJ)
        (fun now q l q1 l1 f hJ hb => by
          have h1 := Profiler.EndFunction.body_enabled now q
          rw [hb] at h1
          exact h1.trans hJ)
        (p.call_stack.length + 1) 0 p [] rfl

/-- No sequence of events changes whether the call graph is enabled. -/
theorem Profiler.run_enabled (es : List Event) : ∀ (p : Profiler),
    (Profiler.run p es).state.call_graph_enabled = p.call_graph_enabled := by
  induction es with
  | nil => intro p; rfl
  | cons e es ih =>
    intro p
    have hstep := Profiler.step_enabled p e
    simp only [Profiler.run]
    split
    · exact hstep
    · exact (ih _).trans hstep

theorem CallStack.update_top (c : FunctionCall) (cs : CallStack)
    (f : FunctionCall → FunctionCall) :
    CallStack.update (c :: cs) cs.length f = f c :: cs := by
  simp [CallStack.update]

theorem Profiler.BeginFunction_root (p : Profiler) (address frm : Address) (now : TimePoint)
    (s : FunctionStatistics) (ha : address ≠ 0)
    (hs : Statistics.GetFunctionStatistis p.stats address = some s)
    (hg : CallGraph.Inv p.call_graph) (hen : p.call_graph_enabled = true) :
    (Profiler.BeginFunction p address frm now).state.call_graph.root ≠
      some (Profiler.BeginFunction p address frm now).state.call_graph.sentinel := by
  rcases (Profiler.BeginFunction_graph p address frm now s ha hs hg).2 with
    ⟨h, -⟩ | ⟨-, g1, node, hadd, h⟩
  · rw [hen] at h; cases h
  · obtain ⟨g1', node', hadd', hinv1, -, -, hpos, -⟩ :=
      CallGraph.Inv_AddCallee p.call_graph address hg
    rw [hadd] at hadd'
    simp only [Except.ok.injEq, Prod.mk.injEq] at hadd'
    obtain ⟨rfl, rfl⟩ := hadd'
    rw [h]
    simp only [CallGraph.set_root, hinv1.1.1, ne_eq, Option.some.injEq]
    omega

/-- `A` calls itself once: the state, from a state satisfying the invariants in which the
function of the record `s` of `address` has no live activation, after `BeginFunction` twice
and `EndFunction()` twice. -/
theorem Profiler.self_call (p : Profiler) (address f1 f2 : Address) (t1 t2 : TimePoint)
    (clock3 clock4 : Nat → TimePoint) (s : FunctionStatistics) (hinv : Profiler.Inv2 p)
    (ha : address ≠ 0) (hs : Statistics.GetFunctionStatistis p.stats address = some s)
    (hlive : ∀ c ∈ p.call_stack, c.fn ≠ s.function) :
    let r1 := Profiler.BeginFunction p address f1 t1
    let r2 := Profiler.BeginFunction r1.state address f2 t2
    let r3 := Profiler.EndFunction r2.state 0 clock3
    let r4 := Profiler.EndFunction r3.state 0 clock4
    r1.fault = none ∧ r2.fault = none ∧ r3.fault = none ∧
    (∃ inner outer rest, r2.state.call_stack = inner :: outer :: rest ∧
      inner.fn = s.function ∧ outer.fn = s.function ∧
      outer.timer.shadow = none ∧ inner.timer.shadow = some rest.length ∧
      CallStack.get? r2.state.call_stack rest.length = some outer ∧
      outer.timer.start_point = t1 ∧ inner.timer.start_point = t2) ∧
    (∃ inner, r3.popped = [inner] ∧ inner.fn = s.function ∧ inner.timer.total_time = 0 ∧
      inner.timer.latest_total_time = clock3 0 - t2) ∧
    (∃ outer, r4.popped = [outer] ∧ outer.fn = s.function ∧
      outer.timer.total_time = clock4 0 - t1 ∧
      outer.timer.latest_total_time = clock4 0 - t1) ∧
    (Statistics.GetFunctionStatistis r3.state.stats address).map (fun x => x.total_time) =
      some s.total_time ∧
    (Statistics.GetFunctionStatistis r4.state.stats address).map (fun x => x.total_time) =
      some (s.total_time + (clock4 0 - t1)) ∧
    (Statistics.GetFunctionStatistis r4.state.stats address).map (fun x => x.num_calls) =
      some (s.num_calls + 2) := by
  intro r1 r2 r3 r4
  have hsa : s.function.address = address := Statistics.find_address _ _ _ hs
  -- first BeginFunction
  obtain ⟨g1, hg1, -, heq1⟩ := Profiler.BeginFunction_eq p address f1 t1 s ha hs hinv.1.2.2
  have hinv1 : Profiler.Inv2 r1.state :=
    ⟨Profiler.Inv_BeginFunction p address f1 t1 hinv.1,
      Profiler.GInv_BeginFunction p address f1 t1 hinv.2⟩
  have hr1 : r1 = { state := { Profiler.pushed t1 p s.function f1 with call_graph := g1 } } :=
    heq1
  have hs1 : Statistics.GetFunctionStatistis r1.state.stats address =
      some (FunctionStatistics.AdjustNumCalls 1 s) := by
    rw [hr1]
    simp only [Profiler.pushed]
    rw [Statistics.find_update _ _ _ _ (FunctionStatistics.AdjustNumCalls_function 1), hsa]
    simp [hs]
  obtain ⟨S1, hS1⟩ : ∃ S, S = CallStack.PauseCounter t1 p.call_stack
      (CallStack.backPtr p.call_stack) := ⟨_, rfl⟩
  obtain ⟨top1, htop1⟩ : ∃ c, c = CallStack.pushed t1 p.call_stack s.function f1 := ⟨_, rfl⟩
  have hstack1 : r1.state.call_stack = top1 :: S1 := by
    rw [hr1, htop1, hS1]; rfl
  have hshadow1 : top1.timer.shadow = none := by
    have := FunctionCall.findShadow_eq_nearest s.function p.call_stack hinv.1.1 []
      (p.call_stack.length + 1) (Nat.le_succ _)
    simp only [List.nil_append] at this
    rw [htop1]
    simp only [CallStack.pushed, this]
    exact CallStack.nearest_none _ _ hlive
  have hfn1 : top1.fn = s.function := by rw [htop1]; rfl
  have hfields1 : top1.timer.total_time = 0 ∧ top1.timer.start_point = t1 := by
    rw [htop1]; exact ⟨rfl, rfl⟩
  -- second BeginFunction
  obtain ⟨g2, hg2, -, heq2⟩ := Profiler.BeginFunction_eq r1.state address f2 t2
    (FunctionStatistics.AdjustNumCalls 1 s) ha hs1 hinv1.1.2.2
  have hinv2 : Profiler.Inv2 r2.state :=
    ⟨Profiler.Inv_BeginFunction r1.state address f2 t2 hinv1.1,
      Profiler.GInv_BeginFunction r1.state address f2 t2 hinv1.2⟩
  have hr2 : r2 = { state := { Profiler.pushed t2 r1.state s.function f2 with
      call_graph := g2 } } := heq2
  obtain ⟨top2, htop2⟩ : ∃ c, c = CallStack.pushed t2 (top1 :: S1) s.function f2 := ⟨_, rfl⟩
  obtain ⟨top1p, htop1p⟩ : ∃ c : FunctionCall,
      c = { top1 with timer := top1.timer.Pause t2 } := ⟨_, rfl⟩
  have hstack2 : r2.state.call_stack = top2 :: top1p :: S1 := by
    rw [hr2, htop2, htop1p]
    simp only [Profiler.pushed, hstack1, CallStack.backPtr_cons, CallStack.PauseCounter,
      CallStack.update_top]
  have hshadow2 : top2.timer.shadow = some S1.length := by
    have hwf1 : CallStack.WF (top1 :: S1) := by
      have := hinv1.1.1
      rw [hstack1] at this
      exact this
    have := FunctionCall.findShadow_eq_nearest s.function (top1 :: S1) hwf1 []
      ((top1 :: S1).length + 1) (Nat.le_succ _)
    simp only [List.nil_append] at this
    rw [htop2]
    show FunctionCall.findShadow (top1 :: S1) s.function ((top1 :: S1).length + 1)
      (CallStack.backPtr (top1 :: S1)) = _
    rw [this]
    simp [CallStack.nearest, hfn1]
  have hfn2 : top2.fn = s.function := by rw [htop2]; rfl
  have hfields2 : top2.timer.total_time = 0 ∧ top2.timer.start_point = t2 ∧
      top2.timer.parent = some S1.length := by
    rw [htop2]
    exact ⟨rfl, rfl, by simp [CallStack.pushed, CallStack.backPtr_cons]⟩
  have hs2 : Statistics.GetFunctionStatistis r2.state.stats address =
      some (FunctionStatistics.AdjustNumCalls 1 (FunctionStatistics.AdjustNumCalls 1 s)) := by
    rw [hr2]
    simp only [Profiler.pushed]
    rw [Statistics.find_update _ _ _ _ (FunctionStatistics.AdjustNumCalls_function 1), hsa]
    simp [hs1]
  -- first EndFunction
  obtain ⟨hp3, hst3, hstats3, -, hf3⟩ :=
    Profiler.EndFunction_zero r2.state clock3 top2 (top1p :: S1) hinv2.1 hstack2
  have hinv3 : Profiler.Inv2 r3.state := Profiler.Inv2_EndFunction r2.state 0 clock3 hinv2
  have hfault3 : r3.fault = none := by
    rcases hf3 with h | ⟨-, hen, hroot⟩
    · exact h
    · have hen1 : r1.state.call_graph_enabled = true := by
        have : r2.state.call_graph_enabled = r1.state.call_graph_enabled :=
          Profiler.step_enabled r1.state (Event.begin address f2 t2)
        rw [← this]; exact hen
      exact absurd hroot (Profiler.BeginFunction_root r1.state address f2 t2 _ ha hs1 hinv1.2 hen1)
  obtain ⟨top1r, htop1r⟩ : ∃ c : FunctionCall,
      c = { top1p with timer := top1p.timer.Resume (clock3 0) } := ⟨_, rfl⟩
  have hstack3 : r3.state.call_stack = top1r :: S1 := by
    show (Profiler.EndFunction r2.state 0 clock3).state.call_stack = _
    rw [hst3, hfields2.2.2, htop1r]
    simp only [CallStack.ResumeCounter, CallStack.update_top]
  have hfn1r : top1r.fn = s.function := by rw [htop1r, htop1p]; exact hfn1
  have hfields1p : top1p.timer.shadow = none ∧ top1p.timer.total_time = 0 ∧
      top1p.timer.start_point = t1 := by
    rw [htop1p]
    simp only [PerformanceCounter.Pause]
    split
    · exact ⟨hshadow1, hfields1.1, hfields1.2⟩
    · exact ⟨hshadow1, hfields1.1, hfields1.2⟩
  have hfields1r : top1r.timer.shadow = none ∧ top1r.timer.total_time = 0 ∧
      top1r.timer.start_point = t1 := by
    rw [htop1r]
    simp only [PerformanceCounter.Resume]
    split
    · exact hfields1p
    · exact hfields1p
  have hs3 : Statistics.GetFunctionStatistis r3.state.stats address =
      some (Profiler.EndFunction.record (top2.timer.stopped (clock3 0))
        (FunctionStatistics.AdjustNumCalls 1 (FunctionStatistics.AdjustNumCalls 1 s))) := by
    show Statistics.GetFunctionStatistis (Profiler.EndFunction r2.state 0 clock3).state.stats
      address = _
    rw [hstats3, Statistics.find_update _ _ _ _ (Profiler.EndFunction.record_function _)]
    have : top2.fn.address = address := by rw [hfn2]; exact hsa
    simp [this, hs2]
  -- second EndFunction
  obtain ⟨hp4, hst4, hstats4, -, -⟩ :=
    Profiler.EndFunction_zero r3.state clock4 top1r S1 hinv3.1 hstack3
  have hs4 : Statistics.GetFunctionStatistis r4.state.stats address =
      some (Profiler.EndFunction.record (top1r.timer.stopped (clock4 0))
        (Profiler.EndFunction.record (top2.timer.stopped (clock3 0))
          (FunctionStatistics.AdjustNumCalls 1 (FunctionStatistics.AdjustNumCalls 1 s)))) := by
    show Statistics.GetFunctionStatistis (Profiler.EndFunction r3.state 0 clock4).state.stats
      address = _
    rw [hstats4, Statistics.find_update _ _ _ _ (Profiler.EndFunction.record_function _)]
    have : top1r.fn.address = address := by rw [hfn1r]; exact hsa
    simp [this, hs3]
  have htot2 : (top2.timer.stopped (clock3 0)).total_time = 0 := by
    simp [PerformanceCounter.stopped, hshadow2, hfields2.1]
  have htot1 : (top1r.timer.stopped (clock4 0)).total_time = clock4 0 - t1 := by
    simp [PerformanceCounter.stopped, hfields1r.1, hfields1r.2.1, hfields1r.2.2]
  have hrec_total : ∀ (t : PerformanceCounter) (x : FunctionStatistics),
      (Profiler.EndFunction.record t x).total_time = x.total_time + t.total_time := by
    intro t x
    simp only [Profiler.EndFunction.record, FunctionStatistics.set_worst_self_time,
      FunctionStatistics.set_worst_total_time, FunctionStatistics.AdjustTotalTime,
      FunctionStatistics.AdjustSelfTime]
    split <;> split <;> rfl
  refine ⟨by rw [hr1], by rw [hr2], hfault3, ?_, ?_, ?_, ?_, ?_, ?_⟩
  · refine ⟨top2, top1p, S1, hstack2, hfn2, by rw [htop1p]; exact hfn1, hfields1p.1, hshadow2,
      ?_, hfields1p.2.2, hfields2.2.1⟩
    rw [hstack2, CallStack.get?_cons_lt _ _ _ (by simp), CallStack.get?_top]
  · refine ⟨_, hp3, hfn2, htot2, ?_⟩
    simp [PerformanceCounter.stopped, hfields2.2.1]
  · refine ⟨_, hp4, hfn1r, htot1, ?_⟩
    simp [PerformanceCounter.stopped, hfields1r.2.2]
  · rw [hs3]
    simp [hrec_total, htot2, FunctionStatistics.AdjustNumCalls]
  · rw [hs4]
    simp [hrec_total, htot2, htot1, FunctionStatistics.AdjustNumCalls]
  · rw [hs4]
    simp only [Option.map_some', Profiler.EndFunction.record_num_calls,
      FunctionStatistics.AdjustNumCalls, Option.some.injEq]
    omega

/-- With the call graph disabled, a bracket around a dispatch that leaves every activation
present at its start in place and finishes with the activations `extra` on top of them, none
at the bracketed address, returns the dispatch's result, has popped `extra` and the bracketed
activation once each, and leaves the call stack as it was before the bracket. -/
theorem Profiler.bracket_unwind (p : Profiler) (address : Address) (fn : Function)
    (frame : Address) (call : HostCall) (d : Dispatch) (now : TimePoint)
    (clock : Nat → TimePoint) (extra : CallStack)
    (hinv : Profiler.Inv p) (hen : p.call_graph_enabled = false) (ha : address ≠ 0)
    (hfn : fn.address = address)
    (hd : (Profiler.run (Profiler.BeginFunction (Profiler.Register p fn).state address frame
      now).state d.events).fault = none)
    (hstack : (Profiler.run (Profiler.BeginFunction (Profiler.Register p fn).state address
      frame now).state d.events).state.call_stack.map FunctionCall.ident =
      extra.map FunctionCall.ident ++ (Profiler.BeginFunction (Profiler.Register p fn).state
        address frame now).state.call_stack.map FunctionCall.ident)
    (hextra : ∀ x ∈ extra, x.fn.address ≠ address) :
    let r1 := Profiler.BeginFunction (Profiler.Register p fn).state address frame now
    let r2 := Profiler.run r1.state d.events
    let r3 := Profiler.EndFunction r2.state address clock
    let r := Profiler.bracket p address fn frame call d now clock
    r.fault = none ∧ r.ret = some d.ret ∧ r.dispatched = [call] ∧
    r.state = r3.state ∧ r.popped = r2.popped ++ r3.popped ∧
    r.state.call_stack.map FunctionCall.ident = p.call_stack.map FunctionCall.ident ∧
    (∃ t, r1.state.call_stack.head? = some t ∧ t.fn.address = address ∧ t.frame = frame ∧
      r3.popped.map FunctionCall.ident = extra.map FunctionCall.ident ++ [t.ident]) ∧
    (∀ c ∈ r3.popped, c.timer.num_stops = 1 ∧ c.timer.started = false) ∧
    r.state.stats = Statistics.recordAll r2.state.stats r3.popped := by
  intro r1 r2 r3 r
  have hregf := Profiler.Register_fault p fn
  have hreginv := Profiler.Inv_Register p fn hinv
  have hregen : (Profiler.Register p fn).state.call_graph_enabled = false :=
    (Profiler.step_enabled p (Event.register fn)).trans hen
  have hregstack : (Profiler.Register p fn).state.call_stack = p.call_stack := by
    rw [Profiler.Register_eq]; split <;> rfl
  obtain ⟨s, hs⟩ := Option.isSome_iff_exists.1 (Profiler.Register_find p fn)
  rw [hfn] at hs
  obtain ⟨g, -, -, hbeg⟩ := Profiler.BeginFunction_eq (Profiler.Register p fn).state address
    frame now s ha hs hreginv.2.2
  have hsaddr := Statistics.find_address _ _ _ hs
  have hr1f : r1.fault = none := by simp only [r1, hbeg]
  have hr1p : r1.popped = [] := Profiler.BeginFunction_popped _ _ _ _
  have hr1inv : Profiler.Inv r1.state := Profiler.Inv_BeginFunction _ _ _ _ hreginv
  have hr1en : r1.state.call_graph_enabled = false :=
    (Profiler.step_enabled _ (Event.begin address frame now)).trans hregen
  have hr1stack : r1.state.call_stack =
      CallStack.pushed now p.call_stack s.function frame ::
        CallStack.PauseCounter now p.call_stack (CallStack.backPtr p.call_stack) := by
    simp only [r1, hbeg, Profiler.pushed, hregstack]
  have hr2inv : Profiler.Inv r2.state := Profiler.Inv_run d.events _ hr1inv
  have hr2en : r2.state.call_graph_enabled = false :=
    (Profiler.run_enabled d.events _).trans hr1en
  -- the shape of the stack when the dispatch returns
  have hst : r2.state.call_stack.map FunctionCall.ident =
      extra.map FunctionCall.ident ++ r1.state.call_stack.map FunctionCall.ident := hstack
  obtain ⟨above, rest, hsplit, habove, hrest⟩ := List.map_eq_append_iff.1 hst
  rw [hr1stack, List.map_cons] at hrest
  obtain ⟨t, below, hrest2, ht, hbelow⟩ := List.map_eq_cons_iff.1 hrest
  have htfn : t.fn = s.function := by
    have := congrArg Prod.fst ht
    simpa [FunctionCall.ident, CallStack.pushed] using this
  have htframe : t.frame = frame := by
    have := congrArg (fun x => x.2.1) ht
    simpa [FunctionCall.ident, CallStack.pushed] using this
  have htaddr : t.fn.address = address := by rw [htfn]; exact hsaddr
  have habove2 : ∀ x ∈ above, x.fn.address ≠ address := by
    intro x hx
    have hmem : x.ident ∈ extra.map FunctionCall.ident := by
      rw [← habove]; exact List.mem_map_of_mem _ hx
    obtain ⟨y, hy, hyx⟩ := List.mem_map.1 hmem
    have : y.fn = x.fn := congrArg Prod.fst hyx
    rw [← this]; exact hextra y hy
  obtain ⟨hf3, hpop3, hstop3, hstack3, hstats3⟩ :=
    Profiler.EndFunction_unwind r2.state address clock above t below hr2inv hr2en ha
      (by rw [hsplit, hrest2]) htaddr habove2
  have hr : r = { state := r3.state, popped := r2.popped ++ r3.popped, fault := none,
                  ret := some d.ret, dispatched := [call] } := by
    have hregf2 : (Profiler.Register p fn).fault.isSome = false := by rw [hregf]; rfl
    have hr1f2 : (Profiler.BeginFunction (Profiler.Register p fn).state address frame
        now).fault.isSome = false := by
      have := hr1f; simp only [r1] at this; rw [this]; rfl
    have hd2 : (Profiler.run (Profiler.BeginFunction (Profiler.Register p fn).state address
        frame now).state d.events).fault.isSome = false := by rw [hd]; rfl
    have hf32 : (Profiler.EndFunction (Profiler.run (Profiler.BeginFunction
        (Profiler.Register p fn).state address frame now).state d.events).state address
        clock).fault = none := hf3
    have hp1 : (Profiler.BeginFunction (Profiler.Register p fn).state address frame
        now).popped = [] := hr1p
    simp [r, r3, r2, r1, Profiler.bracket, ha, hregf2, hr1f2, hd2, hf32, hp1]
  refine ⟨by rw [hr], by rw [hr], by rw [hr], by rw [hr], by rw [hr], ?_, ?_, hstop3, ?_⟩
  · rw [hr]
    show r3.state.call_stack.map FunctionCall.ident = _
    rw [hstack3, hbelow]
    exact CallStack.PauseCounter_map_ident now p.call_stack _
  · refine ⟨CallStack.pushed now p.call_stack s.function frame, by rw [hr1stack]; rfl, hsaddr,
      rfl, ?_⟩
    rw [hpop3, List.map_append, habove, List.map_cons, List.map_nil, ht]
  · rw [hr]; exact hstats3

/-- A bracket invokes the host function at most once, and when it completes it has invoked it
exactly once, with the arguments of the hook, and returns its result. -/
theorem Profiler.bracket_transparent (p : Profiler) (address : Address) (fn : Function)
    (frame : Address) (call : HostCall) (d : Dispatch) (now : TimePoint)
    (clock : Nat → TimePoint) :
    (Profiler.bracket p address fn frame call d now clock).dispatched.length ≤ 1 ∧
    ((Profiler.bracket p address fn frame call d now clock).fault = none →
      (Profiler.bracket p address fn frame call d now clock).ret = some d.ret ∧
      (Profiler.bracket p address fn frame call d now clock).dispatched = [call]) := by
  have hreg := Profiler.Register_eq p fn
  by_cases ha : address = 0
  · cases h2 : (Profiler.run p d.events).fault with
    | none => simp [Profiler.bracket, ha, h2]
    | some f => simp [Profiler.bracket, ha, h2]
  · have hregf : (Profiler.Register p fn).fault.isSome = false := by
      rw [Profiler.Register_fault]; rfl
    have hregd : (Profiler.Register p fn).dispatched = [] := by
      rw [hreg]; split <;> rfl
    cases h1 : (Profiler.BeginFunction (Profiler.Register p fn).state address frame now).fault
      with
    | some f =>
      have hd : (Profiler.BeginFunction (Profiler.Register p fn).state address frame
          now).dispatched = [] := by
        simp only [Profiler.BeginFunction]
        split
        · rfl
        · split
          · rfl
          · split
            · rfl
            · split
              · split <;> rfl
              · rfl
      simp [Profiler.bracket, ha, hregf, h1, hd]
    | none =>
      cases h2 : (Profiler.run (Profiler.BeginFunction (Profiler.Register p fn).state address
          frame now).state d.events).fault with
      | some f => simp [Profiler.bracket, ha, hregf, h1, h2]
      | none =>
        cases h3 : (Profiler.EndFunction (Profiler.run (Profiler.BeginFunction
            (Profiler.Register p fn).state address frame now).state d.events).state address
            clock).fault with
        | some f => simp [Profiler.bracket, ha, hregf, h1, h2, h3]
        | none => simp [Profiler.bracket, ha, hregf, h1, h2, h3]

/-- The branch that does not profile invokes the host function exactly once, with the
arguments of the hook, and returns its result when the invocation completes. -/
theorem Profiler.passThrough_transparent (p : Profiler) (call : HostCall) (d : Dispatch) :
    (Profiler.passThrough p call d).dispatched = [call] ∧
    ((Profiler.passThrough p call d).fault = none →
      (Profiler.passThrough p call d).ret = some d.ret) ∧
    ((Profiler.run p d.events).fault = none → (Profiler.passThrough p call d).fault = none) := by
  cases h2 : (Profiler.run p d.events).fault with
  | none => simp [Profiler.passThrough, h2]
  | some f => simp [Profiler.passThrough, h2]

/-- What `AddCallee` does to the `caller()` of the nodes: no allocated node changes its caller,
a node allocated by the call has the root of the call as caller, and a call for a function that
has a node allocates nothing and changes the root's node only. -/
theorem CallGraph.AddCallee_callers (g g1 : CallGraph) (stats : Address) (node : Nat)
    (hinv : CallGraph.Inv g) (hadd : CallGraph.AddCallee g stats = .ok (g1, node)) :
    (∀ m, m < g.arena.length → CallGraph.caller g1 m = CallGraph.caller g m) ∧
    g.arena.length ≤ g1.arena.length ∧
    (CallGraph.find g.nodes stats = none →
      node = g.arena.length ∧ CallGraph.caller g1 node = some g.root) ∧
    (∀ n, CallGraph.find g.nodes stats = some n →
      node = n ∧ g1.nodes = g.nodes ∧ g1.arena.length = g.arena.length ∧
      ∃ r, g.root = some r ∧
        (∀ m, m ≠ r → g1.arena[m]? = g.arena[m]?) ∧
        (g1.arena[r]? = (g.arena[r]?).map (CallGraphNode.AddCallee n))) := by
  obtain ⟨hwf, -, -⟩ := hinv
  obtain ⟨-, hpos, ⟨r, hr, hrlt⟩, -, -⟩ := hwf
  cases hfind : CallGraph.find g.nodes stats with
  | none =>
    rw [CallGraph.AddCallee_new g stats r hfind hr] at hadd
    simp only [Except.ok.injEq, Prod.mk.injEq] at hadd
    obtain ⟨rfl, rfl⟩ := hadd
    refine ⟨?_, ?_, fun _ => ⟨rfl, ?_⟩, fun n hn => by cases hn⟩
    · intro m hm
      simp only [CallGraph.caller, CallGraph.updateNode_getElem?]
      split
      · rw [List.getElem?_append_left hm]
        cases g.arena[m]? with
        | none => rfl
        | some x => simp [CallGraphNode.AddCallee_caller]
      · rw [List.getElem?_append_left hm]
    · simp [CallGraph.updateNode_length]
    · simp only [CallGraph.caller, CallGraph.updateNode_getElem?]
      have hne : g.arena.length ≠ r := Nat.ne_of_gt hrlt
      rw [if_neg hne]
      simp
  | some n =>
    rw [CallGraph.AddCallee_found g stats n r hfind hr] at hadd
    simp only [Except.ok.injEq, Prod.mk.injEq] at hadd
    obtain ⟨rfl, rfl⟩ := hadd
    refine ⟨?_, ?_, fun h => (by cases h), ?_⟩
    · intro m _
      simp only [CallGraph.caller, CallGraph.updateNode_getElem?]
      split
      · cases g.arena[m]? with
        | none => rfl
        | some x => simp [CallGraphNode.AddCallee_caller]
      · rfl
    · simp [CallGraph.updateNode_length]
    · intro n1 hn1
      cases hn1
      refine ⟨rfl, rfl, by simp [CallGraph.updateNode_length], r, hr, ?_, ?_⟩
      · intro m hm
        simp only [CallGraph.updateNode_getElem?, if_neg hm]
      · simp only [CallGraph.updateNode_getElem?, if_true]

/-- No sequence of `AddCallee` calls and root changes changes the `caller()` of a node that is
already allocated. -/
theorem CallGraph.run_callers (ops : List GraphOp) :
    ∀ (g g2 : CallGraph), CallGraph.Inv g → CallGraph.run g ops = .ok g2 →
      g.arena.length ≤ g2.arena.length ∧
      ∀ m, m < g.arena.length → CallGraph.caller g2 m = CallGraph.caller g m := by
  induction ops with
  | nil =>
    intro g g2 _ hrun
    simp only [CallGraph.run, Except.ok.injEq] at hrun
    subst hrun
    exact ⟨le_refl _, fun _ _ => rfl⟩
  | cons op ops ih =>
    intro g g2 hinv hrun
    cases op with
    | AddCallee stats =>
      obtain ⟨g1, node, hadd, hinv1, -⟩ := CallGraph.Inv_AddCallee g stats hinv
      simp only [CallGraph.run, CallGraph.step, hadd] at hrun
      obtain ⟨hle, hcall⟩ := ih g1 g2 hinv1 hrun
      obtain ⟨hc1, hle1, -, -⟩ := CallGraph.AddCallee_callers g g1 stats node hinv hadd
      refine ⟨le_trans hle1 hle, fun m hm => ?_⟩
      rw [hcall m (lt_of_lt_of_le hm hle1), hc1 m hm]
    | set_root node =>
      by_cases hlt : node < g.arena.length
      · simp only [CallGraph.run, CallGraph.step, hlt, if_true] at hrun
        exact ih (CallGraph.set_root g (some node)) g2 (CallGraph.Inv_set_root g node hinv hlt) hrun
      · simp [CallGraph.run, CallGraph.step, hlt] at hrun

theorem CallStack.activations_append (l1 l2 : List FunctionCall) (a : Address) :
    CallStack.activations (l1 ++ l2) a =
      CallStack.activations l1 a + CallStack.activations l2 a := by
  simp [CallStack.activations, List.count_append]

theorem CallStack.activations_of_map_fn (l1 l2 : List FunctionCall) (a : Address)
    (h : l1.map (fun c => c.fn) = l2.map (fun c => c.fn)) :
    CallStack.activations l1 a = CallStack.activations l2 a := by
  have h2 : l1.map (fun c => c.fn.address) = l2.map (fun c => c.fn.address) := by
    have := congrArg (List.map (fun (f : Function) => f.address)) h
    simpa [List.map_map, Function.comp] using this
  simp only [CallStack.activations, h2]

/-- One pass through the body of the loop of `EndFunction` moves the top activation from the
stack to the popped ones, and nothing else. -/
theorem Profiler.EndFunction.body_activations (now : TimePoint) (p : Profiler) (a : Address)
    (hinv : Profiler.Inv p) :
    match Profiler.EndFunction.body now p with
    | Iteration.done p1 c =>
      CallStack.activations [c] a + CallStack.activations p1.call_stack a =
        CallStack.activations p.call_stack a
    | Iteration.aborted p1 l _ =>
      CallStack.activations l a + CallStack.activations p1.call_stack a =
        CallStack.activations p.call_stack a := by
  cases hstack : p.call_stack with
  | nil =>
    rw [Profiler.EndFunction.body_nil now p hstack]
    simp [CallStack.activations, hstack]
  | cons c cs =>
    have hres : CallStack.activations (CallStack.ResumeCounter now cs c.timer.parent) a =
        CallStack.activations cs a :=
      CallStack.activations_of_map_fn _ _ a (CallStack.ResumeCounter_map_fn _ _ _)
    have hcons : CallStack.activations [{ c with timer := c.timer.stopped now }] a +
        CallStack.activations cs a = CallStack.activations (c :: cs) a := by
      rw [← CallStack.activations_append]
      exact CallStack.activations_of_map_fn _ _ a rfl
    rcases Profiler.EndFunction.body_eq now p c cs hinv hstack with
      ⟨-, hb⟩ | ⟨-, -, hb⟩ | ⟨-, -, r, n, -, -, hb⟩
    · rw [hb]
      simp only [Profiler.popRecord, hres]
      exact hcons
    · rw [hb]
      simp only [Profiler.popRecord, hres]
      exact hcons
    · rw [hb]
      simp only [Profiler.popRecord, hres]
      exact hcons

/-- The activations popped by `EndFunction` and the ones it leaves on the stack are together the
activations that were on the stack, also when it stops at a fault. -/
theorem Profiler.EndFunction_activations (p : Profiler) (address : Address)
    (clock : Nat → TimePoint) (a : Address) (hinv : Profiler.Inv p) :
    CallStack.activations (Profiler.EndFunction p address clock).popped a +
      CallStack.activations (Profiler.EndFunction p address clock).state.call_stack a =
      CallStack.activations p.call_stack a := by
  rcases Profiler.EndFunction_popped_assert p address clock with he | he
  · rw [he]
    simp [CallStack.activations]
  · rw [he]
    have key := Profiler.EndFunction.loop_induct
      (fun q popped => Profiler.Inv q ∧
        CallStack.activations popped a + CallStack.activations q.call_stack a =
          CallStack.activations p.call_stack a) address clock
      (fun now q l q1 c hJ hb => by
        have h1 := Profiler.Inv_body now q hJ.1
        have h2 := Profiler.EndFunction.body_activations now q a hJ.1
        rw [hb] at h1 h2
        refine ⟨h1, ?_⟩
        rw [CallStack.activations_append]
        have := hJ.2
        simp only at h2
        omega)
      (fun now q l q1 l1 f hJ hb => by
        have h1 := Profiler.Inv_body now q hJ.1
        have h2 := Profiler.EndFunction.body_activations now q a hJ.1
        rw [hb] at h1 h2
        refine ⟨h1, ?_⟩
        rw [CallStack.activations_append]
        have := hJ.2
        simp only at h2
        omega)
      (p.call_stack.length + 1) 0 p [] ⟨hinv, by simp [CallStack.activations]⟩
    exact key.2

/-- Every event keeps the balance between the call count of an address, the activations of
that address popped by the event and the activations of it on the stack. -/
theorem Profiler.step_balance (p : Profiler) (e : Event) (a : Address)
    (hinv : Profiler.Inv p) :
    Statistics.callCount (Profiler.step p e).state.stats a +
        CallStack.activations p.call_stack a =
      Statistics.callCount p.stats a + CallStack.activations (Profiler.step p e).popped a +
        CallStack.activations (Profiler.step p e).state.call_stack a := by
  cases e with
  | register fn =>
    simp only [Profiler.step]
    have hst : (Profiler.Register p fn).state.call_stack = p.call_stack := by
      rw [Profiler.Register_eq]; split <;> rfl
    have hcnt : Statistics.callCount (Profiler.Register p fn).state.stats a =
        Statistics.callCount p.stats a := by
      simp only [Statistics.callCount, Statistics.numCalls_Register]
      cases Statistics.numCalls p.stats a with
      | some n => rfl
      | none =>
        simp only
        split <;> rfl
    rw [hst, hcnt, Profiler.Register_popped]
    simp [CallStack.activations]
  | begin address frm now =>
    simp only [Profiler.step]
    by_cases ha : address = 0
    · rw [Profiler.BeginFunction_assert _ _ _ _ (Or.inl ha)]
      simp [CallStack.activations]
    · cases hs : Statistics.GetFunctionStatistis p.stats address with
      | none =>
        rw [Profiler.BeginFunction_assert _ _ _ _ (Or.inr hs)]
        simp [CallStack.activations]
      | some s =>
        obtain ⟨g, -, -, heq⟩ := Profiler.BeginFunction_eq p address frm now s ha hs hinv.2.2
        have hn := (Statistics.numCalls_BeginFunction p address frm now s a hinv ha hs).2
        have hsa := Statistics.find_address _ _ _ hs
        have hstack : (Profiler.BeginFunction p address frm now).state.call_stack =
            CallStack.pushed now p.call_stack s.function frm ::
              CallStack.PauseCounter now p.call_stack (CallStack.backPtr p.call_stack) := by
          rw [heq]; rfl
        have hact : CallStack.activations (Profiler.BeginFunction p address frm
            now).state.call_stack a =
            (if a = address then 1 else 0) + CallStack.activations p.call_stack a := by
          rw [hstack]
          have h1 : CallStack.activations (CallStack.pushed now p.call_stack s.function frm ::
              CallStack.PauseCounter now p.call_stack (CallStack.backPtr p.call_stack)) a =
              CallStack.activations [CallStack.pushed now p.call_stack s.function frm] a +
              CallStack.activations (CallStack.PauseCounter now p.call_stack
                (CallStack.backPtr p.call_stack)) a := by
            rw [← CallStack.activations_append]; rfl
          rw [h1, CallStack.activations_of_map_fn _ _ a (CallStack.PauseCounter_map_fn _ _ _)]
          congr 1
          simp only [CallStack.activations, CallStack.pushed, List.map_cons, List.map_nil, hsa]
          by_cases h : a = address
          · simp [h]
          · have h2 : ¬ address = a := fun hh => h hh.symm
            simp [h, h2, List.count_cons]
        have hcnt : Statistics.callCount (Profiler.BeginFunction p address frm now).state.stats a
            = (if a = address then 1 else 0) + Statistics.callCount p.stats a := by
          simp only [Statistics.callCount, hn]
          by_cases h : a = address
          · subst h
            simp [Statistics.numCalls, hs]
            omega
          · simp [h]
        rw [hact, hcnt, Profiler.BeginFunction_popped]
        simp only [CallStack.activations, List.map_nil, List.count_nil, Nat.cast_zero]
        omega
  | end_ address clock =>
    simp only [Profiler.step]
    have h1 := Statistics.numCalls_EndFunction p address clock a hinv
    have h2 := Profiler.EndFunction_activations p address clock a hinv
    simp only [Statistics.callCount, h1]
    omega

/-- Every sequence of events keeps the balance of `Profiler.step_balance`. -/
theorem Profiler.run_balance (es : List Event) (a : Address) :
    ∀ (p : Profiler), Profiler.Inv p →
      Statistics.callCount (Profiler.run p es).state.stats a +
          CallStack.activations p.call_stack a =
        Statistics.callCount p.stats a + CallStack.activations (Profiler.run p es).popped a +
          CallStack.activations (Profiler.run p es).state.call_stack a := by
  induction es with
  | nil =>
    intro p _
    simp [Profiler.run, CallStack.activations]
  | cons e es ih =>
    intro p hinv
    have hstep := Profiler.step_balance p e a hinv
    have hrest := ih (Profiler.step p e).state (Profiler.Inv_step p e hinv)
    simp only [Profiler.run]
    split
    · exact hstep
    · simp only [CallStack.activations_append]
      omega

/-- The loop of `EndFunction(address)` on a stack without an activation at `address`
(`address` nonzero): it never leaves through the test of line 178.  It pops and records
activations from the top until the stack is empty and then pops the empty stack, or, with the
call graph enabled, until the assertion `root != sentinel` fails. -/
theorem Profiler.EndFunction.loop_exhaust (address : Address) (clock : Nat → TimePoint)
    (haddr : address ≠ 0) :
    ∀ (n fuel i : Nat) (p : Profiler) (acc : List FunctionCall),
      p.call_stack.length = n → Profiler.Inv p →
      (∀ f ∈ p.call_stack.map (fun c => c.fn), f.address ≠ address) → n < fuel →
      ∃ new, (Profiler.EndFunction.loop address clock fuel i p acc).popped = acc ++ new ∧
        new.map FunctionCall.ident ++
          (Profiler.EndFunction.loop address clock fuel i p acc).state.call_stack.map
            FunctionCall.ident = p.call_stack.map FunctionCall.ident ∧
        (Profiler.EndFunction.loop address clock fuel i p acc).state.stats =
          Statistics.recordAll p.stats new ∧
        (((Profiler.EndFunction.loop address clock fuel i p acc).fault =
            some Fault.undefined_behaviour ∧
          (Profiler.EndFunction.loop address clock fuel i p acc).state.call_stack = []) ∨
         ((Profiler.EndFunction.loop address clock fuel i p acc).fault =
            some Fault.assertion_failed ∧ p.call_graph_enabled = true ∧ new ≠ [])) := by
  intro n
  induction n with
  | zero =>
    intro fuel i p acc hlen _ _ hfuel
    obtain ⟨f, rfl⟩ : ∃ f, fuel = f + 1 := ⟨fuel - 1, by omega⟩
    have hnil : p.call_stack = [] := List.length_eq_zero.1 hlen
    simp only [Profiler.EndFunction.loop, Profiler.EndFunction.body_nil _ p hnil]
    exact ⟨[], by simp, by simp, rfl, Or.inl ⟨trivial, hnil⟩⟩
  | succ n ih =>
    intro fuel i p acc hlen hinv hfns hfuel
    obtain ⟨f, rfl⟩ : ∃ f, fuel = f + 1 := ⟨fuel - 1, by omega⟩
    cases hcs : p.call_stack with
    | nil => rw [hcs] at hlen; cases hlen
    | cons c cs =>
      have hcne : c.fn.address ≠ address :=
        hfns c.fn (by rw [hcs]; simp)
      have hcont : ¬ (address = 0 ∨ c.fn.address = address) := not_or.2 ⟨haddr, hcne⟩
      have hlen1 : (CallStack.ResumeCounter (clock i) cs c.timer.parent).length = n := by
        rw [CallStack.ResumeCounter_length]
        rw [hcs] at hlen
        simpa using hlen
      have hfns1 : ∀ f ∈ (CallStack.ResumeCounter (clock i) cs c.timer.parent).map
          (fun c => c.fn), f.address ≠ address := by
        rw [CallStack.ResumeCounter_map_fn]
        intro g hg
        exact hfns g (by rw [hcs]; exact List.mem_cons_of_mem _ hg)
      have hid1 : (CallStack.ResumeCounter (clock i) cs c.timer.parent).map FunctionCall.ident
          = cs.map FunctionCall.ident := CallStack.ResumeCounter_map_ident' _ _ _
      have hbody := Profiler.Inv_body (clock i) p hinv
      rcases Profiler.EndFunction.body_eq (clock i) p c cs hinv hcs with
        ⟨-, hb⟩ | ⟨hen, -, hb⟩ | ⟨-, -, r, m, -, -, hb⟩
      · rw [hb] at hbody
        obtain ⟨new, hpop, hid, hstats, hfault⟩ :=
          ih f (i + 1) (Profiler.popRecord (clock i) p c cs)
            (acc ++ [{ c with timer := c.timer.stopped (clock i) }]) hlen1 hbody hfns1
            (by omega)
        simp only [Profiler.EndFunction.loop, hb, hcont, if_false]
        refine ⟨{ c with timer := c.timer.stopped (clock i) } :: new, ?_, ?_, ?_, ?_⟩
        · rw [hpop]; simp
        · rw [List.map_cons, List.cons_append, hid]
          simp only [Profiler.popRecord, hid1]
          rfl
        · rw [hstats]; rfl
        · rcases hfault with h | ⟨h1, h2, -⟩
          · exact Or.inl h
          · exact Or.inr ⟨h1, h2, List.cons_ne_nil _ _⟩
      · simp only [Profiler.EndFunction.loop, hb]
        refine ⟨[{ c with timer := c.timer.stopped (clock i) }], rfl, ?_, rfl,
          Or.inr ⟨trivial, hen, List.cons_ne_nil _ _⟩⟩
        simp only [Profiler.popRecord, hid1]
        rfl
      · rw [hb] at hbody
        obtain ⟨new, hpop, hid, hstats, hfault⟩ :=
          ih f (i + 1) { Profiler.popRecord (clock i) p c cs with
              call_graph := CallGraph.set_root p.call_graph (some m) }
            (acc ++ [{ c with timer := c.timer.stopped (clock i) }]) hlen1 hbody hfns1
            (by omega)
        simp only [Profiler.EndFunction.loop, hb, hcont, if_false]
        refine ⟨{ c with timer := c.timer.stopped (clock i) } :: new, ?_, ?_, ?_, ?_⟩
        · rw [hpop]; simp
        · rw [List.map_cons, List.cons_append, hid]
          simp only [Profiler.popRecord, hid1]
          rfl
        · rw [hstats]; rfl
        · rcases hfault with h | ⟨h1, h2, -⟩
          · exact Or.inl h
          · exact Or.inr ⟨h1, h2, List.cons_ne_nil _ _⟩

/-- `EndFunction(address)` for a registered nonzero address that no live activation has, on a
non-empty stack: it does not return.  Every activation it pops is recorded; it stops at the pop
of the empty stack, with all activations popped, or, with the call graph enabled, at a failed
assertion `root != sentinel`. -/
theorem Profiler.EndFunction_exhaust (p : Profiler) (address : Address)
    (clock : Nat → TimePoint) (hinv : Profiler.Inv p) (haddr : address ≠ 0)
    (hne : p.call_stack ≠ [])
    (hreg : (Statistics.GetFunctionStatistis p.stats address).isSome = true)
    (hlive : ∀ c ∈ p.call_stack, c.fn.address ≠ address) :
    (Profiler.EndFunction p address clock).popped.map FunctionCall.ident ++
        (Profiler.EndFunction p address clock).state.call_stack.map FunctionCall.ident =
      p.call_stack.map FunctionCall.ident ∧
    (Profiler.EndFunction p address clock).state.stats =
      Statistics.recordAll p.stats (Profiler.EndFunction p address clock).popped ∧
    (((Profiler.EndFunction p address clock).fault = some Fault.undefined_behaviour ∧
      (Profiler.EndFunction p address clock).state.call_stack = []) ∨
     ((Profiler.EndFunction p address clock).fault = some Fault.assertion_failed ∧
      p.call_graph_enabled = true ∧ (Profiler.EndFunction p address clock).popped ≠ [])) := by
  have hempty : p.call_stack.isEmpty = false := by
    cases h : p.call_stack with
    | nil => exact absurd h hne
    | cons c cs => rfl
  have hregn : (Statistics.GetFunction p.stats address).isNone = false := by
    obtain ⟨s, hs⟩ := Option.isSome_iff_exists.1 hreg
    simp [Statistics.GetFunction, hs]
  have hE : Profiler.EndFunction p address clock =
      Profiler.EndFunction.loop address clock (p.call_stack.length + 1) 0 p [] := by
    simp [Profiler.EndFunction, hempty, hregn]
  obtain ⟨new, hpop, hid, hstats, hfault⟩ :=
    Profiler.EndFunction.loop_exhaust address clock haddr p.call_stack.length
      (p.call_stack.length + 1) 0 p [] rfl hinv
      (by
        intro f hf
        obtain ⟨c, hc, rfl⟩ := List.mem_map.1 hf
        exact hlive c hc)
      (Nat.lt_succ_self _)
  rw [hE]
  simp only [List.nil_append] at hpop
  rw [hpop]
  exact ⟨hid, hstats, hfault⟩

theorem Statistics.find_of_mem (stats : Statistics) (s : FunctionStatistics)
    (hs : s ∈ stats) (hnd : (stats.map (fun x => x.function.address)).Nodup) :
    Statistics.GetFunctionStatistis stats s.function.address = some s := by
  induction stats with
  | nil => cases hs
  | cons t rest ih =>
    rw [List.map_cons, List.nodup_cons] at hnd
    obtain ⟨hnot, hrest⟩ := hnd
    simp only [Statistics.GetFunctionStatistis, List.find?_cons]
    rcases List.mem_cons.1 hs with rfl | hmem
    · simp
    · have hne : ¬ t.function.address = s.function.address := by
        intro heq
        apply hnot
        rw [heq]
        exact List.mem_map.2 ⟨s, hmem, rfl⟩
      simp only [hne, decide_False]
      exact ih hmem hrest

/-- In a state whose registry holds one function per address, the lookup of the address of a
registered function finds that function. -/
theorem Profiler.Registry_find (p : Profiler) (fn : Function) (h : Profiler.Registry p)
    (hmem : fn ∈ p.functions) : Statistics.GetFunction p.stats fn.address = some fn := by
  obtain ⟨hmap, hnd⟩ := h
  rw [← hmap] at hmem hnd
  obtain ⟨s, hs, rfl⟩ := List.mem_map.1 hmem
  have hnd2 : (p.stats.map (fun x => x.function.address)).Nodup := by
    simpa [List.map_map, Function.comp] using hnd
  simp only [Statistics.GetFunction, Statistics.find_of_mem p.stats s hs hnd2, Option.map_some']

theorem Profiler.RegistryGrows_refl (p : Profiler) : Profiler.RegistryGrows p p :=
  ⟨List.prefix_refl _, id⟩

theorem Profiler.RegistryGrows_trans (p q r : Profiler) (h1 : Profiler.RegistryGrows p q)
    (h2 : Profiler.RegistryGrows q r) : Profiler.RegistryGrows p r :=
  ⟨h1.1.trans h2.1, fun h => h2.2 (h1.2 h)⟩

theorem Profiler.RegistryGrows_of_same (p q : Profiler) (hf : q.functions = p.functions)
    (hs : q.stats.map (fun s => s.function) = p.stats.map (fun s => s.function)) :
    Profiler.RegistryGrows p q := by
  refine ⟨by rw [hf], fun h => ?_⟩
  simp only [Profiler.Registry, hf, hs]
  exact h

/-- The lookup-or-create step registers nothing when the lookup finds a function, and otherwise
appends the new function, whose address no registered function has. -/
theorem Profiler.RegistryGrows_Register (p : Profiler) (fn : Function) :
    Profiler.RegistryGrows p (Profiler.Register p fn).state ∧
    ((Statistics.GetFunction p.stats fn.address).isSome = true →
      (Profiler.Register p fn).state.functions = p.functions) ∧
    (Statistics.GetFunction p.stats fn.address = none →
      (Profiler.Register p fn).state.functions = p.functions ++ [fn]) := by
  rw [Profiler.Register_eq]
  cases hs : Statistics.GetFunctionStatistis p.stats fn.address with
  | some s =>
    refine ⟨Profiler.RegistryGrows_refl p, fun _ => rfl, fun h => ?_⟩
    simp [Statistics.GetFunction, hs] at h
  | none =>
    refine ⟨⟨List.prefix_append _ _, ?_⟩, fun h => ?_, fun _ => rfl⟩
    · rintro ⟨hmap, hnd⟩
      refine ⟨by simp [hmap], ?_⟩
      simp only [List.map_append, List.map_cons, List.map_nil]
      rw [List.nodup_append]
      refine ⟨hnd, List.nodup_singleton _, ?_⟩
      intro a ha hb
      rw [List.mem_singleton] at hb
      subst hb
      rw [← hmap] at ha
      obtain ⟨f, hf, hfa⟩ := List.mem_map.1 ha
      obtain ⟨s, hsm, rfl⟩ := List.mem_map.1 hf
      have := List.find?_eq_none.1 hs s hsm
      simp [hfa] at this
    · simp [Statistics.GetFunction, hs] at h

theorem Profiler.RegistryGrows_BeginFunction (p : Profiler) (address frm : Address)
    (now : TimePoint) :
    Profiler.RegistryGrows p (Profiler.BeginFunction p address frm now).state := by
  have hupd : ∀ a, (Statistics.update p.stats a (FunctionStatistics.AdjustNumCalls 1)).map
      (fun s => s.function) = p.stats.map (fun s => s.function) := fun a =>
    Statistics.update_map_function _ _ _ (FunctionStatistics.AdjustNumCalls_function 1)
  apply Profiler.RegistryGrows_of_same
  · simp only [Profiler.BeginFunction]
    split
    · rfl
    · split
      · rfl
      · split
        · rfl
        · split
          · split <;> rfl
          · rfl
  · simp only [Profiler.BeginFunction]
    split
    · rfl
    · split
      · rfl
      · split
        · exact hupd _
        · split
          · split <;> exact hupd _
          · exact hupd _

theorem Profiler.EndFunction.body_registry (now : TimePoint) (p : Profiler) :
    match Profiler.EndFunction.body now p with
    | Iteration.done p1 _ => p1.functions = p.functions ∧
        p1.stats.map (fun s => s.function) = p.stats.map (fun s => s.function)
    | Iteration.aborted p1 _ _ => p1.functions = p.functions ∧
        p1.stats.map (fun s => s.function) = p.stats.map (fun s => s.function) := by
  have hupd : ∀ a t, (Statistics.update p.stats a (Profiler.EndFunction.record t)).map
      (fun s => s.function) = p.stats.map (fun s => s.function) := fun a t =>
    Statistics.update_map_function _ _ _ (Profiler.EndFunction.record_function t)
  simp only [Profiler.EndFunction.body]
  cases CallStack.Pop now p.call_stack with
  | error f => exact ⟨rfl, rfl⟩
  | ok r =>
    obtain ⟨c, calls⟩ := r
    simp only
    cases Statistics.GetFunctionStatistis p.stats c.fn.address with
    | none => exact ⟨rfl, rfl⟩
    | some s =>
      simp only
      cases hen : p.call_graph_enabled with
      | false => simp [hupd]
      | true =>
        simp only [if_true]
        cases Profiler.EndFunction.graph p.call_graph with
        | error f => exact ⟨rfl, hupd _ _⟩
        | ok g => exact ⟨rfl, hupd _ _⟩

theorem Profiler.RegistryGrows_EndFunction (p : Profiler) (address : Address)
    (clock : Nat → TimePoint) :
    Profiler.RegistryGrows p (Profiler.EndFunction p address clock).state := by
  rcases Profiler.EndFunction_popped_assert p address clock with he | he
  · rw [he]; exact Profiler.RegistryGrows_refl p
  · rw [he]
    have key := Profiler.EndFunction.loop_induct
      (fun q _ => q.functions = p.functions ∧
        q.stats.map (fun s => s.function) = p.stats.map (fun s => s.function)) address clock
      (fun now q l q1 c hJ hb => by
        have h1 := Profiler.EndFunction.body_registry now q
        rw [hb] at h1
        exact ⟨h1.1.trans hJ.1, h1.2.trans hJ.2⟩)
      (fun now q l q1 l1 f hJ hb => by
        have h1 := Profiler.EndFunction.body_registry now q
        rw [hb] at h1
        exact ⟨h1.1.trans hJ.1, h1.2.trans hJ.2⟩)
      (p.call_stack.length + 1) 0 p [] ⟨rfl, rfl⟩
    exact Profiler.RegistryGrows_of_same _ _ key.1 key.2

theorem Profiler.RegistryGrows_step (p : Profiler) (e : Event) :
    Profiler.RegistryGrows p (Profiler.step p e).state := by
  cases e with
  | register fn => exact (Profiler.RegistryGrows_Register p fn).1
  | begin address frm now => exact Profiler.RegistryGrows_BeginFunction p address frm now
  | end_ address clock => exact Profiler.RegistryGrows_EndFunction p address clock

theorem Profiler.RegistryGrows_run (es : List Event) :
    ∀ p : Profiler, Profiler.RegistryGrows p (Profiler.run p es).state := by
  induction es with
  | nil => intro p; exact Profiler.RegistryGrows_refl p
  | cons e es ih =>
    intro p
    simp only [Profiler.run]
    split
    · exact Profiler.RegistryGrows_step p e
    · exact Profiler.RegistryGrows_trans _ _ _ (Profiler.RegistryGrows_step p e) (ih _)

theorem Profiler.RegistryGrows_bracket (p : Profiler) (address : Address) (fn : Function)
    (frame : Address) (call : HostCall) (d : Dispatch) (now : TimePoint)
    (clock : Nat → TimePoint) :
    Profiler.RegistryGrows p (Profiler.bracket p address fn frame call d now clock).state ∧
    (address ≠ 0 → Profiler.RegistryGrows (Profiler.Register p fn).state
      (Profiler.bracket p address fn frame call d now clock).state) := by
  by_cases ha : address = 0
  · refine ⟨?_, fun h => absurd ha h⟩
    cases h2 : (Profiler.run p d.events).fault with
    | none =>
      simp only [Profiler.bracket, ha, ne_eq, not_true_eq_false, if_false, h2, Option.isSome_none,
        Bool.false_eq_true]
      exact Profiler.RegistryGrows_run d.events p
    | some f =>
      simp only [Profiler.bracket, ha, ne_eq, not_true_eq_false, if_false, h2,
        Option.isSome_some, if_true, Option.isSome_none, Bool.false_eq_true]
      exact Profiler.RegistryGrows_run d.events p
  · have hregf : (Profiler.Register p fn).fault.isSome = false := by
      rw [Profiler.Register_fault]; rfl
    have h0 := (Profiler.RegistryGrows_Register p fn).1
    have h1 := Profiler.RegistryGrows_BeginFunction (Profiler.Register p fn).state address frame
      now
    have h2 := Profiler.RegistryGrows_run d.events
      (Profiler.BeginFunction (Profiler.Register p fn).state address frame now).state
    have h3 := Profiler.RegistryGrows_EndFunction (Profiler.run (Profiler.BeginFunction
      (Profiler.Register p fn).state address frame now).state d.events).state address clock
    have h12 := Profiler.RegistryGrows_trans _ _ _ h1 h2
    have h123 := Profiler.RegistryGrows_trans _ _ _ h12 h3
    have key : Profiler.RegistryGrows (Profiler.Register p fn).state
        (Profiler.bracket p address fn frame call d now clock).state := by
      cases hf1 : (Profiler.BeginFunction (Profiler.Register p fn).state address frame
          now).fault with
      | some f =>
        simp only [Profiler.bracket, ha, ne_eq, not_false_eq_true, if_true, hregf, hf1,
          Option.isSome_some, Bool.false_eq_true, if_false]
        exact h1
      | none =>
        cases hf2 : (Profiler.run (Profiler.BeginFunction (Profiler.Register p fn).state address
            frame now).state d.events).fault with
        | some f =>
          simp only [Profiler.bracket, ha, ne_eq, not_false_eq_true, if_true, hregf, hf1, hf2,
            Option.isSome_some, Option.isSome_none, Bool.false_eq_true, if_false]
          exact h12
        | none =>
          simp only [Profiler.bracket, ha, ne_eq, not_false_eq_true, if_true, hregf, hf1, hf2,
            Option.isSome_none, Bool.false_eq_true, if_false]
          exact h123
    exact ⟨Profiler.RegistryGrows_trans _ _ _ h0 key, fun _ => key⟩

theorem Profiler.RegistryGrows_passThrough (p : Profiler) (call : HostCall) (d : Dispatch) :
    Profiler.RegistryGrows p (Profiler.passThrough p call d).state := by
  cases h2 : (Profiler.run p d.events).fault with
  | none =>
    simp only [Profiler.passThrough, h2, Option.isSome_none, Bool.false_eq_true, if_false]
    exact Profiler.RegistryGrows_run d.events p
  | some f =>
    simp only [Profiler.passThrough, h2, Option.isSome_some, if_true]
    exact Profiler.RegistryGrows_run d.events p

theorem Profiler.RegistryGrows_DebugHook (p : Profiler) (amx : AMX) (clock : Nat → TimePoint)
    (debug : Option (AMX → Int)) :
    Profiler.RegistryGrows p (Profiler.DebugHook p amx clock debug).state ∧
    (∀ top rest, p.call_stack = top :: rest → amx.frm < top.frame →
      GetCalleeAddress amx amx.frm ≠ 0 →
      Profiler.RegistryGrows
        (Profiler.Register p (Function.Normal (GetCalleeAddress amx amx.frm))).state
        (Profiler.DebugHook p amx clock debug).state) := by
  have hpush : ∀ top rest, p.call_stack = top :: rest → amx.frm < top.frame →
      GetCalleeAddress amx amx.frm ≠ 0 →
      Profiler.RegistryGrows
        (Profiler.Register p (Function.Normal (GetCalleeAddress amx amx.frm))).state
        (Profiler.DebugHook p amx clock debug).state := by
    intro top rest hstack hlt hne
    have hregf : (Profiler.Register p (Function.Normal (GetCalleeAddress amx
        amx.frm))).fault.isSome = false := by
      rw [Profiler.Register_fault]; rfl
    have hne2 : top.frame ≠ amx.frm := fun h => by rw [h] at hlt; exact lt_irrefl _ hlt
    simp only [Profiler.DebugHook, hstack, hlt, if_true, hne2, ne_eq, not_false_eq_true, hne,
      hregf, Bool.false_eq_true, if_false, Result.finish_state]
    exact Profiler.RegistryGrows_BeginFunction _ _ _ _
  refine ⟨?_, hpush⟩
  cases hstack : p.call_stack with
  | nil =>
    simp only [Profiler.DebugHook, hstack]
    split
    · exact Profiler.RegistryGrows_refl p
    · split
      · exact Profiler.RegistryGrows_refl p
      · rw [Result.finish_state]; exact Profiler.RegistryGrows_refl p
  | cons top rest =>
    by_cases hlt : amx.frm < top.frame
    · by_cases hne : GetCalleeAddress amx amx.frm ≠ 0
      · exact Profiler.RegistryGrows_trans _ _ _ (Profiler.RegistryGrows_Register p _).1
          (hpush top rest hstack hlt hne)
      · have hne2 : top.frame ≠ amx.frm := fun h => by rw [h] at hlt; exact lt_irrefl _ hlt
        simp only [Profiler.DebugHook, hstack, hlt, if_true, hne2, ne_eq, not_false_eq_true,
          hne, if_false, Result.finish_state]
        exact Profiler.RegistryGrows_refl p
    · simp only [Profiler.DebugHook, hstack, hlt, if_false]
      split
      · split
        · rw [Result.finish_state]
          exact Profiler.RegistryGrows_EndFunction p 0 clock
        · rw [Result.finish_state]; exact Profiler.RegistryGrows_refl p
      · rw [Result.finish_state]; exact Profiler.RegistryGrows_refl p

theorem Profiler.RegistryGrows_hook (p : Profiler) (h : HookEvent) :
    Profiler.RegistryGrows p (Profiler.hook p h).state := by
  cases h with
  | debug amx clock debug => exact (Profiler.RegistryGrows_DebugHook p amx clock debug).1
  | callback amx index result params callback now clock =>
    simp only [Profiler.hook, Profiler.CallbackHook]
    split
    · exact (Profiler.RegistryGrows_bracket _ _ _ _ _ _ _ _).1
    · exact Profiler.RegistryGrows_passThrough _ _ _
  | exec amx retval index exec now clock =>
    simp only [Profiler.hook, Profiler.ExecHook]
    split
    · exact (Profiler.RegistryGrows_bracket _ _ _ _ _ _ _ _).1
    · exact Profiler.RegistryGrows_passThrough _ _ _

theorem Profiler.RegistryGrows_hooks (hs : List HookEvent) :
    ∀ p : Profiler, Profiler.RegistryGrows p (Profiler.hooks p hs).state := by
  induction hs with
  | nil => intro p; exact Profiler.RegistryGrows_refl p
  | cons h hs ih =>
    intro p
    simp only [Profiler.hooks]
    split
    · exact Profiler.RegistryGrows_hook p h
    · exact Profiler.RegistryGrows_trans _ _ _ (Profiler.RegistryGrows_hook p h) (ih _)

theorem Profiler.Registry_new (enabled : Bool) :
    Profiler.Registry (Profiler.set_call_graph_enabled Profiler.new enabled) :=
  ⟨rfl, List.nodup_nil⟩

/-- In a state whose registry agrees with the statistics table, the lookup of an address that
no registered function has finds nothing. -/
theorem Profiler.Registry_find_none (p : Profiler) (a : Address) (h : Profiler.Registry p)
    (ha : a ∉ p.functions.map (fun f => f.address)) :
    Statistics.GetFunction p.stats a = none := by
  rw [← h.1] at ha
  simp only [Statistics.GetFunction, Option.map_eq_none', Statistics.GetFunctionStatistis,
    List.find?_eq_none]
  intro s hs
  simp only [decide_eq_true_eq]
  intro heq
  apply ha
  rw [List.map_map]
  exact List.mem_map.2 ⟨s, hs, heq⟩

/-- After the lookup-or-create step for `fn`, when the lookup found nothing, `fn` is the
function of its address in every state whose registry continues the one of that step. -/
theorem Profiler.Registry_first (p q : Profiler) (fn : Function) (h : Profiler.Registry p)
    (hnone : Statistics.GetFunction p.stats fn.address = none)
    (hgrow : Profiler.RegistryGrows (Profiler.Register p fn).state q) :
    Statistics.GetFunction q.stats fn.address = some fn := by
  have hreg := Profiler.RegistryGrows_Register p fn
  have hq : Profiler.Registry q := hgrow.2 (hreg.1.2 h)
  apply Profiler.Registry_find q fn hq
  apply hgrow.1.subset
  rw [hreg.2.2 hnone]
  simp

/-- A bracket hands the host function the invocation it was given, and nothing else. -/
theorem Profiler.bracket_dispatched (p : Profiler) (address : Address) (fn : Function)
    (frame : Address) (call : HostCall) (d : Dispatch) (now : TimePoint)
    (clock : Nat → TimePoint) :
    (Profiler.bracket p address fn frame call d now clock).dispatched = [] ∨
    (Profiler.bracket p address fn frame call d now clock).dispatched = [call] := by
  have hreg := Profiler.Register_eq p fn
  by_cases ha : address = 0
  · cases h2 : (Profiler.run p d.events).fault with
    | none => simp [Profiler.bracket, ha, h2]
    | some f => simp [Profiler.bracket, ha, h2]
  · have hregf : (Profiler.Register p fn).fault.isSome = false := by
      rw [Profiler.Register_fault]; rfl
    cases h1 : (Profiler.BeginFunction (Profiler.Register p fn).state address frame now).fault
      with
    | some f =>
      have hd : (Profiler.BeginFunction (Profiler.Register p fn).state address frame
          now).dispatched = [] := by
        simp only [Profiler.BeginFunction]
        split
        · rfl
        · split
          · rfl
          · split
            · rfl
            · split
              · split <;> rfl
              · rfl
      simp [Profiler.bracket, ha, hregf, h1, hd]
    | none =>
      cases h2 : (Profiler.run (Profiler.BeginFunction (Profiler.Register p fn).state address
          frame now).state d.events).fault with
      | some f => simp [Profiler.bracket, ha, hregf, h1, h2]
      | none => simp [Profiler.bracket, ha, hregf, h1, h2]

theorem ToUnixPath_idem (path : List Char) : ToUnixPath (ToUnixPath path) = ToUnixPath path := by
  simp only [ToUnixPath, List.map_map]
  apply List.map_congr_left
  intro c _
  simp only [Function.comp]
  by_cases h : c = backslash
  · simp only [h, if_true]
    decide
  · simp only [h, if_false]

/-- `occursIn sub s` holds exactly when `s` is `sub` with something before and something
after it. -/
theorem occursIn_iff (sub s : List Char) : occursIn sub s = true ↔ sub <:+: s := by
  induction s with
  | nil =>
    simp only [occursIn, List.isPrefixOf_iff_prefix, List.prefix_nil, List.infix_nil]
  | cons c rest ih =>
    simp only [occursIn, Bool.or_eq_true, List.isPrefixOf_iff_prefix, ih, List.infix_cons_iff]

theorem dropWhile_head (p : Char → Bool) (l : List Char) (c : Char) (r : List Char)
    (h : l.dropWhile p = c :: r) : p c = false ∧ r.length < l.length := by
  induction l with
  | nil => simp at h
  | cons x xs ih =>
    simp only [List.dropWhile_cons] at h
    split at h
    · obtain ⟨h1, h2⟩ := ih h
      exact ⟨h1, by simp; omega⟩
    · next hx =>
      simp only [List.cons.injEq] at h
      obtain ⟨rfl, rfl⟩ := h
      exact ⟨by simpa using hx, by simp⟩

theorem dropWhile_length_le (p : Char → Bool) (l : List Char) :
    (l.dropWhile p).length ≤ l.length := by
  induction l with
  | nil => simp
  | cons x xs ih =>
    simp only [List.dropWhile_cons]
    split
    · simp only [List.length_cons]; omega
    · exact le_refl _

/-- An extraction that does not set `eofbit` has consumed a character. -/
theorem extract_rest (stream name rest : List Char)
    (h : extract stream = (name, rest, false)) : rest.length < stream.length := by
  simp only [extract] at h
  split at h
  · simp at h
  · next c r hd =>
    simp only [Prod.mk.injEq] at h
    obtain ⟨-, hrest, -⟩ := h
    obtain ⟨hc, hlen⟩ := dropWhile_head isspace stream c r hd
    rw [← hrest, List.dropWhile_cons]
    simp only [hc, Bool.not_false, if_true]
    have := dropWhile_length_le (fun x => !isspace x) r
    omega

/-- The loop of `WantsProfiler` returns when it is given more iterations than the stream has
characters. -/
theorem WantsProfiler.loop_returns (good : List Char) :
    ∀ (fuel : Nat) (stream : List Char), stream.length < fuel →
      (WantsProfiler.loop good fuel stream).isSome = true := by
  intro fuel
  induction fuel with
  | zero => intro stream h; exact absurd h (Nat.not_lt_zero _)
  | succ fuel ih =>
    intro stream h
    simp only [WantsProfiler.loop]
    cases hex : extract stream with
    | mk name r2 =>
      cases r2 with
      | mk rest eof =>
        simp only
        split
        · rfl
        · cases eof with
          | true => rfl
          | false =>
            simp only [Bool.false_eq_true, if_false]
            have := extract_rest stream name rest hex
            exact ih rest (by omega)

/-- `WantsProfiler` returns for every setting and every path. -/
theorem WantsProfiler_total (cfg : Cfg) (amx_name : List Char) :
    (WantsProfiler cfg amx_name).isSome = true := by
  simp only [WantsProfiler]
  split
  · split <;> rfl
  · split
    · exact WantsProfiler.loop_returns _ _ _ (Nat.lt_succ_self _)
    · rfl

theorem extract_blank (ws : List Char) (hws : ∀ c ∈ ws, isspace c = true) :
    extract ws = ([], [], true) := by
  have : ws.dropWhile isspace = [] := List.dropWhile_eq_nil_iff.2 hws
  simp only [extract, this]

theorem extract_token (ws name post : List Char) (hws : ∀ c ∈ ws, isspace c = true)
    (hne : name ≠ []) (hname : ∀ c ∈ name, isspace c = false)
    (hpost : ∀ c, post.head? = some c → isspace c = true) :
    extract (ws ++ name ++ post) = (name, post, post.isEmpty) := by
  obtain ⟨c, n, rfl⟩ : ∃ c n, name = c :: n := by
    cases name with
    | nil => exact absurd rfl hne
    | cons c n => exact ⟨c, n, rfl⟩
  have hc : isspace c = false := hname c (List.mem_cons_self _ _)
  have h1 : (ws ++ (c :: n) ++ post).dropWhile isspace = c :: (n ++ post) := by
    rw [List.append_assoc, List.dropWhile_append_of_pos hws, List.cons_append,
      List.dropWhile_cons]
    simp [hc]
  have hn : ∀ a ∈ c :: n, (fun x => !isspace x) a = true := by
    intro a ha
    simp [hname a ha]
  have hp1 : post.takeWhile (fun x => !isspace x) = [] := by
    cases post with
    | nil => rfl
    | cons d r =>
      have := hpost d rfl
      simp [List.takeWhile_cons, this]
  have hp2 : post.dropWhile (fun x => !isspace x) = post := by
    cases post with
    | nil => rfl
    | cons d r =>
      have := hpost d rfl
      simp [List.dropWhile_cons, this]
  have h2 : (c :: (n ++ post)).takeWhile (fun x => !isspace x) = c :: n := by
    rw [← List.cons_append, List.takeWhile_append_of_pos hn, hp1, List.append_nil]
  have h3 : (c :: (n ++ post)).dropWhile (fun x => !isspace x) = post := by
    rw [← List.cons_append, List.dropWhile_append_of_pos hn, hp2]
  simp only [extract, h1, h2, h3]

/-- Every stream is blank, or is whitespace, a first name and a rest that is empty or starts
with whitespace. -/
theorem extract_shape (stream : List Char) :
    (∀ c ∈ stream, isspace c = true) ∨
    ∃ ws name post, stream = ws ++ name ++ post ∧ (∀ c ∈ ws, isspace c = true) ∧
      name ≠ [] ∧ (∀ c ∈ name, isspace c = false) ∧
      (∀ c, post.head? = some c → isspace c = true) := by
  cases hd : stream.dropWhile isspace with
  | nil => exact Or.inl (List.dropWhile_eq_nil_iff.1 hd)
  | cons c r =>
    refine Or.inr ⟨stream.takeWhile isspace, (c :: r).takeWhile (fun x => !isspace x),
      (c :: r).dropWhile (fun x => !isspace x), ?_, ?_, ?_, ?_, ?_⟩
    · rw [List.append_assoc, List.takeWhile_append_dropWhile, ← hd,
        List.takeWhile_append_dropWhile]
    · intro a ha
      exact List.mem_takeWhile_imp ha
    · have hc := (dropWhile_head isspace stream c r hd).1
      simp [List.takeWhile_cons, hc]
    · intro a ha
      have := List.mem_takeWhile_imp ha
      simpa using this
    · intro a ha
      cases hdd : (c :: r).dropWhile (fun x => !isspace x) with
      | nil => rw [hdd] at ha; cases ha
      | cons d r2 =>
        rw [hdd] at ha
        simp only [List.head?_cons, Option.some.injEq] at ha
        subst ha
        have := (dropWhile_head (fun x => !isspace x) (c :: r) d r2 hdd).1
        simpa using this

theorem WantsProfiler.loop_blank (good : List Char) (fuel : Nat) (ws : List Char)
    (hws : ∀ c ∈ ws, isspace c = true) :
    WantsProfiler.loop good (fuel + 1) ws = some (nameMatches good []) := by
  simp only [WantsProfiler.loop, extract_blank ws hws, nameMatches]
  split
  · next h => rw [decide_eq_true h]
  · next h => rw [decide_eq_false h]; rfl

theorem WantsProfiler.loop_token (good : List Char) (fuel : Nat) (ws name post : List Char)
    (hws : ∀ c ∈ ws, isspace c = true) (hne : name ≠ [])
    (hname : ∀ c ∈ name, isspace c = false)
    (hpost : ∀ c, post.head? = some c → isspace c = true) :
    WantsProfiler.loop good (fuel + 1) (ws ++ name ++ post) =
      if nameMatches good name = true then some true
      else if post = [] then some false
      else WantsProfiler.loop good fuel post := by
  simp only [WantsProfiler.loop, extract_token ws name post hws hne hname hpost, nameMatches,
    decide_eq_true_eq]
  split
  · rfl
  · cases post with
    | nil => simp
    | cons d r => simp

/-- A listed name of a stream is its first name or a listed name of what follows the first
name. -/
theorem IsListedName_cases (ws t post name : List Char) (hws : ∀ c ∈ ws, isspace c = true)
    (hne : t ≠ []) (ht : ∀ c ∈ t, isspace c = false)
    (hpost : ∀ c, post.head? = some c → isspace c = true)
    (h : IsListedName name (ws ++ t ++ post)) : name = t ∨ IsListedName name post := by
  obtain ⟨hnne, hname, pre, post0, hdec, hpre, hpost0⟩ := h
  have hE1 := extract_token ws t post hws hne ht hpost
  by_cases hblank : ∀ c ∈ pre, isspace c = true
  · have hE2 := extract_token pre name post0 hblank hnne hname hpost0
    rw [hdec, hE2] at hE1
    exact Or.inl (congrArg Prod.fst hE1)
  · rcases extract_shape pre with hb | ⟨ws1, t1, post1, hpre1, hws1, hne1, ht1, hpost1⟩
    · exact absurd hb hblank
    · have hpost1ne : post1 ≠ [] := by
        intro hnil
        obtain ⟨c, hc⟩ : ∃ c, t1.getLast? = some c := by
          cases hl : t1.getLast? with
          | none => exact absurd (List.getLast?_eq_none_iff.1 hl) hne1
          | some c => exact ⟨c, rfl⟩
        have hlast : pre.getLast? = some c := by
          rw [hpre1, hnil, List.append_nil, List.getLast?_append, hc]
          rfl
        have h1 := hpre c hlast
        have h2 := ht1 c (List.mem_of_getLast?_eq_some hc)
        rw [h1] at h2
        cases h2
      have hhead : ∀ c, (post1 ++ name ++ post0).head? = some c → isspace c = true := by
        intro c hc
        apply hpost1 c
        cases post1 with
        | nil => exact absurd rfl hpost1ne
        | cons d r => simpa using hc
      have hE2 := extract_token ws1 t1 (post1 ++ name ++ post0) hws1 hne1 ht1 hhead
      have hstream : ws ++ t ++ post = ws1 ++ t1 ++ (post1 ++ name ++ post0) := by
        rw [hdec, hpre1]
        simp only [List.append_assoc]
      rw [hstream, hE2] at hE1
      have hpeq : post1 ++ name ++ post0 = post := congrArg (fun x => x.2.1) hE1
      refine Or.inr ⟨hnne, hname, post1, post0, hpeq.symm, ?_, hpost0⟩
      intro c hc
      apply hpre c
      rw [hpre1, List.getLast?_append, hc]
      rfl

/-- A listed name of what follows the first name of a stream is a listed name of the
stream. -/
theorem IsListedName_lift (ws t post name : List Char)
    (hpost : ∀ c, post.head? = some c → isspace c = true)
    (h : IsListedName name post) : IsListedName name (ws ++ t ++ post) := by
  obtain ⟨hnne, hname, pre, post0, hdec, hpre, hpost0⟩ := h
  refine ⟨hnne, hname, ws ++ t ++ pre, post0, by rw [hdec]; simp only [List.append_assoc], ?_,
    hpost0⟩
  intro c hc
  cases hp : pre with
  | nil =>
    exfalso
    obtain ⟨d, n, hd⟩ : ∃ d n, name = d :: n := by
      cases name with
      | nil => exact absurd rfl hnne
      | cons d n => exact ⟨d, n, rfl⟩
    have h1 : post.head? = some d := by rw [hdec, hp, hd]; rfl
    have h2 := hpost d h1
    have h3 := hname d (by rw [hd]; exact List.mem_cons_self _ _)
    rw [h2] at h3
    cases h3
  | cons x xs =>
    apply hpre c
    rw [hp] at hc ⊢
    rw [List.getLast?_append] at hc
    cases hl : (x :: xs).getLast? with
    | none => exact absurd (List.getLast?_eq_none_iff.1 hl) (List.cons_ne_nil _ _)
    | some e =>
      rw [hl] at hc
      simpa using hc

theorem EndsOpen_rest (ws t post : List Char) (hp : post ≠ []) :
    EndsOpen (ws ++ t ++ post) ↔ EndsOpen post := by
  have : (ws ++ t ++ post).getLast? = post.getLast? := by
    rw [List.getLast?_append]
    cases hl : post.getLast? with
    | none => exact absurd (List.getLast?_eq_none_iff.1 hl) hp
    | some e => rfl
  simp only [EndsOpen, this]

/-- What the loop of `WantsProfiler` computes: it answers true exactly when the path matches
one of the whitespace-separated names of the stream, or matches the empty name and the stream is
empty or ends with whitespace. -/
theorem WantsProfiler.loop_iff (good : List Char) :
    ∀ (fuel : Nat) (stream : List Char), stream.length < fuel →
      (WantsProfiler.loop good fuel stream = some true ↔
        (∃ name, IsListedName name stream ∧ nameMatches good name = true) ∨
        (EndsOpen stream ∧ nameMatches good [] = true)) := by
  intro fuel
  induction fuel with
  | zero => intro stream h; exact absurd h (Nat.not_lt_zero _)
  | succ fuel ih =>
    intro stream hlen
    rcases extract_shape stream with hb | ⟨ws, t, post, rfl, hws, hne, ht, hpost⟩
    · rw [WantsProfiler.loop_blank good fuel stream hb]
      constructor
      · intro h
        simp only [Option.some.injEq] at h
        exact Or.inr ⟨fun c hc => hb c (List.mem_of_getLast?_eq_some hc), h⟩
      · rintro (⟨name, ⟨hnne, hname, pre, post0, hdec, -, -⟩, -⟩ | ⟨-, h⟩)
        · exfalso
          obtain ⟨d, n, hd⟩ : ∃ d n, name = d :: n := by
            cases name with
            | nil => exact absurd rfl hnne
            | cons d n => exact ⟨d, n, rfl⟩
          have h1 := hname d (by rw [hd]; exact List.mem_cons_self _ _)
          have h2 := hb d (by rw [hdec, hd]; simp)
          rw [h2] at h1
          cases h1
        · rw [h]
    · rw [WantsProfiler.loop_token good fuel ws t post hws hne ht hpost]
      have hlt : post.length < fuel := by
        have : 0 < t.length := List.length_pos.2 hne
        simp only [List.length_append] at hlen
        omega
      by_cases hm : nameMatches good t = true
      · rw [if_pos hm]
        refine ⟨fun _ => ?_, fun _ => rfl⟩
        refine Or.inl ⟨t, ⟨hne, ht, ws, post, rfl, ?_, hpost⟩, hm⟩
        intro c hc
        exact hws c (List.mem_of_getLast?_eq_some hc)
      · rw [if_neg hm]
        by_cases hp : post = []
        · rw [if_pos hp]
          constructor
          · intro h; cases h
          · rintro (⟨name, hn, hmatch⟩ | ⟨hopen, -⟩)
            · exfalso
              rcases IsListedName_cases ws t post name hws hne ht hpost hn with rfl | h2
              · exact hm hmatch
              · obtain ⟨hnne, -, pre, post0, hdec, -, -⟩ := h2
                rw [hp] at hdec
                have := congrArg List.length hdec
                have hl : 0 < name.length := List.length_pos.2 hnne
                simp only [List.length_nil, List.length_append] at this
                omega
            · exfalso
              obtain ⟨c, hc⟩ : ∃ c, t.getLast? = some c := by
                cases hl : t.getLast? with
                | none => exact absurd (List.getLast?_eq_none_iff.1 hl) hne
                | some c => exact ⟨c, rfl⟩
              have hlast : (ws ++ t ++ post).getLast? = some c := by
                rw [hp, List.append_nil, List.getLast?_append, hc]
                rfl
              have h1 := hopen c hlast
              have h2 := ht c (List.mem_of_getLast?_eq_some hc)
              rw [h1] at h2
              cases h2
        · rw [if_neg hp, ih post hlt, EndsOpen_rest ws t post hp]
          constructor
          · rintro (⟨name, hn, hmatch⟩ | h)
            · exact Or.inl ⟨name, IsListedName_lift ws t post name hpost hn, hmatch⟩
            · exact Or.inr h
          · rintro (⟨name, hn, hmatch⟩ | h)
            · rcases IsListedName_cases ws t post name hws hne ht hpost hn with rfl | h2
              · exact absurd hmatch hm
              · exact Or.inl ⟨name, h2, hmatch⟩
            · exact Or.inr h

/-- The counters of the activations popped in the two orders of `P`, `Q` and the native `N`
on a new profiler, and the stacks left. -/
theorem Profiler.end_native_counters (P Q N : Function) (enabled : Bool)
    (hP : P.address ≠ 0) (hQ : Q.address ≠ 0) (hN : N.address ≠ 0)
    (hPQ : P.address ≠ Q.address) (hNP : N.address ≠ P.address) (hNQ : N.address ≠ Q.address)
    (fP fQ fN : Address) (tP tQ tN : TimePoint) (clock : Nat → TimePoint) :
    let p0 := Profiler.set_call_graph_enabled Profiler.new enabled
    let r1 := Profiler.run p0 [Event.register P, Event.register Q, Event.register N,
      Event.begin P.address fP tP, Event.begin Q.address fQ tQ, Event.begin N.address fN tN]
    let r2 := Profiler.EndFunction r1.state N.address clock
    let s1 := Profiler.run p0 [Event.register P, Event.register Q, Event.register N,
      Event.begin N.address fN tN, Event.begin P.address fP tP, Event.begin Q.address fQ tQ]
    let s2 := Profiler.EndFunction s1.state N.address clock
    r2.popped.map (fun c => (c.fn, c.timer.self_time, c.timer.total_time,
        c.timer.latest_self_time, c.timer.latest_total_time)) =
      [(N, clock 0 - tN, clock 0 - tN, clock 0 - tN, clock 0 - tN)] ∧
    r1.state.stats = [{ function := P, num_calls := 1 }, { function := Q, num_calls := 1 },
      { function := N, num_calls := 1 }] ∧
    s2.popped.map (fun c => (c.fn, c.timer.self_time, c.timer.total_time,
        c.timer.latest_self_time, c.timer.latest_total_time)) =
      [(Q, clock 0 - tQ, clock 0 - tQ, clock 0 - tQ, clock 0 - tQ),
       (P, tQ - tP + (clock 1 - clock 0), clock 1 - tP, tQ - tP + (clock 1 - clock 0),
         clock 1 - tP),
       (N, tP - tN + (clock 2 - clock 1), clock 2 - tN, tP - tN + (clock 2 - clock 1),
         clock 2 - tN)] ∧
    s1.state.stats = [{ function := P, num_calls := 1 }, { function := Q, num_calls := 1 },
      { function := N, num_calls := 1 }] := by
  intro p0 r1 r2 s1 s2
  obtain ⟨a, ka⟩ := P
  obtain ⟨b, kb⟩ := Q
  obtain ⟨n, kn⟩ := N
  have ha : a ≠ 0 := hP
  have hb : b ≠ 0 := hQ
  have hn : n ≠ 0 := hN
  have hab : a ≠ b := hPQ
  have hba : b ≠ a := Ne.symm hab
  have hna : n ≠ a := hNP
  have han : a ≠ n := Ne.symm hna
  have hnb : n ≠ b := hNQ
  have hbn : b ≠ n := Ne.symm hnb
  cases enabled with
  | false =>
    simp [r2, r1, s1, s2, p0, Profiler.run, Profiler.step, Profiler.Register_eq,
      Profiler.set_call_graph_enabled, Profiler.new, Statistics.GetFunctionStatistis, hab, hba,
      hna, han, hnb, hbn,
      Profiler.BeginFunction, ha, hb, hn, Statistics.update, FunctionStatistics.AdjustNumCalls,
      CallStack.Push_eq,
      Profiler.EndFunction, Profiler.EndFunction.loop, Profiler.EndFunction.body,
      CallStack.Pop, CallStack.pushed, PerformanceCounter.Stop, CallStack.PauseCounter,
      CallStack.ResumeCounter, CallStack.update, CallStack.backPtr, PerformanceCounter.Pause,
      PerformanceCounter.Resume,
      Statistics.GetFunction, Profiler.EndFunction.record_function,
      Profiler.EndFunction.record_num_calls, FunctionCall.findShadow, CallStack.get?]
  | true =>
    rcases lt_or_gt_of_ne hab with h1 | h1 <;> rcases lt_or_gt_of_ne hna with h2 | h2 <;>
      rcases lt_or_gt_of_ne hnb with h3 | h3 <;>
    · have g1 := not_lt.2 (le_of_lt h1)
      have g2 := not_lt.2 (le_of_lt h2)
      have g3 := not_lt.2 (le_of_lt h3)
      simp [r2, r1, s1, s2, p0, Profiler.run, Profiler.step, Profiler.Register_eq,
        Profiler.set_call_graph_enabled, Profiler.new, Statistics.GetFunctionStatistis, hab, hba,
        hna, han, hnb, hbn,
        Profiler.BeginFunction, ha, hb, hn, Statistics.update, FunctionStatistics.AdjustNumCalls,
        CallStack.Push_eq, CallGraph.AddCallee, CallGraph.new, CallGraph.find, CallGraph.insert,
        CallGraph.CompareStats, CallGraph.updateNode, CallGraphNode.AddCallee, CallGraph.set_root,
        h1, h2, h3, g1, g2, g3,
        Profiler.EndFunction, Profiler.EndFunction.loop, Profiler.EndFunction.body,
        CallStack.Pop, CallStack.pushed, PerformanceCounter.Stop, CallStack.PauseCounter,
        CallStack.ResumeCounter, CallStack.update, CallStack.backPtr, PerformanceCounter.Pause,
        PerformanceCounter.Resume, Profiler.EndFunction.graph, CallGraph.caller,
        Statistics.GetFunction, Profiler.EndFunction.record_function,
        Profiler.EndFunction.record_num_calls, FunctionCall.findShadow, CallStack.get?]

/-- The stacks before and after `EndFunction(address of N)` in the two orders of `P`, `Q` and
the native `N` on a new profiler, the activations popped, and the statistics as the fold of the
record updates over the popped activations. -/
theorem Profiler.end_native_stacks (P Q N : Function) (enabled : Bool)
    (hP : P.address ≠ 0) (hQ : Q.address ≠ 0) (hN : N.address ≠ 0)
    (hPQ : P.address ≠ Q.address) (hNP : N.address ≠ P.address) (hNQ : N.address ≠ Q.address)
    (fP fQ fN : Address) (tP tQ tN : TimePoint) (clock : Nat → TimePoint) :
    let p0 := Profiler.set_call_graph_enabled Profiler.new enabled
    let r1 := Profiler.run p0 [Event.register P, Event.register Q, Event.register N,
      Event.begin P.address fP tP, Event.begin Q.address fQ tQ, Event.begin N.address fN tN]
    let r2 := Profiler.EndFunction r1.state N.address clock
    let s1 := Profiler.run p0 [Event.register P, Event.register Q, Event.register N,
      Event.begin N.address fN tN, Event.begin P.address fP tP, Event.begin Q.address fQ tQ]
    let s2 := Profiler.EndFunction s1.state N.address clock
    (r1.fault = none ∧ r1.state.call_stack.map (fun c => (c.fn, c.frame)) = [(N, fN), (Q, fQ), (P, fP)] ∧
      r2.fault = none ∧ r2.popped.map (fun c => (c.fn, c.frame)) = [(N, fN)] ∧
      r2.state.call_stack.map (fun c => (c.fn, c.frame)) = [(Q, fQ), (P, fP)] ∧
      r2.state.stats = r2.popped.foldl (fun st c =>
        Statistics.update st c.fn.address (Profiler.EndFunction.record c.timer)) r1.state.stats) ∧
    (s1.fault = none ∧ s1.state.call_stack.map (fun c => (c.fn, c.frame)) = [(Q, fQ), (P, fP), (N, fN)] ∧
      s2.fault = none ∧ s2.popped.map (fun c => (c.fn, c.frame)) = [(Q, fQ), (P, fP), (N, fN)] ∧
      s2.state.call_stack = [] ∧
      s2.state.stats = s2.popped.foldl (fun st c =>
        Statistics.update st c.fn.address (Profiler.EndFunction.record c.timer)) s1.state.stats) := by
  intro p0 r1 r2 s1 s2
  obtain ⟨a, ka⟩ := P
  obtain ⟨b, kb⟩ := Q
  obtain ⟨n, kn⟩ := N
  have ha : a ≠ 0 := hP
  have hb : b ≠ 0 := hQ
  have hn : n ≠ 0 := hN
  have hab : a ≠ b := hPQ
  have hba : b ≠ a := Ne.symm hab
  have hna : n ≠ a := hNP
  have han : a ≠ n := Ne.symm hna
  have hnb : n ≠ b := hNQ
  have hbn : b ≠ n := Ne.symm hnb
  cases enabled with
  | false =>
    simp [r2, r1, s1, s2, p0, Profiler.run, Profiler.step, Profiler.Register_eq,
      Profiler.set_call_graph_enabled, Profiler.new, Statistics.GetFunctionStatistis, hab, hba,
      hna, han, hnb, hbn,
      Profiler.BeginFunction, ha, hb, hn, Statistics.update, FunctionStatistics.AdjustNumCalls,
      CallStack.Push_eq,
      Profiler.EndFunction, Profiler.EndFunction.loop, Profiler.EndFunction.body,
      CallStack.Pop, CallStack.pushed, PerformanceCounter.Stop, CallStack.PauseCounter,
      CallStack.ResumeCounter, CallStack.update, CallStack.backPtr, PerformanceCounter.Pause,
      PerformanceCounter.Resume,
      Statistics.GetFunction, Profiler.EndFunction.record_function,
      Profiler.EndFunction.record_num_calls, FunctionCall.findShadow, CallStack.get?]
  | true =>
    rcases lt_or_gt_of_ne hab with h1 | h1 <;> rcases lt_or_gt_of_ne hna with h2 | h2 <;>
      rcases lt_or_gt_of_ne hnb with h3 | h3 <;>
    · have g1 := not_lt.2 (le_of_lt h1)
      have g2 := not_lt.2 (le_of_lt h2)
      have g3 := not_lt.2 (le_of_lt h3)
      simp [r2, r1, s1, s2, p0, Profiler.run, Profiler.step, Profiler.Register_eq,
        Profiler.set_call_graph_enabled, Profiler.new, Statistics.GetFunctionStatistis, hab, hba,
        hna, han, hnb, hbn,
        Profiler.BeginFunction, ha, hb, hn, Statistics.update, FunctionStatistics.AdjustNumCalls,
        CallStack.Push_eq, CallGraph.AddCallee, CallGraph.new, CallGraph.find, CallGraph.insert,
        CallGraph.CompareStats, CallGraph.updateNode, CallGraphNode.AddCallee, CallGraph.set_root,
        h1, h2, h3, g1, g2, g3,
        Profiler.EndFunction, Profiler.EndFunction.loop, Profiler.EndFunction.body,
        CallStack.Pop, CallStack.pushed, PerformanceCounter.Stop, CallStack.PauseCounter,
        CallStack.ResumeCounter, CallStack.update, CallStack.backPtr, PerformanceCounter.Pause,
        PerformanceCounter.Resume, Profiler.EndFunction.graph, CallGraph.caller,
        Statistics.GetFunction, Profiler.EndFunction.record_function,
        Profiler.EndFunction.record_num_calls, FunctionCall.findShadow, CallStack.get?]

/-- A cell is its own 32-bit value. -/
theorem wrap32_of_fits (x : Int) (h : -2147483648 ≤ x ∧ x < 2147483648) : wrap32 x = x := by
  unfold wrap32
  omega

/-- The 32-bit value of an integer is a cell. -/
theorem wrap32_range (x : Int) : -2147483648 ≤ wrap32 x ∧ wrap32 x < 2147483648 := by
  unfold wrap32
  omega

/-- The 32-bit value of an integer differs from it by a multiple of `2^32`. -/
theorem wrap32_congr (x : Int) : ∃ k : Int, wrap32 x = x + k * 4294967296 := by
  refine ⟨- ((x + 2147483648) / 4294967296), ?_⟩
  unfold wrap32
  omega

/-- `GetNativeAddress` leaves the VM as it is and returns what `GetNativeAddress` returns. -/
theorem World.GetNativeAddress_spec (amx : AMX) (index : Int) :
    (World.GetNativeAddress amx index).2 = amx ∧
    (World.GetNativeAddress amx index).1 = amxprof.GetNativeAddress amx index := by
  unfold World.GetNativeAddress amxprof.GetNativeAddress
  split <;> exact ⟨rfl, rfl⟩

/-- `GetPublicAddress` leaves the VM as it is. -/
theorem World.GetPublicAddress_spec (amx : AMX) (index : Int) :
    (World.GetPublicAddress amx index).2 = amx ∧
    (World.GetPublicAddress amx index).1 = amxprof.GetPublicAddress amx index := by
  unfold World.GetPublicAddress amxprof.GetPublicAddress
  split
  · exact ⟨rfl, rfl⟩
  · split <;> exact ⟨rfl, rfl⟩

/-- `GetNativeName` leaves the VM as it is. -/
theorem World.GetNativeName_spec (amx : AMX) (index : Int) :
    (World.GetNativeName amx index).2 = amx ∧
    (World.GetNativeName amx index).1 = amxprof.GetNativeName amx index := by
  unfold World.GetNativeName amxprof.GetNativeName World.amx_NumNatives
  dsimp only
  split <;> exact ⟨rfl, rfl⟩

/-- `GetPublicName` leaves the VM as it is. -/
theorem World.GetPublicName_spec (amx : AMX) (index : Int) :
    (World.GetPublicName amx index).2 = amx ∧
    (World.GetPublicName amx index).1 = amxprof.GetPublicName amx index := by
  unfold World.GetPublicName amxprof.GetPublicName World.amx_NumPublics
  dsimp only
  split
  · exact ⟨rfl, rfl⟩
  · split <;> exact ⟨rfl, rfl⟩

/-- `GetRetrunAddress` leaves the VM as it is. -/
theorem World.GetRetrunAddress_spec (amx : AMX) (frame : Address) :
    (World.GetRetrunAddress amx frame).2 = amx ∧
    (World.GetRetrunAddress amx frame).1 = amxprof.GetRetrunAddress amx frame := by
  unfold World.GetRetrunAddress amxprof.GetRetrunAddress
  split <;> exact ⟨rfl, rfl⟩

/-- `GetCalleeAddress` leaves the VM as it is. -/
theorem World.GetCalleeAddress_spec (amx : AMX) (frame : Address) :
    (World.GetCalleeAddress amx frame).2 = amx ∧
    (World.GetCalleeAddress amx frame).1 = amxprof.GetCalleeAddress amx frame := by
  have h := World.GetRetrunAddress_spec amx frame
  unfold World.GetCalleeAddress amxprof.GetCalleeAddress
  dsimp only
  rw [h.1, h.2]
  split <;> exact ⟨rfl, rfl⟩

/-- The lookup-or-create step leaves the VM as it is and acts on the profiler as
`Profiler.Register`. -/
theorem World.Register_spec (w : World) (fn : Function) :
    (World.Register w fn).world.amx = w.amx ∧
    (World.Register w fn).result = Profiler.Register w.profiler fn := by
  unfold World.Register Profiler.Register
  split
  · exact ⟨rfl, rfl⟩
  · dsimp only
    split <;> exact ⟨rfl, rfl⟩

/-- `BeginFunction` leaves the VM as it is and acts on the profiler as
`Profiler.BeginFunction`. -/
theorem World.BeginFunction_spec (w : World) (address frm : Address) (now : TimePoint) :
    (World.BeginFunction w address frm now).world.amx = w.amx ∧
    (World.BeginFunction w address frm now).result =
      Profiler.BeginFunction w.profiler address frm now := by
  unfold World.BeginFunction Profiler.BeginFunction
  split
  · exact ⟨rfl, rfl⟩
  · split
    · exact ⟨rfl, rfl⟩
    · dsimp only
      split
      · exact ⟨rfl, rfl⟩
      · split
        · split <;> exact ⟨rfl, rfl⟩
        · exact ⟨rfl, rfl⟩

/-- One pass through the body of the loop of `EndFunction` leaves the VM as it is and acts on
the profiler as `Profiler.EndFunction.body`. -/
theorem World.EndFunction.body_spec (now : TimePoint) (w : World) :
    (World.EndFunction.body now w).world.amx = w.amx ∧
    (World.EndFunction.body now w).iteration = Profiler.EndFunction.body now w.profiler := by
  unfold World.EndFunction.body Profiler.EndFunction.body
  split
  · exact ⟨rfl, rfl⟩
  · dsimp only
    split
    · exact ⟨rfl, rfl⟩
    · split
      · split <;> exact ⟨rfl, rfl⟩
      · exact ⟨rfl, rfl⟩

/-- The loop of `EndFunction` leaves the VM as it is and acts on the profiler as
`Profiler.EndFunction.loop`. -/
theorem World.EndFunction.loop_spec (address : Address) (clock : Nat → TimePoint) :
    ∀ (fuel i : Nat) (w : World) (popped : List FunctionCall),
      (World.EndFunction.loop address clock fuel i w popped).world.amx = w.amx ∧
      (World.EndFunction.loop address clock fuel i w popped).result =
        Profiler.EndFunction.loop address clock fuel i w.profiler popped := by
  intro fuel
  induction fuel with
  | zero => intro i w popped; exact ⟨rfl, rfl⟩
  | succ fuel ih =>
    intro i w popped
    have hb := World.EndFunction.body_spec (clock i) w
    unfold World.EndFunction.loop Profiler.EndFunction.loop
    rw [← hb.2]
    cases hbody : World.EndFunction.body (clock i) w with
    | aborted w1 popped1 f =>
      rw [hbody] at hb
      exact ⟨hb.1, rfl⟩
    | done w1 fn_call =>
      rw [hbody] at hb
      simp only [World.Iteration.iteration]
      by_cases hc : address = 0 ∨ fn_call.fn.address = address
      · rw [if_pos hc, if_pos hc]
        exact ⟨hb.1, rfl⟩
      · rw [if_neg hc, if_neg hc]
        have h := ih (i + 1) w1 (popped ++ [fn_call])
        exact ⟨h.1.trans hb.1, h.2⟩

/-- `EndFunction` leaves the VM as it is and acts on the profiler as `Profiler.EndFunction`. -/
theorem World.EndFunction_spec (w : World) (address : Address) (clock : Nat → TimePoint) :
    (World.EndFunction w address clock).world.amx = w.amx ∧
    (World.EndFunction w address clock).result =
      Profiler.EndFunction w.profiler address clock := by
  unfold World.EndFunction Profiler.EndFunction
  split
  · exact ⟨rfl, rfl⟩
  · split
    · exact ⟨rfl, rfl⟩
    · exact World.EndFunction.loop_spec address clock _ 0 w []

/-- One event leaves the VM as it is and acts on the profiler as `Profiler.step`. -/
theorem World.step_spec (w : World) (e : Event) :
    (World.step w e).world.amx = w.amx ∧
    (World.step w e).result = Profiler.step w.profiler e := by
  cases e with
  | register fn => exact World.Register_spec w fn
  | «begin» address frm now => exact World.BeginFunction_spec w address frm now
  | end_ address clock => exact World.EndFunction_spec w address clock

/-- A sequence of events leaves the VM as it is and acts on the profiler as `Profiler.run`. -/
theorem World.run_spec (es : List Event) :
    ∀ w : World, (World.run w es).world.amx = w.amx ∧
      (World.run w es).result = Profiler.run w.profiler es := by
  induction es with
  | nil => intro w; exact ⟨rfl, rfl⟩
  | cons e es ih =>
    intro w
    have hs := World.step_spec w e
    have hf : (World.step w e).fault = (Profiler.step w.profiler e).fault :=
      congrArg Result.fault hs.2
    have hp : (World.step w e).popped = (Profiler.step w.profiler e).popped :=
      congrArg Result.popped hs.2
    have hst : (World.step w e).world.profiler = (Profiler.step w.profiler e).state :=
      congrArg Result.state hs.2
    unfold World.run Profiler.run
    dsimp only
    rw [← hf]
    by_cases hfault : (World.step w e).fault.isSome
    · rw [if_pos hfault, if_pos hfault]
      exact hs
    · rw [if_neg hfault, if_neg hfault]
      have h := ih (World.step w e).world
      refine ⟨h.1.trans hs.1, ?_⟩
      rw [← hst, ← h.2, ← hp]
      rfl

/-- The return of the step hook: the VM is the one `debug` leaves when the outcome has no
fault and there is a host function, else the VM of the outcome; the profiler's part is
`Result.finish`. -/
theorem World.finish_spec (a : AMX) (debug : Option (AMX → Int × AMX)) (o : Outcome)
    (r : Result) (ha : o.world.amx = a) (hr : o.result = r) :
    (World.finish debug o).world.amx =
      (if (World.finish debug o).fault.isSome then a
       else match debug with
         | some d => (d a).2
         | none => a) ∧
    (World.finish debug o).result =
      Result.finish a (debug.map (fun d vm => (d vm).1)) r := by
  subst ha
  subst hr
  unfold World.finish Result.finish
  by_cases hf : o.fault.isSome
  · have hf2 : o.result.fault.isSome := hf
    rw [if_pos hf, if_pos hf2, if_pos hf]
    exact ⟨rfl, rfl⟩
  · have hf2 : ¬ o.result.fault.isSome := hf
    rw [if_neg hf, if_neg hf2]
    cases debug with
    | none =>
      dsimp only
      rw [if_neg hf]
      exact ⟨rfl, rfl⟩
    | some d =>
      dsimp only
      rw [if_neg hf]
      exact ⟨rfl, rfl⟩

/-- The step hook leaves the VM as `debug` leaves it when the hook reaches its return and
there is a host function, and as it is otherwise; on the profiler it acts as
`Profiler.DebugHook`. -/
theorem World.DebugHook_spec (w : World) (clock : Nat → TimePoint)
    (debug : Option (AMX → Int × AMX)) :
    (World.DebugHook w clock debug).world.amx =
      (if (World.DebugHook w clock debug).fault.isSome then w.amx
       else match debug with
         | some d => (d w.amx).2
         | none => w.amx) ∧
    (World.DebugHook w clock debug).result =
      Profiler.DebugHook w.profiler w.amx clock (debug.map (fun d vm => (d vm).1)) := by
  have hc := World.GetCalleeAddress_spec w.amx w.amx.frm
  have hw : ({ w with amx := (World.GetCalleeAddress w.amx w.amx.frm).2 } : World) = w := by
    rw [hc.1]
  unfold World.DebugHook Profiler.DebugHook
  dsimp only
  rw [hw, hc.2]
  cases hs : w.profiler.call_stack with
  | nil =>
    dsimp only
    split
    · exact ⟨rfl, rfl⟩
    · split
      · exact ⟨rfl, rfl⟩
      · exact World.finish_spec w.amx debug _ _ rfl rfl
  | cons top rest =>
    dsimp only
    split
    · split
      · split
        · have hr := World.Register_spec w (Function.Normal (amxprof.GetCalleeAddress w.amx w.amx.frm))
          have hf : (World.Register w
              (Function.Normal (amxprof.GetCalleeAddress w.amx w.amx.frm))).fault =
              (Profiler.Register w.profiler
                (Function.Normal (amxprof.GetCalleeAddress w.amx w.amx.frm))).fault :=
            congrArg Result.fault hr.2
          have hst : (World.Register w
              (Function.Normal (amxprof.GetCalleeAddress w.amx w.amx.frm))).world.profiler =
              (Profiler.Register w.profiler
                (Function.Normal (amxprof.GetCalleeAddress w.amx w.amx.frm))).state :=
            congrArg Result.state hr.2
          rw [← hf]
          split
          · exact hr
          · have hb := World.BeginFunction_spec
              (World.Register w (Function.Normal (amxprof.GetCalleeAddress w.amx w.amx.frm))).world
              (amxprof.GetCalleeAddress w.amx w.amx.frm) w.amx.frm (clock 0)
            rw [hr.1, ← hst]
            exact World.finish_spec w.amx debug _ _ (hb.1.trans hr.1) hb.2
        · exact World.finish_spec w.amx debug _ _ rfl rfl
      · exact World.finish_spec w.amx debug _ _ rfl rfl
    · split
      · split
        · have he := World.EndFunction_spec w 0 clock
          exact World.finish_spec w.amx debug _ _ he.1 he.2
        · exact World.finish_spec w.amx debug _ _ rfl rfl
      · exact World.finish_spec w.amx debug _ _ rfl rfl

/-- The lookup-or-create step calls no host function. -/
theorem World.Register_dispatched (w : World) (fn : Function) :
    (World.Register w fn).dispatched = [] := by
  unfold World.Register
  split
  · rfl
  · dsimp only
    split <;> rfl

/-- `BeginFunction` calls no host function. -/
theorem World.BeginFunction_dispatched (w : World) (address frm : Address) (now : TimePoint) :
    (World.BeginFunction w address frm now).dispatched = [] := by
  unfold World.BeginFunction
  split
  · rfl
  · split
    · rfl
    · dsimp only
      split
      · rfl
      · split
        · split <;> rfl
        · rfl

/-- The first part of a bracket, lookup-or-create and `BeginFunction`, leaves the VM as it is,
calls no host function and acts on the profiler as the first part of `Profiler.bracket`. -/
theorem World.bracket_enter (w : World) (address : Address) (fn : Function) (frame : Address)
    (now : TimePoint) :
    (if address ≠ 0 then
        if (World.Register w fn).fault.isSome then World.Register w fn
        else World.BeginFunction (World.Register w fn).world address frame now
      else ({ world := w } : Outcome)).world.amx = w.amx ∧
    (if address ≠ 0 then
        if (World.Register w fn).fault.isSome then World.Register w fn
        else World.BeginFunction (World.Register w fn).world address frame now
      else ({ world := w } : Outcome)).dispatched = [] ∧
    (if address ≠ 0 then
        if (World.Register w fn).fault.isSome then World.Register w fn
        else World.BeginFunction (World.Register w fn).world address frame now
      else ({ world := w } : Outcome)).result =
      (if address ≠ 0 then
        if (Profiler.Register w.profiler fn).fault.isSome then Profiler.Register w.profiler fn
        else Profiler.BeginFunction (Profiler.Register w.profiler fn).state address frame now
      else ({ state := w.profiler } : Result)) := by
  have hr := World.Register_spec w fn
  have hf : (World.Register w fn).fault = (Profiler.Register w.profiler fn).fault :=
    congrArg Result.fault hr.2
  have hst : (World.Register w fn).world.profiler = (Profiler.Register w.profiler fn).state :=
    congrArg Result.state hr.2
  by_cases ha : address ≠ 0
  · rw [if_pos ha, if_pos ha, ← hf]
    by_cases hfault : (World.Register w fn).fault.isSome
    · rw [if_pos hfault, if_pos hfault]
      exact ⟨hr.1, World.Register_dispatched w fn, hr.2⟩
    · rw [if_neg hfault, if_neg hfault, ← hst]
      have hb := World.BeginFunction_spec (World.Register w fn).world address frame now
      exact ⟨hb.1.trans hr.1, World.BeginFunction_dispatched _ _ _ _, hb.2⟩
  · rw [if_neg ha, if_neg ha]
    exact ⟨rfl, rfl, rfl⟩

/-- A bracket leaves the VM as the host function leaves it when it gets to call it, and as it
is otherwise; on the profiler it acts as `Profiler.bracket`. -/
theorem World.bracket_spec (w : World) (address : Address) (fn : Function) (frame : Address)
    (a1 a2 a3 : Int) (host : AMX → HostRun) (now : TimePoint) (clock : Nat → TimePoint) :
    (World.bracket w address fn frame a1 a2 a3 host now clock).world.amx =
      (if (World.bracket w address fn frame a1 a2 a3 host now clock).dispatched.isEmpty
       then w.amx else (host w.amx).amx) ∧
    (World.bracket w address fn frame a1 a2 a3 host now clock).result =
      Profiler.bracket w.profiler address fn frame ⟨w.amx, a1, a2, a3⟩
        (host w.amx).dispatch now clock := by
  have he := World.bracket_enter w address fn frame now
  unfold World.bracket Profiler.bracket
  dsimp only
  generalize (if address ≠ 0 then
        if (World.Register w fn).fault.isSome then World.Register w fn
        else World.BeginFunction (World.Register w fn).world address frame now
      else ({ world := w } : Outcome)) = r1 at he ⊢
  generalize (if address ≠ 0 then
        if (Profiler.Register w.profiler fn).fault.isSome then Profiler.Register w.profiler fn
        else Profiler.BeginFunction (Profiler.Register w.profiler fn).state address frame now
      else ({ state := w.profiler } : Result)) = q1 at he ⊢
  obtain ⟨ha, hd, hq⟩ := he
  subst hq
  by_cases hf1 : r1.fault.isSome
  · have hf1q : r1.result.fault.isSome := hf1
    rw [if_pos hf1, if_pos hf1q, hd]
    exact ⟨ha, rfl⟩
  · have hf1q : ¬ r1.result.fault.isSome := hf1
    rw [if_neg hf1, if_neg hf1q, ha]
    have hrun := World.run_spec (host w.amx).events (⟨r1.world.profiler, (host w.amx).amx⟩ : World)
    have hf2 : (World.run (⟨r1.world.profiler, (host w.amx).amx⟩ : World) (host w.amx).events).fault
        = (Profiler.run r1.world.profiler (host w.amx).events).fault :=
      congrArg Result.fault hrun.2
    have hp2 : (World.run (⟨r1.world.profiler, (host w.amx).amx⟩ : World) (host w.amx).events).popped
        = (Profiler.run r1.world.profiler (host w.amx).events).popped :=
      congrArg Result.popped hrun.2
    have hs2 : (World.run (⟨r1.world.profiler, (host w.amx).amx⟩ : World)
          (host w.amx).events).world.profiler
        = (Profiler.run r1.world.profiler (host w.amx).events).state :=
      congrArg Result.state hrun.2
    have hr2 : (World.run (⟨r1.world.profiler, (host w.amx).amx⟩ : World) (host w.amx).events).ret
        = (Profiler.run r1.world.profiler (host w.amx).events).ret :=
      congrArg Result.ret hrun.2
    show _ ∧ _ = (if (Profiler.run r1.world.profiler (host w.amx).events).fault.isSome then _
      else _)
    rw [← hf2]
    by_cases hfault : (World.run (⟨r1.world.profiler, (host w.amx).amx⟩ : World)
        (host w.amx).events).fault.isSome
    · rw [if_pos hfault, if_pos hfault]
      refine ⟨hrun.1, ?_⟩
      simp only [Outcome.result, hf2, hp2, hs2, hr2]
      rfl
    · rw [if_neg hfault, if_neg hfault]
      by_cases h0 : address ≠ 0
      · simp only [if_pos h0]
        have hend := World.EndFunction_spec
          (World.run (⟨r1.world.profiler, (host w.amx).amx⟩ : World) (host w.amx).events).world
          address clock
        refine ⟨hend.1.trans hrun.1, ?_⟩
        simp only [Outcome.result, HostRun.dispatch]
        rw [← hs2, ← hend.2, ← hp2]
        rfl
      · simp only [if_neg h0]
        refine ⟨hrun.1, ?_⟩
        simp only [Outcome.result, HostRun.dispatch]
        rw [← hs2, ← hp2]

/-- The branch that does not profile leaves the VM as the host function leaves it; on the
profiler it acts as `Profiler.passThrough`. -/
theorem World.passThrough_spec (w : World) (a1 a2 a3 : Int) (host : AMX → HostRun) :
    (World.passThrough w a1 a2 a3 host).world.amx = (host w.amx).amx ∧
    (World.passThrough w a1 a2 a3 host).dispatched = [⟨w.amx, a1, a2, a3⟩] ∧
    (World.passThrough w a1 a2 a3 host).result =
      Profiler.passThrough w.profiler ⟨w.amx, a1, a2, a3⟩ (host w.amx).dispatch := by
  have hrun := World.run_spec (host w.amx).events (⟨w.profiler, (host w.amx).amx⟩ : World)
  have hf2 : (World.run (⟨w.profiler, (host w.amx).amx⟩ : World) (host w.amx).events).fault
      = (Profiler.run w.profiler (host w.amx).events).fault :=
    congrArg Result.fault hrun.2
  unfold World.passThrough Profiler.passThrough
  dsimp only
  show _ ∧ _ ∧ _ = (if (Profiler.run w.profiler (host w.amx).events).fault.isSome then _
      else _)
  rw [← hf2]
  by_cases hfault : (World.run (⟨w.profiler, (host w.amx).amx⟩ : World)
      (host w.amx).events).fault.isSome
  · rw [if_pos hfault, if_pos hfault]
    refine ⟨hrun.1, rfl, ?_⟩
    simp only [Outcome.result, HostRun.dispatch]
    rw [← hrun.2]
    rfl
  · rw [if_neg hfault, if_neg hfault]
    refine ⟨hrun.1, rfl, ?_⟩
    simp only [Outcome.result, HostRun.dispatch]
    rw [← hrun.2]
    rfl

/-- `CallbackHook` leaves the VM as `callback` leaves it when it gets to call it, and as it is
otherwise; on the profiler it acts as `Profiler.CallbackHook`. -/
theorem World.CallbackHook_spec (w : World) (index result params : Int)
    (callback : AMX → Int → Int → Int → HostRun) (now : TimePoint) (clock : Nat → TimePoint) :
    (World.CallbackHook w index result params callback now clock).world.amx =
      (if (World.CallbackHook w index result params callback now clock).dispatched.isEmpty
       then w.amx else (callback w.amx index result params).amx) ∧
    (World.CallbackHook w index result params callback now clock).result =
      Profiler.CallbackHook w.profiler w.amx index result params
        (fun vm i r p => (callback vm i r p).dispatch) now clock := by
  have ha := World.GetNativeAddress_spec w.amx index
  have hw : ({ w with amx := (World.GetNativeAddress w.amx index).2 } : World) = w := by
    rw [ha.1]
  unfold World.CallbackHook Profiler.CallbackHook
  dsimp only
  rw [hw, ha.2, ha.1]
  split
  · exact World.bracket_spec w _ _ _ index result params
      (fun vm => callback vm index result params) now clock
  · have hp := World.passThrough_spec w index result params
      (fun vm => callback vm index result params)
    rw [hp.2.1]
    exact ⟨hp.1, hp.2.2⟩

/-- `ExecHook` leaves the VM as `exec` leaves it when it gets to call it, and as it is
otherwise; on the profiler it acts as `Profiler.ExecHook` when the frame
`amx_->stk - 3 * sizeof(cell)` needs no wrapping. -/
theorem World.ExecHook_spec (w : World) (retval index : Int)
    (exec : AMX → Int → Int → HostRun) (now : TimePoint) (clock : Nat → TimePoint) :
    (World.ExecHook w retval index exec now clock).world.amx =
      (if (World.ExecHook w retval index exec now clock).dispatched.isEmpty
       then w.amx else (exec w.amx retval index).amx) ∧
    ((-2147483648 ≤ w.amx.stk - 3 * sizeof_cell ∧ w.amx.stk - 3 * sizeof_cell < 2147483648) →
      (World.ExecHook w retval index exec now clock).result =
        Profiler.ExecHook w.profiler w.amx retval index
          (fun vm r i => (exec vm r i).dispatch) now clock) := by
  have ha := World.GetPublicAddress_spec w.amx index
  have hw : ({ w with amx := (World.GetPublicAddress w.amx index).2 } : World) = w := by
    rw [ha.1]
  unfold World.ExecHook Profiler.ExecHook
  dsimp only
  rw [hw, ha.2, ha.1]
  split
  · have hb := World.bracket_spec w (amxprof.GetPublicAddress w.amx index)
      (Function.Public w.amx index) (wrap32 (w.amx.stk - 3 * sizeof_cell)) retval index 0
      (fun vm => exec vm retval index) now clock
    refine ⟨hb.1, ?_⟩
    intro hfit
    rw [hb.2, wrap32_of_fits _ hfit]
  · have hp := World.passThrough_spec w retval index 0 (fun vm => exec vm retval index)
    rw [hp.2.1]
    exact ⟨hp.1, fun _ => hp.2.2⟩

/-! # The claims -/

/-- C1 (evaluation at the failing input): with the call graph enabled, after `A` is entered and
calls itself (`BeginFunction(A)` twice) the call stack holds two activations of `A` while the
chain of `caller()` from the root to the sentinel holds `A` once; two `EndFunction()` calls
later the assertion `root != sentinel` fails with `A` still being popped.  When `A` calls `B`,
both return and `C` calls `B`, the stack is `B, C` and the chain is `B, A`. -/
theorem C1_caller_chain_differs_from_call_stack :
    ((Profiler.run Scenario.graphProfiler Scenario.recursion).fault = none ∧
      (Profiler.run Scenario.graphProfiler Scenario.recursion).state.stackAddresses = [10, 10] ∧
      (Profiler.run Scenario.graphProfiler Scenario.recursion).state.rootChain = [10]) ∧
    ((Profiler.run Scenario.graphProfiler (Scenario.recursion ++
        [Event.end_ 0 Scenario.clock])).fault = none ∧
      (Profiler.run Scenario.graphProfiler (Scenario.recursion ++
        [Event.end_ 0 Scenario.clock])).state.stackAddresses = [10] ∧
      (Profiler.run Scenario.graphProfiler (Scenario.recursion ++
        [Event.end_ 0 Scenario.clock])).state.rootChain = [] ∧
      (Profiler.run Scenario.graphProfiler (Scenario.recursion ++
        [Event.end_ 0 Scenario.clock, Event.end_ 0 Scenario.clock])).fault =
        some Fault.assertion_failed) ∧
    ((Profiler.run Scenario.graphProfiler Scenario.secondCaller).fault = none ∧
      (Profiler.run Scenario.graphProfiler Scenario.secondCaller).state.stackAddresses = [20, 40] ∧
      (Profiler.run Scenario.graphProfiler Scenario.secondCaller).state.rootChain = [20, 10]) := by
  decide

/-- C2 (evaluation at the failing input): with the call graph enabled, the native `N` entered
and `B` recursing to depth three above it, the stack holds an activation of `N`, yet
`EndFunction(address of N)` pops the three activations of `B` and stops at the failed assertion
`root != sentinel`: the activation of `N` is never popped.  With the call graph disabled the
same call pops all four activations and returns. -/
theorem C2_unwind_aborts_before_target :
    ((Profiler.run Scenario.graphProfiler Scenario.nativeOverRecursion).fault = none ∧
      (Profiler.run Scenario.graphProfiler Scenario.nativeOverRecursion).state.stackAddresses =
        [20, 20, 20, 30]) ∧
    ((Profiler.EndFunction (Profiler.run Scenario.graphProfiler
        Scenario.nativeOverRecursion).state 30 Scenario.clock).fault =
        some Fault.assertion_failed ∧
      (Profiler.EndFunction (Profiler.run Scenario.graphProfiler
        Scenario.nativeOverRecursion).state 30 Scenario.clock).popped.map
        (fun c => c.fn.address) = [20, 20, 20] ∧
      (Profiler.EndFunction (Profiler.run Scenario.graphProfiler
        Scenario.nativeOverRecursion).state 30 Scenario.clock).state.stackAddresses = [30]) ∧
    ((Profiler.EndFunction (Profiler.run Profiler.new
        Scenario.nativeOverRecursion).state 30 Scenario.clock).fault = none ∧
      (Profiler.EndFunction (Profiler.run Profiler.new
        Scenario.nativeOverRecursion).state 30 Scenario.clock).popped.map
        (fun c => c.fn.address) = [20, 20, 20, 30] ∧
      (Profiler.EndFunction (Profiler.run Profiler.new
        Scenario.nativeOverRecursion).state 30 Scenario.clock).state.stackAddresses = []) := by
  decide

/-- C3: on a new profiler with the call graph enabled and two registered functions `A`, `B`
with distinct nonzero addresses: after `BeginFunction(A, 100)`, `BeginFunction(B, 90)` the
graph root is `B`'s node; the first `EndFunction()` returns having popped `B`'s activation
(frame 90), the root is then `A`'s node, `A`'s record is what it was before the pop (in
particular its cumulative and worst times) and `B`'s call count is 1; the second
`EndFunction()` returns having popped `A`'s activation (frame 100), `A`'s call count is 1, the
call stack is empty and the root is the sentinel. -/
theorem C3_scenario_push_A_push_B_pop_pop (A B : Function) (hA : A.address ≠ 0)
    (hB : B.address ≠ 0) (hAB : A.address ≠ B.address) (tA tB : TimePoint)
    (clock1 clock2 : Nat → TimePoint) :
    let p0 := Profiler.set_call_graph_enabled Profiler.new true
    let r1 := Profiler.run p0 [Event.register A, Event.register B,
      Event.begin A.address 100 tA, Event.begin B.address 90 tB]
    let r2 := Profiler.EndFunction r1.state 0 clock1
    let r3 := Profiler.EndFunction r2.state 0 clock2
    (r1.fault = none ∧ r1.state.call_stack.map (fun c => (c.fn, c.frame)) = [(B, 90), (A, 100)] ∧
      r1.state.call_graph.root = some 2 ∧
      (r1.state.call_graph.arena[2]?).map (fun n => n.stats) = some (some B.address)) ∧
    (r2.fault = none ∧ r2.popped.map (fun c => (c.fn, c.frame)) = [(B, 90)] ∧
      r2.state.call_stack.map (fun c => (c.fn, c.frame)) = [(A, 100)] ∧
      r2.state.call_graph.root = some 1 ∧
      (r2.state.call_graph.arena[1]?).map (fun n => n.stats) = some (some A.address) ∧
      Statistics.GetFunctionStatistis r2.state.stats A.address =
        Statistics.GetFunctionStatistis r1.state.stats A.address ∧
      (Statistics.GetFunctionStatistis r2.state.stats A.address).map
        (fun s => (s.self_time, s.total_time, s.worst_self_time, s.worst_total_time)) =
        some (0, 0, 0, 0) ∧
      (Statistics.GetFunctionStatistis r2.state.stats B.address).map (fun s => s.num_calls) =
        some 1) ∧
    (r3.fault = none ∧ r3.popped.map (fun c => (c.fn, c.frame)) = [(A, 100)] ∧
      (Statistics.GetFunctionStatistis r3.state.stats A.address).map (fun s => s.num_calls) =
        some 1 ∧
      r3.state.call_stack = [] ∧
      r3.state.call_graph.root = some r3.state.call_graph.sentinel) := by
  intro p0 r1 r2 r3
  obtain ⟨a, ka⟩ := A
  obtain ⟨b, kb⟩ := B
  have ha : a ≠ 0 := hA
  have hb : b ≠ 0 := hB
  have hab : a ≠ b := hAB
  have hba : b ≠ a := Ne.symm hab
  rcases lt_or_gt_of_ne hab with hlt | hlt <;>
  · have hnlt := not_lt.2 (le_of_lt hlt)
    simp [r3, r2, r1, p0, Profiler.run, Profiler.step, Profiler.Register_eq,
      Profiler.set_call_graph_enabled, Profiler.new, Statistics.GetFunctionStatistis, hab, hba,
      Profiler.BeginFunction, ha, hb, Statistics.update, FunctionStatistics.AdjustNumCalls,
      CallStack.Push_eq, CallGraph.AddCallee, CallGraph.new, CallGraph.find, CallGraph.insert,
      CallGraph.CompareStats, CallGraph.updateNode, CallGraphNode.AddCallee, CallGraph.set_root,
      hlt, hnlt, Profiler.EndFunction, Profiler.EndFunction.loop, Profiler.EndFunction.body,
      CallStack.Pop, CallStack.pushed, PerformanceCounter.Stop, CallStack.PauseCounter,
      CallStack.ResumeCounter, CallStack.update, CallStack.backPtr, PerformanceCounter.Pause,
      PerformanceCounter.Resume, Profiler.EndFunction.graph, CallGraph.caller,
      Statistics.GetFunction, Profiler.EndFunction.record_function,
      Profiler.EndFunction.record_num_calls, FunctionCall.findShadow, CallStack.get?]

/-- C3, at the functions `A` and `B` of the scenarios. -/
theorem C3_scenario_witness :
    (Scenario.A.address ≠ 0 ∧ Scenario.B.address ≠ 0 ∧
      Scenario.A.address ≠ Scenario.B.address) ∧
    (Profiler.EndFunction (Profiler.EndFunction (Profiler.run
      (Profiler.set_call_graph_enabled Profiler.new true)
      [Event.register Scenario.A, Event.register Scenario.B,
       Event.begin Scenario.A.address 100 1, Event.begin Scenario.B.address 90 2]).state 0
      Scenario.clock).state 0 Scenario.clock).state.call_stack = [] :=
  ⟨⟨by decide, by decide, by decide⟩,
    (C3_scenario_push_A_push_B_pop_pop Scenario.A Scenario.B (by decide) (by decide) (by decide)
      1 2 Scenario.clock Scenario.clock).2.2.2.2.2.1⟩

/-- C4 (as stated, refuted): with `P` = `A` and `Q` = `B` on the stack and the native `N`
entered on top of them, `EndFunction(address of N)` returns having popped only the activation
of `N`; the activations of `Q` and `P` stay on the stack, so it is not the case that three
activations are popped and the stack is left empty. -/
theorem C4_end_native_on_top_pops_only_native :
    (Profiler.run Profiler.new Scenario.nativeOnTop).fault = none ∧
    (Profiler.run Profiler.new Scenario.nativeOnTop).state.stackAddresses = [30, 20, 10] ∧
    (Profiler.EndFunction (Profiler.run Profiler.new Scenario.nativeOnTop).state 30
      Scenario.clock).fault = none ∧
    (Profiler.EndFunction (Profiler.run Profiler.new Scenario.nativeOnTop).state 30
      Scenario.clock).popped.map (fun c => c.fn.address) = [30] ∧
    (Profiler.EndFunction (Profiler.run Profiler.new Scenario.nativeOnTop).state 30
      Scenario.clock).state.stackAddresses = [20, 10] ∧
    ¬ ((Profiler.EndFunction (Profiler.run Profiler.new Scenario.nativeOnTop).state 30
        Scenario.clock).popped.map (fun c => c.fn.address) = [30, 20, 10] ∧
      (Profiler.EndFunction (Profiler.run Profiler.new Scenario.nativeOnTop).state 30
        Scenario.clock).state.call_stack = []) := by
  decide

/-- C4 (amended): for registered functions `P`, `Q`, `N` with distinct nonzero addresses on a
new profiler (call graph enabled or not): when `N` begins while the activations of `P` and `Q`
are the only other entries, `EndFunction(address of N)` returns having popped exactly the
activation of `N`, records it and leaves `Q` and `P` on the stack; when instead `P` and `Q` are
pushed after `N` has begun and are still on the stack, `EndFunction(address of N)` returns
having popped `Q`, then `P`, then `N`, records all three and leaves the stack empty.
Recording is stated field by field: with `N` entered at `tN` and popped at `clock 0` in the
first order, the record of `N` ends with call count 1, self and total time `clock 0 - tN` and
worst times `max 0 (clock 0 - tN)`, and the records of `P` and `Q` are untouched; in the second
order `Q`, `P`, `N` are popped at `clock 0`, `clock 1`, `clock 2` and each record ends with its
own total time (pop time minus entry time), its own self time (total time minus the time
spent in its callee) and the worst times that are the maxima of 0 and these. -/
theorem C4_end_native_by_address (P Q N : Function) (enabled : Bool)
    (hP : P.address ≠ 0) (hQ : Q.address ≠ 0) (hN : N.address ≠ 0)
    (hPQ : P.address ≠ Q.address) (hNP : N.address ≠ P.address) (hNQ : N.address ≠ Q.address)
    (fP fQ fN : Address) (tP tQ tN : TimePoint) (clock : Nat → TimePoint) :
    let p0 := Profiler.set_call_graph_enabled Profiler.new enabled
    let r1 := Profiler.run p0 [Event.register P, Event.register Q, Event.register N,
      Event.begin P.address fP tP, Event.begin Q.address fQ tQ, Event.begin N.address fN tN]
    let r2 := Profiler.EndFunction r1.state N.address clock
    let s1 := Profiler.run p0 [Event.register P, Event.register Q, Event.register N,
      Event.begin N.address fN tN, Event.begin P.address fP tP, Event.begin Q.address fQ tQ]
    let s2 := Profiler.EndFunction s1.state N.address clock
    (r1.fault = none ∧ r1.state.call_stack.map (fun c => (c.fn, c.frame)) = [(N, fN), (Q, fQ), (P, fP)] ∧
      r2.fault = none ∧ r2.popped.map (fun c => (c.fn, c.frame)) = [(N, fN)] ∧
      r2.state.call_stack.map (fun c => (c.fn, c.frame)) = [(Q, fQ), (P, fP)] ∧
      r2.state.stats = r2.popped.foldl (fun st c =>
        Statistics.update st c.fn.address (Profiler.EndFunction.record c.timer)) r1.state.stats) ∧
    (s1.fault = none ∧ s1.state.call_stack.map (fun c => (c.fn, c.frame)) = [(Q, fQ), (P, fP), (N, fN)] ∧
      s2.fault = none ∧ s2.popped.map (fun c => (c.fn, c.frame)) = [(Q, fQ), (P, fP), (N, fN)] ∧
      s2.state.call_stack = [] ∧
      s2.state.stats = s2.popped.foldl (fun st c =>
        Statistics.update st c.fn.address (Profiler.EndFunction.record c.timer)) s1.state.stats) ∧
    ((∃ s, Statistics.GetFunctionStatistis r2.state.stats N.address = some s ∧
        s.function = N ∧ s.num_calls = 1 ∧
        s.self_time = clock 0 - tN ∧ s.total_time = clock 0 - tN ∧
        s.worst_self_time = max 0 (clock 0 - tN) ∧
        s.worst_total_time = max 0 (clock 0 - tN)) ∧
      Statistics.GetFunctionStatistis r2.state.stats Q.address =
        some { function := Q, num_calls := 1 } ∧
      Statistics.GetFunctionStatistis r2.state.stats P.address =
        some { function := P, num_calls := 1 }) ∧
    ((∃ s, Statistics.GetFunctionStatistis s2.state.stats Q.address = some s ∧
        s.function = Q ∧ s.num_calls = 1 ∧
        s.self_time = clock 0 - tQ ∧ s.total_time = clock 0 - tQ ∧
        s.worst_self_time = max 0 (clock 0 - tQ) ∧
        s.worst_total_time = max 0 (clock 0 - tQ)) ∧
      (∃ s, Statistics.GetFunctionStatistis s2.state.stats P.address = some s ∧
        s.function = P ∧ s.num_calls = 1 ∧
        s.self_time = tQ - tP + (clock 1 - clock 0) ∧ s.total_time = clock 1 - tP ∧
        s.worst_self_time = max 0 (tQ - tP + (clock 1 - clock 0)) ∧
        s.worst_total_time = max 0 (clock 1 - tP)) ∧
      (∃ s, Statistics.GetFunctionStatistis s2.state.stats N.address = some s ∧
        s.function = N ∧ s.num_calls = 1 ∧
        s.self_time = tP - tN + (clock 2 - clock 1) ∧ s.total_time = clock 2 - tN ∧
        s.worst_self_time = max 0 (tP - tN + (clock 2 - clock 1)) ∧
        s.worst_total_time = max 0 (clock 2 - tN))) := by
  intro p0 r1 r2 s1 s2
  have hrec : ∀ (t : PerformanceCounter) (s0 : FunctionStatistics),
      (Profiler.EndFunction.record t s0).self_time = s0.self_time + t.self_time ∧
      (Profiler.EndFunction.record t s0).total_time = s0.total_time + t.total_time ∧
      (Profiler.EndFunction.record t s0).worst_self_time =
        max s0.worst_self_time t.latest_self_time ∧
      (Profiler.EndFunction.record t s0).worst_total_time =
        max s0.worst_total_time t.latest_total_time := by
    intro t s0
    simp only [Profiler.EndFunction.record, FunctionStatistics.set_worst_self_time,
      FunctionStatistics.set_worst_total_time, FunctionStatistics.AdjustTotalTime,
      FunctionStatistics.AdjustSelfTime]
    by_cases h1 : t.latest_total_time > s0.worst_total_time <;>
      by_cases h2 : t.latest_self_time > s0.worst_self_time
    · simp only [h1, h2, if_true]
      exact ⟨trivial, trivial, (max_eq_right (le_of_lt h2)).symm, (max_eq_right (le_of_lt h1)).symm⟩
    · simp only [h1, h2, if_true, if_false]
      exact ⟨trivial, trivial, (max_eq_left (not_lt.1 h2)).symm, (max_eq_right (le_of_lt h1)).symm⟩
    · simp only [h1, h2, if_true, if_false]
      exact ⟨trivial, trivial, (max_eq_right (le_of_lt h2)).symm, (max_eq_left (not_lt.1 h1)).symm⟩
    · simp only [h1, h2, if_false]
      exact ⟨trivial, trivial, (max_eq_left (not_lt.1 h2)).symm, (max_eq_left (not_lt.1 h1)).symm⟩
  have hfind : ∀ (stats : Statistics) (a : Address) (t : PerformanceCounter)
      (s0 : FunctionStatistics), Statistics.GetFunctionStatistis stats a = some s0 →
      ∃ s, Statistics.GetFunctionStatistis
          (Statistics.update stats a (Profiler.EndFunction.record t)) a = some s ∧
        s.function = s0.function ∧ s.num_calls = s0.num_calls ∧
        s.self_time = s0.self_time + t.self_time ∧
        s.total_time = s0.total_time + t.total_time ∧
        s.worst_self_time = max s0.worst_self_time t.latest_self_time ∧
        s.worst_total_time = max s0.worst_total_time t.latest_total_time := by
    intro stats a t s0 h
    refine ⟨Profiler.EndFunction.record t s0, ?_, Profiler.EndFunction.record_function _ _,
      Profiler.EndFunction.record_num_calls _ _, (hrec t s0).1, (hrec t s0).2.1,
      (hrec t s0).2.2.1, (hrec t s0).2.2.2⟩
    rw [Statistics.find_update _ _ _ _ (Profiler.EndFunction.record_function _), if_pos rfl, h]
    rfl
  obtain ⟨⟨a1, a2, a3, a4, a5, a6⟩, ⟨b1, b2, b3, b4, b5, b6⟩⟩ :=
    Profiler.end_native_stacks P Q N enabled hP hQ hN hPQ hNP hNQ fP fQ fN tP tQ tN clock
  obtain ⟨c1, c2, c3, c4⟩ :=
    Profiler.end_native_counters P Q N enabled hP hQ hN hPQ hNP hNQ fP fQ fN tP tQ tN clock
  have hQP : Q.address ≠ P.address := Ne.symm hPQ
  have hPN : P.address ≠ N.address := Ne.symm hNP
  have hQN : Q.address ≠ N.address := Ne.symm hNQ
  have fP0 : ∀ (l : Statistics), Statistics.GetFunctionStatistis
      ({ function := P, num_calls := 1 } :: l) P.address = some { function := P, num_calls := 1 } := by
    intro l; simp [Statistics.GetFunctionStatistis]
  have fQ0 : Statistics.GetFunctionStatistis
      [{ function := P, num_calls := 1 }, { function := Q, num_calls := 1 },
        { function := N, num_calls := 1 }] Q.address = some { function := Q, num_calls := 1 } := by
    simp [Statistics.GetFunctionStatistis, hPQ]
  have fN0 : Statistics.GetFunctionStatistis
      [{ function := P, num_calls := 1 }, { function := Q, num_calls := 1 },
        { function := N, num_calls := 1 }] N.address = some { function := N, num_calls := 1 } := by
    simp [Statistics.GetFunctionStatistis, hPN, hQN]
  have hrf := Profiler.EndFunction.record_function
  refine ⟨⟨a1, a2, a3, a4, a5, a6⟩, ⟨b1, b2, b3, b4, b5, b6⟩, ?_, ?_⟩
  · -- first order: only N is popped
    obtain ⟨c, rest, hp, hc, hrest⟩ := List.map_eq_cons_iff.1 c1
    have hnil : rest = [] := List.map_eq_nil_iff.1 hrest
    subst hnil
    simp only [Prod.mk.injEq] at hc
    obtain ⟨hfn, hself, htot, hlself, hltot⟩ := hc
    have hst : r2.state.stats = Statistics.update
        [{ function := P, num_calls := 1 }, { function := Q, num_calls := 1 },
          { function := N, num_calls := 1 }] N.address (Profiler.EndFunction.record c.timer) := by
      rw [a6, hp, c2, List.foldl_cons, List.foldl_nil, hfn]
    obtain ⟨s, hs, g1, g2, g3, g4, g5, g6⟩ := hfind _ N.address c.timer _ fN0
    refine ⟨⟨s, by rw [hst]; exact hs, g1, g2, ?_, ?_, ?_, ?_⟩, ?_, ?_⟩
    · rw [g3, hself]; simp
    · rw [g4, htot]; simp
    · rw [g5, hlself]
    · rw [g6, hltot]
    · rw [hst, Statistics.find_update _ _ _ _ (hrf _), if_neg hQN, fQ0]
    · rw [hst, Statistics.find_update _ _ _ _ (hrf _), if_neg hPN, fP0]
  · -- second order: Q, P, N are popped
    obtain ⟨cq, rest1, hp1, hcq, hrest1⟩ := List.map_eq_cons_iff.1 c3
    obtain ⟨cp, rest2, hp2, hcp, hrest2⟩ := List.map_eq_cons_iff.1 hrest1
    obtain ⟨cn, rest3, hp3, hcn, hrest3⟩ := List.map_eq_cons_iff.1 hrest2
    have hnil : rest3 = [] := List.map_eq_nil_iff.1 hrest3
    subst hnil
    subst hp3
    subst hp2
    simp only [Prod.mk.injEq] at hcq hcp hcn
    obtain ⟨qfn, qself, qtot, qlself, qltot⟩ := hcq
    obtain ⟨pfn, pself, ptot, plself, pltot⟩ := hcp
    obtain ⟨nfn, nself, ntot, nlself, nltot⟩ := hcn
    have hst : s2.state.stats = Statistics.update (Statistics.update (Statistics.update
        [{ function := P, num_calls := 1 }, { function := Q, num_calls := 1 },
          { function := N, num_calls := 1 }] Q.address (Profiler.EndFunction.record cq.timer))
        P.address (Profiler.EndFunction.record cp.timer))
        N.address (Profiler.EndFunction.record cn.timer) := by
      rw [b6, hp1, c4]
      simp only [List.foldl_cons, List.foldl_nil, qfn, pfn, nfn]
    have hfu := fun (st : Statistics) (x y : Address) (t : PerformanceCounter) =>
      Statistics.find_update st x y (Profiler.EndFunction.record t) (hrf t)
    refine ⟨?_, ?_, ?_⟩
    · obtain ⟨s, hs, g1, g2, g3, g4, g5, g6⟩ := hfind _ Q.address cq.timer _ fQ0
      refine ⟨s, ?_, g1, g2, ?_, ?_, ?_, ?_⟩
      · rw [hst, hfu, if_neg hQN, hfu, if_neg hQP]; exact hs
      · rw [g3, qself]; simp
      · rw [g4, qtot]; simp
      · rw [g5, qlself]
      · rw [g6, qltot]
    · have hP1 : Statistics.GetFunctionStatistis (Statistics.update
          [{ function := P, num_calls := 1 }, { function := Q, num_calls := 1 },
            { function := N, num_calls := 1 }] Q.address (Profiler.EndFunction.record cq.timer))
          P.address = some { function := P, num_calls := 1 } := by
        rw [hfu, if_neg hPQ, fP0]
      obtain ⟨s, hs, g1, g2, g3, g4, g5, g6⟩ := hfind _ P.address cp.timer _ hP1
      refine ⟨s, ?_, g1, g2, ?_, ?_, ?_, ?_⟩
      · rw [hst, hfu, if_neg hPN]; exact hs
      · rw [g3, pself]; simp
      · rw [g4, ptot]; simp
      · rw [g5, plself]
      · rw [g6, pltot]
    · have hN1 : Statistics.GetFunctionStatistis (Statistics.update (Statistics.update
          [{ function := P, num_calls := 1 }, { function := Q, num_calls := 1 },
            { function := N, num_calls := 1 }] Q.address (Profiler.EndFunction.record cq.timer))
          P.address (Profiler.EndFunction.record cp.timer))
          N.address = some { function := N, num_calls := 1 } := by
        rw [hfu, if_neg hNP, hfu, if_neg hNQ, fN0]
      obtain ⟨s, hs, g1, g2, g3, g4, g5, g6⟩ := hfind _ N.address cn.timer _ hN1
      refine ⟨s, ?_, g1, g2, ?_, ?_, ?_, ?_⟩
      · rw [hst]; exact hs
      · rw [g3, nself]; simp
      · rw [g4, ntot]; simp
      · rw [g5, nlself]
      · rw [g6, nltot]

/-- C4 (amended), at `P` = `A`, `Q` = `B` and the native `N` of the scenarios, with `N` entered
at time 1, `A` at 2 and `B` at 3 and the pops at times 50, 51 and 52: the records end with
the total times 49, 47 and 51 and the self times 2, 47 and 2.  With `N` entered last, at time
4, only the record of `N` changes, to the time 46. -/
theorem C4_end_native_by_address_witness :
    (Scenario.A.address ≠ 0 ∧ Scenario.B.address ≠ 0 ∧ Scenario.N.address ≠ 0 ∧
      Scenario.A.address ≠ Scenario.B.address ∧ Scenario.N.address ≠ Scenario.A.address ∧
      Scenario.N.address ≠ Scenario.B.address) ∧
    (Profiler.EndFunction (Profiler.run (Profiler.set_call_graph_enabled Profiler.new true)
      [Event.register Scenario.A, Event.register Scenario.B, Event.register Scenario.N,
       Event.begin Scenario.N.address 100 1, Event.begin Scenario.A.address 90 2,
       Event.begin Scenario.B.address 80 3]).state Scenario.N.address
      Scenario.clock).state.call_stack = [] ∧
    (∃ s, Statistics.GetFunctionStatistis (Profiler.EndFunction (Profiler.run
        (Profiler.set_call_graph_enabled Profiler.new true)
        [Event.register Scenario.A, Event.register Scenario.B, Event.register Scenario.N,
         Event.begin Scenario.N.address 100 1, Event.begin Scenario.A.address 90 2,
         Event.begin Scenario.B.address 80 3]).state Scenario.N.address
        Scenario.clock).state.stats Scenario.N.address = some s ∧
      s.function = Scenario.N ∧ s.num_calls = 1 ∧
      s.self_time = 2 - 1 + (Scenario.clock 2 - Scenario.clock 1) ∧
      s.total_time = Scenario.clock 2 - 1 ∧
      s.worst_self_time = max 0 (2 - 1 + (Scenario.clock 2 - Scenario.clock 1)) ∧
      s.worst_total_time = max 0 (Scenario.clock 2 - 1)) ∧
    (Profiler.EndFunction (Profiler.run (Profiler.set_call_graph_enabled Profiler.new true)
      [Event.register Scenario.A, Event.register Scenario.B, Event.register Scenario.N,
       Event.begin Scenario.N.address 100 1, Event.begin Scenario.A.address 90 2,
       Event.begin Scenario.B.address 80 3]).state Scenario.N.address
      Scenario.clock).state.stats =
      [{ function := Scenario.A, num_calls := 1, self_time := 2, total_time := 49,
         worst_self_time := 2, worst_total_time := 49 },
       { function := Scenario.B, num_calls := 1, self_time := 47, total_time := 47,
         worst_self_time := 47, worst_total_time := 47 },
       { function := Scenario.N, num_calls := 1, self_time := 2, total_time := 51,
         worst_self_time := 2, worst_total_time := 51 }] ∧
    (Profiler.EndFunction (Profiler.run (Profiler.set_call_graph_enabled Profiler.new true)
      [Event.register Scenario.A, Event.register Scenario.B, Event.register Scenario.N,
       Event.begin Scenario.A.address 90 2, Event.begin Scenario.B.address 80 3,
       Event.begin Scenario.N.address 100 4]).state Scenario.N.address
      Scenario.clock).state.stats =
      [{ function := Scenario.A, num_calls := 1 }, { function := Scenario.B, num_calls := 1 },
       { function := Scenario.N, num_calls := 1, self_time := 46, total_time := 46,
         worst_self_time := 46, worst_total_time := 46 }] :=
  ⟨⟨by decide, by decide, by decide, by decide, by decide, by decide⟩,
    (C4_end_native_by_address Scenario.A Scenario.B Scenario.N true (by decide) (by decide)
      (by decide) (by decide) (by decide) (by decide) 90 80 100 2 3 1
      Scenario.clock).2.1.2.2.2.2.1,
    (C4_end_native_by_address Scenario.A Scenario.B Scenario.N true (by decide) (by decide)
      (by decide) (by decide) (by decide) (by decide) 90 80 100 2 3 1
      Scenario.clock).2.2.2.2.2, by decide, by decide⟩

/-- C5: the statistics update of a pop (profiler.cpp 163-171) sets `worst_total_time` to the
maximum of its previous value and the popped counter's `latest_total_time`, and
`worst_self_time` to the maximum of its previous value and `latest_self_time` (a tie leaves
the field as it was); in every state reached from a new profiler, `EndFunction()` on a
non-empty stack applies exactly this update to the record of the popped function; no event
lowers a worst time of any record; and after any sequence of events the worst times of every
record equal the maximum, starting from zero, of the readings observed at all pops of its
function. -/
theorem C5_worst_times_are_running_maxima :
    (∀ (timer : PerformanceCounter) (s : FunctionStatistics),
      (Profiler.EndFunction.record timer s).worst_total_time =
        max s.worst_total_time timer.latest_total_time ∧
      (Profiler.EndFunction.record timer s).worst_self_time =
        max s.worst_self_time timer.latest_self_time) ∧
    (∀ (enabled : Bool) (events : List Event) (clock : Nat → TimePoint) (top : FunctionCall)
        (rest : CallStack),
      (Profiler.run (Profiler.set_call_graph_enabled Profiler.new enabled)
        events).state.call_stack = top :: rest →
      ∃ c s,
        (Profiler.EndFunction (Profiler.run (Profiler.set_call_graph_enabled Profiler.new enabled)
          events).state 0 clock).popped = [c] ∧ c.fn = top.fn ∧
        Statistics.GetFunctionStatistis (Profiler.run
          (Profiler.set_call_graph_enabled Profiler.new enabled) events).state.stats
          c.fn.address = some s ∧
        Statistics.GetFunctionStatistis (Profiler.EndFunction (Profiler.run
          (Profiler.set_call_graph_enabled Profiler.new enabled) events).state 0 clock).state.stats
          c.fn.address = some (Profiler.EndFunction.record c.timer s)) ∧
    (∀ (enabled : Bool) (events : List Event) (e : Event) (a : Address)
        (s : FunctionStatistics),
      Statistics.GetFunctionStatistis (Profiler.run
        (Profiler.set_call_graph_enabled Profiler.new enabled) events).state.stats a = some s →
      ∃ s1, Statistics.GetFunctionStatistis (Profiler.step (Profiler.run
          (Profiler.set_call_graph_enabled Profiler.new enabled) events).state e).state.stats a
          = some s1 ∧
        s.worst_total_time ≤ s1.worst_total_time ∧ s.worst_self_time ≤ s1.worst_self_time) ∧
    (∀ (enabled : Bool) (events : List Event) (a : Address) (s : FunctionStatistics),
      Statistics.GetFunctionStatistis (Profiler.run
        (Profiler.set_call_graph_enabled Profiler.new enabled) events).state.stats a = some s →
      s.worst_total_time = (observedTotal (Profiler.run
        (Profiler.set_call_graph_enabled Profiler.new enabled) events).popped a).foldl max 0 ∧
      s.worst_self_time = (observedSelf (Profiler.run
        (Profiler.set_call_graph_enabled Profiler.new enabled) events).popped a).foldl max 0) := by
  refine ⟨Profiler.EndFunction.record_worst, ?_, ?_, ?_⟩
  · intro enabled events clock top rest hstack
    have hinv := Profiler.Inv_run events _ (Profiler.Inv_new enabled)
    obtain ⟨h1, -, h3, -, -⟩ := Profiler.EndFunction_zero _ clock top rest hinv hstack
    obtain ⟨s, hs⟩ := Option.isSome_iff_exists.1
      (hinv.2.1 top (by rw [hstack]; exact List.mem_cons_self _ _))
    refine ⟨_, s, h1, rfl, hs, ?_⟩
    rw [h3, Statistics.find_update _ _ _ _ (Profiler.EndFunction.record_function _)]
    simp only [if_true, hs, Option.map_some']
  · intro enabled events e a s hs
    have hinv := Profiler.Inv_run events _ (Profiler.Inv_new enabled)
    exact Statistics.WorstGe_step _ e a s hinv ⟨s, hs, le_refl _, le_refl _⟩
  · intro enabled events a s hs
    have hinv0 := Profiler.Inv_new enabled
    have h0 : Statistics.WorstInv (Profiler.set_call_graph_enabled Profiler.new enabled).stats
        [] := by
      intro b
      simp [Profiler.set_call_graph_enabled, Profiler.new, Statistics.GetFunctionStatistis]
    have := Statistics.WorstInv_run events _ [] hinv0 h0 a
    rw [hs] at this
    simpa using this

/-- C6: for every call stack `calls` built from the empty stack by any sequence of `Push` and
`Pop`, `Push(function, frame)` succeeds and puts on top of the previous activations one new
activation `c` of `function` at `frame` such that: `c.parent` points to the previous top
(`none` if the stack was empty); if `calls = above ++ a :: below` with `a` the activation of
`function` nearest to the top, the shadow of `c`'s counter is the counter of `a` (the handle
of `a`); if no activation of `function` is on the stack the counter of `c` has no shadow; and
the parent of `c`'s counter is the counter of the previous top. -/
theorem C6_Push_links (clock : Nat → TimePoint) (ops : List StackOp) (calls : CallStack)
    (popped : List FunctionCall)
    (hreach : CallStack.run clock 0 ops [] = .ok (calls, popped))
    (now : TimePoint) (function : Function) (frame : Address) :
    ∃ c, CallStack.Push now calls function frame =
        .ok (c :: CallStack.PauseCounter now calls (CallStack.backPtr calls)) ∧
      c.fn = function ∧ c.frame = frame ∧
      c.parent = CallStack.backPtr calls ∧
      (calls = [] → c.parent = none) ∧
      c.parent.bind (CallStack.get? calls) = calls.head? ∧
      (∀ above a below, calls = above ++ a :: below → a.fn = function →
        (∀ x ∈ above, x.fn ≠ function) →
        c.timer.shadow = some below.length ∧ CallStack.get? calls below.length = some a) ∧
      ((∀ x ∈ calls, x.fn ≠ function) →
        c.timer.shadow = none ∧ c.timer.parent = c.parent) ∧
      c.timer.parent = c.parent := by
  have hwf : CallStack.WF calls := CallStack.run_WF clock ops 0 [] calls popped trivial hreach
  have hshadow := FunctionCall.findShadow_eq_nearest function calls hwf [] (calls.length + 1)
    (Nat.le_succ _)
  simp only [List.nil_append] at hshadow
  refine ⟨CallStack.pushed now calls function frame, CallStack.Push_eq _ _ _ _, rfl, rfl, rfl,
    ?_, CallStack.get?_backPtr calls, ?_, ?_, rfl⟩
  · intro h; subst h; rfl
  · intro above a below hcalls ha habove
    constructor
    · show FunctionCall.findShadow calls function (calls.length + 1) (CallStack.backPtr calls) = _
      rw [hshadow, hcalls]
      exact CallStack.nearest_append above a below function ha habove
    · rw [hcalls, CallStack.get?_append _ _ _ (by simp), CallStack.get?_top]
  · intro hnone
    refine ⟨?_, rfl⟩
    show FunctionCall.findShadow calls function (calls.length + 1) (CallStack.backPtr calls) = _
    rw [hshadow]
    exact CallStack.nearest_none calls function hnone

/-- C6, at the stack holding one activation of `A`, pushing `A` again. -/
theorem C6_Push_links_witness :
    CallStack.run Scenario.clock 0 [StackOp.push Scenario.A 100] [] =
      .ok ([CallStack.pushed 50 [] Scenario.A 100], []) ∧
    ∃ c, CallStack.Push 60 [CallStack.pushed 50 [] Scenario.A 100] Scenario.A 90 =
        .ok (c :: CallStack.PauseCounter 60 [CallStack.pushed 50 [] Scenario.A 100]
          (CallStack.backPtr [CallStack.pushed 50 [] Scenario.A 100])) ∧
      c.timer.shadow = some 0 :=
  ⟨rfl, by
    obtain ⟨c, h1, -, -, -, -, -, h7, -, -⟩ :=
      C6_Push_links Scenario.clock [StackOp.push Scenario.A 100]
        [CallStack.pushed 50 [] Scenario.A 100] [] rfl 60 Scenario.A 90
    exact ⟨c, h1, (h7 [] (CallStack.pushed 50 [] Scenario.A 100) [] rfl rfl
      (by intro x hx; cases hx)).1⟩⟩

/-- C7: for every balanced sequence of `Push` and `Pop` run from the empty stack (no prefix
has more pops than pushes, totals equal) the run succeeds and leaves the stack empty; the pops
return, in order, the function and frame of the most recently pushed activation not yet
popped; there are as many popped activations as pushes, and the counter of each was started
exactly once and stopped exactly once. -/
theorem C7_balanced_push_pop (clock : Nat → TimePoint) (ops : List StackOp)
    (hbal : StackOp.balancedFrom 0 ops = true) :
    ∃ popped, CallStack.run clock 0 ops [] = .ok ([], popped) ∧
      popped.map (fun c => (c.fn, c.frame)) = StackOp.lifo ops [] ∧
      popped.length = StackOp.pushes ops ∧
      (∀ c ∈ popped, c.timer.num_starts = 1 ∧ c.timer.num_stops = 1 ∧
        c.timer.started = false) := by
  obtain ⟨popped, hrun, hlifo, hcnt, hlen⟩ := CallStack.run_balanced clock ops 0 [] trivial hbal
  exact ⟨popped, hrun, hlifo, by simpa using hlen, hcnt⟩

/-- C7, at push `A`, push `B`, pop, pop. -/
theorem C7_balanced_push_pop_witness :
    StackOp.balancedFrom 0 [StackOp.push Scenario.A 100, StackOp.push Scenario.B 90,
      StackOp.pop, StackOp.pop] = true ∧
    ∃ popped, CallStack.run Scenario.clock 0 [StackOp.push Scenario.A 100,
        StackOp.push Scenario.B 90, StackOp.pop, StackOp.pop] [] = .ok ([], popped) ∧
      popped.map (fun c => (c.fn, c.frame)) = [(Scenario.B, 90), (Scenario.A, 100)] :=
  ⟨by decide, by
    obtain ⟨popped, h1, h2, -, -⟩ := C7_balanced_push_pop Scenario.clock
      [StackOp.push Scenario.A 100, StackOp.push Scenario.B 90, StackOp.pop, StackOp.pop]
      (by decide)
    exact ⟨popped, h1, h2⟩⟩

/-- C8 (as stated, refuted): `CallStack::Pop` has no emptiness check; on the empty stack it
runs into the undefined behaviour of `calls_.back()` and reports no internal-consistency error
(neither a failed assertion nor a counter contract violation). -/
theorem C8_Pop_on_empty_stack_is_unchecked :
    CallStack.Pop 0 [] = Except.error Fault.undefined_behaviour ∧
    CallStack.Pop 0 [] ≠ Except.error Fault.assertion_failed ∧
    CallStack.Pop 0 [] ≠ Except.error Fault.contract_violation := by
  refine ⟨rfl, ?_, ?_⟩ <;> simp [CallStack.Pop]

/-- C8 (amended): the internal-consistency check for an empty call stack is the assertion
`!call_stack_.is_empty()` at the entry of `EndFunction`: on an empty call stack
`EndFunction(address)` fails that assertion before `CallStack::Pop` is called, so no
activation is returned, no counter is stopped and the profiler state, the empty stack
included, is unchanged. -/
theorem C8_EndFunction_on_empty_stack_fails_assertion (p : Profiler) (address : Address)
    (clock : Nat → TimePoint) (hempty : p.call_stack = []) :
    (Profiler.EndFunction p address clock).fault = some Fault.assertion_failed ∧
    (Profiler.EndFunction p address clock).popped = [] ∧
    (Profiler.EndFunction p address clock).state = p ∧
    (Profiler.EndFunction p address clock).state.call_stack = [] := by
  simp [Profiler.EndFunction, hempty]

/-- C8 (amended), at a new profiler. -/
theorem C8_EndFunction_on_empty_stack_witness :
    Profiler.new.call_stack = [] ∧
    (Profiler.EndFunction Profiler.new 0 Scenario.clock).fault = some Fault.assertion_failed :=
  ⟨rfl, (C8_EndFunction_on_empty_stack_fails_assertion Profiler.new 0 Scenario.clock rfl).1⟩

/-- C9: in every state reached from a new profiler (call graph enabled or not) by any sequence
of register/BeginFunction/EndFunction events, if the top activation `top` is of a NORMAL
function and the current frame `amx.frm` is strictly above `top.frame` (by any distance), one
`DebugHook` call pops exactly one activation, `top` with its counter stopped, leaves the
activations below it on the stack (the counter of the new top resumed), and records exactly
that call: the record of `top`'s function is updated from the stopped counter and every other
record is untouched.  The update is stated field by field: the cumulative self and total time
of that record grow by `self_time()` and `total_time()` of the stopped counter, its worst self
and total time become the maxima of their old values and the counter's latest readings, whose
total is `clock 0` minus the start of the activation, and its function and call count stay.
The hook returns, except that with the call graph enabled and its root at the sentinel the
assertion of line 174 fails after the pop and the record. -/
theorem C9_DebugHook_pops_exactly_one (enabled : Bool) (events : List Event) (amx : AMX)
    (clock : Nat → TimePoint) (debug : Option (AMX → Int)) (top : FunctionCall)
    (rest : CallStack)
    (hstack : (Profiler.run (Profiler.set_call_graph_enabled Profiler.new enabled)
      events).state.call_stack = top :: rest)
    (hnormal : top.fn.type = FunctionType.NORMAL) (hfrm : amx.frm > top.frame) :
    let p := (Profiler.run (Profiler.set_call_graph_enabled Profiler.new enabled) events).state
    let r := Profiler.DebugHook p amx clock debug
    let stopped := top.timer.stopped (clock 0)
    r.popped = [{ top with timer := stopped }] ∧
    r.state.call_stack = CallStack.ResumeCounter (clock 0) rest top.timer.parent ∧
    r.state.call_stack.length + 1 = p.call_stack.length ∧
    r.state.call_stack.map (fun c => (c.fn, c.frame, c.parent)) =
      rest.map (fun c => (c.fn, c.frame, c.parent)) ∧
    (∀ a, Statistics.GetFunctionStatistis r.state.stats a =
      if a = top.fn.address then
        (Statistics.GetFunctionStatistis p.stats a).map (Profiler.EndFunction.record stopped)
      else Statistics.GetFunctionStatistis p.stats a) ∧
    (Statistics.GetFunctionStatistis p.stats top.fn.address).isSome = true ∧
    (r.fault = none ∨
      (r.fault = some Fault.assertion_failed ∧ p.call_graph_enabled = true ∧
        p.call_graph.root = some p.call_graph.sentinel)) ∧
    (∃ s s1, Statistics.GetFunctionStatistis p.stats top.fn.address = some s ∧
      Statistics.GetFunctionStatistis r.state.stats top.fn.address = some s1 ∧
      s1.function = s.function ∧ s1.num_calls = s.num_calls ∧
      s1.self_time = s.self_time + stopped.self_time ∧
      s1.total_time = s.total_time + stopped.total_time ∧
      s1.worst_self_time = max s.worst_self_time stopped.latest_self_time ∧
      s1.worst_total_time = max s.worst_total_time stopped.latest_total_time) ∧
    stopped.latest_total_time = clock 0 - top.timer.start_point ∧
    stopped.total_time = (if top.timer.shadow.isSome then top.timer.total_time
      else top.timer.total_time + (clock 0 - top.timer.start_point)) ∧
    r.state.stats.map (fun x => x.function) = p.stats.map (fun x => x.function) := by
  intro p r stopped
  have hrec : ∀ (t : PerformanceCounter) (s0 : FunctionStatistics),
      (Profiler.EndFunction.record t s0).self_time = s0.self_time + t.self_time ∧
      (Profiler.EndFunction.record t s0).total_time = s0.total_time + t.total_time ∧
      (Profiler.EndFunction.record t s0).worst_self_time =
        max s0.worst_self_time t.latest_self_time ∧
      (Profiler.EndFunction.record t s0).worst_total_time =
        max s0.worst_total_time t.latest_total_time := by
    intro t s0
    simp only [Profiler.EndFunction.record, FunctionStatistics.set_worst_self_time,
      FunctionStatistics.set_worst_total_time, FunctionStatistics.AdjustTotalTime,
      FunctionStatistics.AdjustSelfTime]
    by_cases h1 : t.latest_total_time > s0.worst_total_time <;>
      by_cases h2 : t.latest_self_time > s0.worst_self_time
    · simp only [h1, h2, if_true]
      exact ⟨trivial, trivial, (max_eq_right (le_of_lt h2)).symm, (max_eq_right (le_of_lt h1)).symm⟩
    · simp only [h1, h2, if_true, if_false]
      exact ⟨trivial, trivial, (max_eq_left (not_lt.1 h2)).symm, (max_eq_right (le_of_lt h1)).symm⟩
    · simp only [h1, h2, if_true, if_false]
      exact ⟨trivial, trivial, (max_eq_right (le_of_lt h2)).symm, (max_eq_left (not_lt.1 h1)).symm⟩
    · simp only [h1, h2, if_false]
      exact ⟨trivial, trivial, (max_eq_left (not_lt.1 h2)).symm, (max_eq_left (not_lt.1 h1)).symm⟩
  have hfind : ∀ (stats : Statistics) (a : Address) (t : PerformanceCounter)
      (s0 : FunctionStatistics), Statistics.GetFunctionStatistis stats a = some s0 →
      ∃ s, Statistics.GetFunctionStatistis
          (Statistics.update stats a (Profiler.EndFunction.record t)) a = some s ∧
        s.function = s0.function ∧ s.num_calls = s0.num_calls ∧
        s.self_time = s0.self_time + t.self_time ∧
        s.total_time = s0.total_time + t.total_time ∧
        s.worst_self_time = max s0.worst_self_time t.latest_self_time ∧
        s.worst_total_time = max s0.worst_total_time t.latest_total_time := by
    intro stats a t s0 h
    refine ⟨Profiler.EndFunction.record t s0, ?_, Profiler.EndFunction.record_function _ _,
      Profiler.EndFunction.record_num_calls _ _, (hrec t s0).1, (hrec t s0).2.1,
      (hrec t s0).2.2.1, (hrec t s0).2.2.2⟩
    rw [Statistics.find_update _ _ _ _ (Profiler.EndFunction.record_function _), if_pos rfl, h]
    rfl
  have hinv : Profiler.Inv p := Profiler.Inv_run events _ (Profiler.Inv_new enabled)
  have hstack' : p.call_stack = top :: rest := hstack
  have hnlt : ¬ amx.frm < top.frame := not_lt.2 (le_of_lt hfrm)
  have hr : r = Result.finish amx debug (Profiler.EndFunction p 0 clock) := by
    show Profiler.DebugHook p amx clock debug = _
    simp only [Profiler.DebugHook, hstack', hnlt, if_false, hfrm, if_true, hnormal]
  obtain ⟨h1, h2, h3, -, h5⟩ := Profiler.EndFunction_zero p clock top rest hinv hstack'
  rw [hr, Result.finish_popped, Result.finish_state, Result.finish_fault]
  obtain ⟨s, hs⟩ := Option.isSome_iff_exists.1
    (hinv.2.1 top (by rw [hstack']; exact List.mem_cons_self _ _))
  obtain ⟨s1, hs1, g1, g2, g3, g4, g5, g6⟩ :=
    hfind p.stats top.fn.address stopped s hs
  refine ⟨h1, h2, ?_, ?_, ?_, ?_, h5, ⟨s, s1, hs, by rw [h3]; exact hs1, g1, g2, g3, g4, g5, g6⟩,
    rfl, rfl, ?_⟩
  · rw [h2, CallStack.ResumeCounter_length, hstack']; rfl
  · rw [h2]
    exact CallStack.ResumeCounter_map_ident _ _ _
  · intro a
    rw [h3, Statistics.find_update _ _ _ _ (Profiler.EndFunction.record_function _)]
    split
    · next h => rw [h]
    · rfl
  · exact hinv.2.1 top (by rw [hstack']; exact List.mem_cons_self _ _)
  · rw [h3]
    exact Statistics.update_map_function _ _ _ (Profiler.EndFunction.record_function _)

/-- C9, at the state in which `A` (frame 100) has called `B` (frame 90) and the current frame
is back at 100: the hook pops `B` and only `B`, and `A` stays on the stack; the record of `B`,
entered at time 2 and popped at time 50, goes from no time to the time 48, and the record of
`A` is untouched. -/
theorem C9_DebugHook_pops_exactly_one_witness :
    ((Profiler.run (Profiler.set_call_graph_enabled Profiler.new true)
        Scenario.nested).state.call_stack =
        CallStack.pushed 2 [CallStack.pushed 1 [] Scenario.A 100] Scenario.B 90 ::
          CallStack.PauseCounter 2 [CallStack.pushed 1 [] Scenario.A 100]
            (CallStack.backPtr [CallStack.pushed 1 [] Scenario.A 100]) ∧
      (CallStack.pushed 2 [CallStack.pushed 1 [] Scenario.A 100] Scenario.B 90).fn.type =
        FunctionType.NORMAL ∧
      Scenario.amxAbove.frm >
        (CallStack.pushed 2 [CallStack.pushed 1 [] Scenario.A 100] Scenario.B 90).frame) ∧
    (Profiler.run (Profiler.set_call_graph_enabled Profiler.new true)
      Scenario.nested).state.call_stack.length = 2 ∧
    (Profiler.DebugHook (Profiler.run (Profiler.set_call_graph_enabled Profiler.new true)
      Scenario.nested).state Scenario.amxAbove Scenario.clock none).popped.map
        (fun c => c.fn.address) = [20] ∧
    Profiler.stackAddresses (Profiler.DebugHook (Profiler.run
      (Profiler.set_call_graph_enabled Profiler.new true) Scenario.nested).state
      Scenario.amxAbove Scenario.clock none).state = [10] ∧
    (Profiler.DebugHook (Profiler.run (Profiler.set_call_graph_enabled Profiler.new true)
      Scenario.nested).state Scenario.amxAbove Scenario.clock none).state.call_stack.length + 1 =
      (Profiler.run (Profiler.set_call_graph_enabled Profiler.new true)
        Scenario.nested).state.call_stack.length ∧
    (Profiler.run (Profiler.set_call_graph_enabled Profiler.new true)
      Scenario.nested).state.stats =
      [{ function := Scenario.A, num_calls := 1 }, { function := Scenario.B, num_calls := 1 }] ∧
    (Profiler.DebugHook (Profiler.run (Profiler.set_call_graph_enabled Profiler.new true)
      Scenario.nested).state Scenario.amxAbove Scenario.clock none).state.stats =
      [{ function := Scenario.A, num_calls := 1 },
       { function := Scenario.B, num_calls := 1, self_time := 48, total_time := 48,
         worst_self_time := 48, worst_total_time := 48 }] :=
  ⟨⟨by decide, by decide, by decide⟩, by decide, by decide, by decide,
    (C9_DebugHook_pops_exactly_one true Scenario.nested Scenario.amxAbove Scenario.clock none
      (CallStack.pushed 2 [CallStack.pushed 1 [] Scenario.A 100] Scenario.B 90)
      (CallStack.PauseCounter 2 [CallStack.pushed 1 [] Scenario.A 100]
        (CallStack.backPtr [CallStack.pushed 1 [] Scenario.A 100]))
      (by decide) (by decide) (by decide)).2.2.1, by decide, by decide⟩

/-- C10: in every state reached from a new profiler by any sequence of
register/BeginFunction/EndFunction events with a non-empty call stack, for every current frame
`amx.frm` strictly below the top activation's frame: when the callee address resolved from
`amx.frm` is nonzero, `DebugHook` returns having pushed exactly one activation, whose function
has that address and whose frame is `amx.frm`, on top of the previous activations (the counter
of the previous top paused); if the address had no registered function, the function
`Normal(address)` is registered (appended to the function set and to the statistics table) and
is the function of the new activation; if it had one, nothing is registered and that function
is the function of the new activation.  When the resolved address is `0` the profiler state is
unchanged. -/
theorem C10_DebugHook_pushes_callee (enabled : Bool) (events : List Event) (amx : AMX)
    (clock : Nat → TimePoint) (debug : Option (AMX → Int)) (top : FunctionCall)
    (rest : CallStack)
    (hstack : (Profiler.run (Profiler.set_call_graph_enabled Profiler.new enabled)
      events).state.call_stack = top :: rest)
    (hfrm : amx.frm < top.frame) :
    let p := (Profiler.run (Profiler.set_call_graph_enabled Profiler.new enabled) events).state
    let r := Profiler.DebugHook p amx clock debug
    let address := GetCalleeAddress amx amx.frm
    (address ≠ 0 →
      r.fault = none ∧ r.popped = [] ∧
      (∃ c, r.state.call_stack =
          c :: CallStack.PauseCounter (clock 0) p.call_stack (CallStack.backPtr p.call_stack) ∧
        c.fn.address = address ∧ c.frame = amx.frm ∧
        Statistics.GetFunction r.state.stats address = some c.fn ∧
        (Statistics.GetFunction p.stats address = none → c.fn = Function.Normal address) ∧
        (∀ fn, Statistics.GetFunction p.stats address = some fn → c.fn = fn)) ∧
      r.state.call_stack.length = p.call_stack.length + 1 ∧
      (Statistics.GetFunction p.stats address = none →
        r.state.functions = p.functions ++ [Function.Normal address] ∧
        r.state.stats.map (fun s => s.function) =
          p.stats.map (fun s => s.function) ++ [Function.Normal address]) ∧
      ((Statistics.GetFunction p.stats address).isSome = true →
        r.state.functions = p.functions ∧
        r.state.stats.map (fun s => s.function) = p.stats.map (fun s => s.function))) ∧
    (address = 0 →
      r.fault = none ∧ r.popped = [] ∧ r.state.call_stack = p.call_stack ∧
      r.state.functions = p.functions ∧ r.state.stats = p.stats ∧
      r.state.call_graph = p.call_graph) := by
  intro p r address
  have hinv : Profiler.Inv p := Profiler.Inv_run events _ (Profiler.Inv_new enabled)
  have hstack' : p.call_stack = top :: rest := hstack
  have hne : top.frame ≠ amx.frm := ne_of_gt hfrm
  constructor
  · intro ha
    have ha' : GetCalleeAddress amx amx.frm ≠ 0 := ha
    have hr : r = Result.finish amx debug (Profiler.BeginFunction
        (Profiler.Register p (Function.Normal address)).state address amx.frm (clock 0)) := by
      show Profiler.DebugHook p amx clock debug = _
      simp only [Profiler.DebugHook, hstack', hfrm, if_true, hne, ne_eq, not_false_eq_true,
        ha', Profiler.Register_fault]
      rfl
    have hinv' := Profiler.Inv_Register p (Function.Normal address) hinv
    have hfound := Profiler.Register_find p (Function.Normal address)
    obtain ⟨s, hs⟩ := Option.isSome_iff_exists.1 hfound
    have hs' : Statistics.GetFunctionStatistis
        (Profiler.Register p (Function.Normal address)).state.stats address = some s := hs
    obtain ⟨g, hg, -, heq⟩ := Profiler.BeginFunction_eq _ address amx.frm (clock 0) s ha hs'
      hinv'.2.2
    have hsaddr : s.function.address = address := Statistics.find_address _ _ _ hs'
    rw [hr, Result.finish_popped, Result.finish_state, Result.finish_fault, heq]
    have hcs : (Profiler.Register p (Function.Normal address)).state.call_stack = p.call_stack := by
      rw [Profiler.Register_eq]; split <;> rfl
    simp only [Profiler.pushed, hcs]
    refine ⟨trivial, trivial, ⟨_, rfl, hsaddr, rfl, ?_, ?_, ?_⟩, ?_, ?_, ?_⟩
    · simp only [Statistics.GetFunction]
      rw [Statistics.find_update _ _ _ _ (FunctionStatistics.AdjustNumCalls_function 1), hsaddr]
      simp [hs', CallStack.pushed, FunctionStatistics.AdjustNumCalls]
    · intro hnone
      have hn : Statistics.GetFunctionStatistis p.stats (Function.Normal address).address = none := by
        simpa [Statistics.GetFunction] using hnone
      rw [Profiler.Register_eq, hn] at hs'
      simp only [Statistics.find_append] at hs'
      have hn' : Statistics.GetFunctionStatistis p.stats address = none := hn
      simp only [hn'] at hs'
      simp only [CallStack.pushed]
      split at hs'
      · cases hs'; rfl
      · cases hs'
    · intro fn hfn
      simp only [Statistics.GetFunction, Option.map_eq_some'] at hfn
      obtain ⟨s0, hs0, rfl⟩ := hfn
      have hs0' : Statistics.GetFunctionStatistis p.stats (Function.Normal address).address
          = some s0 := hs0
      rw [Profiler.Register_eq, hs0'] at hs'
      simp only at hs'
      rw [hs0] at hs'
      cases hs'
      rfl
    · simp [CallStack.PauseCounter_length]
    · intro hnone
      have hn : Statistics.GetFunctionStatistis p.stats (Function.Normal address).address = none := by
        simpa [Statistics.GetFunction] using hnone
      rw [Statistics.update_map_function _ _ _ (FunctionStatistics.AdjustNumCalls_function 1)]
      rw [Profiler.Register_eq, hn]
      simp
    · intro hsome
      obtain ⟨fn, hfn⟩ := Option.isSome_iff_exists.1 hsome
      simp only [Statistics.GetFunction, Option.map_eq_some'] at hfn
      obtain ⟨s0, hs0, -⟩ := hfn
      have hs0' : Statistics.GetFunctionStatistis p.stats (Function.Normal address).address
          = some s0 := hs0
      rw [Statistics.update_map_function _ _ _ (FunctionStatistics.AdjustNumCalls_function 1)]
      rw [Profiler.Register_eq, hs0']
      simp
  · intro ha
    have ha' : GetCalleeAddress amx amx.frm = 0 := ha
    have hr : r = Result.finish amx debug { state := p } := by
      show Profiler.DebugHook p amx clock debug = _
      simp only [Profiler.DebugHook, hstack', hfrm, if_true, hne, ne_eq, not_false_eq_true,
        ha', not_true_eq_false, if_false]
    rw [hr, Result.finish_popped, Result.finish_state, Result.finish_fault]
    exact ⟨rfl, rfl, rfl, rfl, rfl, rfl⟩

/-- C10, at the state with one activation of `A` at frame 90 and the current frame at 80, the
callee resolved being the unregistered function at address 20. -/
theorem C10_DebugHook_pushes_callee_witness :
    ((Profiler.run (Profiler.set_call_graph_enabled Profiler.new true)
        Scenario.entered).state.call_stack = [CallStack.pushed 1 [] Scenario.A 90] ∧
      Scenario.amxBelow.frm < (CallStack.pushed 1 [] Scenario.A 90).frame ∧
      GetCalleeAddress Scenario.amxBelow Scenario.amxBelow.frm = 20) ∧
    (Profiler.DebugHook (Profiler.run (Profiler.set_call_graph_enabled Profiler.new true)
      Scenario.entered).state Scenario.amxBelow Scenario.clock none).state.call_stack.length =
      (Profiler.run (Profiler.set_call_graph_enabled Profiler.new true)
        Scenario.entered).state.call_stack.length + 1 :=
  ⟨⟨by decide, by decide, by decide⟩,
    ((C10_DebugHook_pushes_callee true Scenario.entered Scenario.amxBelow Scenario.clock none
      (CallStack.pushed 1 [] Scenario.A 90) [] (by decide) (by decide)).1 (by decide)).2.2.2.1⟩

/-- C11 (evaluation at the failing input): on a new profiler (empty call stack) with the
current frame 80 below the stack base 1000 and a callee address that resolves to 20, the step
event does not push anything: `DebugHook` evaluates `call_stack_.top()->frame()` on the empty
stack, which is undefined behaviour, and the state is left with an empty stack.  The same holds
for every state with an empty stack and every VM whose current frame differs from the stack
base: the branch taken reads the top activation. -/
theorem C11_DebugHook_reads_top_of_empty_stack :
    (GetCalleeAddress Scenario.amxBelow Scenario.amxBelow.frm = 20 ∧
      Scenario.amxBelow.frm < Scenario.amxBelow.stp ∧
      (Profiler.DebugHook Profiler.new Scenario.amxBelow Scenario.clock none).fault =
        some Fault.undefined_behaviour ∧
      (Profiler.DebugHook Profiler.new Scenario.amxBelow Scenario.clock none).state.call_stack
        = [] ∧
      (Profiler.DebugHook Profiler.new Scenario.amxBelow Scenario.clock none).ret = none) ∧
    (∀ (p : Profiler) (amx : AMX) (clock : Nat → TimePoint) (debug : Option (AMX → Int)),
      p.call_stack = [] → amx.frm ≠ amx.stp →
      (Profiler.DebugHook p amx clock debug).fault = some Fault.undefined_behaviour) := by
  refine ⟨⟨by decide, by decide, by decide, by decide, by decide⟩, ?_⟩
  intro p amx clock debug hempty hne
  rcases lt_or_gt_of_ne hne with h | h
  · simp [Profiler.DebugHook, hempty, h]
  · have hn : ¬ amx.frm < amx.stp := not_lt.2 (le_of_lt h)
    simp [Profiler.DebugHook, hempty, hn, h]

/-- C12: for every profiler state with a non-empty call stack, `DebugHook` returns with the
profiler state unchanged (call stack, function registry, statistics records, call graph and
its root) and pops nothing whenever the current frame equals the top activation's frame, and
whenever the current frame is above the top activation's frame while the top activation's
function is of kind NATIVE or PUBLIC. -/
theorem C12_DebugHook_no_op (p : Profiler) (amx : AMX) (clock : Nat → TimePoint)
    (debug : Option (AMX → Int)) (top : FunctionCall) (rest : CallStack)
    (hstack : p.call_stack = top :: rest)
    (hcase : amx.frm = top.frame ∨
      (amx.frm > top.frame ∧
        (top.fn.type = FunctionType.NATIVE ∨ top.fn.type = FunctionType.PUBLIC))) :
    (Profiler.DebugHook p amx clock debug).state = p ∧
    (Profiler.DebugHook p amx clock debug).state.call_stack = p.call_stack ∧
    (Profiler.DebugHook p amx clock debug).state.functions = p.functions ∧
    (Profiler.DebugHook p amx clock debug).state.stats = p.stats ∧
    (Profiler.DebugHook p amx clock debug).state.call_graph.root = p.call_graph.root ∧
    (Profiler.DebugHook p amx clock debug).popped = [] ∧
    (Profiler.DebugHook p amx clock debug).fault = none := by
  have key : Profiler.DebugHook p amx clock debug = Result.finish amx debug { state := p } := by
    rcases hcase with h | ⟨h, hk⟩
    · simp [Profiler.DebugHook, hstack, h]
    · have hn : ¬ amx.frm < top.frame := not_lt.2 (le_of_lt h)
      have hnorm : top.fn.type ≠ FunctionType.NORMAL := by
        rcases hk with hk | hk <;> rw [hk] <;> decide
      simp [Profiler.DebugHook, hstack, hn, h, hnorm]
  rw [key, Result.finish_state, Result.finish_popped, Result.finish_fault]
  exact ⟨rfl, rfl, rfl, rfl, rfl, rfl, rfl⟩

/-- C12, at the state with one activation of `A` at frame 90 and the current frame at 90. -/
theorem C12_DebugHook_no_op_witness :
    ((Profiler.run Profiler.new Scenario.entered).state.call_stack =
        [CallStack.pushed 1 [] Scenario.A 90] ∧
      (Scenario.amxSame.frm = (CallStack.pushed 1 [] Scenario.A 90).frame ∨
        (Scenario.amxSame.frm > (CallStack.pushed 1 [] Scenario.A 90).frame ∧
          ((CallStack.pushed 1 [] Scenario.A 90).fn.type = FunctionType.NATIVE ∨
            (CallStack.pushed 1 [] Scenario.A 90).fn.type = FunctionType.PUBLIC)))) ∧
    (Profiler.DebugHook (Profiler.run Profiler.new Scenario.entered).state Scenario.amxSame
      Scenario.clock none).state = (Profiler.run Profiler.new Scenario.entered).state :=
  ⟨⟨by decide, Or.inl (by decide)⟩,
    (C12_DebugHook_no_op (Profiler.run Profiler.new Scenario.entered).state Scenario.amxSame
      Scenario.clock none (CallStack.pushed 1 [] Scenario.A 90) [] (by decide)
      (Or.inl (by decide))).1⟩

/-- C13 (evaluation at the failing input): with the call graph enabled, the native at index 0
resolves to the nonzero address 30 and its dispatch leaves the native's activation in place and
finishes with three activations of `B` (address 20, a function that called itself) on top of
it.  `CallbackHook` does not return: `EndFunction(30)` pops the three activations of `B`, the
assertion `root != sentinel` fails at the third one, and the native's activation is still on
the stack, which therefore differs from the empty stack before the hook.  With the call graph
disabled the same hook returns 7 with all four activations popped. -/
theorem C13_CallbackHook_aborts_before_native_is_popped :
    GetNativeAddress Scenario.amxTables 0 = 30 ∧
    Scenario.graphProfiler.call_stack = [] ∧
    (Profiler.run (Profiler.BeginFunction (Profiler.Register Scenario.graphProfiler
        (Function.Native Scenario.amxTables 0)).state 30 100 1).state
      (Scenario.leavesRecursion Scenario.amxTables 0 11 12).events).fault = none ∧
    Profiler.stackAddresses (Profiler.run (Profiler.BeginFunction (Profiler.Register
        Scenario.graphProfiler (Function.Native Scenario.amxTables 0)).state 30 100 1).state
      (Scenario.leavesRecursion Scenario.amxTables 0 11 12).events).state = [20, 20, 20, 30] ∧
    (Profiler.CallbackHook Scenario.graphProfiler Scenario.amxTables 0 11 12
      Scenario.leavesRecursion 1 Scenario.clock).fault = some Fault.assertion_failed ∧
    (Profiler.CallbackHook Scenario.graphProfiler Scenario.amxTables 0 11 12
      Scenario.leavesRecursion 1 Scenario.clock).ret = none ∧
    (Profiler.CallbackHook Scenario.graphProfiler Scenario.amxTables 0 11 12
      Scenario.leavesRecursion 1 Scenario.clock).popped.map (fun c => c.fn.address)
      = [20, 20, 20] ∧
    Profiler.stackAddresses (Profiler.CallbackHook Scenario.graphProfiler Scenario.amxTables 0
      11 12 Scenario.leavesRecursion 1 Scenario.clock).state = [30] ∧
    (Profiler.CallbackHook Profiler.new Scenario.amxTables 0 11 12
      Scenario.leavesRecursion 1 Scenario.clock).ret = some 7 ∧
    (Profiler.CallbackHook Profiler.new Scenario.amxTables 0 11 12
      Scenario.leavesRecursion 1 Scenario.clock).popped.map (fun c => c.fn.address)
      = [20, 20, 20, 30] ∧
    (Profiler.CallbackHook Profiler.new Scenario.amxTables 0 11 12
      Scenario.leavesRecursion 1 Scenario.clock).state.call_stack = [] := by
  refine ⟨by decide, by decide, by decide, by decide, by decide, by decide, by decide,
    by decide, by decide, by decide, by decide⟩

/-- C14 (as stated, refuted): on a new graph `AddCallee` for the record of address 10 returns
the new node 1, the node of that record, but the root is still the sentinel (node 0)
afterwards, not the node returned. -/
theorem C14_AddCallee_leaves_root :
    (CallGraph.AddCallee CallGraph.new 10).toOption.map
      (fun r => (r.2, r.1.root, CallGraph.find r.1.nodes 10)) = some (1, some 0, some 1) ∧
    CallGraph.new.root = some 0 ∧
    (CallGraph.AddCallee CallGraph.new 10).toOption.map (fun r => r.1.root) ≠
      (CallGraph.AddCallee CallGraph.new 10).toOption.map (fun r => some r.2) := by
  decide

/-- C14 (amended): for every graph built from a new graph by `AddCallee` calls and root
changes and every statistics record `stats`, `AddCallee(stats)` returns the node the table
associates with `stats` (a node whose statistics are `stats`) and leaves the root where it
was; the returned node becomes the root only through the `MakeRoot()` that `BeginFunction`
calls on it: in every state reached from a new profiler with the call graph enabled,
`BeginFunction` on a registered nonzero address returns with the root at the node of that
address. -/
theorem C14_AddCallee_returns_node (ops : List GraphOp) (g : CallGraph)
    (hrun : CallGraph.run CallGraph.new ops = .ok g) (stats : Address) :
    (∃ g1 node, CallGraph.AddCallee g stats = .ok (g1, node) ∧
      CallGraph.find g1.nodes stats = some node ∧
      (g1.arena[node]?).map (fun (x : CallGraphNode) => x.stats) = some (some stats) ∧
      g1.root = g.root ∧
      (CallGraph.set_root g1 (some node)).root = some node) ∧
    (∀ (events : List Event) (address frm : Address) (now : TimePoint),
      address ≠ 0 →
      (Statistics.GetFunctionStatistis (Profiler.run Scenario.graphProfiler events).state.stats
        address).isSome = true →
      (Profiler.BeginFunction (Profiler.run Scenario.graphProfiler events).state address frm
        now).fault = none ∧
      (Profiler.BeginFunction (Profiler.run Scenario.graphProfiler events).state address frm
        now).state.call_graph.root =
        CallGraph.find (Profiler.BeginFunction (Profiler.run Scenario.graphProfiler
          events).state address frm now).state.call_graph.nodes address) := by
  constructor
  · obtain ⟨hinv, -⟩ := CallGraph.GraphInv_run ops _ g CallGraph.GraphInv_new hrun
    obtain ⟨g1, node, hadd, hroot, -, -, -, hfind, hstats, -, -⟩ :=
      CallGraph.AddCallee_spec g stats hinv.1 hinv.2.1
    exact ⟨g1, node, hadd, hfind, hstats, hroot, rfl⟩
  · intro events address frm now ha hreg
    have hinv : Profiler.Inv2 (Profiler.run Scenario.graphProfiler events).state :=
      Profiler.Inv2_run events _ (Profiler.Inv2_new true)
    obtain ⟨s, hs⟩ := Option.isSome_iff_exists.1 hreg
    have hen : (Profiler.run Scenario.graphProfiler events).state.call_graph_enabled = true :=
      Profiler.run_enabled events _
    obtain ⟨hf, hcase⟩ := Profiler.BeginFunction_graph _ address frm now s ha hs hinv.2
    refine ⟨hf, ?_⟩
    rcases hcase with ⟨h, -⟩ | ⟨-, g1, node, hadd, hgr⟩
    · rw [hen] at h; cases h
    · rw [hgr]
      obtain ⟨g1', node', hadd', -, -, -, -, hfind, -, -, -⟩ :=
        CallGraph.AddCallee_spec _ address hinv.2.1 hinv.2.2.1
      rw [hadd] at hadd'
      simp only [Except.ok.injEq, Prod.mk.injEq] at hadd'
      obtain ⟨rfl, rfl⟩ := hadd'
      simp only [CallGraph.set_root]
      exact hfind.symm

/-- C14 (amended), at the graph of the scenarios and the record of address 10. -/
theorem C14_AddCallee_returns_node_witness :
    CallGraph.run CallGraph.new Scenario.graphOps = .ok Scenario.graph ∧
    ∃ g1 node, CallGraph.AddCallee Scenario.graph 10 = .ok (g1, node) ∧
      CallGraph.find g1.nodes 10 = some node ∧ g1.root = Scenario.graph.root :=
  ⟨rfl, by
    obtain ⟨g1, node, hadd, hfind, -, hroot, -⟩ :=
      (C14_AddCallee_returns_node Scenario.graphOps Scenario.graph rfl 10).1
    exact ⟨g1, node, hadd, hfind, hroot⟩⟩

/-- C15: for every graph built from a new graph by any sequence of `AddCallee` calls and root
changes: the node table has no two entries with the same address and its addresses are exactly
the addresses ever passed to `AddCallee`; its nodes are pairwise distinct, none is the
sentinel, each carries the statistics of its address, and the graph holds exactly one node per
entry besides the sentinel.  A further `AddCallee(stats)` allocates a node only if `stats` was
never added before (otherwise it returns the node of the table and leaves table and arena size
as they are), and repeating the call from the same root changes nothing: the root's callee set
holds the node exactly once. -/
theorem C15_one_node_per_address (ops : List GraphOp) (g : CallGraph)
    (hrun : CallGraph.run CallGraph.new ops = .ok g) :
    (g.nodes.map Prod.fst).Nodup ∧
    (∀ a, a ∈ g.nodes.map Prod.fst ↔ a ∈ GraphOp.added ops) ∧
    (g.nodes.map Prod.snd).Nodup ∧
    g.arena.length = g.nodes.length + 1 ∧
    (∀ (k : Address) (n : Nat), (k, n) ∈ g.nodes →
      n ≠ g.sentinel ∧ n < g.arena.length ∧
      (g.arena[n]?).map (fun (x : CallGraphNode) => x.stats) = some (some k)) ∧
    (∀ stats : Address, ∃ g1 node, CallGraph.AddCallee g stats = .ok (g1, node) ∧
      (stats ∈ GraphOp.added ops →
        g1.arena.length = g.arena.length ∧ g1.nodes = g.nodes ∧ (stats, node) ∈ g.nodes) ∧
      (stats ∉ GraphOp.added ops →
        g1.arena.length = g.arena.length + 1 ∧ node = g.arena.length ∧
        g1.nodes.length = g.nodes.length + 1) ∧
      CallGraph.AddCallee g1 stats = .ok (g1, node) ∧
      ∃ r x, g.root = some r ∧ g1.root = some r ∧ g1.arena[r]? = some x ∧
        x.callees.count node = 1) := by
  obtain ⟨hinv, hkeys⟩ := CallGraph.GraphInv_run ops _ g CallGraph.GraphInv_new hrun
  have hkeys' : ∀ a, a ∈ g.nodes.map Prod.fst ↔ a ∈ GraphOp.added ops := by
    intro a
    rw [hkeys a]
    simp [CallGraph.new]
  obtain ⟨hwf, ⟨t1, t2, t3, t4, t5, t6⟩, hl⟩ := hinv
  refine ⟨t1.imp (fun h => ne_of_lt h), hkeys', t2, hl, ?_, ?_⟩
  · intro k n hkn
    refine ⟨?_, hwf.2.2.2.2 k n hkn, (t3 k n hkn).2⟩
    rw [hwf.1]
    exact Nat.pos_iff_ne_zero.1 (t3 k n hkn).1
  · intro stats
    obtain ⟨g1, node, hadd, -, -, -, -, -, -, hfound, hnew⟩ :=
      CallGraph.AddCallee_spec g stats hwf ⟨t1, t2, t3, t4, t5, t6⟩
    obtain ⟨htw1, htw2⟩ := CallGraph.AddCallee_twice g g1 stats node
      ⟨hwf, ⟨t1, t2, t3, t4, t5, t6⟩, hl⟩ hadd
    refine ⟨g1, node, hadd, ?_, ?_, htw2, htw1⟩
    · intro hmem
      cases hfind : CallGraph.find g.nodes stats with
      | none =>
        have := (CallGraph.find_eq_none _ _).1 hfind
        obtain ⟨kv, hkv, hkv2⟩ := List.mem_map.1 ((hkeys' stats).2 hmem)
        exact absurd hkv2 (this kv hkv)
      | some n =>
        obtain ⟨h1, h2, h3⟩ := hfound n hfind
        rw [h1]
        exact ⟨h3, h2, CallGraph.find_eq_some _ _ _ hfind⟩
    · intro hnmem
      cases hfind : CallGraph.find g.nodes stats with
      | some n =>
        have := CallGraph.find_eq_some _ _ _ hfind
        exact absurd ((hkeys' stats).1 (List.mem_map.2 ⟨(stats, n), this, rfl⟩)) hnmem
      | none =>
        obtain ⟨h1, h2, h3⟩ := hnew hfind
        exact ⟨h2, h1, by rw [h3.length_eq]; rfl⟩

/-- C15, at the graph of the scenarios. -/
theorem C15_one_node_per_address_witness :
    CallGraph.run CallGraph.new Scenario.graphOps = .ok Scenario.graph ∧
    (Scenario.graph.nodes.map Prod.fst).Nodup ∧
    Scenario.graph.arena.length = Scenario.graph.nodes.length + 1 :=
  ⟨rfl, (C15_one_node_per_address Scenario.graphOps Scenario.graph rfl).1,
    (C15_one_node_per_address Scenario.graphOps Scenario.graph rfl).2.2.2.1⟩

/-- C16 (as stated, refuted): in the graph built when the function at address 20 is entered
from the top level and calls the function at address 10, the caller of node 2 (address 10) is
node 1 (address 20), and `Traverse` visits the sentinel, then node 2, then node 1: a node is
visited before its caller, so the order is not the pre-order 0, 1, 2. -/
theorem C16_Traverse_is_not_preorder :
    (CallGraph.run CallGraph.new Scenario.graphOps).toOption.map CallGraph.Traverse =
      some [0, 2, 1] ∧
    (CallGraph.run CallGraph.new Scenario.graphOps).toOption.map
      (fun g => (g.arena.map (fun x => (x.stats, x.caller, x.callees)))) =
      some [(none, none, [1]), (some 20, some 0, [2]), (some 10, some 1, [])] ∧
    (CallGraph.run CallGraph.new Scenario.graphOps).toOption.map CallGraph.Traverse ≠
      some [0, 1, 2] := by
  decide

/-- C16 (amended): for every graph built from a new graph by any sequence of `AddCallee`
calls and root changes, `Traverse` visits the sentinel first and then every other node of the
graph exactly once, in the order of the node table, that is in strictly increasing order of
the function addresses of the nodes (whether or not the caller of a node has been visited). -/
theorem C16_Traverse_visits_in_address_order (ops : List GraphOp) (g : CallGraph)
    (hrun : CallGraph.run CallGraph.new ops = .ok g) :
    (CallGraph.Traverse g).head? = some g.sentinel ∧
    (CallGraph.Traverse g).Nodup ∧
    (∀ n, n ∈ CallGraph.Traverse g ↔ n < g.arena.length) ∧
    (CallGraph.Traverse g).length = g.arena.length ∧
    (CallGraph.Traverse g).tail.map
      (fun n => (g.arena[n]?).bind (fun (x : CallGraphNode) => x.stats)) =
      g.nodes.map (fun kv => some kv.1) ∧
    (g.nodes.map Prod.fst).Pairwise (· < ·) := by
  obtain ⟨⟨hwf, ⟨t1, t2, t3, t4, t5, t6⟩, hl⟩, -⟩ :=
    CallGraph.GraphInv_run ops _ g CallGraph.GraphInv_new hrun
  have hvals : g.nodes.map (fun kv => kv.2) = g.nodes.map Prod.snd := rfl
  refine ⟨rfl, ?_, ?_, ?_, ?_, t1⟩
  · simp only [CallGraph.Traverse, List.nodup_cons, hvals]
    refine ⟨?_, t2⟩
    intro hm
    obtain ⟨kv, hkv, hkv2⟩ := List.mem_map.1 hm
    have := (t3 kv.1 kv.2 hkv).1
    rw [hwf.1] at hkv2
    omega
  · intro n
    simp only [CallGraph.Traverse, List.mem_cons, hvals]
    constructor
    · rintro (h | h)
      · rw [h, hwf.1]; exact hwf.2.1
      · obtain ⟨kv, hkv, rfl⟩ := List.mem_map.1 h
        exact hwf.2.2.2.2 kv.1 kv.2 hkv
    · intro h
      rcases Nat.eq_zero_or_pos n with h0 | h0
      · exact Or.inl (by rw [h0, hwf.1])
      · exact Or.inr (t4 n h0 h)
  · simp [CallGraph.Traverse, hl]
  · simp only [CallGraph.Traverse, List.tail_cons, List.map_map]
    apply List.map_congr_left
    intro kv hkv
    have := (t3 kv.1 kv.2 hkv).2
    simp only [Function.comp]
    cases hx : g.arena[kv.2]? with
    | none => rw [hx] at this; cases this
    | some x =>
      rw [hx] at this
      simp only [Option.map_some', Option.some.injEq] at this
      simp [this]

/-- C16 (amended), at the graph of the scenarios. -/
theorem C16_Traverse_visits_in_address_order_witness :
    CallGraph.run CallGraph.new Scenario.graphOps = .ok Scenario.graph ∧
    (CallGraph.Traverse Scenario.graph).Nodup ∧
    (CallGraph.Traverse Scenario.graph).length = Scenario.graph.arena.length :=
  ⟨rfl, (C16_Traverse_visits_in_address_order Scenario.graphOps Scenario.graph rfl).2.1,
    (C16_Traverse_visits_in_address_order Scenario.graphOps Scenario.graph rfl).2.2.2.1⟩

/-- C17 (evaluation at the failing inputs): with the call graph enabled, after `A` is entered,
calls itself and the inner activation is popped, the call stack still holds `A` but the graph
root is the sentinel, and the next `EndFunction()`, issued on a non-empty stack, fails the
assertion `root != sentinel`.  The same happens without any recursion when `A` calls `B`, then
calls `C` which calls `B`: once `B` and `C` have returned the root is the sentinel while `A` is
live, and popping `A` fails the assertion. -/
theorem C17_root_assertion_fails :
    ((Profiler.run Scenario.graphProfiler (Scenario.recursion ++
        [Event.end_ 0 Scenario.clock])).fault = none ∧
      (Profiler.run Scenario.graphProfiler (Scenario.recursion ++
        [Event.end_ 0 Scenario.clock])).state.call_stack.length = 1 ∧
      (Profiler.run Scenario.graphProfiler (Scenario.recursion ++
        [Event.end_ 0 Scenario.clock])).state.call_graph.root =
        some (Profiler.run Scenario.graphProfiler (Scenario.recursion ++
          [Event.end_ 0 Scenario.clock])).state.call_graph.sentinel ∧
      (Profiler.EndFunction (Profiler.run Scenario.graphProfiler (Scenario.recursion ++
        [Event.end_ 0 Scenario.clock])).state 0 Scenario.clock).fault =
        some Fault.assertion_failed) ∧
    ((Profiler.run Scenario.graphProfiler Scenario.sharedCallee).fault = none ∧
      (Profiler.run Scenario.graphProfiler Scenario.sharedCallee).state.stackAddresses = [10] ∧
      (Profiler.run Scenario.graphProfiler Scenario.sharedCallee).state.call_graph.root =
        some (Profiler.run Scenario.graphProfiler
          Scenario.sharedCallee).state.call_graph.sentinel ∧
      (Profiler.EndFunction (Profiler.run Scenario.graphProfiler
        Scenario.sharedCallee).state 0 Scenario.clock).fault = some Fault.assertion_failed) := by
  decide

/-- C18 (as stated, refuted): on a new profiler with `A` registered the call count of `A` is
0; `BeginFunction(A)` alone, with nothing popped, raises it to 1; the `EndFunction()` that pops
that activation leaves it at 1. -/
theorem C18_call_count_changes_at_BeginFunction :
    Statistics.numCalls (Profiler.run Profiler.new [Event.register Scenario.A]).state.stats 10
      = some 0 ∧
    (Profiler.run Profiler.new Scenario.entered).popped = [] ∧
    Statistics.numCalls (Profiler.run Profiler.new Scenario.entered).state.stats 10 = some 1 ∧
    (Profiler.EndFunction (Profiler.run Profiler.new Scenario.entered).state 0
      Scenario.clock).popped.length = 1 ∧
    Statistics.numCalls (Profiler.EndFunction (Profiler.run Profiler.new Scenario.entered).state
      0 Scenario.clock).state.stats 10 = some 1 := by
  decide

/-- C18 (amended): in every state reached from a new profiler, `BeginFunction` on a registered
nonzero address returns having increased the call count of that address by exactly one and no
other call count; `EndFunction` changes no call count, whatever it pops; and the
lookup-or-create step of the hooks changes no call count of an existing record. -/
theorem C18_call_count_is_counted_at_entry (enabled : Bool) (events : List Event)
    (address frm : Address) (now : TimePoint) (s : FunctionStatistics)
    (ha : address ≠ 0)
    (hs : Statistics.GetFunctionStatistis (Profiler.run
      (Profiler.set_call_graph_enabled Profiler.new enabled) events).state.stats address
      = some s) :
    let p := (Profiler.run (Profiler.set_call_graph_enabled Profiler.new enabled) events).state
    ((Profiler.BeginFunction p address frm now).fault = none ∧
      Statistics.numCalls (Profiler.BeginFunction p address frm now).state.stats address =
        some (s.num_calls + 1) ∧
      ∀ b, b ≠ address →
        Statistics.numCalls (Profiler.BeginFunction p address frm now).state.stats b =
          Statistics.numCalls p.stats b) ∧
    (∀ (a : Address) (clock : Nat → TimePoint) (b : Address),
      Statistics.numCalls (Profiler.EndFunction p a clock).state.stats b =
        Statistics.numCalls p.stats b) ∧
    (∀ (fn : Function) (b : Address) (n : Int), Statistics.numCalls p.stats b = some n →
      Statistics.numCalls (Profiler.Register p fn).state.stats b = some n) := by
  intro p
  have hinv : Profiler.Inv p := Profiler.Inv_run events _ (Profiler.Inv_new enabled)
  refine ⟨⟨(Statistics.numCalls_BeginFunction p address frm now s address hinv ha hs).1, ?_, ?_⟩,
    ?_, ?_⟩
  · rw [(Statistics.numCalls_BeginFunction p address frm now s address hinv ha hs).2]
    simp
  · intro b hb
    rw [(Statistics.numCalls_BeginFunction p address frm now s b hinv ha hs).2]
    simp [hb]
  · intro a clock b
    exact Statistics.numCalls_EndFunction p a clock b hinv
  · intro fn b n hn
    rw [Statistics.numCalls_Register, hn]

/-- C18 (amended), at the new profiler with `A` registered. -/
theorem C18_call_count_is_counted_at_entry_witness :
    ((10 : Address) ≠ 0 ∧
      Statistics.GetFunctionStatistis (Profiler.run
        (Profiler.set_call_graph_enabled Profiler.new false)
        [Event.register Scenario.A]).state.stats 10 = some { function := Scenario.A }) ∧
    Statistics.numCalls (Profiler.BeginFunction (Profiler.run
      (Profiler.set_call_graph_enabled Profiler.new false)
      [Event.register Scenario.A]).state 10 90 1).state.stats 10 = some (0 + 1) :=
  ⟨⟨by decide, by decide⟩,
    (C18_call_count_is_counted_at_entry false [Event.register Scenario.A] 10 90 1
      { function := Scenario.A } (by decide) (by decide)).1.2.1⟩

/-- C19: in every state reached from a new profiler in which the function `A` registered at a
nonzero address has no live activation, `BeginFunction(A)` at time `t1`, `BeginFunction(A)` at
time `t2` and the first `EndFunction()` return, the inner counter is a shadow of the outer one
and its pop adds nothing to the cumulative total time of `A`; after the second `EndFunction()`
the cumulative total time of `A` has grown by exactly `clock4 0 - t1`, the interval from the
start of the outer activation to its stop (not by the sum of this interval and the inner
interval `clock3 0 - t2`), and the call count of `A` by 2.  The second `EndFunction()` returns
when the call graph is disabled; with the call graph enabled it either returns or, having
popped and recorded the outer activation, fails the assertion `root != sentinel` because the
root is the sentinel. -/
theorem C19_self_call_counts_one_interval (enabled : Bool) (events : List Event)
    (address f1 f2 : Address) (t1 t2 : TimePoint) (clock3 clock4 : Nat → TimePoint)
    (s : FunctionStatistics) (ha : address ≠ 0)
    (hs : Statistics.GetFunctionStatistis (Profiler.run
      (Profiler.set_call_graph_enabled Profiler.new enabled) events).state.stats address
      = some s)
    (hlive : ∀ c ∈ (Profiler.run (Profiler.set_call_graph_enabled Profiler.new enabled)
      events).state.call_stack, c.fn ≠ s.function) :
    let p := (Profiler.run (Profiler.set_call_graph_enabled Profiler.new enabled) events).state
    let r1 := Profiler.BeginFunction p address f1 t1
    let r2 := Profiler.BeginFunction r1.state address f2 t2
    let r3 := Profiler.EndFunction r2.state 0 clock3
    let r4 := Profiler.EndFunction r3.state 0 clock4
    r1.fault = none ∧ r2.fault = none ∧ r3.fault = none ∧
    (∃ inner outer rest, r2.state.call_stack = inner :: outer :: rest ∧
      inner.fn = s.function ∧ outer.fn = s.function ∧
      outer.timer.shadow = none ∧ inner.timer.shadow = some rest.length ∧
      CallStack.get? r2.state.call_stack rest.length = some outer ∧
      outer.timer.start_point = t1 ∧ inner.timer.start_point = t2) ∧
    (∃ inner, r3.popped = [inner] ∧ inner.fn = s.function ∧ inner.timer.total_time = 0 ∧
      inner.timer.latest_total_time = clock3 0 - t2) ∧
    (∃ outer, r4.popped = [outer] ∧ outer.fn = s.function ∧
      outer.timer.total_time = clock4 0 - t1 ∧
      outer.timer.latest_total_time = clock4 0 - t1) ∧
    (Statistics.GetFunctionStatistis r3.state.stats address).map (fun x => x.total_time) =
      some s.total_time ∧
    (Statistics.GetFunctionStatistis r4.state.stats address).map (fun x => x.total_time) =
      some (s.total_time + (clock4 0 - t1)) ∧
    (Statistics.GetFunctionStatistis r4.state.stats address).map (fun x => x.num_calls) =
      some (s.num_calls + 2) ∧
    (r4.fault = none ∨
      (r4.fault = some Fault.assertion_failed ∧ enabled = true ∧
        r3.state.call_graph.root = some r3.state.call_graph.sentinel)) := by
  intro p r1 r2 r3 r4
  have hinv2 : Profiler.Inv2 p := Profiler.Inv2_run events _ (Profiler.Inv2_new enabled)
  have hmain := Profiler.self_call p address f1 f2 t1 t2 clock3 clock4 s hinv2 ha hs hlive
  obtain ⟨h1, h2, h3, ⟨inner, outer, rest, hst, hrest⟩, h5, h6, h7, h8, h9⟩ := hmain
  refine ⟨h1, h2, h3, ⟨inner, outer, rest, hst, hrest⟩, h5, h6, h7, h8, h9, ?_⟩
  have hinvr2 : Profiler.Inv r2.state :=
    Profiler.Inv_BeginFunction _ _ _ _ (Profiler.Inv_BeginFunction _ _ _ _ hinv2.1)
  have hinvr3 : Profiler.Inv r3.state := Profiler.Inv_EndFunction _ _ _ hinvr2
  have hen3 : r3.state.call_graph_enabled = enabled :=
    (Profiler.step_enabled r2.state (Event.end_ 0 clock3)).trans
      ((Profiler.step_enabled r1.state (Event.begin address f2 t2)).trans
        ((Profiler.step_enabled p (Event.begin address f1 t1)).trans
          (Profiler.run_enabled events _)))
  have hst3 := (Profiler.EndFunction_zero r2.state clock3 inner (outer :: rest) hinvr2 hst).2.1
  have hlen : r3.state.call_stack.length = (outer :: rest).length := by
    show (Profiler.EndFunction r2.state 0 clock3).state.call_stack.length = _
    rw [hst3, CallStack.ResumeCounter_length]
  cases hcs : r3.state.call_stack with
  | nil => rw [hcs] at hlen; cases hlen
  | cons c cs =>
    rcases (Profiler.EndFunction_zero r3.state clock4 c cs hinvr3 hcs).2.2.2.2 with hf | hf
    · exact Or.inl hf
    · exact Or.inr ⟨hf.1, by rw [← hen3]; exact hf.2.1, hf.2.2⟩

/-- C19, at the new profiler with `A` registered, entered at times 1 and 2 and left at times
50 and 50. -/
theorem C19_self_call_counts_one_interval_witness :
    ((10 : Address) ≠ 0 ∧
      Statistics.GetFunctionStatistis (Profiler.run
        (Profiler.set_call_graph_enabled Profiler.new false)
        [Event.register Scenario.A]).state.stats 10 = some { function := Scenario.A } ∧
      (Profiler.run (Profiler.set_call_graph_enabled Profiler.new false)
        [Event.register Scenario.A]).state.call_stack = []) ∧
    (Statistics.GetFunctionStatistis (Profiler.EndFunction (Profiler.EndFunction
      (Profiler.BeginFunction (Profiler.BeginFunction (Profiler.run
        (Profiler.set_call_graph_enabled Profiler.new false)
        [Event.register Scenario.A]).state 10 100 1).state 10 90 2).state 0
      Scenario.clock).state 0 Scenario.clock).state.stats 10).map (fun x => x.total_time) =
      some (0 + (Scenario.clock 0 - 1)) :=
  ⟨⟨by decide, by decide, by decide⟩,
    (C19_self_call_counts_one_interval false [Event.register Scenario.A] 10 100 90 1 2
      Scenario.clock Scenario.clock { function := Scenario.A } (by decide) (by decide)
      (by intro c hc; cases hc)).2.2.2.2.2.2.2.1⟩

/-- C20 (evaluation at the failing inputs): with the call graph enabled, (1) `CallbackHook` for
the native at index 0 (address 30), whose callback executes `B`, which executes itself, both
having returned when the callback returns 7, invokes the callback once with the arguments
`(0, 11, 12)` of the hook but does not return 7: the closing `EndFunction(30)` fails the
assertion `root != sentinel`; (2) `ExecHook` for the public at index 0 (address 20), whose
execution executes the same public once more and returns 7, invokes `exec` once with
`(11, 0)` and fails the same assertion instead of returning 7.  In every state and for every
index and host function, a hook that completes has invoked the host function exactly once with
its own arguments and returns exactly its result. -/
theorem C20_hooks_abort_instead_of_returning_the_result :
    ((Scenario.runsRecursion Scenario.amxTables 0 11 12).ret = 7 ∧
      (Profiler.CallbackHook Scenario.graphProfiler Scenario.amxTables 0 11 12
        Scenario.runsRecursion 1 Scenario.clock).dispatched.map
          (fun c => (c.amx.frm, c.arg1, c.arg2, c.arg3)) = [(100, 0, 11, 12)] ∧
      (Profiler.CallbackHook Scenario.graphProfiler Scenario.amxTables 0 11 12
        Scenario.runsRecursion 1 Scenario.clock).fault = some Fault.assertion_failed ∧
      (Profiler.CallbackHook Scenario.graphProfiler Scenario.amxTables 0 11 12
        Scenario.runsRecursion 1 Scenario.clock).ret = none) ∧
    ((Scenario.execsItself Scenario.amxTables 11 0).ret = 7 ∧
      (Profiler.ExecHook Scenario.graphProfiler Scenario.amxTables 11 0
        Scenario.execsItself 1 Scenario.clock).dispatched.map
          (fun c => (c.amx.frm, c.arg1, c.arg2)) = [(100, 11, 0)] ∧
      (Profiler.ExecHook Scenario.graphProfiler Scenario.amxTables 11 0
        Scenario.execsItself 1 Scenario.clock).fault = some Fault.assertion_failed ∧
      (Profiler.ExecHook Scenario.graphProfiler Scenario.amxTables 11 0
        Scenario.execsItself 1 Scenario.clock).ret = none) ∧
    (∀ (p : Profiler) (amx : AMX) (index result params : Int)
      (callback : AMX → Int → Int → Int → Dispatch) (now : TimePoint)
      (clock : Nat → TimePoint),
      (Profiler.CallbackHook p amx index result params callback now clock).fault = none →
      (Profiler.CallbackHook p amx index result params callback now clock).ret =
        some (callback amx index result params).ret ∧
      (Profiler.CallbackHook p amx index result params callback now clock).dispatched =
        [⟨amx, index, result, params⟩]) ∧
    (∀ (p : Profiler) (amx : AMX) (retval index : Int) (exec : AMX → Int → Int → Dispatch)
      (now : TimePoint) (clock : Nat → TimePoint),
      (Profiler.ExecHook p amx retval index exec now clock).fault = none →
      (Profiler.ExecHook p amx retval index exec now clock).ret =
        some (exec amx retval index).ret ∧
      (Profiler.ExecHook p amx retval index exec now clock).dispatched =
        [⟨amx, retval, index, 0⟩]) := by
  refine ⟨⟨by decide, by decide, by decide, by decide⟩,
    ⟨by decide, by decide, by decide, by decide⟩, ?_, ?_⟩
  · intro p amx index result params callback now clock
    by_cases h : index ≥ 0
    · simp only [Profiler.CallbackHook, h, if_true]
      exact (Profiler.bracket_transparent _ _ _ _ _ _ _ _).2
    · simp only [Profiler.CallbackHook, h, if_false]
      intro hf
      exact ⟨(Profiler.passThrough_transparent _ _ _).2.1 hf,
        (Profiler.passThrough_transparent _ _ _).1⟩
  · intro p amx retval index exec now clock
    by_cases h : index ≥ 0 ∨ index = AMX_EXEC_MAIN
    · simp only [Profiler.ExecHook, h, if_true]
      exact (Profiler.bracket_transparent _ _ _ _ _ _ _ _).2
    · simp only [Profiler.ExecHook, h, if_false]
      intro hf
      exact ⟨(Profiler.passThrough_transparent _ _ _).2.1 hf,
        (Profiler.passThrough_transparent _ _ _).1⟩

/-- C21 (evaluation at the failing input): in a VM with one native and one public, index 1 is
not less than the number of natives (publics), and the name resolvers return the empty string
for it, but `GetNativeAddress` and `GetPublicAddress` return 77, the `address` field of what
lies after the table, not 0: they test `index >= 0` only.  The rest of the claim holds for
every VM: a negative index (other than `AMX_EXEC_MAIN` for publics) resolves to address 0 and
to the empty name, and an index not less than the number of entries resolves to the empty
name. -/
theorem C21_address_resolvers_have_no_upper_bound :
    ((1 : Int) ≥ Scenario.amxOneEntry.num_natives ∧
      GetNativeAddress Scenario.amxOneEntry 1 = 77 ∧
      GetNativeName Scenario.amxOneEntry 1 = "" ∧
      (1 : Int) ≥ Scenario.amxOneEntry.num_publics ∧ (1 : Int) ≠ AMX_EXEC_MAIN ∧
      GetPublicAddress Scenario.amxOneEntry 1 = 77 ∧
      GetPublicName Scenario.amxOneEntry 1 = "") ∧
    (∀ (amx : AMX) (index : Int), index ≥ 0 →
      GetNativeAddress amx index = amx.native_address index) ∧
    (∀ (amx : AMX) (index : Int), index ≥ 0 →
      GetPublicAddress amx index = amx.public_address index) ∧
    (∀ (amx : AMX) (index : Int), index < 0 →
      GetNativeAddress amx index = 0 ∧ GetNativeName amx index = "") ∧
    (∀ (amx : AMX) (index : Int), index ≥ amx.num_natives → GetNativeName amx index = "") ∧
    (∀ (amx : AMX) (index : Int), index ≠ AMX_EXEC_MAIN → index < 0 →
      GetPublicAddress amx index = 0 ∧ GetPublicName amx index = "") ∧
    (∀ (amx : AMX) (index : Int), index ≠ AMX_EXEC_MAIN → index ≥ amx.num_publics →
      GetPublicName amx index = "") := by
  refine ⟨⟨by decide, by decide, by decide, by decide, by decide, by decide, by decide⟩,
    ?_, ?_, ?_, ?_, ?_, ?_⟩
  · intro amx index h
    simp [GetNativeAddress, h]
  · intro amx index h
    have hm : index ≠ AMX_EXEC_MAIN := by
      intro he; rw [he] at h; exact absurd h (by decide)
    simp [GetPublicAddress, h, hm]
  · intro amx index h
    have h1 : ¬ index ≥ 0 := not_le.2 h
    exact ⟨by simp [GetNativeAddress, h1], by simp [GetNativeName, h]⟩
  · intro amx index h
    have h1 : ¬ index < amx.num_natives := not_lt.2 h
    simp [GetNativeName, h1]
  · intro amx index hm h
    have h1 : ¬ index ≥ 0 := not_le.2 h
    exact ⟨by simp [GetPublicAddress, hm, h1], by simp [GetPublicName, hm, h]⟩
  · intro amx index hm h
    have h1 : ¬ index < amx.num_publics := not_lt.2 h
    simp [GetPublicName, hm, h1]

/-- C22 (as stated, refuted): constructing a profiler for a VM whose `sysreq_d` is 1 leaves
the VM with `sysreq_d` 0: the constructor itself, not a host function, changes a field of the
AMX instance. -/
theorem C22_constructor_writes_sysreq_d :
    Scenario.amxSysreq.sysreq_d = 1 ∧
    (Profiler.create Scenario.amxSysreq).2.sysreq_d = 0 ∧
    (Profiler.create Scenario.amxSysreq).2.sysreq_d ≠ Scenario.amxSysreq.sysreq_d := by
  decide

/-- C22 (amended): from every state `w` of the profiler and the VM its `amx_` points to,
with every argument.  The constructor sets `sysreq_d` to 0 and leaves every other field of the
AMX instance as it is.  The six resolvers of amx_utils.cpp, the lookup-or-create step of the
hooks, `BeginFunction`, `EndFunction` and every sequence of them return with the VM they were
given.  `DebugHook` leaves the VM as `debug` leaves the VM it was given when the hook reaches
its return and `debug` is not null, and as it was otherwise; `CallbackHook` and `ExecHook`
call the host function at most once, on the VM the hook was given, and leave the VM as that
call leaves it, and as it was when they do not get to the call; with a host function that
leaves the VM as it is, the VM after each hook is the VM before it.  On the profiler all these
act as the operations of the same name that take the VM as an argument (`ExecHook` when the
frame `amx_->stk - 3 * sizeof(cell)` needs no wrapping). -/
theorem C22_only_the_constructor_writes_the_VM (w : World) :
    ((Profiler.create w.amx).1 = Profiler.new ∧
      (Profiler.create w.amx).2 = { w.amx with sysreq_d := 0 } ∧
      (Profiler.create w.amx).2.frm = w.amx.frm ∧ (Profiler.create w.amx).2.stk = w.amx.stk ∧
      (Profiler.create w.amx).2.stp = w.amx.stp ∧
      (Profiler.create w.amx).2.code_start = w.amx.code_start ∧
      (Profiler.create w.amx).2.data_cell = w.amx.data_cell ∧
      (Profiler.create w.amx).2.mem_cell = w.amx.mem_cell ∧
      (Profiler.create w.amx).2.cip = w.amx.cip ∧
      (Profiler.create w.amx).2.native_address = w.amx.native_address ∧
      (Profiler.create w.amx).2.public_address = w.amx.public_address ∧
      (Profiler.create w.amx).2.num_natives = w.amx.num_natives ∧
      (Profiler.create w.amx).2.num_publics = w.amx.num_publics ∧
      (Profiler.create w.amx).2.native_name = w.amx.native_name ∧
      (Profiler.create w.amx).2.public_name = w.amx.public_name) ∧
    (∀ (index : Int) (frame : Address),
      ((World.GetNativeAddress w.amx index).2 = w.amx ∧
        (World.GetNativeAddress w.amx index).1 = GetNativeAddress w.amx index) ∧
      ((World.GetPublicAddress w.amx index).2 = w.amx ∧
        (World.GetPublicAddress w.amx index).1 = GetPublicAddress w.amx index) ∧
      ((World.GetNativeName w.amx index).2 = w.amx ∧
        (World.GetNativeName w.amx index).1 = GetNativeName w.amx index) ∧
      ((World.GetPublicName w.amx index).2 = w.amx ∧
        (World.GetPublicName w.amx index).1 = GetPublicName w.amx index) ∧
      ((World.GetRetrunAddress w.amx frame).2 = w.amx ∧
        (World.GetRetrunAddress w.amx frame).1 = GetRetrunAddress w.amx frame) ∧
      ((World.GetCalleeAddress w.amx frame).2 = w.amx ∧
        (World.GetCalleeAddress w.amx frame).1 = GetCalleeAddress w.amx frame)) ∧
    (∀ fn : Function,
      (World.Register w fn).world.amx = w.amx ∧
      (World.Register w fn).result = Profiler.Register w.profiler fn) ∧
    (∀ (address frm : Address) (now : TimePoint),
      (World.BeginFunction w address frm now).world.amx = w.amx ∧
      (World.BeginFunction w address frm now).result =
        Profiler.BeginFunction w.profiler address frm now) ∧
    (∀ (address : Address) (clock : Nat → TimePoint),
      (World.EndFunction w address clock).world.amx = w.amx ∧
      (World.EndFunction w address clock).result =
        Profiler.EndFunction w.profiler address clock) ∧
    (∀ events : List Event,
      (World.run w events).world.amx = w.amx ∧
      (World.run w events).result = Profiler.run w.profiler events) ∧
    (∀ (clock : Nat → TimePoint) (debug : Option (AMX → Int × AMX)),
      (World.DebugHook w clock debug).world.amx =
        (if (World.DebugHook w clock debug).fault.isSome then w.amx
         else match debug with
           | some d => (d w.amx).2
           | none => w.amx) ∧
      (World.DebugHook w clock debug).result =
        Profiler.DebugHook w.profiler w.amx clock (debug.map (fun d vm => (d vm).1))) ∧
    (∀ (clock : Nat → TimePoint) (d : AMX → Int),
      (World.DebugHook w clock none).world.amx = w.amx ∧
      (World.DebugHook w clock (some (fun vm => (d vm, vm)))).world.amx = w.amx) ∧
    (∀ (index result params : Int) (callback : AMX → Int → Int → Int → HostRun)
      (now : TimePoint) (clock : Nat → TimePoint),
      (World.CallbackHook w index result params callback now clock).world.amx =
        (if (World.CallbackHook w index result params callback now clock).dispatched.isEmpty
         then w.amx else (callback w.amx index result params).amx) ∧
      ((World.CallbackHook w index result params callback now clock).dispatched = [] ∨
        (World.CallbackHook w index result params callback now clock).dispatched =
          [⟨w.amx, index, result, params⟩]) ∧
      (World.CallbackHook w index result params callback now clock).result =
        Profiler.CallbackHook w.profiler w.amx index result params
          (fun vm i r p => (callback vm i r p).dispatch) now clock) ∧
    (∀ (index result params : Int) (d : AMX → Int → Int → Int → Dispatch)
      (now : TimePoint) (clock : Nat → TimePoint),
      (World.CallbackHook w index result params
        (fun vm i r p => { events := (d vm i r p).events, ret := (d vm i r p).ret, amx := vm })
        now clock).world.amx = w.amx) ∧
    (∀ (retval index : Int) (exec : AMX → Int → Int → HostRun)
      (now : TimePoint) (clock : Nat → TimePoint),
      (World.ExecHook w retval index exec now clock).world.amx =
        (if (World.ExecHook w retval index exec now clock).dispatched.isEmpty
         then w.amx else (exec w.amx retval index).amx) ∧
      ((World.ExecHook w retval index exec now clock).dispatched = [] ∨
        (World.ExecHook w retval index exec now clock).dispatched =
          [⟨w.amx, retval, index, 0⟩]) ∧
      ((-2147483648 ≤ w.amx.stk - 3 * sizeof_cell ∧
          w.amx.stk - 3 * sizeof_cell < 2147483648) →
        (World.ExecHook w retval index exec now clock).result =
          Profiler.ExecHook w.profiler w.amx retval index
            (fun vm r i => (exec vm r i).dispatch) now clock)) ∧
    (∀ (retval index : Int) (d : AMX → Int → Int → Dispatch)
      (now : TimePoint) (clock : Nat → TimePoint),
      (World.ExecHook w retval index
        (fun vm r i => { events := (d vm r i).events, ret := (d vm r i).ret, amx := vm })
        now clock).world.amx = w.amx) := by
  refine ⟨⟨rfl, rfl, rfl, rfl, rfl, rfl, rfl, rfl, rfl, rfl, rfl, rfl, rfl, rfl, rfl⟩,
    ?_, ?_, ?_, ?_, ?_, ?_, ?_, ?_, ?_, ?_, ?_⟩
  · intro index frame
    exact ⟨World.GetNativeAddress_spec _ _, World.GetPublicAddress_spec _ _,
      World.GetNativeName_spec _ _, World.GetPublicName_spec _ _,
      World.GetRetrunAddress_spec _ _, World.GetCalleeAddress_spec _ _⟩
  · intro fn
    exact World.Register_spec w fn
  · intro address frm now
    exact World.BeginFunction_spec w address frm now
  · intro address clock
    exact World.EndFunction_spec w address clock
  · intro events
    exact World.run_spec events w
  · intro clock debug
    exact World.DebugHook_spec w clock debug
  · intro clock d
    refine ⟨?_, ?_⟩
    · rw [(World.DebugHook_spec w clock none).1]
      split <;> rfl
    · rw [(World.DebugHook_spec w clock (some (fun vm => (d vm, vm)))).1]
      split <;> rfl
  · intro index result params callback now clock
    have h := World.CallbackHook_spec w index result params callback now clock
    refine ⟨h.1, ?_, h.2⟩
    have hd : (World.CallbackHook w index result params callback now clock).dispatched =
        (Profiler.CallbackHook w.profiler w.amx index result params
          (fun vm i r p => (callback vm i r p).dispatch) now clock).dispatched :=
      congrArg Result.dispatched h.2
    rw [hd]
    by_cases hi : index ≥ 0
    · simp only [Profiler.CallbackHook, hi, if_true]
      exact Profiler.bracket_dispatched _ _ _ _ _ _ _ _
    · simp only [Profiler.CallbackHook, hi, if_false]
      exact Or.inr (Profiler.passThrough_transparent _ _ _).1
  · intro index result params d now clock
    rw [(World.CallbackHook_spec w index result params _ now clock).1]
    split <;> rfl
  · intro retval index exec now clock
    have h := World.ExecHook_spec w retval index exec now clock
    refine ⟨h.1, ?_, h.2⟩
    by_cases hi : index ≥ 0 ∨ index = AMX_EXEC_MAIN
    · have hb := World.bracket_spec w (GetPublicAddress w.amx index)
        (Function.Public w.amx index) (wrap32 (w.amx.stk - 3 * sizeof_cell)) retval index 0
        (fun vm => exec vm retval index) now clock
      have hd : (World.ExecHook w retval index exec now clock).dispatched =
          (Profiler.bracket w.profiler (GetPublicAddress w.amx index)
            (Function.Public w.amx index) (wrap32 (w.amx.stk - 3 * sizeof_cell))
            ⟨w.amx, retval, index, 0⟩ (exec w.amx retval index).dispatch now clock).dispatched := by
        rw [← hb.2]
        simp only [World.ExecHook, hi, if_true, (World.GetPublicAddress_spec w.amx index).1,
          (World.GetPublicAddress_spec w.amx index).2]
        rfl
      rw [hd]
      exact Profiler.bracket_dispatched _ _ _ _ _ _ _ _
    · simp only [World.ExecHook, hi, if_false]
      exact Or.inr (World.passThrough_spec w retval index 0 _).2.1
  · intro retval index d now clock
    rw [(World.ExecHook_spec w retval index _ now clock).1]
    split <;> rfl

/-- C22 (amended), at a new profiler on the VM with one public at address 20 and `stk` 200,
with an `exec` that leaves the VM with `frm` 5: the frame `200 - 12` needs no wrapping,
`ExecHook(0, 0, exec)` calls `exec` once on the VM it was given and the VM after the hook has
`frm` 5 and is otherwise the VM `exec` was given; `BeginFunction` and `EndFunction` for the
public leave `frm` at 100.  With `A` entered at frame 90 and the VM at frame 100, `DebugHook`
pops `A` and leaves the VM as `debug` leaves it, with `frm` 7, or untouched when `debug` is
null; `CallbackHook` for the native 0 leaves the VM as `callback` leaves it. -/
theorem C22_only_the_constructor_writes_the_VM_witness :
    (-2147483648 ≤ Scenario.world.amx.stk - 3 * sizeof_cell ∧
      Scenario.world.amx.stk - 3 * sizeof_cell < 2147483648) ∧
    (World.ExecHook Scenario.world 0 0 Scenario.execMovesFrame 1 Scenario.clock).result =
      Profiler.ExecHook Scenario.world.profiler Scenario.world.amx 0 0
        (fun vm r i => (Scenario.execMovesFrame vm r i).dispatch) 1 Scenario.clock ∧
    (World.ExecHook Scenario.world 0 0 Scenario.execMovesFrame 1 Scenario.clock).fault = none ∧
    (World.ExecHook Scenario.world 0 0 Scenario.execMovesFrame 1 Scenario.clock).ret = some 7 ∧
    (World.ExecHook Scenario.world 0 0 Scenario.execMovesFrame 1
      Scenario.clock).popped.map (fun c => c.fn.address) = [20] ∧
    (World.ExecHook Scenario.world 0 0 Scenario.execMovesFrame 1
      Scenario.clock).dispatched.length = 1 ∧
    Scenario.world.amx.frm = 100 ∧
    (World.ExecHook Scenario.world 0 0 Scenario.execMovesFrame 1 Scenario.clock).world.amx.frm
      = 5 ∧
    (World.ExecHook Scenario.world 0 0 Scenario.execMovesFrame 1 Scenario.clock).world.amx.stk
      = 200 ∧
    (World.run Scenario.world [Event.register (Function.Public Scenario.amxOneEntry 0),
      Event.begin 20 188 1, Event.end_ 20 Scenario.clock]).world.amx.frm = 100 ∧
    (World.DebugHook (World.run Scenario.world [Event.register Scenario.A,
      Event.begin 10 90 1]).world Scenario.clock
      (some (fun vm => (3, { vm with frm := 7 })))).popped.map (fun c => c.fn.address) = [10] ∧
    (World.DebugHook (World.run Scenario.world [Event.register Scenario.A,
      Event.begin 10 90 1]).world Scenario.clock
      (some (fun vm => (3, { vm with frm := 7 })))).ret = some 3 ∧
    (World.DebugHook (World.run Scenario.world [Event.register Scenario.A,
      Event.begin 10 90 1]).world Scenario.clock
      (some (fun vm => (3, { vm with frm := 7 })))).world.amx.frm = 7 ∧
    (World.DebugHook (World.run Scenario.world [Event.register Scenario.A,
      Event.begin 10 90 1]).world Scenario.clock none).world.amx.frm = 100 ∧
    (World.CallbackHook Scenario.world 0 11 12
      (fun vm _ _ _ => { events := [], ret := 7, amx := { vm with frm := 5 } }) 1
      Scenario.clock).world.amx.frm = 5 ∧
    (World.CallbackHook Scenario.world 0 11 12
      (fun vm _ _ _ => { events := [], ret := 7, amx := vm }) 1
      Scenario.clock).world.amx.frm = 100 :=
  ⟨⟨by decide, by decide⟩,
    ((C22_only_the_constructor_writes_the_VM Scenario.world).2.2.2.2.2.2.2.2.2.2.1
      0 0 Scenario.execMovesFrame 1 Scenario.clock).2.2 ⟨by decide, by decide⟩,
    by decide, by decide, by decide, by decide, by decide, by decide, by decide, by decide,
    by decide, by decide, by decide, by decide, by decide, by decide⟩

/-- C23: in every state `p` reached from a new profiler (call graph enabled or not) by any
sequence of `DebugHook`, `CallbackHook` and `ExecHook` events, the registry holds no two
functions with the same address and lists exactly the functions of the statistics table that
the lookup consults.  One more hook event keeps every registered function where it is, and a
function it adds has an address for which the lookup in `p` finds nothing; so through every
later sequence of hook events the lookup of the address of a function registered in `p` finds
that same function, with the kind it has in `p`.  The kind is the one of the hook that
observes an unregistered nonzero address first: NATIVE for `CallbackHook`, PUBLIC for
`ExecHook`, NORMAL for the push branch of `DebugHook`. -/
theorem C23_registry_holds_one_function_per_address (enabled : Bool) (hs : List HookEvent) :
    let p := (Profiler.hooks (Profiler.set_call_graph_enabled Profiler.new enabled) hs).state
    (p.functions.map (fun f => f.address)).Nodup ∧
    p.stats.map (fun s => s.function) = p.functions ∧
    (∀ h : HookEvent,
      p.functions <+: (Profiler.hook p h).state.functions ∧
      (∀ fn ∈ (Profiler.hook p h).state.functions, fn ∉ p.functions →
        Statistics.GetFunction p.stats fn.address = none)) ∧
    (∀ (hs2 : List HookEvent), ∀ fn ∈ p.functions,
      Statistics.GetFunction (Profiler.hooks p hs2).state.stats fn.address = some fn) ∧
    (∀ (amx : AMX) (index result params : Int) (callback : AMX → Int → Int → Int → Dispatch)
      (now : TimePoint) (clock : Nat → TimePoint),
      index ≥ 0 → GetNativeAddress amx index ≠ 0 →
      Statistics.GetFunction p.stats (GetNativeAddress amx index) = none →
      Statistics.GetFunction (Profiler.CallbackHook p amx index result params callback now
        clock).state.stats (GetNativeAddress amx index) =
        some ⟨GetNativeAddress amx index, FunctionType.NATIVE⟩) ∧
    (∀ (amx : AMX) (retval index : Int) (exec : AMX → Int → Int → Dispatch)
      (now : TimePoint) (clock : Nat → TimePoint),
      (index ≥ 0 ∨ index = AMX_EXEC_MAIN) → GetPublicAddress amx index ≠ 0 →
      Statistics.GetFunction p.stats (GetPublicAddress amx index) = none →
      Statistics.GetFunction (Profiler.ExecHook p amx retval index exec now
        clock).state.stats (GetPublicAddress amx index) =
        some ⟨GetPublicAddress amx index, FunctionType.PUBLIC⟩) ∧
    (∀ (amx : AMX) (clock : Nat → TimePoint) (debug : Option (AMX → Int))
      (top : FunctionCall) (rest : CallStack),
      p.call_stack = top :: rest → amx.frm < top.frame → GetCalleeAddress amx amx.frm ≠ 0 →
      Statistics.GetFunction p.stats (GetCalleeAddress amx amx.frm) = none →
      Statistics.GetFunction (Profiler.DebugHook p amx clock debug).state.stats
        (GetCalleeAddress amx amx.frm) =
        some ⟨GetCalleeAddress amx amx.frm, FunctionType.NORMAL⟩) := by
  intro p
  have hreg : Profiler.Registry p :=
    (Profiler.RegistryGrows_hooks hs _).2 (Profiler.Registry_new enabled)
  refine ⟨hreg.2, hreg.1, ?_, ?_, ?_, ?_, ?_⟩
  · intro h
    have hg := Profiler.RegistryGrows_hook p h
    refine ⟨hg.1, ?_⟩
    intro fn hfn hnot
    apply Profiler.Registry_find_none p fn.address hreg
    intro hmem
    obtain ⟨g, hgm, hga⟩ := List.mem_map.1 hmem
    have hq := (hg.2 hreg).2
    have hgq : g ∈ (Profiler.hook p h).state.functions := hg.1.subset hgm
    have heq : g = fn := by
      have hinj := List.inj_on_of_nodup_map hq
      exact hinj hgq hfn hga
    rw [heq] at hgm
    exact hnot hgm
  · intro hs2 fn hfn
    have hg := Profiler.RegistryGrows_hooks hs2 p
    exact Profiler.Registry_find _ fn (hg.2 hreg) (hg.1.subset hfn)
  · intro amx index result params callback now clock hi ha hnone
    have hb := (Profiler.RegistryGrows_bracket p (GetNativeAddress amx index)
      (Function.Native amx index) amx.frm ⟨amx, index, result, params⟩
      (callback amx index result params) now clock).2 ha
    have := Profiler.Registry_first p _ (Function.Native amx index) hreg hnone hb
    simpa only [Profiler.CallbackHook, hi, if_true] using this
  · intro amx retval index exec now clock hi ha hnone
    have hb := (Profiler.RegistryGrows_bracket p (GetPublicAddress amx index)
      (Function.Public amx index) (amx.stk - 3 * sizeof_cell) ⟨amx, retval, index, 0⟩
      (exec amx retval index) now clock).2 ha
    have := Profiler.Registry_first p _ (Function.Public amx index) hreg hnone hb
    simpa only [Profiler.ExecHook, hi, if_true] using this
  · intro amx clock debug top rest hstack hlt ha hnone
    have hb := (Profiler.RegistryGrows_DebugHook p amx clock debug).2 top rest hstack hlt ha
    exact Profiler.Registry_first p _ (Function.Normal (GetCalleeAddress amx amx.frm)) hreg
      hnone hb

/-- C23, at the run in which the public of index 0 (address 20) is executed, `A` runs under
it, and the native of index 0, which resolves to the same address 20, is called afterwards: the
function at address 20 is registered once and stays PUBLIC. -/
theorem C23_registry_holds_one_function_per_address_witness :
    (Profiler.hooks (Profiler.set_call_graph_enabled Profiler.new false)
      Scenario.hookEvents).state.functions =
      [⟨20, FunctionType.PUBLIC⟩, ⟨10, FunctionType.NORMAL⟩] ∧
    (Profiler.hooks (Profiler.set_call_graph_enabled Profiler.new false)
      Scenario.hookEvents).fault = none ∧
    ((Profiler.hooks (Profiler.set_call_graph_enabled Profiler.new false)
      Scenario.hookEvents).state.functions.map (fun f => f.address)).Nodup :=
  ⟨by decide, by decide,
    (C23_registry_holds_one_function_per_address false Scenario.hookEvents).1⟩

/-- C24: in every state reached from a new profiler (call graph enabled or not) whose call
stack is not empty, with `top` the activation on top, `EndFunction()` pops exactly `top`, and
the record of `top`'s function has afterwards its cumulative self-time increased by the
`self_time()` and its cumulative total-time increased by the `total_time()` of the popped
(stopped) counter, with its function and call count unchanged; the record of every other
address is unchanged in every field, and no record is added or removed.  `EndFunction()`
returns, except that with the call graph enabled and its root at the sentinel the assertion of
line 174 fails after the record has been updated. -/
theorem C24_EndFunction_records_in_the_popped_record (enabled : Bool) (events : List Event)
    (clock : Nat → TimePoint) (top : FunctionCall) (rest : CallStack)
    (hstack : (Profiler.run (Profiler.set_call_graph_enabled Profiler.new enabled)
      events).state.call_stack = top :: rest) :
    let p := (Profiler.run (Profiler.set_call_graph_enabled Profiler.new enabled) events).state
    let r := Profiler.EndFunction p 0 clock
    let stopped := top.timer.stopped (clock 0)
    r.popped = [{ top with timer := stopped }] ∧
    (∃ s s1, Statistics.GetFunctionStatistis p.stats top.fn.address = some s ∧
      Statistics.GetFunctionStatistis r.state.stats top.fn.address = some s1 ∧
      s1.self_time = s.self_time + stopped.self_time ∧
      s1.total_time = s.total_time + stopped.total_time ∧
      s1.num_calls = s.num_calls ∧ s1.function = s.function) ∧
    (∀ b, b ≠ top.fn.address →
      Statistics.GetFunctionStatistis r.state.stats b =
        Statistics.GetFunctionStatistis p.stats b) ∧
    r.state.stats.map (fun x => x.function) = p.stats.map (fun x => x.function) ∧
    (r.fault = none ∨
      (r.fault = some Fault.assertion_failed ∧ p.call_graph_enabled = true ∧
        p.call_graph.root = some p.call_graph.sentinel)) := by
  intro p r stopped
  have hinv : Profiler.Inv p := Profiler.Inv_run events _ (Profiler.Inv_new enabled)
  have hstack1 : p.call_stack = top :: rest := hstack
  obtain ⟨h1, -, h3, -, h5⟩ := Profiler.EndFunction_zero p clock top rest hinv hstack1
  obtain ⟨s, hs⟩ := Option.isSome_iff_exists.1
    (hinv.2.1 top (by rw [hstack1]; exact List.mem_cons_self _ _))
  have hfind : ∀ b, Statistics.GetFunctionStatistis r.state.stats b =
      if b = top.fn.address then
        (Statistics.GetFunctionStatistis p.stats top.fn.address).map
          (Profiler.EndFunction.record stopped)
      else Statistics.GetFunctionStatistis p.stats b := by
    intro b
    show Statistics.GetFunctionStatistis (Profiler.EndFunction p 0 clock).state.stats b = _
    rw [h3]
    exact Statistics.find_update _ _ _ _ (Profiler.EndFunction.record_function _)
  refine ⟨h1, ⟨s, Profiler.EndFunction.record stopped s, hs, ?_, ?_, ?_,
    Profiler.EndFunction.record_num_calls _ _, Profiler.EndFunction.record_function _ _⟩,
    ?_, ?_, h5⟩
  · rw [hfind, if_pos rfl, hs]; rfl
  · simp only [Profiler.EndFunction.record, FunctionStatistics.set_worst_self_time,
      FunctionStatistics.set_worst_total_time, FunctionStatistics.AdjustTotalTime,
      FunctionStatistics.AdjustSelfTime]
    split <;> split <;> rfl
  · simp only [Profiler.EndFunction.record, FunctionStatistics.set_worst_self_time,
      FunctionStatistics.set_worst_total_time, FunctionStatistics.AdjustTotalTime,
      FunctionStatistics.AdjustSelfTime]
    split <;> split <;> rfl
  · intro b hb
    rw [hfind, if_neg hb]
  · show (Profiler.EndFunction p 0 clock).state.stats.map (fun x => x.function) = _
    rw [h3]
    exact Statistics.update_map_function _ _ _ (Profiler.EndFunction.record_function _)

/-- C24, at the state with one activation of `A` entered at time 1 and popped at time 50. -/
theorem C24_EndFunction_records_in_the_popped_record_witness :
    (Profiler.run (Profiler.set_call_graph_enabled Profiler.new false)
      Scenario.entered).state.call_stack = [CallStack.pushed 1 [] Scenario.A 90] ∧
    (Profiler.EndFunction (Profiler.run (Profiler.set_call_graph_enabled Profiler.new false)
      Scenario.entered).state 0 Scenario.clock).popped =
      [{ CallStack.pushed 1 [] Scenario.A 90 with
          timer := (CallStack.pushed 1 [] Scenario.A 90).timer.stopped (Scenario.clock 0) }] :=
  ⟨by decide, (C24_EndFunction_records_in_the_popped_record false Scenario.entered
    Scenario.clock (CallStack.pushed 1 [] Scenario.A 90) [] (by decide)).1⟩

/-- C25: in every state reached from a new profiler (call graph enabled or not) by any sequence
of register/BeginFunction/EndFunction events, also when the sequence stops at a fault, the
call count of every registered address `a` equals the number of activations of `a` popped so
far plus the number of activations of `a` live on the call stack; so with an empty stack the
call count is the number of popped (completed) activations.  In particular, when `a` is
nonzero and has no live activation, `BeginFunction(a)`, `BeginFunction(a)`, `EndFunction()`,
`EndFunction()` raise its call count by 2. -/
theorem C25_call_count_is_popped_plus_live (enabled : Bool) (events : List Event)
    (a : Address) (s : FunctionStatistics)
    (hs : Statistics.GetFunctionStatistis (Profiler.run
      (Profiler.set_call_graph_enabled Profiler.new enabled) events).state.stats a = some s) :
    let r := Profiler.run (Profiler.set_call_graph_enabled Profiler.new enabled) events
    s.num_calls = CallStack.activations r.popped a +
      CallStack.activations r.state.call_stack a ∧
    (r.state.call_stack = [] → s.num_calls = CallStack.activations r.popped a) ∧
    (∀ (f1 f2 : Address) (t1 t2 : TimePoint) (clock3 clock4 : Nat → TimePoint),
      a ≠ 0 → (∀ c ∈ r.state.call_stack, c.fn ≠ s.function) →
      Statistics.numCalls (Profiler.EndFunction (Profiler.EndFunction (Profiler.BeginFunction
        (Profiler.BeginFunction r.state a f1 t1).state a f2 t2).state 0 clock3).state 0
        clock4).state.stats a = some (s.num_calls + 2)) := by
  intro r
  have hbal := Profiler.run_balance events a
    (Profiler.set_call_graph_enabled Profiler.new enabled) (Profiler.Inv_new enabled)
  have hcount : Statistics.callCount r.state.stats a = s.num_calls := by
    simp only [Statistics.callCount, Statistics.numCalls]
    rw [show Statistics.GetFunctionStatistis r.state.stats a = some s from hs]
    rfl
  have h0 : Statistics.callCount (Profiler.set_call_graph_enabled Profiler.new enabled).stats a
      = 0 := rfl
  have h1 : CallStack.activations
      (Profiler.set_call_graph_enabled Profiler.new enabled).call_stack a = 0 := rfl
  have hmain : s.num_calls = CallStack.activations r.popped a +
      CallStack.activations r.state.call_stack a := by
    have hb : Statistics.callCount r.state.stats a +
        CallStack.activations (Profiler.set_call_graph_enabled Profiler.new enabled).call_stack a
        = Statistics.callCount (Profiler.set_call_graph_enabled Profiler.new enabled).stats a +
          CallStack.activations r.popped a + CallStack.activations r.state.call_stack a := hbal
    rw [hcount, h0, h1] at hb
    omega
  refine ⟨hmain, ?_, ?_⟩
  · intro hempty
    rw [hmain, hempty]
    simp [CallStack.activations]
  · intro f1 f2 t1 t2 clock3 clock4 ha hlive
    have hself := Profiler.self_call r.state a f1 f2 t1 t2 clock3 clock4 s
      (Profiler.Inv2_run events _ (Profiler.Inv2_new enabled)) ha hs hlive
    exact hself.2.2.2.2.2.2.2.2

/-- C25, at the state with `A` entered once and not yet left: call count 1, no activation
popped, one live. -/
theorem C25_call_count_is_popped_plus_live_witness :
    Statistics.GetFunctionStatistis (Profiler.run
      (Profiler.set_call_graph_enabled Profiler.new false) Scenario.entered).state.stats 10 =
      some { function := Scenario.A, num_calls := 1 } ∧
    (1 : Int) = CallStack.activations (Profiler.run
      (Profiler.set_call_graph_enabled Profiler.new false) Scenario.entered).popped 10 +
      CallStack.activations (Profiler.run
        (Profiler.set_call_graph_enabled Profiler.new false) Scenario.entered).state.call_stack
        10 :=
  ⟨by decide, (C25_call_count_is_popped_plus_live false Scenario.entered 10
    { function := Scenario.A, num_calls := 1 } (by decide)).1⟩

/-- C26 (evaluation at the failing input): with the call graph enabled, `A` (address 10)
entered and recursed to depth three and `B` (address 20) registered but not live,
`EndFunction(20)` pops and records two activations only and stops at the failed assertion
`root != sentinel`: the third activation of `A` is never popped and the empty stack is never
popped.  In every state reached from a new profiler whose call stack is not empty, for every
registered address `a != 0` that no live activation's function has, `EndFunction(a)` does not
return, every activation it pops is recorded, and the activations popped and the ones left are
together the stack it started from; it stops at the pop of the empty stack with every
activation popped, as the claim says, or at the failed assertion, which happens with the call
graph enabled only. -/
theorem C26_unwind_without_target_stops_at_the_assertion :
    (Profiler.stackAddresses (Profiler.run Scenario.graphProfiler
        Scenario.deepRecursion).state = [10, 10, 10] ∧
      (Statistics.GetFunctionStatistis (Profiler.run Scenario.graphProfiler
        Scenario.deepRecursion).state.stats 20).isSome = true ∧
      (Profiler.EndFunction (Profiler.run Scenario.graphProfiler Scenario.deepRecursion).state
        20 Scenario.clock).fault = some Fault.assertion_failed ∧
      (Profiler.EndFunction (Profiler.run Scenario.graphProfiler Scenario.deepRecursion).state
        20 Scenario.clock).popped.map (fun c => c.fn.address) = [10, 10] ∧
      Profiler.stackAddresses (Profiler.EndFunction (Profiler.run Scenario.graphProfiler
        Scenario.deepRecursion).state 20 Scenario.clock).state = [10] ∧
      (Profiler.EndFunction (Profiler.run Profiler.new Scenario.deepRecursion).state
        20 Scenario.clock).fault = some Fault.undefined_behaviour ∧
      (Profiler.EndFunction (Profiler.run Profiler.new Scenario.deepRecursion).state
        20 Scenario.clock).popped.map (fun c => c.fn.address) = [10, 10, 10]) ∧
    (∀ (enabled : Bool) (events : List Event) (a : Address) (clock : Nat → TimePoint),
      a ≠ 0 →
      (Profiler.run (Profiler.set_call_graph_enabled Profiler.new enabled)
        events).state.call_stack ≠ [] →
      (Statistics.GetFunctionStatistis (Profiler.run
        (Profiler.set_call_graph_enabled Profiler.new enabled) events).state.stats a).isSome
        = true →
      (∀ c ∈ (Profiler.run (Profiler.set_call_graph_enabled Profiler.new enabled)
        events).state.call_stack, c.fn.address ≠ a) →
      (Profiler.EndFunction (Profiler.run (Profiler.set_call_graph_enabled Profiler.new enabled)
        events).state a clock).fault ≠ none ∧
      (Profiler.EndFunction (Profiler.run (Profiler.set_call_graph_enabled Profiler.new enabled)
          events).state a clock).popped.map FunctionCall.ident ++
        (Profiler.EndFunction (Profiler.run (Profiler.set_call_graph_enabled Profiler.new
          enabled) events).state a clock).state.call_stack.map FunctionCall.ident =
        (Profiler.run (Profiler.set_call_graph_enabled Profiler.new enabled)
          events).state.call_stack.map FunctionCall.ident ∧
      (Profiler.EndFunction (Profiler.run (Profiler.set_call_graph_enabled Profiler.new enabled)
        events).state a clock).state.stats =
        Statistics.recordAll (Profiler.run (Profiler.set_call_graph_enabled Profiler.new
          enabled) events).state.stats
          (Profiler.EndFunction (Profiler.run (Profiler.set_call_graph_enabled Profiler.new
            enabled) events).state a clock).popped ∧
      (((Profiler.EndFunction (Profiler.run (Profiler.set_call_graph_enabled Profiler.new
            enabled) events).state a clock).fault = some Fault.undefined_behaviour ∧
          (Profiler.EndFunction (Profiler.run (Profiler.set_call_graph_enabled Profiler.new
            enabled) events).state a clock).state.call_stack = []) ∨
        ((Profiler.EndFunction (Profiler.run (Profiler.set_call_graph_enabled Profiler.new
            enabled) events).state a clock).fault = some Fault.assertion_failed ∧
          enabled = true))) := by
  refine ⟨⟨by decide, by decide, by decide, by decide, by decide, by decide, by decide⟩, ?_⟩
  intro enabled events a clock ha hne hreg hlive
  have hinv : Profiler.Inv (Profiler.run (Profiler.set_call_graph_enabled Profiler.new enabled)
      events).state := Profiler.Inv_run events _ (Profiler.Inv_new enabled)
  have hen : (Profiler.run (Profiler.set_call_graph_enabled Profiler.new enabled)
      events).state.call_graph_enabled = enabled := Profiler.run_enabled events _
  obtain ⟨hid, hstats, hfault⟩ := Profiler.EndFunction_exhaust _ a clock hinv ha hne hreg hlive
  refine ⟨?_, hid, hstats, ?_⟩
  · rcases hfault with ⟨h, -⟩ | ⟨h, -⟩ <;> rw [h] <;> exact Option.some_ne_none _
  · rcases hfault with ⟨h1, h2⟩ | ⟨h1, h2, -⟩
    · exact Or.inl ⟨h1, h2⟩
    · exact Or.inr ⟨h1, by rw [← hen]; exact h2⟩

/-- C27: for every graph built from a new graph by `AddCallee` calls and root changes and every
statistics record `stats`, `AddCallee(stats)` returns, and: no node allocated before the call
changes its `caller()`; when `stats` was never added, the node returned is new and its
`caller()` is the root at the moment of the call; when `stats` was added before, nothing is
allocated, table and root stay as they are, and the only node touched is the root's node,
which gets the existing node inserted into its callee set and keeps its own `caller()`.
Through every later sequence of calls no allocated node changes its `caller()`, so whenever the
node returned is the root, the exit step of `EndFunction` (`set_root(root->caller())`) moves
the root to the caller the node got when it was created, whatever the root was at the latest
`AddCallee` for it. -/
theorem C27_caller_is_the_root_at_creation (ops : List GraphOp) (g : CallGraph)
    (hrun : CallGraph.run CallGraph.new ops = .ok g) (stats : Address) :
    ∃ g1 node, CallGraph.AddCallee g stats = .ok (g1, node) ∧
      (∀ m, m < g.arena.length → CallGraph.caller g1 m = CallGraph.caller g m) ∧
      (stats ∉ GraphOp.added ops →
        node = g.arena.length ∧ CallGraph.caller g1 node = some g.root) ∧
      (stats ∈ GraphOp.added ops →
        node < g.arena.length ∧ g1.nodes = g.nodes ∧ g1.arena.length = g.arena.length ∧
        g1.root = g.root ∧
        ∃ r x, g.root = some r ∧ g.arena[r]? = some x ∧
          g1.arena[r]? = some (CallGraphNode.AddCallee node x) ∧
          node ∈ (CallGraphNode.AddCallee node x).callees ∧
          (CallGraphNode.AddCallee node x).caller = x.caller ∧
          ∀ m, m ≠ r → g1.arena[m]? = g.arena[m]?) ∧
      (∀ (ops2 : List GraphOp) (g2 : CallGraph), CallGraph.run g1 ops2 = .ok g2 →
        (∀ m, m < g1.arena.length → CallGraph.caller g2 m = CallGraph.caller g1 m) ∧
        (g2.root = some node →
          ∃ c, CallGraph.caller g1 node = some c ∧
            Profiler.EndFunction.graph g2 = .ok (CallGraph.set_root g2 c))) := by
  obtain ⟨hinv, hkeys⟩ := CallGraph.GraphInv_run ops _ g CallGraph.GraphInv_new hrun
  have hkeys1 : ∀ a, a ∈ g.nodes.map Prod.fst ↔ a ∈ GraphOp.added ops := by
    intro a
    rw [hkeys a]
    simp [CallGraph.new]
  obtain ⟨g1, node, hadd, hinv1, hroot, hnlt, hnpos, -⟩ := CallGraph.Inv_AddCallee g stats hinv
  obtain ⟨hold, -, hnew, hfound⟩ := CallGraph.AddCallee_callers g g1 stats node hinv hadd
  obtain ⟨r, hr, hrlt⟩ := hinv.1.2.2.1
  refine ⟨g1, node, hadd, hold, ?_, ?_, ?_⟩
  · intro hnmem
    cases hfind : CallGraph.find g.nodes stats with
    | some n =>
      have := CallGraph.find_eq_some _ _ _ hfind
      exact absurd ((hkeys1 stats).1 (List.mem_map.2 ⟨(stats, n), this, rfl⟩)) hnmem
    | none => exact hnew hfind
  · intro hmem
    cases hfind : CallGraph.find g.nodes stats with
    | none =>
      have := (CallGraph.find_eq_none _ _).1 hfind
      obtain ⟨kv, hkv, hkv2⟩ := List.mem_map.1 ((hkeys1 stats).2 hmem)
      exact absurd hkv2 (this kv hkv)
    | some n =>
      obtain ⟨h1, h2, h3, r1, hr1, hother, hself⟩ := hfound n hfind
      rw [hr] at hr1
      cases hr1
      obtain ⟨x, hx⟩ : ∃ x, g.arena[r]? = some x := by
        cases h : g.arena[r]? with
        | none => exact absurd (List.getElem?_eq_none_iff.1 h) (not_le.2 hrlt)
        | some x => exact ⟨x, rfl⟩
      have hcs : (CallGraphNode.AddCallee node x).callees.Nodup ∧
          node ∈ (CallGraphNode.AddCallee node x).callees ∧ _ :=
        CallGraphNode.AddCallee_callees node x (hinv.2.1.2.2.2.2.1 r x hx)
      refine ⟨by rw [← h3]; exact hnlt, h2, h3, hroot, r, x, hr, hx, ?_, hcs.2.1,
        CallGraphNode.AddCallee_caller _ _, hother⟩
      rw [hself, hx, h1]
      rfl
  · intro ops2 g2 hrun2
    obtain ⟨hle, hcall⟩ := CallGraph.run_callers ops2 g1 g2 hinv1 hrun2
    obtain ⟨hinv2, -⟩ := CallGraph.GraphInv_run ops2 g1 g2 hinv1 hrun2
    refine ⟨hcall, fun hroot2 => ?_⟩
    obtain ⟨x, hx⟩ : ∃ x, g1.arena[node]? = some x := by
      cases h : g1.arena[node]? with
      | none => exact absurd (List.getElem?_eq_none_iff.1 h) (not_le.2 hnlt)
      | some x => exact ⟨x, rfl⟩
    have hc1 : CallGraph.caller g1 node = some x.caller := by
      simp [CallGraph.caller, hx]
    have hc2 : CallGraph.caller g2 node = some x.caller := by
      rw [hcall node hnlt, hc1]
    refine ⟨x.caller, hc1, ?_⟩
    have hne : g2.root ≠ some g2.sentinel := by
      rw [hroot2, hinv2.1.1]
      intro h
      cases h
      exact absurd hnpos (lt_irrefl 0)
    rw [hroot2] at hne
    simp only [Profiler.EndFunction.graph, hroot2, if_neg hne, hc2]

/-- C27, at the graph in which the function at address 20 was entered from the top level and
called the function at address 10, which now calls 20: the node of 20 is returned with the
sentinel still as its caller, and leaving it moves the root to the sentinel, not to the node
of 10. -/
theorem C27_caller_is_the_root_at_creation_witness :
    CallGraph.run CallGraph.new Scenario.graphOps = .ok Scenario.graph ∧
    Scenario.graph.root = some 2 ∧
    ∃ g1, CallGraph.AddCallee Scenario.graph 20 = .ok (g1, 1) ∧
      CallGraph.caller g1 1 = some (some 0) ∧
      Profiler.EndFunction.graph (CallGraph.set_root g1 (some 1)) =
        .ok (CallGraph.set_root (CallGraph.set_root g1 (some 1)) (some 0)) := by
  refine ⟨rfl, rfl, ?_⟩
  obtain ⟨g1, node, hadd, hold, -, -, hlater⟩ :=
    C27_caller_is_the_root_at_creation Scenario.graphOps Scenario.graph rfl 20
  have hnode : node = 1 := by
    have h : (CallGraph.AddCallee Scenario.graph 20).toOption.map (fun r => r.2) = some 1 := by
      decide
    rw [hadd] at h
    simpa [Except.toOption] using h
  subst hnode
  have hc : CallGraph.caller g1 1 = some (some 0) := by
    rw [hold 1 (by decide)]
    decide
  refine ⟨g1, hadd, hc, ?_⟩
  have hlt : 1 < g1.arena.length := by
    have h : (CallGraph.AddCallee Scenario.graph 20).toOption.map
        (fun r => decide (1 < r.1.arena.length)) = some true := by decide
    rw [hadd] at h
    simpa [Except.toOption] using h
  obtain ⟨-, hexit⟩ := hlater [GraphOp.set_root 1] (CallGraph.set_root g1 (some 1))
    (by simp [CallGraph.run, CallGraph.step, hlt])
  obtain ⟨c, hc1, hend⟩ := hexit rfl
  rw [hc] at hc1
  cases hc1
  exact hend

/-- C28: for every VM and every frame, `GetRetrunAddress` returns 0 when the frame is negative,
below `amx->stk` or not below `amx->stp`, and otherwise the cell at offset
`frame + sizeof(cell)` of the data segment; `GetCalleeAddress` returns 0 when that return
address is 0, and otherwise the cell stored `sizeof(cell)` bytes before the return address in
the code segment, minus the start address of the code segment.  The address of that cell and
the difference are computed as the code computes them, on 32-bit cells: the result is a cell,
it differs from the difference of the integers by a multiple of `2^32`, and it is that
difference whenever the address and the difference fit in a cell. -/
theorem C28_return_and_callee_address (amx : AMX) (frame : Address) :
    ((frame < 0 ∨ frame < amx.stk ∨ frame ≥ amx.stp) → GetRetrunAddress amx frame = 0) ∧
    (¬ (frame < 0 ∨ frame < amx.stk ∨ frame ≥ amx.stp) →
      GetRetrunAddress amx frame = amx.data_cell (frame + sizeof_cell)) ∧
    (GetRetrunAddress amx frame = 0 → GetCalleeAddress amx frame = 0) ∧
    (GetRetrunAddress amx frame ≠ 0 →
      GetCalleeAddress amx frame =
        wrap32 (amx.mem_cell (wrap32 (amx.code_start + GetRetrunAddress amx frame - sizeof_cell))
          - amx.code_start)) ∧
    (GetRetrunAddress amx frame ≠ 0 →
      (-2147483648 ≤ amx.code_start + GetRetrunAddress amx frame - sizeof_cell ∧
        amx.code_start + GetRetrunAddress amx frame - sizeof_cell < 2147483648) →
      (-2147483648 ≤
          amx.mem_cell (amx.code_start + GetRetrunAddress amx frame - sizeof_cell)
            - amx.code_start ∧
        amx.mem_cell (amx.code_start + GetRetrunAddress amx frame - sizeof_cell)
            - amx.code_start < 2147483648) →
      GetCalleeAddress amx frame =
        amx.mem_cell (amx.code_start + GetRetrunAddress amx frame - sizeof_cell)
          - amx.code_start) ∧
    (-2147483648 ≤ GetCalleeAddress amx frame ∧ GetCalleeAddress amx frame < 2147483648) ∧
    (GetRetrunAddress amx frame ≠ 0 →
      ∃ k : Int, GetCalleeAddress amx frame =
        amx.mem_cell (wrap32 (amx.code_start + GetRetrunAddress amx frame - sizeof_cell))
          - amx.code_start + k * 4294967296) ∧
    ((frame < 0 ∨ frame < amx.stk ∨ frame ≥ amx.stp) → GetCalleeAddress amx frame = 0) := by
  have h0 : (frame < 0 ∨ frame < amx.stk ∨ frame ≥ amx.stp) → GetRetrunAddress amx frame = 0 := by
    intro h
    have hn : ¬ (frame ≥ 0 ∧ frame ≥ amx.stk ∧ frame < amx.stp) := by
      rintro ⟨h1, h2, h3⟩
      rcases h with h | h | h
      · exact absurd h1 (not_le.2 h)
      · exact absurd h2 (not_le.2 h)
      · exact absurd h3 (not_lt.2 h)
    simp only [GetRetrunAddress, hn, if_false]
  have h1 : GetRetrunAddress amx frame = 0 → GetCalleeAddress amx frame = 0 := by
    intro h
    simp [GetCalleeAddress, h]
  have h2 : GetRetrunAddress amx frame ≠ 0 →
      GetCalleeAddress amx frame =
        wrap32 (amx.mem_cell (wrap32 (amx.code_start + GetRetrunAddress amx frame - sizeof_cell))
          - amx.code_start) := by
    intro h
    simp [GetCalleeAddress, h]
  refine ⟨h0, ?_, h1, h2, ?_, ?_, ?_, fun h => h1 (h0 h)⟩
  · intro h
    have hp : frame ≥ 0 ∧ frame ≥ amx.stk ∧ frame < amx.stp := by
      refine ⟨?_, ?_, ?_⟩
      · exact not_lt.1 (fun hh => h (Or.inl hh))
      · exact not_lt.1 (fun hh => h (Or.inr (Or.inl hh)))
      · exact not_le.1 (fun hh => h (Or.inr (Or.inr hh)))
    simp only [GetRetrunAddress, hp, and_self, if_true]
  · intro h ha hd
    rw [h2 h, wrap32_of_fits _ ha, wrap32_of_fits _ hd]
  · by_cases h : GetRetrunAddress amx frame = 0
    · rw [h1 h]
      exact ⟨by decide, by decide⟩
    · rw [h2 h]
      exact wrap32_range _
  · intro h
    rw [h2 h]
    exact wrap32_congr _

/-- C28, at the VM whose frame 80 lies in the stack and holds the return address 8 behind a
call of the function at address 20, and at the VM whose code straddles `2^31`, where frame 80
holds the return address 36 behind a call of the function at offset 32: there the cell before
the return address holds `-2147483632` and the code starts at `2147483632`, the difference of
the integers is `-4294967264`, and `GetCalleeAddress` returns the cell 32. -/
theorem C28_return_and_callee_address_witness :
    (¬ ((80 : Address) < 0 ∨ 80 < Scenario.amxBelow.stk ∨ 80 ≥ Scenario.amxBelow.stp) ∧
      GetRetrunAddress Scenario.amxBelow 80 ≠ 0) ∧
    GetRetrunAddress Scenario.amxBelow 80 = Scenario.amxBelow.data_cell (80 + sizeof_cell) ∧
    GetCalleeAddress Scenario.amxBelow 80 =
      Scenario.amxBelow.mem_cell
        (Scenario.amxBelow.code_start + GetRetrunAddress Scenario.amxBelow 80 - sizeof_cell)
        - Scenario.amxBelow.code_start ∧
    GetCalleeAddress Scenario.amxBelow 80 = 20 ∧
    GetRetrunAddress Scenario.amxStraddle 80 = 36 ∧
    GetCalleeAddress Scenario.amxStraddle 80 =
      wrap32 (Scenario.amxStraddle.mem_cell
        (wrap32 (Scenario.amxStraddle.code_start + GetRetrunAddress Scenario.amxStraddle 80
          - sizeof_cell)) - Scenario.amxStraddle.code_start) ∧
    wrap32 (Scenario.amxStraddle.code_start + 36 - sizeof_cell) = -2147483632 ∧
    Scenario.amxStraddle.mem_cell (-2147483632) - Scenario.amxStraddle.code_start
      = -4294967264 ∧
    GetCalleeAddress Scenario.amxStraddle 80 = 32 :=
  ⟨⟨by decide, by decide⟩,
    (C28_return_and_callee_address Scenario.amxBelow 80).2.1 (by decide),
    (C28_return_and_callee_address Scenario.amxBelow 80).2.2.2.2.1 (by decide)
      ⟨by decide, by decide⟩ ⟨by decide, by decide⟩,
    by decide, by decide,
    (C28_return_and_callee_address Scenario.amxStraddle 80).2.2.2.1 (by decide),
    by decide, by decide, by decide⟩

/-- C29 (evaluation at the failing inputs): with the default settings (`profile_gamemode`
false, `profile_filterscripts` empty) the path `filterscripts/.amx` contains `filterscripts/`
and not `gamemodes/`, the list holds no name at all, and `WantsProfiler` returns true: the
loop compares the path with the empty name left by the failed extraction.  The same happens
for the path `filterscripts/` when the list `foo bar ` ends with whitespace, while the list
`foo bar` makes it return false.  The rest of the claim holds for all settings and paths:
`WantsProfiler` always returns; for a path that contains `gamemodes/` once backslashes are
slashes it returns the `profile_gamemode` setting; for a path that contains neither
`gamemodes/` nor `filterscripts/` it returns false; for any other path that contains
`filterscripts/` it returns true exactly when the path matches one of the whitespace-separated
names of `profile_filterscripts`, or matches the empty name while the list is empty or ends
with whitespace. -/
theorem C29_WantsProfiler_matches_the_empty_name :
    (IsGameMode Scenario.dotAmx = false ∧ IsFilterScript Scenario.dotAmx = true ∧
      ({} : Cfg).profile_filterscripts = [] ∧
      WantsProfiler {} Scenario.dotAmx = some true) ∧
    (WantsProfiler { profile_filterscripts := "foo bar ".toList } "filterscripts/".toList =
        some true ∧
      WantsProfiler { profile_filterscripts := "foo bar".toList } "filterscripts/".toList =
        some false ∧
      WantsProfiler { profile_filterscripts := "foo bar".toList } "filterscripts/bar.amx".toList
        = some true ∧
      WantsProfiler { profile_filterscripts := "foo bar".toList } "filterscripts/baz.amx".toList
        = some false) ∧
    (∀ (cfg : Cfg) (amx_name : List Char), (WantsProfiler cfg amx_name).isSome = true) ∧
    (∀ (cfg : Cfg) (amx_name : List Char), "gamemodes/".toList <:+: ToUnixPath amx_name →
      WantsProfiler cfg amx_name = some cfg.profile_gamemode) ∧
    (∀ (cfg : Cfg) (amx_name : List Char), ¬ "gamemodes/".toList <:+: ToUnixPath amx_name →
      ¬ "filterscripts/".toList <:+: ToUnixPath amx_name →
      WantsProfiler cfg amx_name = some false) ∧
    (∀ (cfg : Cfg) (amx_name : List Char), ¬ "gamemodes/".toList <:+: ToUnixPath amx_name →
      "filterscripts/".toList <:+: ToUnixPath amx_name →
      (WantsProfiler cfg amx_name = some true ↔
        (∃ name, IsListedName name cfg.profile_filterscripts ∧
          (ToUnixPath amx_name = "filterscripts/".toList ++ name ++ ".amx".toList ∨
            ToUnixPath amx_name = "filterscripts/".toList ++ name)) ∨
        (EndsOpen cfg.profile_filterscripts ∧
          (ToUnixPath amx_name = "filterscripts/.amx".toList ∨
            ToUnixPath amx_name = "filterscripts/".toList)))) := by
  refine ⟨⟨by decide, by decide, rfl, by decide⟩, ⟨by decide, by decide, by decide, by decide⟩,
    WantsProfiler_total, ?_, ?_, ?_⟩
  · intro cfg amx_name h
    have hg : IsGameMode (ToUnixPath amx_name) = true := by
      simp only [IsGameMode, ToUnixPath_idem]
      exact (occursIn_iff _ _).2 h
    simp only [WantsProfiler, hg, if_true]
    cases cfg.profile_gamemode <;> rfl
  · intro cfg amx_name h1 h2
    have hg : IsGameMode (ToUnixPath amx_name) = false := by
      simp only [IsGameMode, ToUnixPath_idem]
      cases h : occursIn "gamemodes/".toList (ToUnixPath amx_name) with
      | false => rfl
      | true => exact absurd ((occursIn_iff _ _).1 h) h1
    have hf : IsFilterScript (ToUnixPath amx_name) = false := by
      simp only [IsFilterScript, ToUnixPath_idem]
      cases h : occursIn "filterscripts/".toList (ToUnixPath amx_name) with
      | false => rfl
      | true => exact absurd ((occursIn_iff _ _).1 h) h2
    simp only [WantsProfiler, hg, hf, Bool.false_eq_true, if_false]
  · intro cfg amx_name h1 h2
    have hg : IsGameMode (ToUnixPath amx_name) = false := by
      simp only [IsGameMode, ToUnixPath_idem]
      cases h : occursIn "gamemodes/".toList (ToUnixPath amx_name) with
      | false => rfl
      | true => exact absurd ((occursIn_iff _ _).1 h) h1
    have hf : IsFilterScript (ToUnixPath amx_name) = true := by
      simp only [IsFilterScript, ToUnixPath_idem]
      exact (occursIn_iff _ _).2 h2
    have hW : WantsProfiler cfg amx_name = WantsProfiler.loop (ToUnixPath amx_name)
        (cfg.profile_filterscripts.length + 1) cfg.profile_filterscripts := by
      simp only [WantsProfiler, hg, hf, Bool.false_eq_true, if_false, if_true]
    rw [hW, WantsProfiler.loop_iff _ _ _ (Nat.lt_succ_self _)]
    simp only [nameMatches, decide_eq_true_eq]
    rfl

end amxprof
